import Mathlib

/-! Fault Recorder: a verification development

A shallow embedding of `Source/FaultRecorder.c` (MDK Fault Recorder, V0.1.0).

* `FaultRecord` and `CalcCRC32` are naked functions written in Thumb assembly.
  They are embedded instruction by instruction over an explicit processor
  state `Cpu` (core registers, APSR flags, banked stack pointers, byte
  addressed memory and the list of data memory accesses made so far).
  Branches become `if` on the flags, the two loops become recursive functions
  driven by the flags.
* `FaultRecordPrint` and `FaultRecordClear` are C functions.  They are embedded
  over a `World` made of the memory holding `FaultInfo` and the text printed
  so far.
* Conditional compilation is a `Build` value; the constants that come from the
  CMSIS device header (not part of the repository) are fields of `Target`.
-/

namespace FaultRecorder

/-! ## Memory -/

/-- Byte addressed memory: addresses are taken modulo `2^32`, cells modulo `256`. -/
abbrev Mem := Nat → Nat

/-- Read of one byte. -/
def read8 (m : Mem) (a : Nat) : Nat := m (a % 2^32) % 256

/-- Write of one byte. -/
def write8 (m : Mem) (a v : Nat) : Mem :=
  fun x => if x = a % 2^32 then v % 256 else m x

/-- Little-endian read of a 32-bit word. -/
def read32 (m : Mem) (a : Nat) : Nat :=
  read8 m a + 2^8 * read8 m (a + 1) + 2^16 * read8 m (a + 2) + 2^24 * read8 m (a + 3)

/-- Little-endian write of a 32-bit word. -/
def write32 (m : Mem) (a v : Nat) : Mem :=
  write8 (write8 (write8 (write8 m a v) (a + 1) (v / 2^8)) (a + 2) (v / 2^16)) (a + 3) (v / 2^24)

/-- Little-endian read of a 16-bit halfword. -/
def read16 (m : Mem) (a : Nat) : Nat :=
  read8 m a + 2^8 * read8 m (a + 1)

/-- A data memory access made by an instruction. -/
inductive Access where
  | load (addr size : Nat)
  | store (addr size val : Nat)
  deriving DecidableEq, Repr

/-! ## Processor state -/

/-- The core registers the two assembly routines name. -/
inductive Reg where
  | r0 | r1 | r2 | r3 | r4 | r12 | lr
  deriving DecidableEq, Repr

/-- The special registers read with `mrs`. -/
inductive SysReg where
  | xpsr | msp | psp | msp_ns | psp_ns | msplim | psplim | msplim_ns | psplim_ns
  deriving DecidableEq, Repr

/-- Processor state.  `n z c v` are the APSR condition flags, `xpsr` holds the
remaining bits of xPSR (bits 27..0) as `mrs` returns them. -/
structure Cpu where
  r0 : Nat
  r1 : Nat
  r2 : Nat
  r3 : Nat
  r4 : Nat
  r12 : Nat
  lr : Nat
  n : Bool
  z : Bool
  c : Bool
  v : Bool
  xpsr : Nat
  msp : Nat
  psp : Nat
  msp_ns : Nat
  psp_ns : Nat
  msplim : Nat
  psplim : Nat
  msplim_ns : Nat
  psplim_ns : Nat
  mem : Mem
  trace : List Access

/-- Value of a core register (a 32-bit word). -/
def Cpu.get (s : Cpu) : Reg → Nat
  | .r0 => s.r0 % 2^32
  | .r1 => s.r1 % 2^32
  | .r2 => s.r2 % 2^32
  | .r3 => s.r3 % 2^32
  | .r4 => s.r4 % 2^32
  | .r12 => s.r12 % 2^32
  | .lr => s.lr % 2^32

/-- Write of a core register. -/
def Cpu.set (s : Cpu) (r : Reg) (x : Nat) : Cpu :=
  match r with
  | .r0 => { s with r0 := x % 2^32 }
  | .r1 => { s with r1 := x % 2^32 }
  | .r2 => { s with r2 := x % 2^32 }
  | .r3 => { s with r3 := x % 2^32 }
  | .r4 => { s with r4 := x % 2^32 }
  | .r12 => { s with r12 := x % 2^32 }
  | .lr => { s with lr := x % 2^32 }

/-- Value returned by `mrs` for a special register. -/
def Cpu.sys (s : Cpu) : SysReg → Nat
  | .xpsr => (if s.n then 2^31 else 0) + (if s.z then 2^30 else 0) + (if s.c then 2^29 else 0)
      + (if s.v then 2^28 else 0) + s.xpsr % 2^28
  | .msp => s.msp % 2^32
  | .psp => s.psp % 2^32
  | .msp_ns => s.msp_ns % 2^32
  | .psp_ns => s.psp_ns % 2^32
  | .msplim => s.msplim % 2^32
  | .psplim => s.psplim % 2^32
  | .msplim_ns => s.msplim_ns % 2^32
  | .psplim_ns => s.psplim_ns % 2^32

/-- Update of the N and Z flags from a 32-bit result. -/
def Cpu.setNZ (s : Cpu) (result : Nat) : Cpu :=
  { s with n := decide (2^31 ≤ result % 2^32), z := decide (result % 2^32 = 0) }

/-- Signed value of a 32-bit word. -/
def sint32 (x : Nat) : Int :=
  if x % 2^32 < 2^31 then ((x % 2^32 : Nat) : Int) else ((x % 2^32 : Nat) : Int) - 2^32

/-- The architecture's `AddWithCarry`: result, carry out, overflow.  The sums
are written with the register operand `x` last, so that they stay unevaluated
when `x` is a variable. -/
def addWithCarry (x y : Nat) (carry : Bool) : Nat × Bool × Bool :=
  let cin : Nat := if carry then 1 else 0
  let usum := cin + y % 2^32 + x % 2^32
  let ssum := (cin : Int) + sint32 y + sint32 x
  let result := usum % 2^32
  (result, decide (result ≠ usum), decide (sint32 result ≠ ssum))

/-- Bitwise complement of a 32-bit word. -/
def not32 (x : Nat) : Nat := 2^32 - 1 - x % 2^32

/-! ## Instructions -/

/-- Instruction `movs rd, #imm`. -/
def movs (rd : Reg) (imm : Nat) (s : Cpu) : Cpu :=
  (s.set rd imm).setNZ imm

/-- Instruction `mov rd, rm` (no flag update). -/
def mov (rd rm : Reg) (s : Cpu) : Cpu :=
  s.set rd (s.get rm)

/-- Instruction `ldr rd, =const` (literal load, no data access). -/
def ldr_const (rd : Reg) (const : Nat) (s : Cpu) : Cpu :=
  s.set rd const

/-- Instruction `lsrs rd, rm, #k` with `1 ≤ k ≤ 32`: carry is the last bit shifted out. -/
def lsrs (rd rm : Reg) (k : Nat) (s : Cpu) : Cpu :=
  let x := s.get rm
  let result := x / 2^k
  { (s.set rd result).setNZ result with c := decide (x / 2^(k - 1) % 2 = 1) }

/-- Instruction `lsls rd, rm, #k` with `1 ≤ k ≤ 31`: carry is the last bit shifted out. -/
def lsls (rd rm : Reg) (k : Nat) (s : Cpu) : Cpu :=
  let x := s.get rm
  let result := (x * 2^k) % 2^32
  { (s.set rd result).setNZ result with c := decide (x / 2^(32 - k) % 2 = 1) }

/-- Instruction `adds rd, rn, #imm`. -/
def adds (rd rn : Reg) (imm : Nat) (s : Cpu) : Cpu :=
  let r := addWithCarry (s.get rn) imm false
  { (s.set rd r.1).setNZ r.1 with c := r.2.1, v := r.2.2 }

/-- Instruction `subs rd, rn, #imm`. -/
def subs (rd rn : Reg) (imm : Nat) (s : Cpu) : Cpu :=
  let r := addWithCarry (s.get rn) (not32 imm) true
  { (s.set rd r.1).setNZ r.1 with c := r.2.1, v := r.2.2 }

/-- Instruction `cmp rn, #imm`. -/
def cmp (rn : Reg) (imm : Nat) (s : Cpu) : Cpu :=
  let r := addWithCarry (s.get rn) (not32 imm) true
  { s.setNZ r.1 with c := r.2.1, v := r.2.2 }

/-- Instruction `ands rd, rm`. -/
def ands (rd rm : Reg) (s : Cpu) : Cpu :=
  let result := s.get rd &&& s.get rm
  (s.set rd result).setNZ result

/-- Instruction `eors rd, rn, rm`. -/
def eors (rd rn rm : Reg) (s : Cpu) : Cpu :=
  let result := s.get rn ^^^ s.get rm
  (s.set rd result).setNZ result

/-- Instruction `mrs rd, spec`. -/
def mrs (rd : Reg) (spec : SysReg) (s : Cpu) : Cpu :=
  s.set rd (s.sys spec)

/-- Instruction `ldr rd, [rn, #ofs]`. -/
def ldr (rd rn : Reg) (ofs : Nat) (s : Cpu) : Cpu :=
  let a := (s.get rn + ofs) % 2^32
  { s.set rd (read32 s.mem a) with trace := s.trace ++ [Access.load a 4] }

/-- Instruction `ldrb rd, [rn]`. -/
def ldrb (rd rn : Reg) (s : Cpu) : Cpu :=
  let a := s.get rn
  { s.set rd (read8 s.mem a) with trace := s.trace ++ [Access.load a 1] }

/-- Instruction `str rd, [rn]`. -/
def str (rd rn : Reg) (s : Cpu) : Cpu :=
  let a := s.get rn
  { s with mem := write32 s.mem a (s.get rd), trace := s.trace ++ [Access.store a 4 (s.get rd)] }

/-- Instruction `stm rn!, {ra}`. -/
def stm1 (rn ra : Reg) (s : Cpu) : Cpu :=
  let a := s.get rn
  let s1 : Cpu :=
    { s with mem := write32 s.mem a (s.get ra), trace := s.trace ++ [Access.store a 4 (s.get ra)] }
  s1.set rn (a + 4)

/-- Instruction `stm rn!, {ra, rb}`. -/
def stm2 (rn ra rb : Reg) (s : Cpu) : Cpu :=
  let a := s.get rn
  let b := (a + 4) % 2^32
  let s1 : Cpu :=
    { s with
      mem := write32 (write32 s.mem a (s.get ra)) b (s.get rb),
      trace := s.trace ++ [Access.store a 4 (s.get ra), Access.store b 4 (s.get rb)] }
  s1.set rn (a + 8)

/-- Instruction `ldm rn!, {ra, rb}` (neither `ra` nor `rb` is `rn`). -/
def ldm2 (rn ra rb : Reg) (s : Cpu) : Cpu :=
  let a := s.get rn
  let b := (a + 4) % 2^32
  let s1 : Cpu := { s with trace := s.trace ++ [Access.load a 4, Access.load b 4] }
  ((s1.set ra (read32 s.mem a)).set rb (read32 s.mem b)).set rn (a + 8)

/-- Instruction `bl label`: the link register receives the return address. -/
def bl (ret : Nat) (s : Cpu) : Cpu :=
  s.set .lr ret

/-! ## `CalcCRC32` (naked, assembly) -/

/-- One group `lsls r0, r0, #1 ; bcc skip_xor_k ; eors r0, r0, r3 ; skip_xor_k:`. -/
def CalcCRC32.skip_xor (s : Cpu) : Cpu :=
  let s := lsls .r0 .r0 1 s
  if s.c then eors .r0 .r0 .r3 s else s

/-- The instructions from label `loop:` up to label `check:`. -/
def CalcCRC32.loop (s : Cpu) : Cpu :=
  let s := ldrb .r4 .r1 s
  let s := lsls .r4 .r4 24 s
  let s := eors .r0 .r0 .r4 s
  let s := CalcCRC32.skip_xor s
  let s := CalcCRC32.skip_xor s
  let s := CalcCRC32.skip_xor s
  let s := CalcCRC32.skip_xor s
  let s := CalcCRC32.skip_xor s
  let s := CalcCRC32.skip_xor s
  let s := CalcCRC32.skip_xor s
  let s := CalcCRC32.skip_xor s
  let s := adds .r1 .r1 1 s
  subs .r2 .r2 1 s

/-- From label `check:`: `cmp r2, #0 ; bne loop`, then the loop body and back. -/
def CalcCRC32.check (s : Cpu) : Cpu :=
  let s1 := cmp .r2 0 s
  if h : s1.z = true then s1 else CalcCRC32.check (CalcCRC32.loop s1)
termination_by s.get .r2
decreasing_by
  have hz : ¬ ((cmp .r2 0 s).z = true) := h
  have hk : ∀ t : Cpu, (CalcCRC32.skip_xor t).r2 = t.r2 := by
    intro t
    unfold CalcCRC32.skip_xor
    simp only [lsls, eors, Cpu.set, Cpu.setNZ]
    split <;> rfl
  simp [CalcCRC32.loop, subs, adds, cmp, Cpu.get, Cpu.set, Cpu.setNZ, addWithCarry, not32,
    hk, eors, lsls, ldrb] at hz ⊢
  omega

/-- The naked function `CalcCRC32`: arguments in `r0..r3`, result in `r0`. -/
def CalcCRC32 (s : Cpu) : Cpu :=
  let s := mov .r12 .r4 s
  let s := CalcCRC32.check s
  mov .r4 .r12 s

/-! ## Build configuration and constants -/

/-- The supported architectures with the state of `__ARM_FEATURE_CMSE == 3`.
The secure-world code paths name banked registers (`psp_ns`, `msplim_ns`) and
operands that exist on Armv8-M only, so only those builds carry the flag. For
the Armv8-M Baseline builds the source compiles only with the macro
`FR_ASC_INTEGRITY_SIG` supplied from outside (see `compilesAsShipped`). -/
inductive Build where
  | armv6m
  | armv7m
  | armv7em
  | armv8mBase (cmse : Bool)
  | armv8mMain (cmse : Bool)
  | armv81mMain (cmse : Bool)
  deriving DecidableEq, Repr

/-- Macro `FR_FAULT_REGS_EXIST`. -/
def FR_FAULT_REGS_EXIST : Build → Bool
  | .armv7m | .armv7em | .armv8mMain _ | .armv81mMain _ => true
  | _ => false

/-- Macro `FR_ARCH_ARMV8x_M`. -/
def FR_ARCH_ARMV8x_M : Build → Bool
  | .armv8mBase _ | .armv8mMain _ | .armv81mMain _ => true
  | _ => false

/-- Macro `FR_ARCH_ARMV8_M_BASE`. -/
def FR_ARCH_ARMV8_M_BASE : Build → Bool
  | .armv8mBase _ => true
  | _ => false

/-- Macro `FR_ARCH_ARMV8x_M_MAIN`. -/
def FR_ARCH_ARMV8x_M_MAIN : Build → Bool
  | .armv8mMain _ | .armv81mMain _ => true
  | _ => false

/-- Macro `FR_SECURE`. -/
def FR_SECURE : Build → Bool
  | .armv8mBase cmse | .armv8mMain cmse | .armv81mMain cmse => cmse
  | _ => false

/-- Numeric value of a preprocessor truth value. -/
def bit (b : Bool) : Nat := if b then 1 else 0

/-- Macro `FR_FAULT_INFO_VER_MAJOR`. -/
def FR_FAULT_INFO_VER_MAJOR : Nat := 0

/-- Macro `FR_FAULT_INFO_VER_MINOR`. -/
def FR_FAULT_INFO_VER_MINOR : Nat := 1

/-- Macro `FR_FAULT_INFO_TYPE`. -/
def FR_FAULT_INFO_TYPE (b : Build) : Nat :=
  FR_FAULT_INFO_VER_MINOR
    ||| (FR_FAULT_INFO_VER_MAJOR <<< 8)
    ||| (bit (FR_FAULT_REGS_EXIST b) <<< 16)
    ||| (bit (FR_ARCH_ARMV8x_M b) <<< 17)
    ||| (bit (FR_SECURE b) <<< 18)

/-- Macro `FR_MAGIC_NUMBER` (ASCII "FltR"). -/
def FR_MAGIC_NUMBER : Nat := 0x52746C46

/-- Macro `FR_CRC32_INIT_VAL`. -/
def FR_CRC32_INIT_VAL : Nat := 0xFFFFFFFF

/-- Macro `FR_CRC32_POLYNOM`. -/
def FR_CRC32_POLYNOM : Nat := 0x04C11DB7

/-- Macro `FR_ASC_INTEGRITY_SIG`. The source #defines it inside
`#if (FR_ARCH_ARMV8x_M_MAIN != 0)` and uses it inside `#if (FR_ARCH_ARMV8x_M != 0)`:
for an Armv8-M Baseline build the source compiles only when the macro is
supplied from outside (see `compilesAsShipped`), and this development takes it
there with the same value. -/
def FR_ASC_INTEGRITY_SIG : Nat := 0xFEFA125A

/-! ### Layout of `FaultInfo_Type` -/

/-- Size of `FaultInfoType_Type`: two `uint8_t` and one 16-bit bit-field unit. -/
def sizeof_FaultInfoType : Nat := 4

/-- Size of `StateContext_Type`: 8 words. -/
def sizeof_StateContext : Nat := 32

/-- Size of `CommonRegisters_Type`: 4 words. -/
def sizeof_CommonRegisters : Nat := 16

/-- Size of `FaultRegisters_Type`: 6 words. -/
def sizeof_FaultRegisters : Nat := 24

/-- Size of `AdditionalStateContext_Type`: 10 words. -/
def sizeof_AdditionalStateContext : Nat := 40

/-- Size of `Armv8mRegisters_Type`: 2 words. -/
def sizeof_Armv8mRegisters : Nat := 8

/-- Size of `Armv8mFaultRegisters_Type`: 2 words. -/
def sizeof_Armv8mFaultRegisters : Nat := 8

/-- Offset of `FaultInfo.magic_number`. -/
def ofs_magic_number : Nat := 0

/-- Offset of `FaultInfo.crc32`. -/
def ofs_crc32 : Nat := 4

/-- Offset of `FaultInfo.type`. -/
def ofs_type : Nat := 8

/-- Offset of `FaultInfo.state_context`. -/
def ofs_state_context : Nat := ofs_type + sizeof_FaultInfoType

/-- Offset of `FaultInfo.common_registers`. -/
def ofs_common_registers : Nat := ofs_state_context + sizeof_StateContext

/-- Offset of `FaultInfo.fault_registers` (present if `FR_FAULT_REGS_EXIST`). -/
def ofs_fault_registers : Nat := ofs_common_registers + sizeof_CommonRegisters

/-- Offset of `FaultInfo.additonal_state_context` (present if `FR_ARCH_ARMV8x_M`). -/
def ofs_additonal_state_context (b : Build) : Nat :=
  ofs_fault_registers + (if FR_FAULT_REGS_EXIST b then sizeof_FaultRegisters else 0)

/-- Offset of `FaultInfo.armv8_m_registers` (present if `FR_ARCH_ARMV8x_M`). -/
def ofs_armv8_m_registers (b : Build) : Nat :=
  ofs_additonal_state_context b + sizeof_AdditionalStateContext

/-- Offset of `FaultInfo.armv8_m_fault_registers` (present if `FR_ARCH_ARMV8x_M_MAIN`). -/
def ofs_armv8_m_fault_registers (b : Build) : Nat :=
  ofs_armv8_m_registers b + sizeof_Armv8mRegisters

/-- Value of `sizeof(FaultInfo)`. -/
def sizeof_FaultInfo (b : Build) : Nat :=
  ofs_additonal_state_context b
    + (if FR_ARCH_ARMV8x_M b then sizeof_AdditionalStateContext + sizeof_Armv8mRegisters else 0)
    + (if FR_ARCH_ARMV8x_M_MAIN b then sizeof_Armv8mFaultRegisters else 0)

/-- Macro `FR_CRC32_DATA_LEN`. -/
def FR_CRC32_DATA_LEN (b : Build) : Nat :=
  sizeof_FaultInfo b - (4 + 4)

/-- The build, the placement of the image and the constants of the CMSIS device
header (`CMSIS_device_header`), which is not part of the repository: they are
parameters of the development. -/
structure Target where
  build : Build
  /-- Address of the object `FaultInfo`. -/
  FaultInfo_addr : Nat
  /-- Address of the instruction after `bl CalcCRC32`. -/
  ret_CalcCRC32 : Nat
  /-- Address of the instruction after `bl FaultRecordOnExit`. -/
  ret_FaultRecordOnExit : Nat
  SCS_BASE : Nat
  SCB_BASE : Nat
  SCS_BASE_NS : Nat
  SCB_BASE_NS : Nat
  /-- Member offsets `offsetof(SCB_Type, X)`. -/
  ofs_CFSR : Nat
  ofs_HFSR : Nat
  ofs_DFSR : Nat
  ofs_MMFAR : Nat
  ofs_BFAR : Nat
  ofs_AFSR : Nat
  ofs_SFSR : Nat
  ofs_SFAR : Nat
  IPSR_ISR_Msk : Nat
  EXC_RETURN_S : Nat
  SCB_HFSR_VECTTBL_Msk : Nat
  SCB_HFSR_FORCED_Msk : Nat
  SCB_HFSR_DEBUGEVT_Msk : Nat
  SCB_CFSR_IACCVIOL_Msk : Nat
  SCB_CFSR_DACCVIOL_Msk : Nat
  SCB_CFSR_MUNSTKERR_Msk : Nat
  SCB_CFSR_MSTKERR_Msk : Nat
  /-- Defined by some device headers only (`#ifdef SCB_CFSR_MLSPERR_Msk`). -/
  SCB_CFSR_MLSPERR_Msk : Option Nat
  SCB_CFSR_MMARVALID_Msk : Nat
  SCB_CFSR_IBUSERR_Msk : Nat
  SCB_CFSR_PRECISERR_Msk : Nat
  SCB_CFSR_IMPRECISERR_Msk : Nat
  SCB_CFSR_UNSTKERR_Msk : Nat
  SCB_CFSR_STKERR_Msk : Nat
  /-- Defined by some device headers only (`#ifdef SCB_CFSR_LSPERR_Msk`). -/
  SCB_CFSR_LSPERR_Msk : Option Nat
  SCB_CFSR_BFARVALID_Msk : Nat
  SCB_CFSR_UNDEFINSTR_Msk : Nat
  SCB_CFSR_INVSTATE_Msk : Nat
  SCB_CFSR_INVPC_Msk : Nat
  SCB_CFSR_NOCP_Msk : Nat
  /-- Defined by some device headers only (`#ifdef SCB_CFSR_STKOF_Msk`). -/
  SCB_CFSR_STKOF_Msk : Option Nat
  SCB_CFSR_UNALIGNED_Msk : Nat
  SCB_CFSR_DIVBYZERO_Msk : Nat

/-- Macro `SCB_CFSR_Stack_Err_Msk` as the source defines it. -/
def SCB_CFSR_Stack_Err_Msk (t : Target) : Nat :=
  match t.SCB_CFSR_STKOF_Msk with
  | some stkof => t.SCB_CFSR_STKERR_Msk ||| t.SCB_CFSR_MSTKERR_Msk ||| stkof
  | none => t.SCB_CFSR_STKERR_Msk ||| t.SCB_CFSR_MSTKERR_Msk

/-- Macro `SAU_SFSR_LSERR_Msk`. -/
def SAU_SFSR_LSERR_Msk : Nat := 1 <<< 7

/-- Macro `SAU_SFSR_SFARVALID_Msk`. -/
def SAU_SFSR_SFARVALID_Msk : Nat := 1 <<< 6

/-- Macro `SAU_SFSR_LSPERR_Msk`. -/
def SAU_SFSR_LSPERR_Msk : Nat := 1 <<< 5

/-- Macro `SAU_SFSR_INVTRAN_Msk`. -/
def SAU_SFSR_INVTRAN_Msk : Nat := 1 <<< 4

/-- Macro `SAU_SFSR_AUVIOL_Msk`. -/
def SAU_SFSR_AUVIOL_Msk : Nat := 1 <<< 3

/-- Macro `SAU_SFSR_INVER_Msk`. -/
def SAU_SFSR_INVER_Msk : Nat := 1 <<< 2

/-- Macro `SAU_SFSR_INVIS_Msk`. -/
def SAU_SFSR_INVIS_Msk : Nat := 1 <<< 1

/-- Macro `SAU_SFSR_INVEP_Msk`. -/
def SAU_SFSR_INVEP_Msk : Nat := 1

/-- Operand `[cfsr_addr]`: `SCS_BASE + offsetof(SCB_Type, CFSR)`. -/
def cfsr_addr (t : Target) : Nat := t.SCS_BASE + t.ofs_CFSR

/-- Operand `[cfsr_ns_addr]`: `SCS_BASE_NS + offsetof(SCB_Type, CFSR)`. -/
def cfsr_ns_addr (t : Target) : Nat := t.SCS_BASE_NS + t.ofs_CFSR

/-- Operand `[scb_addr]`: `SCB_BASE`. -/
def scb_addr (t : Target) : Nat := t.SCB_BASE

/-- Operand `[scb_ns_addr]`: `SCB_BASE_NS`. -/
def scb_ns_addr (t : Target) : Nat := t.SCB_BASE_NS

/-! ## `FaultRecord` (naked, assembly) -/

/-- Labels `clear_uint32:` and `is_clear_done:`: `bne clear_uint32` loops over
`stm r1!, {r0} ; subs r2, r2, #1` while the Z flag is clear. -/
def FaultRecord.is_clear_done (s : Cpu) : Cpu :=
  if h : s.z = true then s
  else FaultRecord.is_clear_done (subs .r2 .r2 1 (stm1 .r1 .r0 s))
termination_by if s.z = true then 0 else if s.get .r2 = 0 then 2^32 else s.get .r2
decreasing_by
  have hz : s.z = false := by simpa using h
  simp [subs, stm1, Cpu.get, Cpu.set, Cpu.setNZ, addWithCarry, not32, hz]
  split <;> split <;> omega

/-- Section "Clear FaultInfo". -/
def FaultRecord.clear (t : Target) (s : Cpu) : Cpu :=
  let s := movs .r0 0 s
  let s := ldr_const .r1 t.FaultInfo_addr s
  let s := movs .r2 (sizeof_FaultInfo t.build / 4) s
  FaultRecord.is_clear_done s

/-- From `mov r12, r4` to label `r3_points_to_stack:`: `r3` receives the stack
pointer selected by EXC_RETURN, bit 0 of `r4` marks the use of Non-secure aliases. -/
def FaultRecord.r3_points_to_stack (t : Target) (s : Cpu) : Cpu :=
  let s := mov .r12 .r4 s
  let s := movs .r4 0 s
  let s := mov .r0 .lr s
  let s := lsrs .r0 .r0 3 s
  if s.c = false then
    -- msp_used:
    if FR_SECURE t.build then
      let s := mov .r0 .lr s
      let s := lsrs .r0 .r0 7 s
      if s.c = true then
        -- load_msp:
        mrs .r3 .msp s
      else
        -- load_msp_ns:
        let s := mrs .r3 .msp_ns s
        movs .r4 1 s
    else
      mrs .r3 .msp s
  else
    -- psp_used:
    if FR_SECURE t.build then
      let s := mov .r0 .lr s
      let s := lsrs .r0 .r0 7 s
      if s.c = true then
        -- load_psp:
        mrs .r3 .psp s
      else
        -- load_psp_ns:
        let s := mrs .r3 .psp_ns s
        movs .r4 1 s
    else
      mrs .r3 .psp s

/-- From label `r3_points_to_stack:` to label `stack_check_end:`: bit 1 of `r4`
is set if the word read at `cfsr_addr` (or `cfsr_ns_addr`) has a stacking error bit. -/
def FaultRecord.stack_check (t : Target) (s : Cpu) : Cpu :=
  if FR_FAULT_REGS_EXIST t.build then
    let s := ldr_const .r1 (SCB_CFSR_Stack_Err_Msk t) s
    let s :=
      if FR_SECURE t.build then
        let s := lsrs .r0 .r4 1 s
        if s.c = false then
          -- load_cfsr_addr:
          ldr_const .r2 (cfsr_addr t) s
        else
          -- load_cfsr_ns_addr:
          ldr_const .r2 (cfsr_ns_addr t) s
      else
        ldr_const .r2 (cfsr_addr t) s
    -- load_cfsr:
    let s := ldr .r0 .r2 0 s
    let s := ands .r0 .r1 s
    if s.z = true then s
    else
      -- stack_check_failed:
      adds .r4 .r4 2 s
  else s

/-- Section "Type information". -/
def FaultRecord.type_information (t : Target) (s : Cpu) : Cpu :=
  let s := ldr_const .r2 (t.FaultInfo_addr + ofs_type) s
  let s := ldr_const .r0 (FR_FAULT_INFO_TYPE t.build) s
  str .r0 .r2 s

/-- The pair `ldm r3!, {r0, r1} ; stm r2!, {r0, r1}`. -/
def FaultRecord.copy2 (s : Cpu) : Cpu :=
  stm2 .r2 .r0 .r1 (ldm2 .r3 .r0 .r1 s)

/-- Section "State Context", up to label `state_context_end:`. -/
def FaultRecord.state_context (t : Target) (s : Cpu) : Cpu :=
  let s := lsrs .r0 .r4 2 s
  if s.c = true then s
  else
    let s :=
      if FR_ARCH_ARMV8x_M t.build then
        let s := mov .r0 .lr s
        let s := lsrs .r0 .r0 6 s
        if s.c = true then s
        else
          let s := ldr_const .r2 (t.FaultInfo_addr + ofs_additonal_state_context t.build) s
          let s := FaultRecord.copy2 s
          let s := FaultRecord.copy2 s
          let s := FaultRecord.copy2 s
          let s := FaultRecord.copy2 s
          FaultRecord.copy2 s
      else s
    -- additional_context_end:
    let s := ldr_const .r2 (t.FaultInfo_addr + ofs_state_context) s
    let s := FaultRecord.copy2 s
    let s := FaultRecord.copy2 s
    let s := FaultRecord.copy2 s
    FaultRecord.copy2 s

/-- Section "Common Registers". -/
def FaultRecord.common_registers (t : Target) (s : Cpu) : Cpu :=
  let s := ldr_const .r2 (t.FaultInfo_addr + ofs_common_registers) s
  let s := mrs .r0 .xpsr s
  let s := mov .r1 .lr s
  let s := stm2 .r2 .r0 .r1 s
  let s :=
    if FR_SECURE t.build then
      let s := lsrs .r0 .r4 1 s
      if s.c = false then
        -- load_sps:
        let s := mrs .r0 .msp s
        mrs .r1 .psp s
      else
        -- load_sps_ns:
        let s := mrs .r0 .msp_ns s
        mrs .r1 .psp_ns s
    else
      let s := mrs .r0 .msp s
      mrs .r1 .psp s
  -- store_sps:
  stm2 .r2 .r0 .r1 s

/-- Section "Armv8/8.1-M specific Registers". -/
def FaultRecord.armv8_m_registers (t : Target) (s : Cpu) : Cpu :=
  if FR_ARCH_ARMV8x_M t.build then
    let s := ldr_const .r2 (t.FaultInfo_addr + ofs_armv8_m_registers t.build) s
    if FR_SECURE t.build then
      let s := lsrs .r0 .r4 1 s
      if s.c = false then
        -- load_splims:
        let s := mrs .r0 .msplim s
        let s := mrs .r1 .psplim s
        stm2 .r2 .r0 .r1 s
      else if FR_ARCH_ARMV8_M_BASE t.build then
        -- b splims_end
        s
      else
        -- load_splims_ns:
        let s := mrs .r0 .msplim_ns s
        let s := mrs .r1 .psplim_ns s
        stm2 .r2 .r0 .r1 s
    else
      let s := mrs .r0 .msplim s
      let s := mrs .r1 .psplim s
      stm2 .r2 .r0 .r1 s
  else s

/-- Sections "Fault Registers" and "Armv8/8.1-M Fault Registers". -/
def FaultRecord.fault_registers (t : Target) (s : Cpu) : Cpu :=
  if FR_FAULT_REGS_EXIST t.build then
    let s := ldr_const .r2 (t.FaultInfo_addr + ofs_fault_registers) s
    let s :=
      if FR_SECURE t.build then
        let s := lsrs .r0 .r4 1 s
        if s.c = false then
          -- load_scb_addr:
          ldr_const .r3 (scb_addr t) s
        else
          -- load_scb_ns_addr:
          ldr_const .r3 (scb_ns_addr t) s
      else
        ldr_const .r3 (scb_addr t) s
    -- load_fault_regs:
    let s := ldr .r0 .r3 t.ofs_CFSR s
    let s := ldr .r1 .r3 t.ofs_HFSR s
    let s := stm2 .r2 .r0 .r1 s
    let s := ldr .r0 .r3 t.ofs_DFSR s
    let s := ldr .r1 .r3 t.ofs_MMFAR s
    let s := stm2 .r2 .r0 .r1 s
    let s := ldr .r0 .r3 t.ofs_BFAR s
    let s := ldr .r1 .r3 t.ofs_AFSR s
    let s := stm2 .r2 .r0 .r1 s
    if FR_SECURE t.build then
      let s := ldr_const .r2 (t.FaultInfo_addr + ofs_armv8_m_fault_registers t.build) s
      let s := ldr_const .r3 (scb_addr t) s
      let s := ldr .r0 .r3 t.ofs_SFSR s
      let s := ldr .r1 .r3 t.ofs_SFAR s
      stm2 .r2 .r0 .r1 s
    else s
  else s

/-- The call of `CalcCRC32` on the record body and the store of `FaultInfo.crc32`. -/
def FaultRecord.crc32 (t : Target) (s : Cpu) : Cpu :=
  let s := ldr_const .r0 FR_CRC32_INIT_VAL s
  let s := ldr_const .r1 (t.FaultInfo_addr + ofs_type) s
  let s := ldr_const .r2 (FR_CRC32_DATA_LEN t.build) s
  let s := ldr_const .r3 FR_CRC32_POLYNOM s
  let s := CalcCRC32 (bl t.ret_CalcCRC32 s)
  let s := ldr_const .r2 (t.FaultInfo_addr + ofs_crc32) s
  str .r0 .r2 s

/-- The store of `FaultInfo.magic_number`. -/
def FaultRecord.magic_number (t : Target) (s : Cpu) : Cpu :=
  let s := ldr_const .r2 (t.FaultInfo_addr + ofs_magic_number) s
  let s := ldr_const .r0 FR_MAGIC_NUMBER s
  str .r0 .r2 s

/-- The instructions of `FaultRecord` from the stack check to the store of the
CRC, that is everything between the clearing of the record and the magic number. -/
def FaultRecord.body (t : Target) (s : Cpu) : Cpu :=
  let s := FaultRecord.r3_points_to_stack t s
  let s := FaultRecord.stack_check t s
  let s := FaultRecord.type_information t s
  let s := FaultRecord.state_context t s
  let s := FaultRecord.common_registers t s
  let s := FaultRecord.armv8_m_registers t s
  let s := FaultRecord.fault_registers t s
  FaultRecord.crc32 t s

/-- The naked function `FaultRecord`, from its entry (link register holding
EXC_RETURN) to the entry of `FaultRecordOnExit`. -/
def FaultRecord (t : Target) (s : Cpu) : Cpu :=
  let s := FaultRecord.clear t s
  let s := FaultRecord.body t s
  let s := FaultRecord.magic_number t s
  let s := mov .r4 .r12 s
  bl t.ret_FaultRecordOnExit s

/-! ## The C functions: state, field access, text output -/

/-- State seen by the C functions: the memory holding `FaultInfo` and the list
of texts handed to `FR_PRINT` so far, one entry per call. -/
structure World where
  mem : Mem
  out : List String

/-- Macro `FR_PRINT` with its arguments already formatted. -/
def FR_PRINT (text : String) (w : World) : World :=
  { w with out := w.out ++ [text] }

/-- An `FR_PRINT` guarded by a condition. -/
def FR_PRINT_if (cond : Bool) (text : String) (w : World) : World :=
  if cond then FR_PRINT text w else w

/-- One upper-case hexadecimal digit. -/
def hexDigit (d : Nat) : Char :=
  if d % 16 < 10 then Char.ofNat (48 + d % 16) else Char.ofNat (55 + d % 16)

/-- Conversion `%08X` of a 32-bit value. -/
def fmt_08X (x : Nat) : String :=
  String.mk [hexDigit (x / 16^7), hexDigit (x / 16^6), hexDigit (x / 16^5), hexDigit (x / 16^4),
    hexDigit (x / 16^3), hexDigit (x / 16^2), hexDigit (x / 16), hexDigit x]

/-- Conversion `%u`. -/
def fmt_u (x : Nat) : String := toString x

/-- Call of `CalcCRC32` from C: arguments in `r0..r3`, result in `r0`; the other
registers of the caller do not take part. -/
def CalcCRC32.call (mem : Mem) (init_val data_ptr data_len polynom : Nat) : Nat :=
  (CalcCRC32
    { r0 := init_val, r1 := data_ptr, r2 := data_len, r3 := polynom, r4 := 0, r12 := 0, lr := 0,
      n := false, z := false, c := false, v := false, xpsr := 0, msp := 0, psp := 0,
      msp_ns := 0, psp_ns := 0, msplim := 0, psplim := 0, msplim_ns := 0, psplim_ns := 0,
      mem := mem, trace := [] }).get .r0

/-- Field `FaultInfo.magic_number`. -/
def FaultInfo.magic_number (t : Target) (m : Mem) : Nat :=
  read32 m (t.FaultInfo_addr + ofs_magic_number)

/-- Field `FaultInfo.crc32`. -/
def FaultInfo.crc32 (t : Target) (m : Mem) : Nat :=
  read32 m (t.FaultInfo_addr + ofs_crc32)

/-- Field `FaultInfo.type.version.minor`. -/
def FaultInfo.type.version.minor (t : Target) (m : Mem) : Nat :=
  read8 m (t.FaultInfo_addr + ofs_type)

/-- Field `FaultInfo.type.version.major`. -/
def FaultInfo.type.version.major (t : Target) (m : Mem) : Nat :=
  read8 m (t.FaultInfo_addr + ofs_type + 1)

/-- Bit-field `FaultInfo.type.fault_regs` (bit 0 of the 16-bit unit). -/
def FaultInfo.type.fault_regs (t : Target) (m : Mem) : Nat :=
  read16 m (t.FaultInfo_addr + ofs_type + 2) % 2

/-- Bit-field `FaultInfo.type.armv8m` (bit 1 of the 16-bit unit). -/
def FaultInfo.type.armv8m (t : Target) (m : Mem) : Nat :=
  read16 m (t.FaultInfo_addr + ofs_type + 2) / 2 % 2

/-- Bit-field `FaultInfo.type.secure` (bit 2 of the 16-bit unit). -/
def FaultInfo.type.secure (t : Target) (m : Mem) : Nat :=
  read16 m (t.FaultInfo_addr + ofs_type + 2) / 4 % 2

/-- Word `i` of `FaultInfo.state_context`: R0, R1, R2, R3, R12, LR, ReturnAddress, xPSR. -/
def FaultInfo.state_context (t : Target) (m : Mem) (i : Nat) : Nat :=
  read32 m (t.FaultInfo_addr + ofs_state_context + 4 * i)

/-- Word `i` of `FaultInfo.common_registers`: xPSR, EXC_RETURN, MSP, PSP. -/
def FaultInfo.common_registers (t : Target) (m : Mem) (i : Nat) : Nat :=
  read32 m (t.FaultInfo_addr + ofs_common_registers + 4 * i)

/-- Word `i` of `FaultInfo.fault_registers`: CFSR, HFSR, DFSR, MMFAR, BFAR, AFSR. -/
def FaultInfo.fault_registers (t : Target) (m : Mem) (i : Nat) : Nat :=
  read32 m (t.FaultInfo_addr + ofs_fault_registers + 4 * i)

/-- Word `i` of `FaultInfo.additonal_state_context`: IntegritySignature, Reserved, R4..R11. -/
def FaultInfo.additonal_state_context (t : Target) (m : Mem) (i : Nat) : Nat :=
  read32 m (t.FaultInfo_addr + ofs_additonal_state_context t.build + 4 * i)

/-- Word `i` of `FaultInfo.armv8_m_registers`: MSPLIM, PSPLIM. -/
def FaultInfo.armv8_m_registers (t : Target) (m : Mem) (i : Nat) : Nat :=
  read32 m (t.FaultInfo_addr + ofs_armv8_m_registers t.build + 4 * i)

/-- Word `i` of `FaultInfo.armv8_m_fault_registers`: SFSR, SFAR. -/
def FaultInfo.armv8_m_fault_registers (t : Target) (m : Mem) (i : Nat) : Nat :=
  read32 m (t.FaultInfo_addr + ofs_armv8_m_fault_registers t.build + 4 * i)

/-- The call `CalcCRC32(FR_CRC32_INIT_VAL, FR_CRC32_DATA_PTR, FR_CRC32_DATA_LEN, FR_CRC32_POLYNOM)`. -/
def FaultInfo.calc_crc32 (t : Target) (m : Mem) : Nat :=
  CalcCRC32.call m FR_CRC32_INIT_VAL (t.FaultInfo_addr + ofs_type) (FR_CRC32_DATA_LEN t.build)
    FR_CRC32_POLYNOM

/-- Value of an optional mask inside an or-ed mask expression. -/
def optMsk : Option Nat → Nat
  | some m => m
  | none => 0

/-- Test `(x & msk) != 0U`. -/
def tst (x msk : Nat) : Bool := decide (x &&& msk ≠ 0)

/-- Test `(x & msk) != 0U` for a mask under `#ifdef`. -/
def tstOpt (x : Nat) : Option Nat → Bool
  | some m => tst x m
  | none => false

/-! ## `FaultRecordPrint` and `FaultRecordClear` -/

/-- Block "Check if magic number is valid": new `fault_info_valid` and output. -/
def FaultRecordPrint.check_magic (t : Target) (w : World) : Bool × World :=
  if FaultInfo.magic_number t w.mem = FR_MAGIC_NUMBER then
    (true, FR_PRINT ("\n--- Last recorded Fault information (v"
      ++ fmt_u (FaultInfo.type.version.major t w.mem) ++ "."
      ++ fmt_u (FaultInfo.type.version.minor t w.mem) ++ ") ---\n\n") w)
  else (false, w)

/-- Block "Check if CRC of the FaultInfo is correct". -/
def FaultRecordPrint.check_crc (t : Target) (fault_info_valid : Bool) (w : World) : Bool × World :=
  if fault_info_valid then
    if FaultInfo.crc32 t w.mem ≠ FaultInfo.calc_crc32 t w.mem then
      (false, FR_PRINT "\n  Invalid CRC of the recorded fault information !!!\n\n" w)
    else (fault_info_valid, w)
  else (fault_info_valid, w)

/-- Block "Check if state context was stacked properly if CFSR is available":
the value of `state_context_valid`. -/
def FaultRecordPrint.state_context_valid (t : Target) (w : World) : Bool :=
  if FR_FAULT_REGS_EXIST t.build then
    if tst (FaultInfo.fault_registers t w.mem 0) (SCB_CFSR_Stack_Err_Msk t) then false else true
  else true

/-- Block "Decode: Exception which recorded the fault information". -/
def FaultRecordPrint.exception_handler (t : Target) (fault_info_valid : Bool) (w : World) : World :=
  if fault_info_valid then
    let exc_num := FaultInfo.common_registers t w.mem 0 &&& t.IPSR_ISR_Msk
    let w := FR_PRINT "  Exception Handler: " w
    let w :=
      if FR_ARCH_ARMV8x_M t.build then
        if FaultInfo.type.secure t w.mem ≠ 0 then FR_PRINT "Secure - " w
        else FR_PRINT "Non-Secure - " w
      else w
    let w :=
      match exc_num with
      | 3 => FR_PRINT "HardFault" w
      | 4 => FR_PRINT "MemManage fault" w
      | 5 => FR_PRINT "BusFault" w
      | 6 => FR_PRINT "UsageFault" w
      | 7 => FR_PRINT "SecureFault" w
      | _ => FR_PRINT ("unknown, exception number = " ++ fmt_u exc_num) w
    FR_PRINT "\n" w
  else w

/-- Block "Decode: State in which fault occurred" (Armv8/8.1-M builds). -/
def FaultRecordPrint.state (t : Target) (fault_info_valid : Bool) (w : World) : World :=
  if FR_ARCH_ARMV8x_M t.build then
    if fault_info_valid then
      let exc_return := FaultInfo.common_registers t w.mem 1
      let w := FR_PRINT "  State:             " w
      let w :=
        if exc_return &&& t.EXC_RETURN_S ≠ 0 then FR_PRINT "Secure" w
        else FR_PRINT "Non-Secure" w
      FR_PRINT "\n" w
    else w
  else w

/-- Block "Decode: Mode in which fault occurred". -/
def FaultRecordPrint.mode (t : Target) (fault_info_valid : Bool) (w : World) : World :=
  if fault_info_valid then
    let exc_return := FaultInfo.common_registers t w.mem 1
    let w := FR_PRINT "  Mode:              " w
    let w :=
      if exc_return &&& (1 <<< 2) = 0 then FR_PRINT "Handler" w
      else FR_PRINT "Thread" w
    FR_PRINT "\n" w
  else w

/-- Block "Decode: HardFault". -/
def FaultRecordPrint.hard_fault (t : Target) (fault_info_valid : Bool) (w : World) : World :=
  if fault_info_valid && decide (FaultInfo.type.fault_regs t w.mem ≠ 0) then
    let scb_hfsr := FaultInfo.fault_registers t w.mem 1
    if tst scb_hfsr (t.SCB_HFSR_VECTTBL_Msk ||| t.SCB_HFSR_FORCED_Msk
        ||| t.SCB_HFSR_DEBUGEVT_Msk) then
      let w := FR_PRINT "  Fault:             HardFault - " w
      let w := FR_PRINT_if (tst scb_hfsr t.SCB_HFSR_VECTTBL_Msk) "Bus error on vector read" w
      let w := FR_PRINT_if (tst scb_hfsr t.SCB_HFSR_FORCED_Msk)
        "Escalated fault (original fault was disabled or it caused another lower priority fault)" w
      let w := FR_PRINT_if (tst scb_hfsr t.SCB_HFSR_DEBUGEVT_Msk)
        "Breakpoint hit with Debug Monitor disabled" w
      FR_PRINT "\n" w
    else w
  else w

/-- Block "Decode: MemManage fault". -/
def FaultRecordPrint.mem_manage (t : Target) (fault_info_valid : Bool) (w : World) : World :=
  if fault_info_valid && decide (FaultInfo.type.fault_regs t w.mem ≠ 0) then
    let scb_cfsr := FaultInfo.fault_registers t w.mem 0
    let scb_mmfar := FaultInfo.fault_registers t w.mem 3
    if tst scb_cfsr (t.SCB_CFSR_IACCVIOL_Msk ||| t.SCB_CFSR_DACCVIOL_Msk
        ||| t.SCB_CFSR_MUNSTKERR_Msk ||| optMsk t.SCB_CFSR_MLSPERR_Msk
        ||| t.SCB_CFSR_MSTKERR_Msk) then
      let w := FR_PRINT "  Fault:             MemManage - " w
      let w := FR_PRINT_if (tst scb_cfsr t.SCB_CFSR_IACCVIOL_Msk)
        "Instruction execution failure due to MPU violation or fault" w
      let w := FR_PRINT_if (tst scb_cfsr t.SCB_CFSR_DACCVIOL_Msk)
        "Data access failure due to MPU violation or fault" w
      let w := FR_PRINT_if (tst scb_cfsr t.SCB_CFSR_MUNSTKERR_Msk)
        "Exception exit unstacking failure due to MPU access violation" w
      let w := FR_PRINT_if (tst scb_cfsr t.SCB_CFSR_MSTKERR_Msk)
        "Exception entry stacking failure due to MPU access violation" w
      let w := FR_PRINT_if (tstOpt scb_cfsr t.SCB_CFSR_MLSPERR_Msk)
        "Floating-point lazy stacking failure due to MPU access violation" w
      let w := FR_PRINT_if (tst scb_cfsr t.SCB_CFSR_MMARVALID_Msk)
        (", fault address 0x" ++ fmt_08X scb_mmfar) w
      FR_PRINT "\n" w
    else w
  else w

/-- Block "Decode: BusFault". -/
def FaultRecordPrint.bus_fault (t : Target) (fault_info_valid : Bool) (w : World) : World :=
  if fault_info_valid && decide (FaultInfo.type.fault_regs t w.mem ≠ 0) then
    let scb_cfsr := FaultInfo.fault_registers t w.mem 0
    let scb_bfar := FaultInfo.fault_registers t w.mem 4
    if tst scb_cfsr (t.SCB_CFSR_IBUSERR_Msk ||| t.SCB_CFSR_PRECISERR_Msk
        ||| t.SCB_CFSR_IMPRECISERR_Msk ||| t.SCB_CFSR_UNSTKERR_Msk
        ||| optMsk t.SCB_CFSR_LSPERR_Msk ||| t.SCB_CFSR_STKERR_Msk) then
      let w := FR_PRINT "  Fault:             BusFault - " w
      let w := FR_PRINT_if (tst scb_cfsr t.SCB_CFSR_IBUSERR_Msk)
        "Instruction prefetch failure due to bus fault" w
      let w := FR_PRINT_if (tst scb_cfsr t.SCB_CFSR_PRECISERR_Msk)
        "Data access failure due to bus fault (precise)" w
      let w := FR_PRINT_if (tst scb_cfsr t.SCB_CFSR_IMPRECISERR_Msk)
        "Data access failure due to bus fault (imprecise)" w
      let w := FR_PRINT_if (tst scb_cfsr t.SCB_CFSR_UNSTKERR_Msk)
        "Exception exit unstacking failure due to bus fault" w
      let w := FR_PRINT_if (tst scb_cfsr t.SCB_CFSR_STKERR_Msk)
        "Exception entry stacking failure due to bus fault" w
      let w := FR_PRINT_if (tstOpt scb_cfsr t.SCB_CFSR_LSPERR_Msk)
        "Floating-point lazy stacking failure due to bus fault" w
      let w := FR_PRINT_if (tst scb_cfsr t.SCB_CFSR_BFARVALID_Msk)
        (", fault address 0x" ++ fmt_08X scb_bfar) w
      FR_PRINT "\n" w
    else w
  else w

/-- Block "Decode: UsageFault". -/
def FaultRecordPrint.usage_fault (t : Target) (fault_info_valid : Bool) (w : World) : World :=
  if fault_info_valid && decide (FaultInfo.type.fault_regs t w.mem ≠ 0) then
    let scb_cfsr := FaultInfo.fault_registers t w.mem 0
    if tst scb_cfsr (t.SCB_CFSR_UNDEFINSTR_Msk ||| t.SCB_CFSR_INVSTATE_Msk
        ||| t.SCB_CFSR_INVPC_Msk ||| t.SCB_CFSR_NOCP_Msk ||| optMsk t.SCB_CFSR_STKOF_Msk
        ||| t.SCB_CFSR_UNALIGNED_Msk ||| t.SCB_CFSR_DIVBYZERO_Msk) then
      let w := FR_PRINT "  Fault:             UsageFault - " w
      let w := FR_PRINT_if (tst scb_cfsr t.SCB_CFSR_UNDEFINSTR_Msk)
        "Execution of undefined instruction" w
      let w := FR_PRINT_if (tst scb_cfsr t.SCB_CFSR_INVSTATE_Msk)
        "Execution of Thumb instruction with Thumb mode turned off" w
      let w := FR_PRINT_if (tst scb_cfsr t.SCB_CFSR_INVPC_Msk)
        "Invalid exception return value" w
      let w := FR_PRINT_if (tst scb_cfsr t.SCB_CFSR_NOCP_Msk)
        "Coprocessor instruction with coprocessor disabled or non-existent" w
      let w := FR_PRINT_if (tstOpt scb_cfsr t.SCB_CFSR_STKOF_Msk) "Stack overflow" w
      let w := FR_PRINT_if (tst scb_cfsr t.SCB_CFSR_UNALIGNED_Msk) "Unaligned load/store" w
      let w := FR_PRINT_if (tst scb_cfsr t.SCB_CFSR_DIVBYZERO_Msk) "Divide by 0" w
      FR_PRINT "\n" w
    else w
  else w

/-- Block "Decode: SecureFault" (Armv8/8.1-M Mainline builds). -/
def FaultRecordPrint.secure_fault (t : Target) (fault_info_valid : Bool) (w : World) : World :=
  if fault_info_valid && decide (FaultInfo.type.secure t w.mem ≠ 0) then
    let scb_sfsr := FaultInfo.armv8_m_fault_registers t w.mem 0
    let scb_sfar := FaultInfo.armv8_m_fault_registers t w.mem 1
    if tst scb_sfsr (SAU_SFSR_INVEP_Msk ||| SAU_SFSR_INVIS_Msk ||| SAU_SFSR_INVER_Msk
        ||| SAU_SFSR_AUVIOL_Msk ||| SAU_SFSR_INVTRAN_Msk ||| SAU_SFSR_LSPERR_Msk
        ||| SAU_SFSR_LSERR_Msk) then
      let w := FR_PRINT "  Fault:             SecureFault - " w
      let w := FR_PRINT_if (tst scb_sfsr SAU_SFSR_INVEP_Msk)
        "Invalid entry point due to invalid attempt to enter Secure state" w
      let w := FR_PRINT_if (tst scb_sfsr SAU_SFSR_INVIS_Msk)
        "Invalid integrity signature in exception stack frame found on unstacking" w
      let w := FR_PRINT_if (tst scb_sfsr SAU_SFSR_INVER_Msk)
        "Invalid exception return due to mismatch on EXC_RETURN.DCRS or EXC_RETURN.ES" w
      let w := FR_PRINT_if (tst scb_sfsr SAU_SFSR_AUVIOL_Msk)
        "Attribution unit violation due to Non-secure access to Secure address space" w
      let w := FR_PRINT_if (tst scb_sfsr SAU_SFSR_INVTRAN_Msk)
        "Invalid transaction caused by domain crossing branch not flagged as such" w
      let w := FR_PRINT_if (tst scb_sfsr SAU_SFSR_LSPERR_Msk)
        "Lazy stacking preservation failure due to SAU or IDAU violation" w
      let w := FR_PRINT_if (tst scb_sfsr SAU_SFSR_LSERR_Msk)
        "Lazy stacking activation or deactivation failure" w
      let w := FR_PRINT_if (tst scb_sfsr SAU_SFSR_SFARVALID_Msk)
        (", fault address 0x" ++ fmt_08X scb_sfar) w
      FR_PRINT "\n" w
    else w
  else w

/-- The fault decoding blocks, compiled if `FR_FAULT_REGS_EXIST`. -/
def FaultRecordPrint.faults (t : Target) (fault_info_valid : Bool) (w : World) : World :=
  if FR_FAULT_REGS_EXIST t.build then
    let w := FaultRecordPrint.hard_fault t fault_info_valid w
    let w := FaultRecordPrint.mem_manage t fault_info_valid w
    let w := FaultRecordPrint.bus_fault t fault_info_valid w
    let w := FaultRecordPrint.usage_fault t fault_info_valid w
    if FR_ARCH_ARMV8x_M_MAIN t.build then FaultRecordPrint.secure_fault t fault_info_valid w
    else w
  else w

/-- A line `label` followed by `0x%08X\n`. -/
def fmt_line (label : String) (x : Nat) : String :=
  label ++ "0x" ++ fmt_08X x ++ "\n"

/-- Block "Print: Program Counter, MSP (if TrustZone also MSPLIM), PSP (if TrustZone also PSPLIM)". -/
def FaultRecordPrint.pc_msp_psp (t : Target) (fault_info_valid : Bool) (w : World) : World :=
  if fault_info_valid then
    let w := FR_PRINT "\n" w
    let w :=
      if FR_FAULT_REGS_EXIST t.build then
        let w := FR_PRINT "   - PC:             " w
        if FaultInfo.fault_registers t w.mem 0 &&& SCB_CFSR_Stack_Err_Msk t = 0 then
          FR_PRINT ("0x" ++ fmt_08X (FaultInfo.state_context t w.mem 6) ++ "\n") w
        else FR_PRINT "unknown\n" w
      else FR_PRINT (fmt_line "   - PC:             " (FaultInfo.state_context t w.mem 6)) w
    let w := FR_PRINT (fmt_line "   - MSP:            " (FaultInfo.common_registers t w.mem 2)) w
    let w :=
      if FR_ARCH_ARMV8x_M t.build then
        if FR_ARCH_ARMV8_M_BASE t.build then
          FR_PRINT_if (decide (FaultInfo.common_registers t w.mem 1 &&& t.EXC_RETURN_S ≠ 0))
            (fmt_line "   - MSPLIM:         " (FaultInfo.armv8_m_registers t w.mem 0)) w
        else FR_PRINT (fmt_line "   - MSPLIM:         " (FaultInfo.armv8_m_registers t w.mem 0)) w
      else w
    let w := FR_PRINT (fmt_line "   - PSP:            " (FaultInfo.common_registers t w.mem 3)) w
    let w :=
      if FR_ARCH_ARMV8x_M t.build then
        if FR_ARCH_ARMV8_M_BASE t.build then
          FR_PRINT_if (decide (FaultInfo.common_registers t w.mem 1 &&& t.EXC_RETURN_S ≠ 0))
            (fmt_line "   - PSPLIM:         " (FaultInfo.armv8_m_registers t w.mem 1)) w
        else FR_PRINT (fmt_line "   - PSPLIM:         " (FaultInfo.armv8_m_registers t w.mem 1)) w
      else w
    FR_PRINT "\n" w
  else w

/-- Block "Print state context information": R0..R3. -/
def FaultRecordPrint.state_context_r0_r3 (t : Target) (fault_info_valid state_context_valid : Bool)
    (w : World) : World :=
  if fault_info_valid && state_context_valid then
    let w := FR_PRINT "  Exception stacked state context:\n" w
    let w := FR_PRINT (fmt_line "   - R0:             " (FaultInfo.state_context t w.mem 0)) w
    let w := FR_PRINT (fmt_line "   - R1:             " (FaultInfo.state_context t w.mem 1)) w
    let w := FR_PRINT (fmt_line "   - R2:             " (FaultInfo.state_context t w.mem 2)) w
    FR_PRINT (fmt_line "   - R3:             " (FaultInfo.state_context t w.mem 3)) w
  else w

/-- Block "Print additional state context (if it exists)": R4..R11 (Armv8/8.1-M builds). -/
def FaultRecordPrint.additional_state_context (t : Target)
    (fault_info_valid state_context_valid : Bool) (w : World) : World :=
  if FR_ARCH_ARMV8x_M t.build then
    if fault_info_valid && state_context_valid && decide (FaultInfo.type.armv8m t w.mem ≠ 0) then
      if FaultInfo.additonal_state_context t w.mem 0 &&& 0xFFFFFFFE = FR_ASC_INTEGRITY_SIG then
        let w := FR_PRINT (fmt_line "   - R4:             " (FaultInfo.additonal_state_context t w.mem 2)) w
        let w := FR_PRINT (fmt_line "   - R5:             " (FaultInfo.additonal_state_context t w.mem 3)) w
        let w := FR_PRINT (fmt_line "   - R6:             " (FaultInfo.additonal_state_context t w.mem 4)) w
        let w := FR_PRINT (fmt_line "   - R7:             " (FaultInfo.additonal_state_context t w.mem 5)) w
        let w := FR_PRINT (fmt_line "   - R8:             " (FaultInfo.additonal_state_context t w.mem 6)) w
        let w := FR_PRINT (fmt_line "   - R9:             " (FaultInfo.additonal_state_context t w.mem 7)) w
        let w := FR_PRINT (fmt_line "   - R10:            " (FaultInfo.additonal_state_context t w.mem 8)) w
        FR_PRINT (fmt_line "   - R11:            " (FaultInfo.additonal_state_context t w.mem 9)) w
      else w
    else w
  else w

/-- Second state context block: R12, LR, ReturnAddress, xPSR. -/
def FaultRecordPrint.state_context_r12_xpsr (t : Target)
    (fault_info_valid state_context_valid : Bool) (w : World) : World :=
  if fault_info_valid && state_context_valid then
    let w := FR_PRINT (fmt_line "   - R12:            " (FaultInfo.state_context t w.mem 4)) w
    let w := FR_PRINT (fmt_line "   - LR:             " (FaultInfo.state_context t w.mem 5)) w
    let w := FR_PRINT (fmt_line "   - ReturnAddress:  " (FaultInfo.state_context t w.mem 6)) w
    let w := FR_PRINT (fmt_line "   - xPSR:           " (FaultInfo.state_context t w.mem 7)) w
    FR_PRINT "\n" w
  else w

/-- Block "Print fault registers" (builds with fault registers). -/
def FaultRecordPrint.fault_registers (t : Target) (fault_info_valid : Bool) (w : World) : World :=
  if FR_FAULT_REGS_EXIST t.build then
    if fault_info_valid then
      let w := FR_PRINT "  Fault registers:\n" w
      let w := FR_PRINT (fmt_line "   - CFSR:           " (FaultInfo.fault_registers t w.mem 0)) w
      let w := FR_PRINT (fmt_line "   - HFSR:           " (FaultInfo.fault_registers t w.mem 1)) w
      let w := FR_PRINT (fmt_line "   - DFSR:           " (FaultInfo.fault_registers t w.mem 2)) w
      let w := FR_PRINT (fmt_line "   - MMFAR:          " (FaultInfo.fault_registers t w.mem 3)) w
      let w := FR_PRINT (fmt_line "   - BFAR:           " (FaultInfo.fault_registers t w.mem 4)) w
      let w := FR_PRINT (fmt_line "   - AFSR:           " (FaultInfo.fault_registers t w.mem 5)) w
      let w :=
        if FR_ARCH_ARMV8x_M_MAIN t.build then
          if FaultInfo.type.secure t w.mem ≠ 0 then
            let w := FR_PRINT (fmt_line "   - SFSR:           "
              (FaultInfo.armv8_m_fault_registers t w.mem 0)) w
            FR_PRINT (fmt_line "   - SFAR:           "
              (FaultInfo.armv8_m_fault_registers t w.mem 1)) w
          else w
        else w
      FR_PRINT "\n" w
    else w
  else w

/-- The C function `FaultRecordPrint`. -/
def FaultRecordPrint (t : Target) (w : World) : World :=
  let r := FaultRecordPrint.check_magic t w
  let r := FaultRecordPrint.check_crc t r.1 r.2
  let fault_info_valid := r.1
  let w := r.2
  let state_context_valid := FaultRecordPrint.state_context_valid t w
  let w := FaultRecordPrint.exception_handler t fault_info_valid w
  let w := FaultRecordPrint.state t fault_info_valid w
  let w := FaultRecordPrint.mode t fault_info_valid w
  let w := FaultRecordPrint.faults t fault_info_valid w
  let w := FaultRecordPrint.pc_msp_psp t fault_info_valid w
  let w := FaultRecordPrint.state_context_r0_r3 t fault_info_valid state_context_valid w
  let w := FaultRecordPrint.additional_state_context t fault_info_valid state_context_valid w
  let w := FaultRecordPrint.state_context_r12_xpsr t fault_info_valid state_context_valid w
  FaultRecordPrint.fault_registers t fault_info_valid w

/-- Library function `memset(dst, c, n)` on the byte memory. -/
def memset (m : Mem) (dst c : Nat) : Nat → Mem
  | 0 => m
  | n + 1 => write8 (memset m dst c n) (dst + n) c

/-- The C function `FaultRecordClear`. -/
def FaultRecordClear (t : Target) (w : World) : World :=
  { w with mem := memset w.mem t.FaultInfo_addr 0 (sizeof_FaultInfo t.build) }

/-! ## Example targets -/

/-- An Armv7E-M target (Cortex-M4 class) with the constants published in the
CMSIS-Core header for that core; `FaultInfo` is placed at the start of SRAM. -/
def cortexM4 : Target where
  build := .armv7em
  FaultInfo_addr := 0x20000000
  ret_CalcCRC32 := 0x08000101
  ret_FaultRecordOnExit := 0x08000111
  SCS_BASE := 0xE000E000
  SCB_BASE := 0xE000E000 + 0x0D00
  SCS_BASE_NS := 0xE002E000
  SCB_BASE_NS := 0xE002E000 + 0x0D00
  ofs_CFSR := 0x28
  ofs_HFSR := 0x2C
  ofs_DFSR := 0x30
  ofs_MMFAR := 0x34
  ofs_BFAR := 0x38
  ofs_AFSR := 0x3C
  ofs_SFSR := 0xE4
  ofs_SFAR := 0xE8
  IPSR_ISR_Msk := 0x1FF
  EXC_RETURN_S := 0x40
  SCB_HFSR_VECTTBL_Msk := 1 <<< 1
  SCB_HFSR_FORCED_Msk := 1 <<< 30
  SCB_HFSR_DEBUGEVT_Msk := 1 <<< 31
  SCB_CFSR_IACCVIOL_Msk := 1 <<< 0
  SCB_CFSR_DACCVIOL_Msk := 1 <<< 1
  SCB_CFSR_MUNSTKERR_Msk := 1 <<< 3
  SCB_CFSR_MSTKERR_Msk := 1 <<< 4
  SCB_CFSR_MLSPERR_Msk := some (1 <<< 5)
  SCB_CFSR_MMARVALID_Msk := 1 <<< 7
  SCB_CFSR_IBUSERR_Msk := 1 <<< 8
  SCB_CFSR_PRECISERR_Msk := 1 <<< 9
  SCB_CFSR_IMPRECISERR_Msk := 1 <<< 10
  SCB_CFSR_UNSTKERR_Msk := 1 <<< 11
  SCB_CFSR_STKERR_Msk := 1 <<< 12
  SCB_CFSR_LSPERR_Msk := some (1 <<< 13)
  SCB_CFSR_BFARVALID_Msk := 1 <<< 15
  SCB_CFSR_UNDEFINSTR_Msk := 1 <<< 16
  SCB_CFSR_INVSTATE_Msk := 1 <<< 17
  SCB_CFSR_INVPC_Msk := 1 <<< 18
  SCB_CFSR_NOCP_Msk := 1 <<< 19
  SCB_CFSR_STKOF_Msk := none
  SCB_CFSR_UNALIGNED_Msk := 1 <<< 24
  SCB_CFSR_DIVBYZERO_Msk := 1 <<< 25

/-- An Armv8-M Mainline target (Cortex-M33 class) built for the Secure world. -/
def cortexM33s : Target :=
  { cortexM4 with build := .armv8mMain true, SCB_CFSR_STKOF_Msk := some (1 <<< 20) }

/-- An Armv6-M target (Cortex-M0 class): no fault status registers. -/
def cortexM0 : Target :=
  { cortexM4 with build := .armv6m, SCB_CFSR_MLSPERR_Msk := none, SCB_CFSR_LSPERR_Msk := none }

/-- A processor state with all registers zero over the given memory. -/
def Cpu.init (m : Mem) : Cpu :=
  { r0 := 0, r1 := 0, r2 := 0, r3 := 0, r4 := 0, r12 := 0, lr := 0,
    n := false, z := false, c := false, v := false, xpsr := 0, msp := 0, psp := 0,
    msp_ns := 0, psp_ns := 0, msplim := 0, psplim := 0, msplim_ns := 0, psplim_ns := 0,
    mem := m, trace := [] }

/-! ## Specification-side definitions -/

/-- The bytes `data_ptr[0 .. data_len-1]` as the processor reads them. -/
def bytesAt (m : Mem) (data_ptr data_len : Nat) : List Nat :=
  (List.range data_len).map (fun i => read8 m (data_ptr + i))

/-- Bit step of the checksum as the specification words it: shift left by one
bit and, if the vacated top bit was 1, XOR with the polynomial. -/
def crcSpec.bitStep (polynom v : Nat) : Nat :=
  ((v <<< 1) % 2^32) ^^^ (if v.testBit 31 then polynom else 0)

/-- Byte step of the checksum as the specification words it: XOR the byte into
the top byte of the running value, then 8 bit steps. -/
def crcSpec.byteStep (polynom v b : Nat) : Nat :=
  (crcSpec.bitStep polynom)^[8] (v ^^^ (b <<< 24))

/-- The checksum as the specification words it (bit-serial, MSB first). -/
def crcSpec (init_val polynom : Nat) (data : List Nat) : Nat :=
  data.foldl (crcSpec.byteStep polynom) init_val

/-- A record is trustworthy if its magic number is the sentinel and its stored
CRC equals the CRC recomputed over its body. -/
def Trustworthy (t : Target) (m : Mem) : Prop :=
  FaultInfo.magic_number t m = FR_MAGIC_NUMBER ∧ FaultInfo.crc32 t m = FaultInfo.calc_crc32 t m

/-- The record does not wrap around the end of the address space. -/
def Fits (t : Target) : Prop :=
  t.FaultInfo_addr + sizeof_FaultInfo t.build ≤ 2^32

/-- A step of the printer is local if it leaves memory alone and appends to the
output a text that depends on memory only. -/
def Local (f : World → World) : Prop :=
  ∀ w, (f w).mem = w.mem ∧ (f w).out = w.out ++ (f ⟨w.mem, []⟩).out

/-- The text a step of the printer emits over a given memory. -/
def textOf (f : World → World) (m : Mem) : List String :=
  (f ⟨m, []⟩).out

/-- The header text of `FaultRecordPrint`. -/
def headerText (t : Target) (m : Mem) : String :=
  "\n--- Last recorded Fault information (v" ++ fmt_u (FaultInfo.type.version.major t m) ++ "."
    ++ fmt_u (FaultInfo.type.version.minor t m) ++ ") ---\n\n"

/-- The invalid CRC report of `FaultRecordPrint`. -/
def invalidCrcText : String :=
  "\n  Invalid CRC of the recorded fault information !!!\n\n"

/-- The blocks of `FaultRecordPrint` that follow the two validity checks, as one function. -/
def FaultRecordPrint.decode (t : Target) (fault_info_valid state_context_valid : Bool)
    (w : World) : World :=
  let w := FaultRecordPrint.exception_handler t fault_info_valid w
  let w := FaultRecordPrint.state t fault_info_valid w
  let w := FaultRecordPrint.mode t fault_info_valid w
  let w := FaultRecordPrint.faults t fault_info_valid w
  let w := FaultRecordPrint.pc_msp_psp t fault_info_valid w
  let w := FaultRecordPrint.state_context_r0_r3 t fault_info_valid state_context_valid w
  let w := FaultRecordPrint.additional_state_context t fault_info_valid state_context_valid w
  let w := FaultRecordPrint.state_context_r12_xpsr t fault_info_valid state_context_valid w
  FaultRecordPrint.fault_registers t fault_info_valid w

/-- The labels that open a line of record content: the exception handler line,
the mode line, a fault line, a register or fault register line. -/
def contentLabels : List String :=
  ["  Exception Handler:", "  Mode:", "  Fault:", "   - "]

/-- A printed text is record content if it starts with one of the content labels. -/
def IsRecordContent (x : String) : Prop :=
  ∃ l ∈ contentLabels, l.data <+: x.data

/-- A memory holding a record with the sentinel, version bytes 7 and 2, and
zero everywhere else (in particular a zero CRC word), for `cortexM4`. -/
def badCrcMem : Mem := fun a =>
  if a = 0x20000000 then 0x46
  else if a = 0x20000001 then 0x6C
  else if a = 0x20000002 then 0x74
  else if a = 0x20000003 then 0x52
  else if a = 0x20000008 then 7
  else if a = 0x20000009 then 2
  else 0

/-- A memory that is zero everywhere. -/
def zeroMem : Mem := fun _ => 0

/-- Memory after a list of accesses: each store is a word store. -/
def replay (m : Mem) : List Access → Mem
  | [] => m
  | Access.load _ _ :: es => replay m es
  | Access.store a _ v :: es => replay (write32 m a v) es

/-- The accesses made between state `s` and a later state `s'`. -/
def newEvents (s s' : Cpu) : List Access :=
  s'.trace.drop s.trace.length

/-- An access is a word store. -/
def Access.isStore : Access → Bool
  | Access.load _ _ => false
  | Access.store _ _ _ => true

/-- Every store among the accesses is a word store at an address satisfying `R`. -/
def Access.storesIn (R : Nat → Prop) : Access → Prop
  | Access.load _ _ => True
  | Access.store a sz _ => sz = 4 ∧ R a

/-- Between `s` and `s'` the trace grows, memory changes by the recorded stores
only, and every one of them is a word store at an address satisfying `R`. -/
def Writes (R : Nat → Prop) (s s' : Cpu) : Prop :=
  s'.trace = s.trace ++ newEvents s s'
  ∧ s'.mem = replay s.mem (newEvents s s')
  ∧ ∀ e ∈ newEvents s s', e.storesIn R

/-- Word addresses of an object of `size` bytes at `lo`. -/
def inField (lo size : Nat) (a : Nat) : Prop :=
  lo ≤ a ∧ a + 4 ≤ lo + size

/-- The instructions of `FaultRecord` that capture the fields: from the stack
selection to the fault registers, without the CRC section. -/
def FaultRecord.fields (t : Target) (s : Cpu) : Cpu :=
  let s := FaultRecord.r3_points_to_stack t s
  let s := FaultRecord.stack_check t s
  let s := FaultRecord.type_information t s
  let s := FaultRecord.state_context t s
  let s := FaultRecord.common_registers t s
  let s := FaultRecord.armv8_m_registers t s
  FaultRecord.fault_registers t s

/-- The special registers of two states are the same. -/
def SameSys (s s' : Cpu) : Prop :=
  s'.xpsr = s.xpsr ∧ s'.msp = s.msp ∧ s'.psp = s.psp ∧ s'.msp_ns = s.msp_ns
  ∧ s'.psp_ns = s.psp_ns ∧ s'.msplim = s.msplim ∧ s'.psplim = s.psplim
  ∧ s'.msplim_ns = s.msplim_ns ∧ s'.psplim_ns = s.psplim_ns

/-- The stack pointer `FaultRecord` reads the frame from on a build without
the Secure world paths: PSP if EXC_RETURN bit 2 is set, MSP otherwise. -/
def framePointer (s : Cpu) : Nat :=
  if s.get .lr / 2^2 % 2 = 1 then s.sys .psp else s.sys .msp

/-- A hardware state for `cortexM4` in which the CFSR (at `SCB_BASE + 0x28`)
has STKERR set, the word at `SCS_BASE + 0x28` is zero, and the frame on the
main stack holds the return address `0x08001234`. -/
def stkerrMem : Mem := fun a =>
  if a = 0xE000ED29 then 0x10
  else if a = 0x20001018 then 0x34
  else if a = 0x20001019 then 0x12
  else if a = 0x2000101A then 0x00
  else if a = 0x2000101B then 0x08
  else 0

/-- Entry state of a fault handler on `cortexM4`: EXC_RETURN `0xFFFFFFF9`
(main stack), MSP `0x20001000`, over `stkerrMem`. -/
def stkerrCpu : Cpu :=
  { Cpu.init stkerrMem with lr := 0xFFFFFFF9, msp := 0x20001000, xpsr := 3 }

/-- A trustworthy record on `cortexM4` with an all-zero body: the CRC of the
body and the sentinel stored over `zeroMem`. -/
def stampedMem : Mem :=
  write32 (write32 zeroMem (cortexM4.FaultInfo_addr + ofs_crc32)
    (FaultInfo.calc_crc32 cortexM4 zeroMem)) (cortexM4.FaultInfo_addr + ofs_magic_number)
    FR_MAGIC_NUMBER

/-- The name printed for an exception number, in the words of the
specification: 3 HardFault, 4 MemManage fault, 5 BusFault, 6 UsageFault,
7 SecureFault, any other number `n` "unknown" followed by `n` in decimal. -/
def exceptionNameSpec (n : Nat) : String :=
  if n = 3 then "HardFault"
  else if n = 4 then "MemManage fault"
  else if n = 5 then "BusFault"
  else if n = 6 then "UsageFault"
  else if n = 7 then "SecureFault"
  else "unknown, exception number = " ++ String.mk (Nat.toDigits 10 n)

/-- The Secure or Non-secure text of the exception handler line (Armv8/8.1-M builds). -/
def worldTextSpec (t : Target) (m : Mem) : List String :=
  if FR_ARCH_ARMV8x_M t.build then
    [if FaultInfo.type.secure t m ≠ 0 then "Secure - " else "Non-Secure - "]
  else []
/-- Two texts differ at a position that both have. -/
def clash : List Char → List Char → Bool
  | c :: l, d :: a => (c != d) || clash l a
  | _, _ => false

/-- The text starts with the label. -/
def StartsWith (l x : String) : Prop := l.data <+: x.data

/-- The text starts with one of the given texts. -/
def Heads (hs : List String) (x : String) : Prop := ∃ a ∈ hs, StartsWith a x

/-- The texts that open what block "Decode: Mode in which fault occurred" prints. -/
def headsMode : List String := ["  Mode:              ", "Handler", "Thread", "\n"]
/-- The texts that open what block "Decode: Exception which recorded the fault
information" prints; `v8` is `FR_ARCH_ARMV8x_M`. -/
def headsExceptionHandler (v8 : Bool) : List String :=
  (if v8 then ["Secure - ", "Non-Secure - "] else [])
    ++ ["  Exception Handler: ",
    "HardFault",
    "MemManage fault",
    "BusFault",
    "UsageFault",
    "SecureFault",
    "unknown, exception number = ",
    "\n"]

/-- The texts that open what block "Decode: State in which fault occurred" prints. -/
def headsState : List String := ["  State:             ",
    "Secure",
    "Non-Secure",
    "\n"]

/-- The texts that open what the HardFault, MemManage, BusFault and UsageFault
decoding blocks print. -/
def headsFaultsBase : List String :=
  ["  Fault:             HardFault - ",
    "Bus error on vector read",
    "Escalated fault (original fault was disabled or it caused another lower priority fault)",
    "Breakpoint hit with Debug Monitor disabled",
    "\n"]
    ++ ["  Fault:             MemManage - ",
    "Instruction execution failure due to MPU violation or fault",
    "Data access failure due to MPU violation or fault",
    "Exception exit unstacking failure due to MPU access violation",
    "Exception entry stacking failure due to MPU access violation",
    "Floating-point lazy stacking failure due to MPU access violation",
    ", fault address 0x",
    "\n"]
    ++ ["  Fault:             BusFault - ",
    "Instruction prefetch failure due to bus fault",
    "Data access failure due to bus fault (precise)",
    "Data access failure due to bus fault (imprecise)",
    "Exception exit unstacking failure due to bus fault",
    "Exception entry stacking failure due to bus fault",
    "Floating-point lazy stacking failure due to bus fault",
    ", fault address 0x",
    "\n"]
    ++ ["  Fault:             UsageFault - ",
    "Execution of undefined instruction",
    "Execution of Thumb instruction with Thumb mode turned off",
    "Invalid exception return value",
    "Coprocessor instruction with coprocessor disabled or non-existent",
    "Stack overflow",
    "Unaligned load/store",
    "Divide by 0",
    "\n"]

/-- The texts that open what block "Decode: SecureFault" prints. -/
def headsSecureFault : List String :=
  ["  Fault:             SecureFault - ",
    "Invalid entry point due to invalid attempt to enter Secure state",
    "Invalid integrity signature in exception stack frame found on unstacking",
    "Invalid exception return due to mismatch on EXC_RETURN.DCRS or EXC_RETURN.ES",
    "Attribution unit violation due to Non-secure access to Secure address space",
    "Invalid transaction caused by domain crossing branch not flagged as such",
    "Lazy stacking preservation failure due to SAU or IDAU violation",
    "Lazy stacking activation or deactivation failure",
    ", fault address 0x",
    "\n"]

/-- The texts that open what the fault decoding blocks print; `main` is
`FR_ARCH_ARMV8x_M_MAIN`. -/
def headsFaults (main : Bool) : List String :=
  headsFaultsBase ++ (if main then headsSecureFault else [])

/-- The texts that open what block "Print: Program Counter, MSP, PSP" prints;
`v8` is `FR_ARCH_ARMV8x_M`. -/
def headsPc (v8 : Bool) : List String :=
  (if v8 then ["   - MSPLIM:         ", "   - PSPLIM:         "] else [])
    ++ ["\n",
    "   - PC:             ",
    "0x",
    "unknown\n",
    "   - MSP:            ",
    "   - PSP:            "]

/-- The texts that open the lines of the base register block. -/
def headsBaseRegisters : List String :=
  ["  Exception stacked state context:\n",
    "   - R0:             ",
    "   - R1:             ",
    "   - R2:             ",
    "   - R3:             ",
    "   - R12:            ",
    "   - LR:             ",
    "   - ReturnAddress:  ",
    "   - xPSR:           ",
    "\n"]

/-- The texts that open the lines of the additional state context block. -/
def headsAdditional : List String :=
  ["   - R4:             ",
    "   - R5:             ",
    "   - R6:             ",
    "   - R7:             ",
    "   - R8:             ",
    "   - R9:             ",
    "   - R10:            ",
    "   - R11:            "]

/-- The texts that open what block "Print fault registers" prints; `main` is
`FR_ARCH_ARMV8x_M_MAIN`. -/
def headsFaultRegisters (main : Bool) : List String :=
  (if main then ["   - SFSR:           ", "   - SFAR:           "] else [])
    ++ ["  Fault registers:\n",
    "   - CFSR:           ",
    "   - HFSR:           ",
    "   - DFSR:           ",
    "   - MMFAR:          ",
    "   - BFAR:           ",
    "   - AFSR:           ",
    "\n"]
/-- The MSPLIM or PSPLIM line of block "Print: Program Counter, MSP, PSP": on
Armv8-M Baseline only if EXC_RETURN has the Secure bit, on Armv8/8.1-M Mainline
always, on other builds never. -/
def limLine (t : Target) (m : Mem) (label : String) (i : Nat) : List String :=
  if FR_ARCH_ARMV8x_M t.build then
    if FR_ARCH_ARMV8_M_BASE t.build then
      if FaultInfo.common_registers t m 1 &&& t.EXC_RETURN_S ≠ 0 then
        [fmt_line label (FaultInfo.armv8_m_registers t m i)]
      else []
    else [fmt_line label (FaultInfo.armv8_m_registers t m i)]
  else []

/-- The program counter texts of block "Print: Program Counter, MSP, PSP". -/
def pcText (t : Target) (m : Mem) : List String :=
  if FR_FAULT_REGS_EXIST t.build then
    ["   - PC:             ",
      if FaultInfo.fault_registers t m 0 &&& SCB_CFSR_Stack_Err_Msk t = 0 then
        "0x" ++ fmt_08X (FaultInfo.state_context t m 6) ++ "\n"
      else "unknown\n"]
  else [fmt_line "   - PC:             " (FaultInfo.state_context t m 6)]

/-- The labels of the lines of the base register block. -/
def baseRegisterLabels : List String :=
  ["   - R0:", "   - R1:", "   - R2:", "   - R3:", "   - R12:", "   - LR:",
    "   - ReturnAddress:", "   - xPSR:"]

/-- The labels of the lines of the extended register block. -/
def extendedRegisterLabels : List String :=
  ["   - R4:", "   - R5:", "   - R6:", "   - R7:", "   - R8:", "   - R9:", "   - R10:",
    "   - R11:"]

/-- The lines of the base register block up to R3. -/
def baseLinesR0R3 (t : Target) (m : Mem) : List String :=
  ["  Exception stacked state context:\n",
    fmt_line "   - R0:             " (FaultInfo.state_context t m 0),
    fmt_line "   - R1:             " (FaultInfo.state_context t m 1),
    fmt_line "   - R2:             " (FaultInfo.state_context t m 2),
    fmt_line "   - R3:             " (FaultInfo.state_context t m 3)]

/-- The lines of the base register block from R12. -/
def baseLinesR12 (t : Target) (m : Mem) : List String :=
  [fmt_line "   - R12:            " (FaultInfo.state_context t m 4),
    fmt_line "   - LR:             " (FaultInfo.state_context t m 5),
    fmt_line "   - ReturnAddress:  " (FaultInfo.state_context t m 6),
    fmt_line "   - xPSR:           " (FaultInfo.state_context t m 7),
    "\n"]

/-- The lines R4 to R11 of the extended register block. -/
def extendedLines (t : Target) (m : Mem) : List String :=
  [fmt_line "   - R4:             " (FaultInfo.additonal_state_context t m 2),
    fmt_line "   - R5:             " (FaultInfo.additonal_state_context t m 3),
    fmt_line "   - R6:             " (FaultInfo.additonal_state_context t m 4),
    fmt_line "   - R7:             " (FaultInfo.additonal_state_context t m 5),
    fmt_line "   - R8:             " (FaultInfo.additonal_state_context t m 6),
    fmt_line "   - R9:             " (FaultInfo.additonal_state_context t m 7),
    fmt_line "   - R10:            " (FaultInfo.additonal_state_context t m 8),
    fmt_line "   - R11:            " (FaultInfo.additonal_state_context t m 9)]

/-- The lines of the raw fault status block, CFSR to AFSR. -/
def rawFaultLines (t : Target) (m : Mem) : List String :=
  [fmt_line "   - CFSR:           " (FaultInfo.fault_registers t m 0),
    fmt_line "   - HFSR:           " (FaultInfo.fault_registers t m 1),
    fmt_line "   - DFSR:           " (FaultInfo.fault_registers t m 2),
    fmt_line "   - MMFAR:          " (FaultInfo.fault_registers t m 3),
    fmt_line "   - BFAR:           " (FaultInfo.fault_registers t m 4),
    fmt_line "   - AFSR:           " (FaultInfo.fault_registers t m 5)]

/-- The lines SFSR and SFAR of the raw fault status block. -/
def rawSecureFaultLines (t : Target) (m : Mem) : List String :=
  if FR_ARCH_ARMV8x_M_MAIN t.build then
    if FaultInfo.type.secure t m ≠ 0 then
      [fmt_line "   - SFSR:           " (FaultInfo.armv8_m_fault_registers t m 0),
        fmt_line "   - SFAR:           " (FaultInfo.armv8_m_fault_registers t m 1)]
    else []
  else []
/-- The text that opens the header. -/
def headsHeader : List String := ["\n--- Last recorded Fault information (v"]

/-- The texts that open what block "Print: Program Counter, MSP, PSP" prints
when the program counter is not known. -/
def headsPcUnknown : List String :=
  ["\n", "   - PC:             ", "unknown\n", "   - MSP:            ", "   - PSP:            ",
    "   - MSPLIM:         ", "   - PSPLIM:         "]

/-- The texts that open what the blocks other than the register blocks print. -/
def headsOther (v8 main : Bool) (pc : List String) : List String :=
  headsHeader ++ headsExceptionHandler v8 ++ headsState ++ headsMode ++ headsFaults main
    ++ pc ++ headsFaultRegisters main

/-- The texts that open what the blocks other than the register blocks print,
from the texts that open what the build-dependent blocks print. -/
def headsBlocks (eh st fl pc fr : List String) : List String :=
  headsHeader ++ eh ++ st ++ headsMode ++ fl ++ pc ++ fr

/-- The labels of the extended fields of the output: the Secure or Non-secure
text of the exception handler line, the state line, the stack limit lines,
the lines R4 to R11, the lines SFSR and SFAR. -/
def extendedFieldLabels : List String :=
  ["Secure - ", "Non-Secure - ", "  State:", "   - MSPLIM:", "   - PSPLIM:", "   - R4:",
    "   - R5:", "   - R6:", "   - R7:", "   - R8:", "   - R9:", "   - R10:", "   - R11:",
    "   - SFSR:", "   - SFAR:"]
/-- A record with its CRC and the sentinel stored over a given memory. -/
def stamp (t : Target) (m : Mem) : Mem :=
  write32 (write32 m (t.FaultInfo_addr + ofs_crc32) (FaultInfo.calc_crc32 t m))
    (t.FaultInfo_addr + ofs_magic_number) FR_MAGIC_NUMBER

/-- A trustworthy record on `cortexM4` whose `fault_regs` flag is clear (the
type word is `0x00000001`) and whose CFSR word is `0x00001000` (STKERR). -/
def noFlagMem : Mem :=
  stamp cortexM4 (fun a => if a = 0x20000008 then 1 else if a = 0x2000003D then 0x10 else 0)

/-- A fault line in the words of the specification: nothing if no cause bit of
the category is set in the status word `x`; otherwise the category header, the
fixed message of every cause whose bit is set (and of no other), the address
text if any, and the end of line. A cause whose mask the device header does not
define has no bit. -/
def faultLineSpec (header : String) (causes : List (Option Nat × String)) (x : Nat)
    (addr : List String) : List String :=
  if causes.any (fun c => tstOpt x c.1) then
    header :: ((causes.filter (fun c => tstOpt x c.1)).map Prod.snd ++ addr ++ ["\n"])
  else []

/-- The address text of a fault line: printed if the address valid bit is set. -/
def faultAddressSpec (x valid addr : Nat) : List String :=
  if tst x valid then [", fault address 0x" ++ fmt_08X addr] else []

/-- The causes of a HardFault, from HFSR, with their messages. -/
def hardFaultCauses (t : Target) : List (Option Nat × String) :=
  [(some t.SCB_HFSR_VECTTBL_Msk, "Bus error on vector read"),
    (some t.SCB_HFSR_FORCED_Msk,
      "Escalated fault (original fault was disabled or it caused another lower priority fault)"),
    (some t.SCB_HFSR_DEBUGEVT_Msk, "Breakpoint hit with Debug Monitor disabled")]

/-- The causes of a MemManage fault, from CFSR, with their messages. -/
def memManageCauses (t : Target) : List (Option Nat × String) :=
  [(some t.SCB_CFSR_IACCVIOL_Msk, "Instruction execution failure due to MPU violation or fault"),
    (some t.SCB_CFSR_DACCVIOL_Msk, "Data access failure due to MPU violation or fault"),
    (some t.SCB_CFSR_MUNSTKERR_Msk,
      "Exception exit unstacking failure due to MPU access violation"),
    (some t.SCB_CFSR_MSTKERR_Msk,
      "Exception entry stacking failure due to MPU access violation"),
    (t.SCB_CFSR_MLSPERR_Msk, "Floating-point lazy stacking failure due to MPU access violation")]

/-- The causes of a BusFault, from CFSR, with their messages. -/
def busFaultCauses (t : Target) : List (Option Nat × String) :=
  [(some t.SCB_CFSR_IBUSERR_Msk, "Instruction prefetch failure due to bus fault"),
    (some t.SCB_CFSR_PRECISERR_Msk, "Data access failure due to bus fault (precise)"),
    (some t.SCB_CFSR_IMPRECISERR_Msk, "Data access failure due to bus fault (imprecise)"),
    (some t.SCB_CFSR_UNSTKERR_Msk, "Exception exit unstacking failure due to bus fault"),
    (some t.SCB_CFSR_STKERR_Msk, "Exception entry stacking failure due to bus fault"),
    (t.SCB_CFSR_LSPERR_Msk, "Floating-point lazy stacking failure due to bus fault")]

/-- The causes of a UsageFault, from CFSR, with their messages. -/
def usageFaultCauses (t : Target) : List (Option Nat × String) :=
  [(some t.SCB_CFSR_UNDEFINSTR_Msk, "Execution of undefined instruction"),
    (some t.SCB_CFSR_INVSTATE_Msk, "Execution of Thumb instruction with Thumb mode turned off"),
    (some t.SCB_CFSR_INVPC_Msk, "Invalid exception return value"),
    (some t.SCB_CFSR_NOCP_Msk,
      "Coprocessor instruction with coprocessor disabled or non-existent"),
    (t.SCB_CFSR_STKOF_Msk, "Stack overflow"),
    (some t.SCB_CFSR_UNALIGNED_Msk, "Unaligned load/store"),
    (some t.SCB_CFSR_DIVBYZERO_Msk, "Divide by 0")]

/-- The causes of a SecureFault, from SFSR, with their messages. -/
def secureFaultCauses : List (Option Nat × String) :=
  [(some SAU_SFSR_INVEP_Msk, "Invalid entry point due to invalid attempt to enter Secure state"),
    (some SAU_SFSR_INVIS_Msk,
      "Invalid integrity signature in exception stack frame found on unstacking"),
    (some SAU_SFSR_INVER_Msk,
      "Invalid exception return due to mismatch on EXC_RETURN.DCRS or EXC_RETURN.ES"),
    (some SAU_SFSR_AUVIOL_Msk,
      "Attribution unit violation due to Non-secure access to Secure address space"),
    (some SAU_SFSR_INVTRAN_Msk,
      "Invalid transaction caused by domain crossing branch not flagged as such"),
    (some SAU_SFSR_LSPERR_Msk, "Lazy stacking preservation failure due to SAU or IDAU violation"),
    (some SAU_SFSR_LSERR_Msk, "Lazy stacking activation or deactivation failure")]
/-- The fault lines in the words of the specification, category by category:
HardFault from HFSR, MemManage, BusFault and UsageFault from CFSR, on a build
with fault status registers and for a record whose `fault_regs` flag is set;
SecureFault from SFSR, on an Armv8/8.1-M Mainline build and for a record whose
`secure` flag is set. -/
def faultLinesSpec (t : Target) (m : Mem) : List String :=
  if FR_FAULT_REGS_EXIST t.build then
    (if FaultInfo.type.fault_regs t m ≠ 0 then
      faultLineSpec "  Fault:             HardFault - " (hardFaultCauses t)
        (FaultInfo.fault_registers t m 1) []
      ++ faultLineSpec "  Fault:             MemManage - " (memManageCauses t)
        (FaultInfo.fault_registers t m 0)
        (faultAddressSpec (FaultInfo.fault_registers t m 0) t.SCB_CFSR_MMARVALID_Msk
          (FaultInfo.fault_registers t m 3))
      ++ faultLineSpec "  Fault:             BusFault - " (busFaultCauses t)
        (FaultInfo.fault_registers t m 0)
        (faultAddressSpec (FaultInfo.fault_registers t m 0) t.SCB_CFSR_BFARVALID_Msk
          (FaultInfo.fault_registers t m 4))
      ++ faultLineSpec "  Fault:             UsageFault - " (usageFaultCauses t)
        (FaultInfo.fault_registers t m 0) []
    else [])
    ++ (if FR_ARCH_ARMV8x_M_MAIN t.build = true ∧ FaultInfo.type.secure t m ≠ 0 then
      faultLineSpec "  Fault:             SecureFault - " secureFaultCauses
        (FaultInfo.armv8_m_fault_registers t m 0)
        (faultAddressSpec (FaultInfo.armv8_m_fault_registers t m 0) SAU_SFSR_SFARVALID_Msk
          (FaultInfo.armv8_m_fault_registers t m 1))
    else [])
  else []

/-- Every load among the accesses has an address and a size satisfying `P`. -/
def Access.loadsIn (P : Nat → Nat → Prop) : Access → Prop
  | Access.load a sz => P a sz
  | Access.store _ _ _ => True

/-- Between `s` and `s'` the trace grows and every load made has an address and
a size satisfying `P`. -/
def Reads (P : Nat → Nat → Prop) (s s' : Cpu) : Prop :=
  s'.trace = s.trace ++ newEvents s s' ∧ ∀ e ∈ newEvents s s', e.loadsIn P

/-- Bit 0 of `r4` at label `r3_points_to_stack:`: the Non-secure aliases are in
use, which is the case on a build with the Secure world paths when bit 6 (S) of
EXC_RETURN is clear (labels `load_msp_ns:` and `load_psp_ns:`). -/
def usesNonSecureAlias (t : Target) (s : Cpu) : Bool :=
  FR_SECURE t.build && decide (s.get .lr / 2^6 % 2 = 0)

/-- Value of `r3` at label `r3_points_to_stack:`: the stack pointer selected by
EXC_RETURN, PSP if bit 2 is set and MSP otherwise, of the Non-secure world if
the Non-secure aliases are in use. -/
def selectedStackPointer (t : Target) (s : Cpu) : Nat :=
  if s.get .lr / 2^2 % 2 = 1 then
    (if usesNonSecureAlias t s then s.sys .psp_ns else s.sys .psp)
  else
    (if usesNonSecureAlias t s then s.sys .msp_ns else s.sys .msp)

/-- Operand of the load at label `load_cfsr:`, `[cfsr_ns_addr]` if the
Non-secure aliases are in use and `[cfsr_addr]` otherwise. -/
def stackTestAddr (t : Target) (s : Cpu) : Nat :=
  if usesNonSecureAlias t s then cfsr_ns_addr t else cfsr_addr t

/-- The branch to label `stack_check_failed:` is taken: the build has fault
registers and the word loaded at label `load_cfsr:`, from memory as the clearing
of the record left it, has a bit of `SCB_CFSR_Stack_Err_Msk`. -/
def stackTestFailed (t : Target) (s : Cpu) : Bool :=
  FR_FAULT_REGS_EXIST t.build
    && (read32 (FaultRecord.clear t s).mem (stackTestAddr t s)
          &&& (SCB_CFSR_Stack_Err_Msk t % 2^32) != 0)

/-- Number of words section "State Context" reads at `r3` when it is not
skipped: the eight words of the basic frame, preceded on Armv8-M by the ten
words of the additional state context when bit 5 (DCRS) of EXC_RETURN is clear. -/
def frameWords (t : Target) (s : Cpu) : Nat :=
  if FR_ARCH_ARMV8x_M t.build && decide (s.get .lr / 2^5 % 2 = 0) then 18 else 8

/-- The load of the stack check: the word at the operand of `load_cfsr:`, on a
build with fault registers. -/
def stackTestLoad (t : Target) (s : Cpu) (a sz : Nat) : Prop :=
  FR_FAULT_REGS_EXIST t.build = true ∧ a = stackTestAddr t s % 2^32 ∧ sz = 4

/-- A load from the exception stack frame: a word at the selected stack pointer
plus `4 * j`, for `j` below the number of words of the frame. -/
def frameLoad (t : Target) (s : Cpu) (a sz : Nat) : Prop :=
  sz = 4 ∧ a ∈ (List.range (frameWords t s)).map
    (fun j => (selectedStackPointer t s + 4 * j) % 2^32)

/-- A load made after section "State Context": a word of a fault status register
(an offset of `SCB_Type` from `[scb_addr]` or `[scb_ns_addr]`), or a byte of the
record body read by `CalcCRC32`. -/
def statusOrBodyLoad (t : Target) (a sz : Nat) : Prop :=
  (sz = 4 ∧ a ∈ ([scb_addr t, scb_ns_addr t].flatMap (fun b =>
      [t.ofs_CFSR, t.ofs_HFSR, t.ofs_DFSR, t.ofs_MMFAR, t.ofs_BFAR, t.ofs_AFSR, t.ofs_SFSR,
        t.ofs_SFAR].map (fun o => (b + o) % 2^32))))
  ∨ (sz = 1 ∧ a ∈ (List.range (FR_CRC32_DATA_LEN t.build)).map
      (fun i => (t.FaultInfo_addr + ofs_type + i) % 2^32))

/-- State at the entry of section "State Context": the record is cleared, the
stack pointer selected, the stack check made and the type word stored. -/
def FaultRecord.upto_state_context (t : Target) (s : Cpu) : Cpu :=
  FaultRecord.type_information t (FaultRecord.stack_check t
    (FaultRecord.r3_points_to_stack t (FaultRecord.clear t s)))

/-- A processor state at the call `CalcCRC32(0xFFFFFFFF, data_ptr, 0, 0x04C11DB7)`. -/
def emptyCallCpu : Cpu :=
  { Cpu.init zeroMem with r0 := 0xFFFFFFFF, r1 := 0x20000008, r2 := 0, r3 := 0x04C11DB7 }

/-- The state line in the words of the specification: on an Armv8/8.1-M build
the label, "Secure" if the stored EXC_RETURN has a bit of `EXC_RETURN_S` and
"Non-Secure" if not, and the end of line; nothing on other builds. -/
def stateTextSpec (t : Target) (m : Mem) : List String :=
  if FR_ARCH_ARMV8x_M t.build then
    ["  State:             ",
      if FaultInfo.common_registers t m 1 &&& t.EXC_RETURN_S ≠ 0 then "Secure" else "Non-Secure",
      "\n"]
  else []

/-- The mode line in the words of the specification: the label, "Thread" if bit
2 of the stored EXC_RETURN is set and "Handler" if not, and the end of line. -/
def modeTextSpec (t : Target) (m : Mem) : List String :=
  ["  Mode:              ",
    if FaultInfo.common_registers t m 1 / 2^2 % 2 = 1 then "Thread" else "Handler",
    "\n"]

/-- The labels that open a line and are followed by a text. -/
def lineLabels : List String :=
  ["  Exception Handler: ", "  State:             ", "  Mode:              ",
    "  Fault:             "]

/-- The labels that open a line and are followed by a 32-bit value. -/
def valueLabels : List String :=
  ["   - PC:             ", "   - MSP:            ", "   - MSPLIM:         ",
    "   - PSP:            ", "   - PSPLIM:         ",
    "   - R0:             ", "   - R1:             ", "   - R2:             ",
    "   - R3:             ", "   - R4:             ", "   - R5:             ",
    "   - R6:             ", "   - R7:             ", "   - R8:             ",
    "   - R9:             ", "   - R10:            ", "   - R11:            ",
    "   - R12:            ", "   - LR:             ", "   - ReturnAddress:  ",
    "   - xPSR:           ",
    "   - CFSR:           ", "   - HFSR:           ", "   - DFSR:           ",
    "   - MMFAR:          ", "   - BFAR:           ", "   - AFSR:           ",
    "   - SFSR:           ", "   - SFAR:           "]

/-- The titles of the two register blocks: a line of their own, without a value. -/
def blockTitles : List String :=
  ["  Exception stacked state context:\n", "  Fault registers:\n"]

/-- The fixed messages of the fault causes. -/
def causeMessages : List String :=
  ["Bus error on vector read",
    "Escalated fault (original fault was disabled or it caused another lower priority fault)",
    "Breakpoint hit with Debug Monitor disabled",
    "Instruction execution failure due to MPU violation or fault",
    "Data access failure due to MPU violation or fault",
    "Exception exit unstacking failure due to MPU access violation",
    "Exception entry stacking failure due to MPU access violation",
    "Floating-point lazy stacking failure due to MPU access violation",
    "Instruction prefetch failure due to bus fault",
    "Data access failure due to bus fault (precise)",
    "Data access failure due to bus fault (imprecise)",
    "Exception exit unstacking failure due to bus fault",
    "Exception entry stacking failure due to bus fault",
    "Floating-point lazy stacking failure due to bus fault",
    "Execution of undefined instruction",
    "Execution of Thumb instruction with Thumb mode turned off",
    "Invalid exception return value",
    "Coprocessor instruction with coprocessor disabled or non-existent",
    "Stack overflow",
    "Unaligned load/store",
    "Divide by 0",
    "Invalid entry point due to invalid attempt to enter Secure state",
    "Invalid integrity signature in exception stack frame found on unstacking",
    "Invalid exception return due to mismatch on EXC_RETURN.DCRS or EXC_RETURN.ES",
    "Attribution unit violation due to Non-secure access to Secure address space",
    "Invalid transaction caused by domain crossing branch not flagged as such",
    "Lazy stacking preservation failure due to SAU or IDAU violation",
    "Lazy stacking activation or deactivation failure"]

/-- The texts printed as they stand, without a formatted value: the labels
printed on their own, the fault line headers, the block titles, the fixed
words and messages, the end of line. -/
def plainTexts : List String :=
  ["  Exception Handler: ", "  State:             ", "  Mode:              ",
    "  Fault:             HardFault - ", "  Fault:             MemManage - ",
    "  Fault:             BusFault - ", "  Fault:             UsageFault - ",
    "  Fault:             SecureFault - ", "   - PC:             "]
    ++ blockTitles
    ++ ["\n", "unknown\n", "Secure - ", "Non-Secure - ", "Secure", "Non-Secure", "Handler",
      "Thread"]
    ++ causeMessages

/-- A text of the output, by its form: a plain text, the header with the two
version numbers, the name of the exception, a label with a 32-bit value, a
32-bit value on its own (after the label of PC), a fault address. -/
def IsPrinted (x : String) : Prop :=
  x ∈ plainTexts
  ∨ (∃ major minor, x = "\n--- Last recorded Fault information (v" ++ fmt_u major ++ "."
      ++ fmt_u minor ++ ") ---\n\n")
  ∨ (∃ n, x = exceptionNameSpec n)
  ∨ (∃ l ∈ valueLabels, ∃ v, v < 2^32 ∧ x = l ++ "0x" ++ fmt_08X v ++ "\n")
  ∨ (∃ v, v < 2^32 ∧ x = "0x" ++ fmt_08X v ++ "\n")
  ∨ (∃ v, v < 2^32 ∧ x = ", fault address 0x" ++ fmt_08X v)

/-- Value of an upper-case hexadecimal digit. -/
def hexDigitValue (c : Char) : Nat :=
  if c.toNat < 58 then c.toNat - 48 else c.toNat - 55

/-- Value of a text of upper-case hexadecimal digits, most significant first. -/
def hexValue (cs : List Char) : Nat :=
  cs.foldl (fun a c => 16 * a + hexDigitValue c) 0

/-- The texts that open the header and the name of the exception. -/
def headsNames : List String :=
  ["\n--- Last recorded Fault information (v", "HardFault", "MemManage fault", "BusFault",
    "UsageFault", "SecureFault", "unknown, exception number = "]

/-- Shape of a label: 21 characters, of which two spaces of indent, a column of
18 characters holding the name, a colon and spaces only, and one space more. -/
def labelShape (l : List Char) : Bool :=
  l.length == 21 && l.take 2 == [' ', ' '] && l.drop 20 == [' ']
    && (l.take 20).contains ':'
    && (((l.take 20).dropWhile (fun c => c != ':')).drop 1).all (fun c => c == ' ')

/-- State at the entry of section "Common Registers". -/
def FaultRecord.upto_common_registers (t : Target) (s : Cpu) : Cpu :=
  FaultRecord.state_context t (FaultRecord.upto_state_context t s)

/-- State at the entry of section "Armv8/8.1-M specific Registers". -/
def FaultRecord.upto_armv8_m_registers (t : Target) (s : Cpu) : Cpu :=
  FaultRecord.common_registers t (FaultRecord.upto_common_registers t s)

/-- State at the entry of section "Fault Registers". -/
def FaultRecord.upto_fault_registers (t : Target) (s : Cpu) : Cpu :=
  FaultRecord.armv8_m_registers t (FaultRecord.upto_armv8_m_registers t s)

/-- The fault status registers lie outside the record and do not wrap around
the end of the address space: every word at an offset of `SCB_Type` from
`[scb_addr]` or `[scb_ns_addr]`. -/
def StatusOutside (t : Target) : Prop :=
  ∀ b ∈ [scb_addr t, scb_ns_addr t],
    ∀ o ∈ [t.ofs_CFSR, t.ofs_HFSR, t.ofs_DFSR, t.ofs_MMFAR, t.ofs_BFAR, t.ofs_AFSR, t.ofs_SFSR,
      t.ofs_SFAR],
      b + o + 4 ≤ 2^32
      ∧ (b + o + 4 ≤ t.FaultInfo_addr ∨ t.FaultInfo_addr + sizeof_FaultInfo t.build ≤ b + o)

/-- The texts that open what the blocks other than "Print: Program Counter, MSP,
PSP" print; `v8` is `FR_ARCH_ARMV8x_M`, `main` is `FR_ARCH_ARMV8x_M_MAIN`. -/
def headsNotPc (v8 main : Bool) : List String :=
  headsBlocks (headsExceptionHandler v8) headsState (headsFaults main) []
    (headsFaultRegisters main) ++ headsBaseRegisters ++ headsAdditional

/-- The branch `b splims_end` of section "Armv8/8.1-M specific Registers" is
taken: the build is Secure and Armv8-M Baseline and bit 0 of `r4`, the alias
flag, is set. -/
def limitsSkipped (t : Target) (s : Cpu) : Bool :=
  FR_SECURE t.build && FR_ARCH_ARMV8_M_BASE t.build && usesNonSecureAlias t s

/-- The texts that open what the blocks after the mode line print; `v8` is
`FR_ARCH_ARMV8x_M`, `main` is `FR_ARCH_ARMV8x_M_MAIN`. -/
def headsAfterMode (v8 main : Bool) : List String :=
  headsFaults main ++ headsPc v8 ++ headsFaultRegisters main ++ headsBaseRegisters
    ++ headsAdditional

/-- The texts that open the names of the exceptions. -/
def headsExceptionName : List String :=
  ["HardFault", "MemManage fault", "BusFault", "UsageFault", "SecureFault",
    "unknown, exception number = "]

/-- The nine ASCII bytes of "123456789". -/
def checkBytes : List Nat := [0x31, 0x32, 0x33, 0x34, 0x35, 0x36, 0x37, 0x38, 0x39]

/-- A memory holding the text "123456789" at address `0x20000100` and zero elsewhere. -/
def checkMem : Mem := fun a =>
  if 0x20000100 ≤ a ∧ a < 0x20000109 then 0x31 + (a - 0x20000100) else 0

/-- Entry state of a call `CalcCRC32(FR_CRC32_INIT_VAL, 0x20000100, 9,
FR_CRC32_POLYNOM)` over `checkMem`. -/
def checkCallCpu : Cpu :=
  { Cpu.init checkMem with r0 := 0xFFFFFFFF, r1 := 0x20000100, r2 := 9, r3 := 0x04C11DB7 }
/-- Entry state of a fault handler on `cortexM4` like `stkerrCpu`, with the
value `0x12345678` of the interrupted code in `r4`. -/
def r4Cpu : Cpu :=
  { stkerrCpu with r4 := 0x12345678 }
/-- Entry state of a fault handler on `cortexM33s` with EXC_RETURN `0xFFFFFFF9`,
whose bit 5 (DCRS) is set, over `zeroMem`. -/
def dcrsCpu : Cpu :=
  { Cpu.init zeroMem with lr := 0xFFFFFFF9 }

/-- A memory with a frame of 18 words at `0x20001000`: the integrity signature
`0xFEFA125B` in word 0, `0x44` in word 2 (R4) and the return address
`0x08001234` in word 16; zero elsewhere, in particular at the status registers. -/
def frameMem : Mem := fun a =>
  if a = 0x20001000 then 0x5B
  else if a = 0x20001001 then 0x12
  else if a = 0x20001002 then 0xFA
  else if a = 0x20001003 then 0xFE
  else if a = 0x20001008 then 0x44
  else if a = 0x20001040 then 0x34
  else if a = 0x20001041 then 0x12
  else if a = 0x20001042 then 0x00
  else if a = 0x20001043 then 0x08
  else 0

/-- Entry state of a fault handler on `cortexM33s`: EXC_RETURN `0xFFFFFFD9`
(Secure state, bit 5 (DCRS) clear, main stack), MSP `0x20001000`, over `frameMem`. -/
def frameCpu : Cpu :=
  { Cpu.init frameMem with lr := 0xFFFFFFD9, msp := 0x20001000, xpsr := 3 }

/-- A memory for `cortexM33s` holding a record body with the type word
`0x00070001` (version 0.1, the three flags set), a zero CFSR, the integrity
signature `0xFEFA125A` in word 0 of the additional state context and `0x44` in
its word 2 (R4); zero elsewhere. -/
def sigMem : Mem := fun a =>
  if a = 0x20000008 then 0x01
  else if a = 0x2000000A then 0x07
  else if a = 0x20000054 then 0x5A
  else if a = 0x20000055 then 0x12
  else if a = 0x20000056 then 0xFA
  else if a = 0x20000057 then 0xFE
  else if a = 0x2000005C then 0x44
  else 0

/-- The text of the source #defines `FR_ASC_INTEGRITY_SIG` for this build: the
`#define` stands inside `#if (FR_ARCH_ARMV8x_M_MAIN != 0)`, with the masks of the
Secure fault status register. -/
def FR_ASC_INTEGRITY_SIG_defined (b : Build) : Bool :=
  FR_ARCH_ARMV8x_M_MAIN b

/-- The text of the source uses `FR_ASC_INTEGRITY_SIG` for this build:
`FaultRecordPrint` compares the stored signature with it inside
`#if (FR_ARCH_ARMV8x_M != 0)`. -/
def FR_ASC_INTEGRITY_SIG_used (b : Build) : Bool :=
  FR_ARCH_ARMV8x_M b

/-- The source compiles for this build without a macro supplied from outside:
it does not use `FR_ASC_INTEGRITY_SIG` or it defines it. This fails for the
Armv8-M Baseline builds and for no other. -/
def compilesAsShipped (b : Build) : Bool :=
  !FR_ASC_INTEGRITY_SIG_used b || FR_ASC_INTEGRITY_SIG_defined b

/-- Entry state of a fault handler on `cortexM33s` taken from the Non-secure
state: EXC_RETURN `0xFFFFFFBC` (bit 6 (S) clear), with the stack limits
MSPLIM_NS `0x20000400`, PSPLIM_NS `0x20000800`, MSPLIM `0x30000400` and PSPLIM
`0x30000800`, over `zeroMem`. -/
def limitsCpu : Cpu :=
  { Cpu.init zeroMem with lr := 0xFFFFFFBC, msplim_ns := 0x20000400, psplim_ns := 0x20000800,
                          msplim := 0x30000400, psplim := 0x30000800 }

theorem get_lt (s : Cpu) (r : Reg) : s.get r < 2^32 := by
  cases r <;> exact Nat.mod_lt _ (by norm_num)

theorem read8_lt (m : Mem) (a : Nat) : read8 m a < 256 :=
  Nat.mod_lt _ (by norm_num)

theorem xor_lt32 {a b : Nat} (ha : a < 2^32) (hb : b < 2^32) : a ^^^ b < 2^32 :=
  Nat.xor_lt_two_pow ha hb

theorem CalcCRC32.skip_xor_spec (s : Cpu) :
    (CalcCRC32.skip_xor s).get .r0 = crcSpec.bitStep (s.get .r3) (s.get .r0)
    ∧ (CalcCRC32.skip_xor s).r1 = s.r1 ∧ (CalcCRC32.skip_xor s).r2 = s.r2
    ∧ (CalcCRC32.skip_xor s).r3 = s.r3 ∧ (CalcCRC32.skip_xor s).r4 = s.r4
    ∧ (CalcCRC32.skip_xor s).r12 = s.r12 ∧ (CalcCRC32.skip_xor s).lr = s.lr
    ∧ (CalcCRC32.skip_xor s).mem = s.mem ∧ (CalcCRC32.skip_xor s).trace = s.trace := by
  have h0 := get_lt s .r0
  have h3 := get_lt s .r3
  unfold CalcCRC32.skip_xor crcSpec.bitStep
  simp only [lsls, eors, Cpu.set, Cpu.setNZ, Cpu.get, Nat.testBit_to_div_mod, Nat.shiftLeft_eq] at *
  split
  · rename_i hc
    simp only [decide_eq_true_eq] at hc
    simp [hc]
    exact xor_lt32 (Nat.mod_lt _ (by norm_num)) (Nat.mod_lt _ (by norm_num))
  · rename_i hc
    simp only [decide_eq_true_eq] at hc
    simp [hc]

theorem CalcCRC32.skip_xor_iter (k : Nat) (s : Cpu) :
    (CalcCRC32.skip_xor^[k] s).get .r0 = (crcSpec.bitStep (s.get .r3))^[k] (s.get .r0)
    ∧ (CalcCRC32.skip_xor^[k] s).r1 = s.r1 ∧ (CalcCRC32.skip_xor^[k] s).r2 = s.r2
    ∧ (CalcCRC32.skip_xor^[k] s).r3 = s.r3 ∧ (CalcCRC32.skip_xor^[k] s).r4 = s.r4
    ∧ (CalcCRC32.skip_xor^[k] s).r12 = s.r12 ∧ (CalcCRC32.skip_xor^[k] s).lr = s.lr
    ∧ (CalcCRC32.skip_xor^[k] s).mem = s.mem ∧ (CalcCRC32.skip_xor^[k] s).trace = s.trace := by
  induction k generalizing s with
  | zero => simp
  | succ k ih =>
    obtain ⟨a0, a1, a2, a3, a4, a12, alr, amem, atr⟩ := CalcCRC32.skip_xor_spec s
    obtain ⟨b0, b1, b2, b3, b4, b12, blr, bmem, btr⟩ := ih (CalcCRC32.skip_xor s)
    have h3 : (CalcCRC32.skip_xor s).get .r3 = s.get .r3 := by simp [Cpu.get, a3]
    simp only [Function.iterate_succ, Function.comp_apply]
    refine ⟨?_, ?_, ?_, ?_, ?_, ?_, ?_, ?_, ?_⟩
    · rw [b0, a0, h3]
    · rw [b1, a1]
    · rw [b2, a2]
    · rw [b3, a3]
    · rw [b4, a4]
    · rw [b12, a12]
    · rw [blr, alr]
    · rw [bmem, amem]
    · rw [btr, atr]

/-- What one pass through the loop body of `CalcCRC32` does. -/
theorem CalcCRC32.loop_spec (s : Cpu) :
    (CalcCRC32.loop s).get .r0
        = crcSpec.byteStep (s.get .r3) (s.get .r0) (read8 s.mem (s.get .r1))
    ∧ (CalcCRC32.loop s).get .r1 = (s.get .r1 + 1) % 2^32
    ∧ (CalcCRC32.loop s).get .r2 = (2^32 - 1 + s.get .r2) % 2^32
    ∧ (CalcCRC32.loop s).get .r3 = s.get .r3
    ∧ (CalcCRC32.loop s).r12 = s.r12 ∧ (CalcCRC32.loop s).lr = s.lr
    ∧ (CalcCRC32.loop s).mem = s.mem
    ∧ (CalcCRC32.loop s).trace = s.trace ++ [Access.load (s.get .r1) 1] := by
  have hloop : CalcCRC32.loop s = subs .r2 .r2 1 (adds .r1 .r1 1
      (CalcCRC32.skip_xor^[8] (eors .r0 .r0 .r4 (lsls .r4 .r4 24 (ldrb .r4 .r1 s))))) := rfl
  rw [hloop]
  generalize hs0 : eors .r0 .r0 .r4 (lsls .r4 .r4 24 (ldrb .r4 .r1 s)) = s0
  have e0 : s0.get .r0 = s.get .r0 ^^^ (read8 s.mem (s.get .r1) <<< 24) := by
    have hb := read8_lt s.mem (s.get .r1)
    have h0 := get_lt s .r0
    have hx : read8 s.mem (s.get .r1) * 2^24 < 2^32 := by omega
    have hlt := xor_lt32 h0 hx
    subst hs0
    simp only [eors, lsls, ldrb, Cpu.get, Cpu.set, Cpu.setNZ, Nat.shiftLeft_eq, Nat.mod_mod] at *
    rw [Nat.mod_eq_of_lt (show read8 s.mem (s.r1 % 2^32) < 2^32 by omega), Nat.mod_eq_of_lt hx,
      Nat.mod_eq_of_lt hlt]
  have e1 : s0.r1 = s.r1 ∧ s0.r2 = s.r2 ∧ s0.r3 = s.r3 ∧ s0.r12 = s.r12 ∧ s0.lr = s.lr
      ∧ s0.mem = s.mem ∧ s0.trace = s.trace ++ [Access.load (s.get .r1) 1] := by
    subst hs0
    simp [eors, lsls, ldrb, Cpu.get, Cpu.set, Cpu.setNZ]
  obtain ⟨a1, a2, a3, a12, alr, amem, atr⟩ := e1
  obtain ⟨b0, b1, b2, b3, _, b12, blr, bmem, btr⟩ := CalcCRC32.skip_xor_iter 8 s0
  generalize CalcCRC32.skip_xor^[8] s0 = s8 at *
  have h3 : s0.get .r3 = s.get .r3 := by simp [Cpu.get, a3]
  refine ⟨?_, ?_, ?_, ?_, ?_, ?_, ?_, ?_⟩
  · have : (subs .r2 .r2 1 (adds .r1 .r1 1 s8)).get .r0 = s8.get .r0 := by
      simp [subs, adds, Cpu.get, Cpu.set, Cpu.setNZ]
    rw [this, b0, e0, h3]
    rfl
  · simp [subs, adds, Cpu.get, Cpu.set, Cpu.setNZ, addWithCarry, b1, a1]
    omega
  · simp [subs, adds, Cpu.get, Cpu.set, Cpu.setNZ, addWithCarry, not32, b2, a2]
  · simp [subs, adds, Cpu.get, Cpu.set, Cpu.setNZ, b3, a3]
  · simp [subs, adds, Cpu.get, Cpu.set, Cpu.setNZ, b12, a12]
  · simp [subs, adds, Cpu.get, Cpu.set, Cpu.setNZ, blr, alr]
  · simp [subs, adds, Cpu.get, Cpu.set, Cpu.setNZ, bmem, amem]
  · simp [subs, adds, Cpu.get, Cpu.set, Cpu.setNZ, btr, atr]

theorem cmp_r2_zero (s : Cpu) :
    ((cmp .r2 0 s).z = decide (s.get .r2 = 0))
    ∧ (∀ r, (cmp .r2 0 s).get r = s.get r)
    ∧ (cmp .r2 0 s).r12 = s.r12 ∧ (cmp .r2 0 s).lr = s.lr
    ∧ (cmp .r2 0 s).mem = s.mem ∧ (cmp .r2 0 s).trace = s.trace := by
  refine ⟨?_, ?_, by simp [cmp, Cpu.setNZ], by simp [cmp, Cpu.setNZ], by simp [cmp, Cpu.setNZ],
    by simp [cmp, Cpu.setNZ]⟩
  · have h := get_lt s .r2
    simp only [cmp, Cpu.setNZ, addWithCarry, not32, Cpu.get] at *
    simp
  · intro r
    cases r <;> simp [cmp, Cpu.get, Cpu.setNZ]

theorem bytesAt_succ (m : Mem) (p n : Nat) :
    bytesAt m p (n + 1) = read8 m p :: bytesAt m ((p + 1) % 2^32) n := by
  unfold bytesAt
  rw [List.range_succ_eq_map]
  simp only [List.map_cons, List.map_map, Nat.add_zero]
  congr 1
  apply List.map_congr_left
  intro i _
  simp only [Function.comp_apply, read8]
  congr 2
  omega

/-- The loop of `CalcCRC32` entered at `check:` with `r2 = n` runs the body `n`
times over the bytes at `r1` and leaves at `r0` the bit-serial checksum. -/
theorem CalcCRC32.check_spec (n : Nat) (s : Cpu) (hn : s.get .r2 = n) :
    (CalcCRC32.check s).get .r0
        = crcSpec (s.get .r0) (s.get .r3) (bytesAt s.mem (s.get .r1) n)
    ∧ (CalcCRC32.check s).r12 = s.r12 ∧ (CalcCRC32.check s).lr = s.lr
    ∧ (CalcCRC32.check s).mem = s.mem
    ∧ (CalcCRC32.check s).trace
        = s.trace ++ (List.range n).map (fun i => Access.load ((s.get .r1 + i) % 2^32) 1) := by
  induction n generalizing s with
  | zero =>
    obtain ⟨hz, hg, h12, hlr, hmem, htr⟩ := cmp_r2_zero s
    rw [CalcCRC32.check]
    simp only [hz, hn, decide_True, dite_true]
    refine ⟨?_, h12, hlr, hmem, ?_⟩
    · rw [hg]; rfl
    · simp [htr]
  | succ n ih =>
    obtain ⟨hz, hg, h12, hlr, hmem, htr⟩ := cmp_r2_zero s
    obtain ⟨l0, l1, l2, l3, l12, llr, lmem, ltr⟩ := CalcCRC32.loop_spec (cmp .r2 0 s)
    have hlt := get_lt s .r2
    have hn' : (CalcCRC32.loop (cmp .r2 0 s)).get .r2 = n := by
      rw [l2, hg, hn]; omega
    obtain ⟨i0, i12, ilr, imem, itr⟩ := ih (CalcCRC32.loop (cmp .r2 0 s)) hn'
    rw [CalcCRC32.check]
    have hzf : (cmp .r2 0 s).z = false := by rw [hz, hn]; simp
    simp only [hzf, Bool.false_eq_true, dite_false]
    refine ⟨?_, ?_, ?_, ?_, ?_⟩
    · rw [i0, l0, l1, l3, lmem, hmem, hg, hg, hg, bytesAt_succ]
      simp only [crcSpec, List.foldl_cons]
    · rw [i12, l12, h12]
    · rw [ilr, llr, hlr]
    · rw [imem, lmem, hmem]
    · rw [itr, ltr, l1, htr, hg, List.range_succ_eq_map]
      simp only [List.map_cons, List.map_map, List.append_assoc, List.singleton_append,
        Nat.add_zero]
      have e1 : s.get .r1 % 2^32 = s.get .r1 := Nat.mod_eq_of_lt (get_lt s .r1)
      have e2 : List.map ((fun i => Access.load (((s.get .r1 + 1) % 2^32 + i) % 2^32) 1))
          (List.range n)
          = List.map ((fun i => Access.load ((s.get .r1 + i) % 2^32) 1) ∘ Nat.succ)
            (List.range n) := by
        apply List.map_congr_left
        intro i _
        simp only [Function.comp_apply, Nat.succ_eq_add_one]
        have : ((s.get .r1 + 1) % 2^32 + i) % 2^32 = (s.get .r1 + (i + 1)) % 2^32 := by omega
        rw [this]
      rw [e1, e2]

/-- Effect of `CalcCRC32` on the result register, on memory and on the trace. -/
theorem CalcCRC32_spec (s : Cpu) :
    (CalcCRC32 s).get .r0
        = crcSpec (s.get .r0) (s.get .r3) (bytesAt s.mem (s.get .r1) (s.get .r2))
    ∧ (CalcCRC32 s).mem = s.mem
    ∧ (CalcCRC32 s).trace
        = s.trace ++ (List.range (s.get .r2)).map
            (fun i => Access.load ((s.get .r1 + i) % 2^32) 1) := by
  obtain ⟨h0, _, _, hmem, htr⟩ := CalcCRC32.check_spec (s.get .r2) (mov .r12 .r4 s) (by
    simp [mov, Cpu.get, Cpu.set])
  have e : ∀ u : Cpu, (mov .r4 .r12 u).get .r0 = u.get .r0 ∧ (mov .r4 .r12 u).mem = u.mem
      ∧ (mov .r4 .r12 u).trace = u.trace := by
    intro u; simp [mov, Cpu.get, Cpu.set]
  have e' : (mov .r12 .r4 s).get .r0 = s.get .r0 ∧ (mov .r12 .r4 s).get .r1 = s.get .r1
      ∧ (mov .r12 .r4 s).get .r3 = s.get .r3 ∧ (mov .r12 .r4 s).mem = s.mem
      ∧ (mov .r12 .r4 s).trace = s.trace := by
    simp [mov, Cpu.get, Cpu.set]
  obtain ⟨e0, e1, e3, emem, etr⟩ := e'
  unfold CalcCRC32
  simp only []
  rw [(e _).1, (e _).2.1, (e _).2.2, h0, hmem, htr, e0, e1, e3, emem, etr]
  exact ⟨rfl, rfl, rfl⟩

/-- The C call of `CalcCRC32` returns the bit-serial checksum of the bytes at `data_ptr`. -/
theorem CalcCRC32.call_eq (m : Mem) (init_val data_ptr data_len polynom : Nat) :
    CalcCRC32.call m init_val data_ptr data_len polynom
      = crcSpec (init_val % 2^32) (polynom % 2^32)
          (bytesAt m (data_ptr % 2^32) (data_len % 2^32)) := by
  unfold CalcCRC32.call
  rw [(CalcCRC32_spec _).1]
  rfl

/-! ### Reads after writes -/

theorem read8_write8 (m : Mem) (a v c : Nat) :
    read8 (write8 m a v) c = if c % 2^32 = a % 2^32 then v % 256 else read8 m c := by
  unfold read8 write8
  split <;> simp

theorem read8_write32 (m : Mem) (a v c : Nat)
    (h0 : c % 2^32 ≠ a % 2^32) (h1 : c % 2^32 ≠ (a + 1) % 2^32)
    (h2 : c % 2^32 ≠ (a + 2) % 2^32) (h3 : c % 2^32 ≠ (a + 3) % 2^32) :
    read8 (write32 m a v) c = read8 m c := by
  unfold write32
  rw [read8_write8, if_neg h3, read8_write8, if_neg h2, read8_write8, if_neg h1, read8_write8,
    if_neg h0]

theorem read32_write32_same (m : Mem) (a v : Nat) :
    read32 (write32 m a v) a = v % 2^32 := by
  unfold read32 write32
  simp only [read8_write8]
  have e1 : ¬ (a % 2^32 = (a + 1) % 2^32) := by omega
  have e2 : ¬ (a % 2^32 = (a + 2) % 2^32) := by omega
  have e3 : ¬ (a % 2^32 = (a + 3) % 2^32) := by omega
  have e4 : ¬ ((a + 1) % 2^32 = (a + 2) % 2^32) := by omega
  have e5 : ¬ ((a + 1) % 2^32 = (a + 3) % 2^32) := by omega
  have e6 : ¬ ((a + 2) % 2^32 = (a + 3) % 2^32) := by omega
  simp only [e1, e2, e3, e4, e5, e6, if_true, if_false]
  omega

/-- A word read is not affected by a word write to a disjoint place. -/
theorem read32_write32_disjoint (m : Mem) (a v c : Nat) (ha : a + 4 ≤ 2^32) (hc : c + 4 ≤ 2^32)
    (h : a + 4 ≤ c ∨ c + 4 ≤ a) : read32 (write32 m a v) c = read32 m c := by
  unfold read32
  rw [read8_write32 m a v c (by omega) (by omega) (by omega) (by omega),
    read8_write32 m a v (c + 1) (by omega) (by omega) (by omega) (by omega),
    read8_write32 m a v (c + 2) (by omega) (by omega) (by omega) (by omega),
    read8_write32 m a v (c + 3) (by omega) (by omega) (by omega) (by omega)]

/-- The bytes of a range are not affected by a word write outside the range. -/
theorem bytesAt_write32 (m : Mem) (a v p n : Nat) (ha : a + 4 ≤ 2^32) (hp : p + n ≤ 2^32)
    (h : a + 4 ≤ p ∨ p + n ≤ a) : bytesAt (write32 m a v) p n = bytesAt m p n := by
  unfold bytesAt
  apply List.map_congr_left
  intro i hi
  have hi' : i < n := List.mem_range.mp hi
  exact read8_write32 m a v (p + i) (by omega) (by omega) (by omega) (by omega)


theorem write8_mod (m : Mem) (a v : Nat) : write8 m (a % 4294967296) v = write8 m a v := by
  unfold write8
  simp

theorem write32_mod (m : Mem) (a v : Nat) : write32 m (a % 4294967296) v = write32 m a v := by
  unfold write32
  have e : ∀ (m : Mem) (k v : Nat), write8 m (a % 4294967296 + k) v = write8 m (a + k) v := by
    intro m k v
    unfold write8
    simp
  rw [e, e, e, write8_mod]

theorem read8_mod (m : Mem) (a : Nat) : read8 m (a % 4294967296) = read8 m a := by
  unfold read8
  simp

theorem read32_mod (m : Mem) (a : Nat) : read32 m (a % 4294967296) = read32 m a := by
  unfold read32
  have e : ∀ k, read8 m (a % 4294967296 + k) = read8 m (a + k) := by
    intro k
    unfold read8
    simp
  rw [e, e, e, read8_mod]

theorem sizeof_FaultInfo_ge (b : Build) : 60 ≤ sizeof_FaultInfo b ∧ sizeof_FaultInfo b ≤ 140 := by
  cases b <;> simp [sizeof_FaultInfo, ofs_additonal_state_context, ofs_fault_registers,
    ofs_common_registers, ofs_state_context, ofs_type, sizeof_FaultInfoType, sizeof_StateContext,
    sizeof_CommonRegisters, sizeof_FaultRegisters, sizeof_AdditionalStateContext,
    sizeof_Armv8mRegisters, sizeof_Armv8mFaultRegisters, FR_FAULT_REGS_EXIST, FR_ARCH_ARMV8x_M,
    FR_ARCH_ARMV8x_M_MAIN]

/-- The checksum of the record body held by a memory, as a value of the specification. -/
theorem FaultInfo.calc_crc32_eq (t : Target) (m : Mem)
    (hfit : t.FaultInfo_addr + sizeof_FaultInfo t.build ≤ 2^32) :
    FaultInfo.calc_crc32 t m
      = crcSpec FR_CRC32_INIT_VAL FR_CRC32_POLYNOM
          (bytesAt m (t.FaultInfo_addr + ofs_type) (FR_CRC32_DATA_LEN t.build)) := by
  have hs := sizeof_FaultInfo_ge t.build
  unfold FaultInfo.calc_crc32
  rw [CalcCRC32.call_eq]
  have e1 : (t.FaultInfo_addr + ofs_type) % 2^32 = t.FaultInfo_addr + ofs_type := by
    simp only [ofs_type]; omega
  have e2 : FR_CRC32_DATA_LEN t.build % 2^32 = FR_CRC32_DATA_LEN t.build := by
    simp only [FR_CRC32_DATA_LEN]; omega
  rw [e1, e2]
  rfl

/-- Section of `FaultRecord` that computes and stores the CRC: effect on memory. -/
theorem FaultRecord.crc32_mem (t : Target) (s : Cpu)
    (hfit : t.FaultInfo_addr + sizeof_FaultInfo t.build ≤ 2^32) :
    (FaultRecord.crc32 t s).mem
      = write32 s.mem (t.FaultInfo_addr + ofs_crc32) (FaultInfo.calc_crc32 t s.mem) := by
  have hs := sizeof_FaultInfo_ge t.build
  rw [FaultInfo.calc_crc32_eq t s.mem hfit]
  unfold FaultRecord.crc32
  simp only []
  generalize hu : bl t.ret_CalcCRC32 (ldr_const .r3 FR_CRC32_POLYNOM
    (ldr_const .r2 (FR_CRC32_DATA_LEN t.build) (ldr_const .r1 (t.FaultInfo_addr + ofs_type)
    (ldr_const .r0 FR_CRC32_INIT_VAL s)))) = u
  have hu0 : u.get .r0 = FR_CRC32_INIT_VAL ∧ u.get .r1 = t.FaultInfo_addr + ofs_type
      ∧ u.get .r2 = FR_CRC32_DATA_LEN t.build ∧ u.get .r3 = FR_CRC32_POLYNOM ∧ u.mem = s.mem := by
    subst hu
    simp only [bl, ldr_const, Cpu.get, Cpu.set, FR_CRC32_INIT_VAL, FR_CRC32_POLYNOM,
      FR_CRC32_DATA_LEN, ofs_type]
    refine ⟨by norm_num, by omega, by omega, by norm_num, trivial⟩
  obtain ⟨u0, u1, u2, u3, um⟩ := hu0
  obtain ⟨c0, cm, _⟩ := CalcCRC32_spec u
  generalize CalcCRC32 u = w at *
  have e : (str .r0 .r2 (ldr_const .r2 (t.FaultInfo_addr + ofs_crc32) w)).mem
      = write32 w.mem ((t.FaultInfo_addr + ofs_crc32) % 2^32) (w.get .r0) := by
    simp [str, ldr_const, Cpu.get, Cpu.set]
  have e4 : (t.FaultInfo_addr + ofs_crc32) % 2^32 = t.FaultInfo_addr + ofs_crc32 := by
    simp only [ofs_crc32]; omega
  rw [e, c0, cm, u0, u1, u2, u3, um, e4]

/-- Memory at the entry of the exit hook: the memory left by the capture of the
fields, then the CRC word, then the magic word. -/
theorem FaultRecord_mem (t : Target) (s : Cpu)
    (hfit : t.FaultInfo_addr + sizeof_FaultInfo t.build ≤ 2^32) :
    ∃ m : Mem, (FaultRecord t s).mem
      = write32 (write32 m (t.FaultInfo_addr + ofs_crc32) (FaultInfo.calc_crc32 t m))
          (t.FaultInfo_addr + ofs_magic_number) FR_MAGIC_NUMBER := by
  have hs := sizeof_FaultInfo_ge t.build
  unfold FaultRecord FaultRecord.body
  simp only []
  generalize FaultRecord.fault_registers t _ = u
  refine ⟨u.mem, ?_⟩
  have e : ∀ w : Cpu, (bl t.ret_FaultRecordOnExit (mov .r4 .r12 (FaultRecord.magic_number t w))).mem
      = write32 w.mem (t.FaultInfo_addr + ofs_magic_number) FR_MAGIC_NUMBER := by
    intro w
    simp [bl, mov, FaultRecord.magic_number, str, ldr_const, Cpu.get, Cpu.set, write32_mod,
      FR_MAGIC_NUMBER]
  rw [e, FaultRecord.crc32_mem t u hfit]

/-- A memory in which the CRC word and then the magic word have been stored
holds a record that passes both checks of `FaultRecordPrint`. -/
theorem stamped_valid (t : Target) (m : Mem)
    (hfit : t.FaultInfo_addr + sizeof_FaultInfo t.build ≤ 2^32) :
    let m' := write32 (write32 m (t.FaultInfo_addr + ofs_crc32) (FaultInfo.calc_crc32 t m))
      (t.FaultInfo_addr + ofs_magic_number) FR_MAGIC_NUMBER
    FaultInfo.magic_number t m' = FR_MAGIC_NUMBER
    ∧ FaultInfo.crc32 t m' = FaultInfo.calc_crc32 t m' := by
  have hs := sizeof_FaultInfo_ge t.build
  intro m'
  have hlt : FaultInfo.calc_crc32 t m < 2^32 := by
    unfold FaultInfo.calc_crc32 CalcCRC32.call
    exact get_lt _ _
  constructor
  · show read32 m' (t.FaultInfo_addr + ofs_magic_number) = FR_MAGIC_NUMBER
    rw [read32_write32_same]
    simp [FR_MAGIC_NUMBER]
  · have e1 : FaultInfo.calc_crc32 t m' = FaultInfo.calc_crc32 t m := by
      rw [FaultInfo.calc_crc32_eq t m' hfit, FaultInfo.calc_crc32_eq t m hfit]
      congr 1
      show bytesAt (write32 (write32 m _ _) _ _) _ _ = _
      simp only [ofs_type, ofs_magic_number, ofs_crc32, FR_CRC32_DATA_LEN] at *
      rw [bytesAt_write32 _ _ _ _ _ (by omega) (by omega) (by omega),
        bytesAt_write32 _ _ _ _ _ (by omega) (by omega) (by omega)]
    rw [e1]
    show read32 (write32 (write32 m _ _) _ _) (t.FaultInfo_addr + ofs_crc32) = _
    simp only [ofs_magic_number, ofs_crc32] at *
    rw [read32_write32_disjoint _ _ _ _ (by omega) (by omega) (by omega), read32_write32_same]
    exact Nat.mod_eq_of_lt hlt

set_option linter.unusedTactic false
set_option linter.unreachableTactic false
set_option linter.unusedVariables false

/-! ## Lemmas on `FaultRecordPrint` -/

@[simp] theorem FR_PRINT_mem (x : String) (w : World) : (FR_PRINT x w).mem = w.mem := rfl

@[simp] theorem FR_PRINT_out (x : String) (w : World) : (FR_PRINT x w).out = w.out ++ [x] := rfl

@[simp] theorem FR_PRINT_if_mem (c : Bool) (x : String) (w : World) :
    (FR_PRINT_if c x w).mem = w.mem := by
  unfold FR_PRINT_if; split <;> rfl

@[simp] theorem FR_PRINT_if_out (c : Bool) (x : String) (w : World) :
    (FR_PRINT_if c x w).out = w.out ++ (if c then [x] else []) := by
  unfold FR_PRINT_if; split <;> simp

theorem FaultRecordPrint_eq_decode (t : Target) (w : World) :
    FaultRecordPrint t w
      = FaultRecordPrint.decode t
          (FaultRecordPrint.check_crc t (FaultRecordPrint.check_magic t w).1
            (FaultRecordPrint.check_magic t w).2).1
          (FaultRecordPrint.state_context_valid t
            (FaultRecordPrint.check_crc t (FaultRecordPrint.check_magic t w).1
              (FaultRecordPrint.check_magic t w).2).2)
          (FaultRecordPrint.check_crc t (FaultRecordPrint.check_magic t w).1
            (FaultRecordPrint.check_magic t w).2).2 := rfl

/-- With `fault_info_valid == 0` no block after the checks prints anything. -/
theorem FaultRecordPrint.decode_false (t : Target) (scv : Bool) (w : World) :
    FaultRecordPrint.decode t false scv w = w := by
  simp [FaultRecordPrint.decode, FaultRecordPrint.exception_handler, FaultRecordPrint.state,
    FaultRecordPrint.mode, FaultRecordPrint.faults, FaultRecordPrint.hard_fault,
    FaultRecordPrint.mem_manage, FaultRecordPrint.bus_fault, FaultRecordPrint.usage_fault,
    FaultRecordPrint.secure_fault, FaultRecordPrint.pc_msp_psp,
    FaultRecordPrint.state_context_r0_r3, FaultRecordPrint.additional_state_context,
    FaultRecordPrint.state_context_r12_xpsr, FaultRecordPrint.fault_registers]

/-- Output of `FaultRecordPrint` when the magic number is not the sentinel: nothing. -/
theorem FaultRecordPrint_no_magic (t : Target) (w : World)
    (h : FaultInfo.magic_number t w.mem ≠ FR_MAGIC_NUMBER) : FaultRecordPrint t w = w := by
  rw [FaultRecordPrint_eq_decode]
  simp [FaultRecordPrint.check_magic, FaultRecordPrint.check_crc, h,
    FaultRecordPrint.decode_false]

/-- Output of `FaultRecordPrint` when the magic number is the sentinel and the
CRC does not match: the header, then the invalid CRC report. -/
theorem FaultRecordPrint_bad_crc (t : Target) (w : World)
    (h : FaultInfo.magic_number t w.mem = FR_MAGIC_NUMBER)
    (hc : FaultInfo.crc32 t w.mem ≠ FaultInfo.calc_crc32 t w.mem) :
    FaultRecordPrint t w
      = { mem := w.mem, out := w.out ++ [headerText t w.mem, invalidCrcText] } := by
  rw [FaultRecordPrint_eq_decode]
  simp [FaultRecordPrint.check_magic, FaultRecordPrint.check_crc, h, hc,
    FaultRecordPrint.decode_false, FR_PRINT, headerText, invalidCrcText]

/-- Output of `FaultRecordPrint` on a trustworthy record: the header, then the decoded blocks. -/
theorem FaultRecordPrint_valid (t : Target) (w : World) (h : Trustworthy t w.mem) :
    FaultRecordPrint t w
      = FaultRecordPrint.decode t true
          (FaultRecordPrint.state_context_valid t w)
          { mem := w.mem, out := w.out ++ [headerText t w.mem] } := by
  rw [FaultRecordPrint_eq_decode]
  obtain ⟨h1, h2⟩ := h
  simp [FaultRecordPrint.check_magic, FaultRecordPrint.check_crc, h1, h2, FR_PRINT, headerText,
    FaultRecordPrint.state_context_valid]

theorem Local.id : Local (fun w => w) := by
  intro w; simp

theorem Local.comp {f g : World → World} (hf : Local f) (hg : Local g) :
    Local (fun w => g (f w)) := by
  intro w
  obtain ⟨f1, f2⟩ := hf w
  obtain ⟨g1, g2⟩ := hg (f w)
  obtain ⟨f3, f4⟩ := hf ⟨w.mem, []⟩
  obtain ⟨g3, g4⟩ := hg (f ⟨w.mem, []⟩)
  simp only [List.nil_append] at f3 f4 g3 g4
  refine ⟨by rw [g1, f1], ?_⟩
  rw [g2, f2, g4, f1, f3, List.append_assoc]

theorem textOf_comp {f g : World → World} (hf : Local f) (hg : Local g) (m : Mem) :
    textOf (fun w => g (f w)) m = textOf f m ++ textOf g m := by
  unfold textOf
  obtain ⟨f3, _⟩ := hf ⟨m, []⟩
  obtain ⟨_, g4⟩ := hg (f ⟨m, []⟩)
  rw [g4, f3]

theorem Local.apply {f : World → World} (hf : Local f) (w : World) :
    f w = { mem := w.mem, out := w.out ++ textOf f w.mem } := by
  obtain ⟨h1, h2⟩ := hf w
  cases hfw : f w with
  | mk m o =>
    rw [hfw] at h1 h2
    simp only at h1 h2
    rw [h1, h2]
    rfl

theorem Local.exception_handler (t : Target) (v : Bool) : Local (FaultRecordPrint.exception_handler t v) := by
  intro w
  unfold FaultRecordPrint.exception_handler
  simp only [FR_PRINT_mem, FR_PRINT_if_mem]
  repeat' split
  all_goals simp_all

theorem Local.state (t : Target) (v : Bool) : Local (FaultRecordPrint.state t v) := by
  intro w
  unfold FaultRecordPrint.state
  simp only [FR_PRINT_mem, FR_PRINT_if_mem]
  repeat' split
  all_goals simp_all

theorem Local.mode (t : Target) (v : Bool) : Local (FaultRecordPrint.mode t v) := by
  intro w
  unfold FaultRecordPrint.mode
  simp only [FR_PRINT_mem, FR_PRINT_if_mem]
  repeat' split
  all_goals simp_all

theorem Local.hard_fault (t : Target) (v : Bool) : Local (FaultRecordPrint.hard_fault t v) := by
  intro w
  unfold FaultRecordPrint.hard_fault
  simp only [FR_PRINT_mem, FR_PRINT_if_mem]
  repeat' split
  all_goals simp_all

theorem Local.mem_manage (t : Target) (v : Bool) : Local (FaultRecordPrint.mem_manage t v) := by
  intro w
  unfold FaultRecordPrint.mem_manage
  simp only [FR_PRINT_mem, FR_PRINT_if_mem]
  repeat' split
  all_goals simp_all

theorem Local.bus_fault (t : Target) (v : Bool) : Local (FaultRecordPrint.bus_fault t v) := by
  intro w
  unfold FaultRecordPrint.bus_fault
  simp only [FR_PRINT_mem, FR_PRINT_if_mem]
  repeat' split
  all_goals simp_all

theorem Local.usage_fault (t : Target) (v : Bool) : Local (FaultRecordPrint.usage_fault t v) := by
  intro w
  unfold FaultRecordPrint.usage_fault
  simp only [FR_PRINT_mem, FR_PRINT_if_mem]
  repeat' split
  all_goals simp_all

theorem Local.secure_fault (t : Target) (v : Bool) : Local (FaultRecordPrint.secure_fault t v) := by
  intro w
  unfold FaultRecordPrint.secure_fault
  simp only [FR_PRINT_mem, FR_PRINT_if_mem]
  repeat' split
  all_goals simp_all

theorem Local.pc_msp_psp (t : Target) (v : Bool) : Local (FaultRecordPrint.pc_msp_psp t v) := by
  intro w
  unfold FaultRecordPrint.pc_msp_psp
  simp only [FR_PRINT_mem, FR_PRINT_if_mem]
  repeat' split
  all_goals simp_all

theorem Local.fault_registers (t : Target) (v : Bool) : Local (FaultRecordPrint.fault_registers t v) := by
  intro w
  unfold FaultRecordPrint.fault_registers
  simp only [FR_PRINT_mem, FR_PRINT_if_mem]
  repeat' split
  all_goals simp_all

theorem Local.state_context_r0_r3 (t : Target) (v scv : Bool) : Local (FaultRecordPrint.state_context_r0_r3 t v scv) := by
  intro w
  unfold FaultRecordPrint.state_context_r0_r3
  simp only [FR_PRINT_mem, FR_PRINT_if_mem]
  repeat' split
  all_goals simp_all

theorem Local.additional_state_context (t : Target) (v scv : Bool) : Local (FaultRecordPrint.additional_state_context t v scv) := by
  intro w
  unfold FaultRecordPrint.additional_state_context
  simp only [FR_PRINT_mem, FR_PRINT_if_mem]
  repeat' split
  all_goals simp_all

theorem Local.state_context_r12_xpsr (t : Target) (v scv : Bool) : Local (FaultRecordPrint.state_context_r12_xpsr t v scv) := by
  intro w
  unfold FaultRecordPrint.state_context_r12_xpsr
  simp only [FR_PRINT_mem, FR_PRINT_if_mem]
  repeat' split
  all_goals simp_all

/-- First character of a text, if any. -/
theorem head_append (a b : String) (c : Char) (r : List Char) (h : a.data = c :: r) :
    (a ++ b).data = c :: (r ++ b.data) := by
  simp [String.data_append, h]

theorem invalidCrcText_head :
    invalidCrcText.data = '\n' :: "  Invalid CRC of the recorded fault information !!!\n\n".data := by
  decide

theorem invalid_ne_of_head (x : String) (c : Char) (r : List Char)
    (h : x.data = c :: r) (hc : c ≠ '\n') : ¬ invalidCrcText = x := by
  intro e
  rw [← e, invalidCrcText_head] at h
  exact hc (List.cons.inj h).1.symm

theorem invalid_ne_append (a b : String) (c : Char) (r : List Char)
    (h : a.data = c :: r) (hc : c ≠ '\n') : ¬ invalidCrcText = a ++ b :=
  invalid_ne_of_head _ c _ (head_append a b c r h) hc

theorem invalid_ne_fmt_line (l : String) (x : Nat) (c : Char) (r : List Char)
    (h : l.data = c :: r) (hc : c ≠ '\n') : ¬ invalidCrcText = fmt_line l x := by
  unfold fmt_line
  exact invalid_ne_of_head _ c _
    (head_append _ _ c _ (head_append _ _ c _ (head_append _ _ c _ h))) hc

theorem FaultRecordPrint.exception_handler_no_invalid (t : Target) (v : Bool) (m : Mem) :
    invalidCrcText ∉ textOf (FaultRecordPrint.exception_handler t v) m := by
  unfold textOf FaultRecordPrint.exception_handler
  simp only [FR_PRINT_mem, FR_PRINT_if_mem]
  repeat' split
  all_goals simp
  all_goals (repeat' apply And.intro)
  all_goals (intros)
  all_goals first
    | decide
    | exact invalid_ne_fmt_line _ _ ' ' _ rfl (by decide)
    | exact invalid_ne_append _ _ '0' _ (head_append _ _ '0' _ rfl) (by decide)
    | exact invalid_ne_append _ _ 'u' _ rfl (by decide)
    | exact invalid_ne_append _ _ ',' _ rfl (by decide)

theorem FaultRecordPrint.state_no_invalid (t : Target) (v : Bool) (m : Mem) :
    invalidCrcText ∉ textOf (FaultRecordPrint.state t v) m := by
  unfold textOf FaultRecordPrint.state
  simp only [FR_PRINT_mem, FR_PRINT_if_mem]
  repeat' split
  all_goals simp
  all_goals (repeat' apply And.intro)
  all_goals (intros)
  all_goals first
    | decide
    | exact invalid_ne_fmt_line _ _ ' ' _ rfl (by decide)
    | exact invalid_ne_append _ _ '0' _ (head_append _ _ '0' _ rfl) (by decide)
    | exact invalid_ne_append _ _ 'u' _ rfl (by decide)
    | exact invalid_ne_append _ _ ',' _ rfl (by decide)

theorem FaultRecordPrint.mode_no_invalid (t : Target) (v : Bool) (m : Mem) :
    invalidCrcText ∉ textOf (FaultRecordPrint.mode t v) m := by
  unfold textOf FaultRecordPrint.mode
  simp only [FR_PRINT_mem, FR_PRINT_if_mem]
  repeat' split
  all_goals simp
  all_goals (repeat' apply And.intro)
  all_goals (intros)
  all_goals first
    | decide
    | exact invalid_ne_fmt_line _ _ ' ' _ rfl (by decide)
    | exact invalid_ne_append _ _ '0' _ (head_append _ _ '0' _ rfl) (by decide)
    | exact invalid_ne_append _ _ 'u' _ rfl (by decide)
    | exact invalid_ne_append _ _ ',' _ rfl (by decide)

theorem FaultRecordPrint.hard_fault_no_invalid (t : Target) (v : Bool) (m : Mem) :
    invalidCrcText ∉ textOf (FaultRecordPrint.hard_fault t v) m := by
  unfold textOf FaultRecordPrint.hard_fault
  simp only [FR_PRINT_mem, FR_PRINT_if_mem]
  repeat' split
  all_goals simp
  all_goals (repeat' apply And.intro)
  all_goals (intros)
  all_goals first
    | decide
    | exact invalid_ne_fmt_line _ _ ' ' _ rfl (by decide)
    | exact invalid_ne_append _ _ '0' _ (head_append _ _ '0' _ rfl) (by decide)
    | exact invalid_ne_append _ _ 'u' _ rfl (by decide)
    | exact invalid_ne_append _ _ ',' _ rfl (by decide)

theorem FaultRecordPrint.mem_manage_no_invalid (t : Target) (v : Bool) (m : Mem) :
    invalidCrcText ∉ textOf (FaultRecordPrint.mem_manage t v) m := by
  unfold textOf FaultRecordPrint.mem_manage
  simp only [FR_PRINT_mem, FR_PRINT_if_mem]
  repeat' split
  all_goals simp
  all_goals (repeat' apply And.intro)
  all_goals (intros)
  all_goals first
    | decide
    | exact invalid_ne_fmt_line _ _ ' ' _ rfl (by decide)
    | exact invalid_ne_append _ _ '0' _ (head_append _ _ '0' _ rfl) (by decide)
    | exact invalid_ne_append _ _ 'u' _ rfl (by decide)
    | exact invalid_ne_append _ _ ',' _ rfl (by decide)

theorem FaultRecordPrint.bus_fault_no_invalid (t : Target) (v : Bool) (m : Mem) :
    invalidCrcText ∉ textOf (FaultRecordPrint.bus_fault t v) m := by
  unfold textOf FaultRecordPrint.bus_fault
  simp only [FR_PRINT_mem, FR_PRINT_if_mem]
  repeat' split
  all_goals simp
  all_goals (repeat' apply And.intro)
  all_goals (intros)
  all_goals first
    | decide
    | exact invalid_ne_fmt_line _ _ ' ' _ rfl (by decide)
    | exact invalid_ne_append _ _ '0' _ (head_append _ _ '0' _ rfl) (by decide)
    | exact invalid_ne_append _ _ 'u' _ rfl (by decide)
    | exact invalid_ne_append _ _ ',' _ rfl (by decide)

theorem FaultRecordPrint.usage_fault_no_invalid (t : Target) (v : Bool) (m : Mem) :
    invalidCrcText ∉ textOf (FaultRecordPrint.usage_fault t v) m := by
  unfold textOf FaultRecordPrint.usage_fault
  simp only [FR_PRINT_mem, FR_PRINT_if_mem]
  repeat' split
  all_goals simp
  all_goals (repeat' apply And.intro)
  all_goals (intros)
  all_goals first
    | decide
    | exact invalid_ne_fmt_line _ _ ' ' _ rfl (by decide)
    | exact invalid_ne_append _ _ '0' _ (head_append _ _ '0' _ rfl) (by decide)
    | exact invalid_ne_append _ _ 'u' _ rfl (by decide)
    | exact invalid_ne_append _ _ ',' _ rfl (by decide)

theorem FaultRecordPrint.secure_fault_no_invalid (t : Target) (v : Bool) (m : Mem) :
    invalidCrcText ∉ textOf (FaultRecordPrint.secure_fault t v) m := by
  unfold textOf FaultRecordPrint.secure_fault
  simp only [FR_PRINT_mem, FR_PRINT_if_mem]
  repeat' split
  all_goals simp
  all_goals (repeat' apply And.intro)
  all_goals (intros)
  all_goals first
    | decide
    | exact invalid_ne_fmt_line _ _ ' ' _ rfl (by decide)
    | exact invalid_ne_append _ _ '0' _ (head_append _ _ '0' _ rfl) (by decide)
    | exact invalid_ne_append _ _ 'u' _ rfl (by decide)
    | exact invalid_ne_append _ _ ',' _ rfl (by decide)

theorem FaultRecordPrint.pc_msp_psp_no_invalid (t : Target) (v : Bool) (m : Mem) :
    invalidCrcText ∉ textOf (FaultRecordPrint.pc_msp_psp t v) m := by
  unfold textOf FaultRecordPrint.pc_msp_psp
  simp only [FR_PRINT_mem, FR_PRINT_if_mem]
  repeat' split
  all_goals simp
  all_goals (repeat' apply And.intro)
  all_goals (intros)
  all_goals first
    | decide
    | exact invalid_ne_fmt_line _ _ ' ' _ rfl (by decide)
    | exact invalid_ne_append _ _ '0' _ (head_append _ _ '0' _ rfl) (by decide)
    | exact invalid_ne_append _ _ 'u' _ rfl (by decide)
    | exact invalid_ne_append _ _ ',' _ rfl (by decide)

theorem FaultRecordPrint.fault_registers_no_invalid (t : Target) (v : Bool) (m : Mem) :
    invalidCrcText ∉ textOf (FaultRecordPrint.fault_registers t v) m := by
  unfold textOf FaultRecordPrint.fault_registers
  simp only [FR_PRINT_mem, FR_PRINT_if_mem]
  repeat' split
  all_goals simp
  all_goals (repeat' apply And.intro)
  all_goals (intros)
  all_goals first
    | decide
    | exact invalid_ne_fmt_line _ _ ' ' _ rfl (by decide)
    | exact invalid_ne_append _ _ '0' _ (head_append _ _ '0' _ rfl) (by decide)
    | exact invalid_ne_append _ _ 'u' _ rfl (by decide)
    | exact invalid_ne_append _ _ ',' _ rfl (by decide)

theorem FaultRecordPrint.state_context_r0_r3_no_invalid (t : Target) (v scv : Bool) (m : Mem) :
    invalidCrcText ∉ textOf (FaultRecordPrint.state_context_r0_r3 t v scv) m := by
  unfold textOf FaultRecordPrint.state_context_r0_r3
  simp only [FR_PRINT_mem, FR_PRINT_if_mem]
  repeat' split
  all_goals simp
  all_goals (repeat' apply And.intro)
  all_goals (intros)
  all_goals first
    | decide
    | exact invalid_ne_fmt_line _ _ ' ' _ rfl (by decide)
    | exact invalid_ne_append _ _ '0' _ (head_append _ _ '0' _ rfl) (by decide)
    | exact invalid_ne_append _ _ 'u' _ rfl (by decide)
    | exact invalid_ne_append _ _ ',' _ rfl (by decide)

theorem FaultRecordPrint.additional_state_context_no_invalid (t : Target) (v scv : Bool) (m : Mem) :
    invalidCrcText ∉ textOf (FaultRecordPrint.additional_state_context t v scv) m := by
  unfold textOf FaultRecordPrint.additional_state_context
  simp only [FR_PRINT_mem, FR_PRINT_if_mem]
  repeat' split
  all_goals simp
  all_goals (repeat' apply And.intro)
  all_goals (intros)
  all_goals first
    | decide
    | exact invalid_ne_fmt_line _ _ ' ' _ rfl (by decide)
    | exact invalid_ne_append _ _ '0' _ (head_append _ _ '0' _ rfl) (by decide)
    | exact invalid_ne_append _ _ 'u' _ rfl (by decide)
    | exact invalid_ne_append _ _ ',' _ rfl (by decide)

theorem FaultRecordPrint.state_context_r12_xpsr_no_invalid (t : Target) (v scv : Bool) (m : Mem) :
    invalidCrcText ∉ textOf (FaultRecordPrint.state_context_r12_xpsr t v scv) m := by
  unfold textOf FaultRecordPrint.state_context_r12_xpsr
  simp only [FR_PRINT_mem, FR_PRINT_if_mem]
  repeat' split
  all_goals simp
  all_goals (repeat' apply And.intro)
  all_goals (intros)
  all_goals first
    | decide
    | exact invalid_ne_fmt_line _ _ ' ' _ rfl (by decide)
    | exact invalid_ne_append _ _ '0' _ (head_append _ _ '0' _ rfl) (by decide)
    | exact invalid_ne_append _ _ 'u' _ rfl (by decide)
    | exact invalid_ne_append _ _ ',' _ rfl (by decide)

theorem Local.faults (t : Target) (v : Bool) : Local (FaultRecordPrint.faults t v) := by
  unfold FaultRecordPrint.faults
  split
  · split
    · exact Local.comp (Local.comp (Local.comp (Local.comp (Local.hard_fault t v)
        (Local.mem_manage t v)) (Local.bus_fault t v)) (Local.usage_fault t v))
        (Local.secure_fault t v)
    · exact Local.comp (Local.comp (Local.comp (Local.hard_fault t v)
        (Local.mem_manage t v)) (Local.bus_fault t v)) (Local.usage_fault t v)
  · exact Local.id

/-- Text of the fault decoding blocks, block by block. -/
theorem textOf_faults (t : Target) (v : Bool) (m : Mem) :
    textOf (FaultRecordPrint.faults t v) m
      = if FR_FAULT_REGS_EXIST t.build then
          textOf (FaultRecordPrint.hard_fault t v) m ++ textOf (FaultRecordPrint.mem_manage t v) m
          ++ textOf (FaultRecordPrint.bus_fault t v) m
          ++ textOf (FaultRecordPrint.usage_fault t v) m
          ++ (if FR_ARCH_ARMV8x_M_MAIN t.build then textOf (FaultRecordPrint.secure_fault t v) m
              else [])
        else [] := by
  have h1 := Local.hard_fault t v
  have h2 := Local.mem_manage t v
  have h3 := Local.bus_fault t v
  have h4 := Local.usage_fault t v
  have h5 := Local.secure_fault t v
  have e4 := textOf_comp (Local.comp (Local.comp h1 h2) h3) h4 m
  have e3 := textOf_comp (Local.comp h1 h2) h3 m
  have e2 := textOf_comp h1 h2 m
  have e5 := textOf_comp (Local.comp (Local.comp (Local.comp h1 h2) h3) h4) h5 m
  unfold textOf at *
  unfold FaultRecordPrint.faults
  cases hf : FR_FAULT_REGS_EXIST t.build <;> cases hm : FR_ARCH_ARMV8x_M_MAIN t.build <;>
    simp [e2, e3, e4, e5]

theorem Local.decode (t : Target) (v scv : Bool) : Local (FaultRecordPrint.decode t v scv) := by
  have h := Local.comp (Local.comp (Local.comp (Local.comp (Local.comp (Local.comp (Local.comp
    (Local.comp (Local.exception_handler t v) (Local.state t v)) (Local.mode t v))
    (Local.faults t v)) (Local.pc_msp_psp t v)) (Local.state_context_r0_r3 t v scv))
    (Local.additional_state_context t v scv)) (Local.state_context_r12_xpsr t v scv))
    (Local.fault_registers t v)
  exact h

/-- Text of the decoded blocks, block by block and in the order of the source. -/
theorem textOf_decode (t : Target) (v scv : Bool) (m : Mem) :
    textOf (FaultRecordPrint.decode t v scv) m
      = textOf (FaultRecordPrint.exception_handler t v) m
        ++ textOf (FaultRecordPrint.state t v) m
        ++ textOf (FaultRecordPrint.mode t v) m
        ++ textOf (FaultRecordPrint.faults t v) m
        ++ textOf (FaultRecordPrint.pc_msp_psp t v) m
        ++ textOf (FaultRecordPrint.state_context_r0_r3 t v scv) m
        ++ textOf (FaultRecordPrint.additional_state_context t v scv) m
        ++ textOf (FaultRecordPrint.state_context_r12_xpsr t v scv) m
        ++ textOf (FaultRecordPrint.fault_registers t v) m := by
  have h1 := Local.exception_handler t v
  have h2 := Local.comp h1 (Local.state t v)
  have h3 := Local.comp h2 (Local.mode t v)
  have h4 := Local.comp h3 (Local.faults t v)
  have h5 := Local.comp h4 (Local.pc_msp_psp t v)
  have h6 := Local.comp h5 (Local.state_context_r0_r3 t v scv)
  have h7 := Local.comp h6 (Local.additional_state_context t v scv)
  have h8 := Local.comp h7 (Local.state_context_r12_xpsr t v scv)
  rw [← textOf_comp h1 (Local.state t v), ← textOf_comp h2 (Local.mode t v),
    ← textOf_comp h3 (Local.faults t v), ← textOf_comp h4 (Local.pc_msp_psp t v),
    ← textOf_comp h5 (Local.state_context_r0_r3 t v scv),
    ← textOf_comp h6 (Local.additional_state_context t v scv),
    ← textOf_comp h7 (Local.state_context_r12_xpsr t v scv),
    ← textOf_comp h8 (Local.fault_registers t v)]
  rfl

theorem FaultRecordPrint.decode_no_invalid (t : Target) (v scv : Bool) (m : Mem) :
    invalidCrcText ∉ textOf (FaultRecordPrint.decode t v scv) m := by
  rw [textOf_decode, textOf_faults]
  simp only [List.mem_append, not_or]
  refine ⟨⟨⟨⟨⟨⟨⟨⟨?_, ?_⟩, ?_⟩, ?_⟩, ?_⟩, ?_⟩, ?_⟩, ?_⟩, ?_⟩
  · exact FaultRecordPrint.exception_handler_no_invalid t v m
  · exact FaultRecordPrint.state_no_invalid t v m
  · exact FaultRecordPrint.mode_no_invalid t v m
  · split
    · simp only [List.mem_append, not_or]
      refine ⟨⟨⟨⟨?_, ?_⟩, ?_⟩, ?_⟩, ?_⟩
      · exact FaultRecordPrint.hard_fault_no_invalid t v m
      · exact FaultRecordPrint.mem_manage_no_invalid t v m
      · exact FaultRecordPrint.bus_fault_no_invalid t v m
      · exact FaultRecordPrint.usage_fault_no_invalid t v m
      · split
        · exact FaultRecordPrint.secure_fault_no_invalid t v m
        · simp
    · simp
  · exact FaultRecordPrint.pc_msp_psp_no_invalid t v m
  · exact FaultRecordPrint.state_context_r0_r3_no_invalid t v scv m
  · exact FaultRecordPrint.additional_state_context_no_invalid t v scv m
  · exact FaultRecordPrint.state_context_r12_xpsr_no_invalid t v scv m
  · exact FaultRecordPrint.fault_registers_no_invalid t v m

/-- Text printed by `FaultRecordPrint` on a trustworthy record. -/
theorem textOf_FaultRecordPrint_valid (t : Target) (m : Mem) (h : Trustworthy t m) :
    textOf (FaultRecordPrint t) m
      = headerText t m :: textOf (FaultRecordPrint.decode t true
          (FaultRecordPrint.state_context_valid t ⟨m, []⟩)) m := by
  unfold textOf
  rw [FaultRecordPrint_valid t ⟨m, []⟩ h]
  rw [(Local.decode t true _ _).2]
  rfl

theorem Fits_cortexM4 : Fits cortexM4 := by
  unfold Fits; decide

theorem bytesAt_badCrcMem : bytesAt badCrcMem (0x20000000 + 8) 76 = [7, 2] ++ List.replicate 74 0 := by
  decide

theorem calc_crc32_badCrcMem : FaultInfo.calc_crc32 cortexM4 badCrcMem ≠ 0 := by
  rw [FaultInfo.calc_crc32_eq _ _ Fits_cortexM4]
  have : bytesAt badCrcMem (cortexM4.FaultInfo_addr + ofs_type) (FR_CRC32_DATA_LEN cortexM4.build)
      = [7, 2] ++ List.replicate 74 0 := bytesAt_badCrcMem
  rw [this]
  decide!

theorem not_content_of_newline (x : String) (r : List Char) (h : x.data = '\n' :: r) :
    ¬ IsRecordContent x := by
  rintro ⟨l, hl, hp⟩
  rw [h] at hp
  simp only [contentLabels, List.mem_cons, List.mem_singleton, List.not_mem_nil, or_false] at hl
  rcases hl with rfl | rfl | rfl | rfl <;>
    exact absurd (List.cons_prefix_cons.mp hp).1 (by decide)

theorem headerText_head (t : Target) (m : Mem) : ∃ r, (headerText t m).data = '\n' :: r := by
  simp only [headerText, String.data_append]
  exact ⟨_, rfl⟩

/-- Text printed on a record without the sentinel: none. -/
theorem textOf_no_magic (t : Target) (m : Mem)
    (h : FaultInfo.magic_number t m ≠ FR_MAGIC_NUMBER) : textOf (FaultRecordPrint t) m = [] := by
  unfold textOf
  rw [FaultRecordPrint_no_magic t ⟨m, []⟩ h]

/-- Text printed on a record with the sentinel and a wrong CRC. -/
theorem textOf_bad_crc (t : Target) (m : Mem)
    (h : FaultInfo.magic_number t m = FR_MAGIC_NUMBER)
    (hc : FaultInfo.crc32 t m ≠ FaultInfo.calc_crc32 t m) :
    textOf (FaultRecordPrint t) m = [headerText t m, invalidCrcText] := by
  unfold textOf
  rw [FaultRecordPrint_bad_crc t ⟨m, []⟩ h hc]
  rfl

theorem textOf_exception_handler_head (t : Target) (m : Mem) :
    ∃ r, textOf (FaultRecordPrint.exception_handler t true) m = "  Exception Handler: " :: r := by
  unfold textOf FaultRecordPrint.exception_handler
  simp only [FR_PRINT_mem, if_true]
  repeat' split
  all_goals simp

theorem textOf_mode_head (t : Target) (m : Mem) :
    ∃ r, textOf (FaultRecordPrint.mode t true) m = "  Mode:              " :: r := by
  unfold textOf FaultRecordPrint.mode
  simp only [FR_PRINT_mem, if_true]
  repeat' split
  all_goals simp

/-- What `memset` leaves in each cell. -/
theorem memset_apply (m : Mem) (dst c n x : Nat) :
    memset m dst c n x = if ∃ i, i < n ∧ x = (dst + i) % 2^32 then c % 256 else m x := by
  induction n with
  | zero => simp [memset]
  | succ n ih =>
    simp only [memset, write8]
    by_cases hx : x = (dst + n) % 2^32
    · rw [if_pos hx, if_pos ⟨n, Nat.lt_succ_self n, hx⟩]
    · rw [if_neg hx, ih]
      by_cases h : ∃ i, i < n ∧ x = (dst + i) % 2^32
      · obtain ⟨i, hi, hxi⟩ := h
        rw [if_pos ⟨i, hi, hxi⟩, if_pos ⟨i, Nat.lt_succ_of_lt hi, hxi⟩]
      · rw [if_neg h, if_neg]
        rintro ⟨i, hi, hxi⟩
        rcases Nat.lt_succ_iff_lt_or_eq.mp hi with h' | h'
        · exact h ⟨i, h', hxi⟩
        · exact hx (h' ▸ hxi)

theorem read8_memset_zero (m : Mem) (dst n i : Nat) (hi : i < n) :
    read8 (memset m dst 0 n) (dst + i) = 0 := by
  unfold read8
  rw [memset_apply, if_pos ⟨i, hi, rfl⟩]

theorem headerText_ne_invalid (t : Target) (m : Mem) : headerText t m ≠ invalidCrcText := by
  intro e
  have h1 : ∃ r, (headerText t m).data = '\n' :: '-' :: r := by
    simp only [headerText, String.data_append]
    exact ⟨_, rfl⟩
  obtain ⟨r, hr⟩ := h1
  have hr2 : invalidCrcText.data
      = '\n' :: ' ' :: " Invalid CRC of the recorded fault information !!!\n\n".data := by decide
  rw [e, hr2] at hr
  have h3 := (List.cons.inj (List.cons.inj hr).2).1
  exact absurd h3 (by decide)

/-! ## Claims -/

/-- C1: for every trap-return encoding, every prior content of the record and
every hardware state, at the call of the exit hook the record is trustworthy:
the magic number is `0x52746C46` and the stored CRC equals
`CalcCRC32(0xFFFFFFFF, &FaultInfo.type, sizeof(FaultInfo) - 8, 0x04C11DB7)`
recomputed over the stored body, so that `FaultRecordPrint` does not print the
invalid CRC report for a captured record. -/
theorem FaultRecord_record_trustworthy (t : Target) (s : Cpu) (hfit : Fits t) :
    FaultInfo.magic_number t (FaultRecord t s).mem = 0x52746C46
    ∧ FaultInfo.crc32 t (FaultRecord t s).mem
        = CalcCRC32.call (FaultRecord t s).mem 0xFFFFFFFF (t.FaultInfo_addr + ofs_type)
            (sizeof_FaultInfo t.build - 8) 0x04C11DB7
    ∧ invalidCrcText ∉ textOf (FaultRecordPrint t) (FaultRecord t s).mem := by
  obtain ⟨m, hm⟩ := FaultRecord_mem t s hfit
  have hv := stamped_valid t m hfit
  simp only [] at hv
  rw [← hm] at hv
  refine ⟨hv.1, hv.2, ?_⟩
  rw [textOf_FaultRecordPrint_valid t _ hv]
  intro hmem
  rcases List.mem_cons.mp hmem with h | h
  · exact headerText_ne_invalid t _ h.symm
  · exact FaultRecordPrint.decode_no_invalid t true _ _ h

theorem FaultRecord_record_trustworthy_witness :
    Fits cortexM4
    ∧ FaultInfo.magic_number cortexM4 (FaultRecord cortexM4 (Cpu.init zeroMem)).mem = 0x52746C46
    ∧ FaultInfo.crc32 cortexM4 (FaultRecord cortexM4 (Cpu.init zeroMem)).mem
        = CalcCRC32.call (FaultRecord cortexM4 (Cpu.init zeroMem)).mem 0xFFFFFFFF
            (cortexM4.FaultInfo_addr + ofs_type) (sizeof_FaultInfo cortexM4.build - 8) 0x04C11DB7
    ∧ invalidCrcText
        ∉ textOf (FaultRecordPrint cortexM4) (FaultRecord cortexM4 (Cpu.init zeroMem)).mem :=
  ⟨Fits_cortexM4, FaultRecord_record_trustworthy cortexM4 (Cpu.init zeroMem) Fits_cortexM4⟩

/-- C2: for every 32-bit `init_val` (in `r0`) and `polynom` (in `r3`) and every
byte sequence of length `data_len` (in `r2`, any 32-bit value, 0 included) at
`data_ptr` (in `r1`), `CalcCRC32` terminates, makes exactly `data_len` byte
loads, one per byte and in order, and returns in `r0` the bit-serial MSB-first
CRC: from `init_val`, for each byte `b`, `v := v XOR (b << 24)` and then 8
times `v := ((v << 1) mod 2^32) XOR (polynom if bit 31 of v was 1, else 0)`. -/
theorem CalcCRC32_bit_serial (s : Cpu) :
    (CalcCRC32 s).get .r0
        = crcSpec (s.get .r0) (s.get .r3) (bytesAt s.mem (s.get .r1) (s.get .r2))
    ∧ (CalcCRC32 s).trace
        = s.trace ++ (List.range (s.get .r2)).map
            (fun i => Access.load ((s.get .r1 + i) % 2^32) 1)
    ∧ ((CalcCRC32 s).trace.drop s.trace.length).length = s.get .r2 := by
  obtain ⟨h0, _, htr⟩ := CalcCRC32_spec s
  refine ⟨h0, htr, ?_⟩
  rw [htr]
  simp

/-- C3: for every record, `FaultRecordPrint` emits record content (a text that
opens the exception handler line, the mode line, a fault line or a register or
fault register line) if and only if the record is trustworthy; for a record
that is not trustworthy everything it prints is the header or the invalid CRC
report, neither of which is record content. -/
theorem FaultRecordPrint_content_iff_trustworthy (t : Target) (m : Mem) :
    ((∃ x ∈ textOf (FaultRecordPrint t) m, IsRecordContent x) ↔ Trustworthy t m)
    ∧ (Trustworthy t m →
        "  Exception Handler: " ∈ textOf (FaultRecordPrint t) m
        ∧ "  Mode:              " ∈ textOf (FaultRecordPrint t) m)
    ∧ (¬ Trustworthy t m →
        ∀ x ∈ textOf (FaultRecordPrint t) m,
          (x = headerText t m ∨ x = invalidCrcText) ∧ ¬ IsRecordContent x) := by
  have hyes : Trustworthy t m →
      "  Exception Handler: " ∈ textOf (FaultRecordPrint t) m
      ∧ "  Mode:              " ∈ textOf (FaultRecordPrint t) m := by
    intro h
    obtain ⟨r1, h1⟩ := textOf_exception_handler_head t m
    obtain ⟨r2, h2⟩ := textOf_mode_head t m
    rw [textOf_FaultRecordPrint_valid t m h, textOf_decode, h1, h2]
    simp
  have hno : ¬ Trustworthy t m →
      ∀ x ∈ textOf (FaultRecordPrint t) m,
        (x = headerText t m ∨ x = invalidCrcText) ∧ ¬ IsRecordContent x := by
    intro h x hx
    by_cases hmagic : FaultInfo.magic_number t m = FR_MAGIC_NUMBER
    · have hc : FaultInfo.crc32 t m ≠ FaultInfo.calc_crc32 t m := fun e => h ⟨hmagic, e⟩
      rw [textOf_bad_crc t m hmagic hc] at hx
      simp only [List.mem_cons, List.mem_singleton, List.not_mem_nil, or_false] at hx
      refine ⟨hx, ?_⟩
      rcases hx with rfl | rfl
      · obtain ⟨r, hr⟩ := headerText_head t m
        exact not_content_of_newline _ r hr
      · exact not_content_of_newline _ _ invalidCrcText_head
    · rw [textOf_no_magic t m hmagic] at hx
      exact absurd hx (List.not_mem_nil x)
  refine ⟨⟨?_, ?_⟩, hyes, hno⟩
  · rintro ⟨x, hx, hc⟩
    by_contra h
    exact (hno h x hx).2 hc
  · intro h
    exact ⟨_, (hyes h).1, "  Exception Handler:", by simp [contentLabels], by decide⟩

/-- C5, as the code behaves: for every record whose magic number is the
sentinel and whose recomputed CRC differs from the stored one, the output is
the header line, which shows the two version bytes read from the record,
followed by the invalid CRC report, and nothing else: no register and no
status value is printed. -/
theorem FaultRecordPrint_bad_crc_output (t : Target) (m : Mem)
    (h : FaultInfo.magic_number t m = FR_MAGIC_NUMBER)
    (hc : FaultInfo.crc32 t m ≠ FaultInfo.calc_crc32 t m) :
    textOf (FaultRecordPrint t) m
      = ["\n--- Last recorded Fault information (v"
          ++ fmt_u (FaultInfo.type.version.major t m) ++ "."
          ++ fmt_u (FaultInfo.type.version.minor t m) ++ ") ---\n\n",
         "\n  Invalid CRC of the recorded fault information !!!\n\n"] :=
  textOf_bad_crc t m h hc

theorem magic_badCrcMem : FaultInfo.magic_number cortexM4 badCrcMem = FR_MAGIC_NUMBER := by
  decide

theorem crc32_badCrcMem :
    FaultInfo.crc32 cortexM4 badCrcMem ≠ FaultInfo.calc_crc32 cortexM4 badCrcMem := by
  have h : FaultInfo.crc32 cortexM4 badCrcMem = 0 := by decide
  rw [h]
  exact fun e => calc_crc32_badCrcMem e.symm

theorem FaultRecordPrint_bad_crc_output_witness :
    FaultInfo.magic_number cortexM4 badCrcMem = FR_MAGIC_NUMBER
    ∧ FaultInfo.crc32 cortexM4 badCrcMem ≠ FaultInfo.calc_crc32 cortexM4 badCrcMem
    ∧ textOf (FaultRecordPrint cortexM4) badCrcMem
      = ["\n--- Last recorded Fault information (v"
          ++ fmt_u (FaultInfo.type.version.major cortexM4 badCrcMem) ++ "."
          ++ fmt_u (FaultInfo.type.version.minor cortexM4 badCrcMem) ++ ") ---\n\n",
         "\n  Invalid CRC of the recorded fault information !!!\n\n"] :=
  ⟨magic_badCrcMem, crc32_badCrcMem,
    FaultRecordPrint_bad_crc_output cortexM4 badCrcMem magic_badCrcMem crc32_badCrcMem⟩

/-- C5 fails as stated: on a record with the sentinel, a wrong CRC and version
bytes 2 and 7, the output is not the invalid CRC report alone: it starts with
the header, which shows the version read from the record. -/
theorem FaultRecordPrint_bad_crc_prints_version :
    FaultInfo.magic_number cortexM4 badCrcMem = FR_MAGIC_NUMBER
    ∧ FaultInfo.crc32 cortexM4 badCrcMem ≠ FaultInfo.calc_crc32 cortexM4 badCrcMem
    ∧ textOf (FaultRecordPrint cortexM4) badCrcMem
        = ["\n--- Last recorded Fault information (v2.7) ---\n\n",
           "\n  Invalid CRC of the recorded fault information !!!\n\n"]
    ∧ textOf (FaultRecordPrint cortexM4) badCrcMem
        ≠ ["\n  Invalid CRC of the recorded fault information !!!\n\n"] := by
  have h := textOf_bad_crc cortexM4 badCrcMem magic_badCrcMem crc32_badCrcMem
  have e : headerText cortexM4 badCrcMem
      = "\n--- Last recorded Fault information (v2.7) ---\n\n" := by decide
  rw [e] at h
  refine ⟨magic_badCrcMem, crc32_badCrcMem, h, ?_⟩
  rw [h]
  decide

/-- C6, as the code behaves: for every record whose magic number differs from
the sentinel, `FaultRecordPrint` prints nothing at all, so no statement that a
record is missing either; the output is empty whatever the other bytes of the
record are, and memory and earlier output are left as they were. -/
theorem FaultRecordPrint_no_magic_silent (t : Target) (w : World)
    (h : FaultInfo.magic_number t w.mem ≠ FR_MAGIC_NUMBER) :
    FaultRecordPrint t w = w ∧ textOf (FaultRecordPrint t) w.mem = [] :=
  ⟨FaultRecordPrint_no_magic t w h, textOf_no_magic t w.mem h⟩

theorem magic_zeroMem : FaultInfo.magic_number cortexM4 zeroMem ≠ FR_MAGIC_NUMBER := by
  decide

theorem FaultRecordPrint_no_magic_silent_witness :
    FaultInfo.magic_number cortexM4 zeroMem ≠ FR_MAGIC_NUMBER
    ∧ FaultRecordPrint cortexM4 ⟨zeroMem, []⟩ = ⟨zeroMem, []⟩
    ∧ textOf (FaultRecordPrint cortexM4) zeroMem = [] :=
  ⟨magic_zeroMem, FaultRecordPrint_no_magic_silent cortexM4 ⟨zeroMem, []⟩ magic_zeroMem⟩

/-- C6 fails as stated: on the all-zero record, the one `FaultRecordClear`
leaves, whose magic number is not the sentinel, `FaultRecordPrint` emits no
text, so there is no statement that no record exists. -/
theorem FaultRecordPrint_cleared_record_prints_nothing :
    FaultInfo.magic_number cortexM4 zeroMem ≠ FR_MAGIC_NUMBER
    ∧ (FaultRecordClear cortexM4 ⟨zeroMem, []⟩).mem = zeroMem
    ∧ ¬ ∃ x, x ∈ textOf (FaultRecordPrint cortexM4) zeroMem := by
  refine ⟨magic_zeroMem, ?_, ?_⟩
  · funext x
    show memset zeroMem _ 0 _ x = zeroMem x
    rw [memset_apply]
    split <;> rfl
  · rw [textOf_no_magic cortexM4 zeroMem magic_zeroMem]
    simp

/-- C7: for every prior content, after `FaultRecordClear` every byte of the
record is zero, hence the magic number is not `0x52746C46` and the record is
not trustworthy; clearing twice gives the same state as clearing once. -/
theorem FaultRecordClear_zeroes_record (t : Target) (w : World) :
    (∀ i, i < sizeof_FaultInfo t.build →
        read8 (FaultRecordClear t w).mem (t.FaultInfo_addr + i) = 0)
    ∧ FaultInfo.magic_number t (FaultRecordClear t w).mem ≠ 0x52746C46
    ∧ ¬ Trustworthy t (FaultRecordClear t w).mem
    ∧ FaultRecordClear t (FaultRecordClear t w) = FaultRecordClear t w := by
  have hs := sizeof_FaultInfo_ge t.build
  have hz : ∀ i, i < sizeof_FaultInfo t.build →
      read8 (FaultRecordClear t w).mem (t.FaultInfo_addr + i) = 0 := by
    intro i hi
    exact read8_memset_zero w.mem t.FaultInfo_addr (sizeof_FaultInfo t.build) i hi
  have hm : FaultInfo.magic_number t (FaultRecordClear t w).mem = 0 := by
    unfold FaultInfo.magic_number read32
    have h0 := hz 0 (by omega)
    have h1 := hz 1 (by omega)
    have h2 := hz 2 (by omega)
    have h3 := hz 3 (by omega)
    simp only [ofs_magic_number, Nat.add_zero] at *
    rw [h0, h1, h2, h3]
    norm_num
  refine ⟨hz, ?_, ?_, ?_⟩
  · rw [hm]; decide
  · rintro ⟨h, _⟩
    rw [hm] at h
    exact absurd h (by decide)
  · unfold FaultRecordClear
    simp only []
    congr 1
    funext x
    rw [memset_apply, memset_apply]
    split <;> simp

/-! ## The stores of `FaultRecord` -/

theorem replay_append (m : Mem) (l1 l2 : List Access) :
    replay m (l1 ++ l2) = replay (replay m l1) l2 := by
  induction l1 generalizing m with
  | nil => rfl
  | cons e l ih =>
    cases e with
    | load a sz => exact ih m
    | store a sz v => exact ih _

theorem newEvents_of_append (s s' : Cpu) (l : List Access) (h : s'.trace = s.trace ++ l) :
    newEvents s s' = l := by
  unfold newEvents
  rw [h, List.drop_left]

theorem Writes.of_events {R : Nat → Prop} {s s' : Cpu} (l : List Access)
    (h1 : s'.trace = s.trace ++ l) (h2 : s'.mem = replay s.mem l)
    (h3 : ∀ e ∈ l, e.storesIn R) : Writes R s s' := by
  have e := newEvents_of_append s s' l h1
  unfold Writes
  rw [e]
  exact ⟨h1, h2, h3⟩

theorem Writes.refl (R : Nat → Prop) (s : Cpu) : Writes R s s :=
  Writes.of_events [] (by simp) rfl (by simp)

theorem Writes.trans {R : Nat → Prop} {s s' s'' : Cpu} (h : Writes R s s') (h' : Writes R s' s'') :
    Writes R s s'' := by
  obtain ⟨a1, a2, a3⟩ := h
  obtain ⟨b1, b2, b3⟩ := h'
  apply Writes.of_events (newEvents s s' ++ newEvents s' s'')
  · rw [b1, a1, List.append_assoc]
  · rw [b2, a2, replay_append]
  · intro e he
    rcases List.mem_append.mp he with h | h
    · exact a3 e h
    · exact b3 e h

theorem Writes.mono {R R' : Nat → Prop} {s s' : Cpu} (h : Writes R s s')
    (hR : ∀ a, R a → R' a) : Writes R' s s' := by
  obtain ⟨a1, a2, a3⟩ := h
  refine ⟨a1, a2, ?_⟩
  intro e he
  have := a3 e he
  cases e with
  | load a sz => trivial
  | store a sz v => exact ⟨this.1, hR a this.2⟩

theorem write32_apply (m : Mem) (a v x : Nat)
    (h0 : x ≠ a % 2^32) (h1 : x ≠ (a + 1) % 2^32)
    (h2 : x ≠ (a + 2) % 2^32) (h3 : x ≠ (a + 3) % 2^32) :
    write32 m a v x = m x := by
  unfold write32 write8
  simp only [if_neg h0, if_neg h1, if_neg h2, if_neg h3]

/-- Cells that no recorded store covers keep their content. -/
theorem replay_apply (R : Nat → Prop) (l : List Access) (m : Mem) (x : Nat)
    (h : ∀ e ∈ l, e.storesIn R)
    (hx : ∀ a, R a → x ≠ a % 2^32 ∧ x ≠ (a + 1) % 2^32 ∧ x ≠ (a + 2) % 2^32
      ∧ x ≠ (a + 3) % 2^32) :
    replay m l x = m x := by
  induction l generalizing m with
  | nil => rfl
  | cons e l ih =>
    have hl : ∀ e ∈ l, e.storesIn R := fun e he => h e (List.mem_cons_of_mem _ he)
    have he := h e (List.mem_cons_self _ _)
    cases e with
    | load a sz => exact ih m hl
    | store a sz v =>
      obtain ⟨h0, h1, h2, h3⟩ := hx a he.2
      show replay (write32 m a v) l x = m x
      rw [ih _ hl, write32_apply m a v x h0 h1 h2 h3]

theorem Writes.cell_eq {R : Nat → Prop} {s s' : Cpu} (h : Writes R s s') (x : Nat)
    (hx : ∀ a, R a → x ≠ a % 2^32 ∧ x ≠ (a + 1) % 2^32 ∧ x ≠ (a + 2) % 2^32
      ∧ x ≠ (a + 3) % 2^32) :
    s'.mem x = s.mem x := by
  rw [h.2.1]
  exact replay_apply R _ _ x h.2.2 hx

/-- A word outside the written field keeps its value. -/
theorem Writes.read32_eq {lo size : Nat} {s s' : Cpu} (h : Writes (inField lo size) s s') (c : Nat)
    (hlo : lo + size ≤ 2^32) (hc : c + 4 ≤ 2^32) (hd : c + 4 ≤ lo ∨ lo + size ≤ c) :
    read32 s'.mem c = read32 s.mem c := by
  have e : ∀ k, k < 4 → s'.mem ((c + k) % 2^32) = s.mem ((c + k) % 2^32) := by
    intro k hk
    apply h.cell_eq
    intro a ha
    unfold inField at ha
    omega
  unfold read32 read8
  have e0 := e 0 (by omega)
  rw [Nat.add_zero] at e0
  rw [e0, e 1 (by omega), e 2 (by omega), e 3 (by omega)]



theorem Writes.type_information (t : Target) (s : Cpu) (hfit : Fits t) :
    Writes (inField (t.FaultInfo_addr + ofs_type) sizeof_FaultInfoType) s
      (FaultRecord.type_information t s) := by
  unfold Fits at hfit
  rcases hb : t.build with _ | _ | _ | cmse | cmse | cmse
  all_goals (try cases cmse)
  all_goals
    simp [hb, ofs_type, ofs_crc32, ofs_magic_number, ofs_state_context, ofs_common_registers, ofs_fault_registers, ofs_additonal_state_context, ofs_armv8_m_registers, ofs_armv8_m_fault_registers, sizeof_FaultInfo, sizeof_FaultInfoType, sizeof_StateContext, sizeof_CommonRegisters, sizeof_FaultRegisters, sizeof_AdditionalStateContext, sizeof_Armv8mRegisters, sizeof_Armv8mFaultRegisters, FR_FAULT_REGS_EXIST, FR_ARCH_ARMV8x_M, FR_ARCH_ARMV8_M_BASE, FR_ARCH_ARMV8x_M_MAIN, FR_SECURE] at hfit
    unfold Writes newEvents FaultRecord.type_information
    simp only [hb, ofs_type, ofs_crc32, ofs_magic_number, ofs_state_context, ofs_common_registers, ofs_fault_registers, ofs_additonal_state_context, ofs_armv8_m_registers, ofs_armv8_m_fault_registers, sizeof_FaultInfo, sizeof_FaultInfoType, sizeof_StateContext, sizeof_CommonRegisters, sizeof_FaultRegisters, sizeof_AdditionalStateContext, sizeof_Armv8mRegisters, sizeof_Armv8mFaultRegisters, FR_FAULT_REGS_EXIST, FR_ARCH_ARMV8x_M, FR_ARCH_ARMV8_M_BASE, FR_ARCH_ARMV8x_M_MAIN, FR_SECURE, Bool.false_eq_true, if_false, if_true]
    repeat' split
    all_goals
      simp [ldr_const, ldr, str, stm2, ldm2, mrs, mov, movs, lsrs, ands, adds, bl, FaultRecord.copy2, Cpu.get, Cpu.set, Cpu.setNZ, replay, Access.storesIn, inField]
      try omega

theorem Writes.common_registers (t : Target) (s : Cpu) (hfit : Fits t) :
    Writes (inField (t.FaultInfo_addr + ofs_common_registers) sizeof_CommonRegisters) s
      (FaultRecord.common_registers t s) := by
  unfold Fits at hfit
  rcases hb : t.build with _ | _ | _ | cmse | cmse | cmse
  all_goals (try cases cmse)
  all_goals
    simp [hb, ofs_type, ofs_crc32, ofs_magic_number, ofs_state_context, ofs_common_registers, ofs_fault_registers, ofs_additonal_state_context, ofs_armv8_m_registers, ofs_armv8_m_fault_registers, sizeof_FaultInfo, sizeof_FaultInfoType, sizeof_StateContext, sizeof_CommonRegisters, sizeof_FaultRegisters, sizeof_AdditionalStateContext, sizeof_Armv8mRegisters, sizeof_Armv8mFaultRegisters, FR_FAULT_REGS_EXIST, FR_ARCH_ARMV8x_M, FR_ARCH_ARMV8_M_BASE, FR_ARCH_ARMV8x_M_MAIN, FR_SECURE] at hfit
    unfold Writes newEvents FaultRecord.common_registers
    simp only [hb, ofs_type, ofs_crc32, ofs_magic_number, ofs_state_context, ofs_common_registers, ofs_fault_registers, ofs_additonal_state_context, ofs_armv8_m_registers, ofs_armv8_m_fault_registers, sizeof_FaultInfo, sizeof_FaultInfoType, sizeof_StateContext, sizeof_CommonRegisters, sizeof_FaultRegisters, sizeof_AdditionalStateContext, sizeof_Armv8mRegisters, sizeof_Armv8mFaultRegisters, FR_FAULT_REGS_EXIST, FR_ARCH_ARMV8x_M, FR_ARCH_ARMV8_M_BASE, FR_ARCH_ARMV8x_M_MAIN, FR_SECURE, Bool.false_eq_true, if_false, if_true]
    repeat' split
    all_goals
      simp [ldr_const, ldr, str, stm2, ldm2, mrs, mov, movs, lsrs, ands, adds, bl, FaultRecord.copy2, Cpu.get, Cpu.set, Cpu.setNZ, replay, Access.storesIn, inField]
      try omega

theorem Writes.armv8_m_registers (t : Target) (s : Cpu) (hfit : Fits t) :
    Writes (fun a => FR_ARCH_ARMV8x_M t.build = true
      ∧ inField (t.FaultInfo_addr + ofs_armv8_m_registers t.build) sizeof_Armv8mRegisters a) s
      (FaultRecord.armv8_m_registers t s) := by
  unfold Fits at hfit
  rcases hb : t.build with _ | _ | _ | cmse | cmse | cmse
  all_goals (try cases cmse)
  all_goals
    simp [hb, ofs_type, ofs_crc32, ofs_magic_number, ofs_state_context, ofs_common_registers, ofs_fault_registers, ofs_additonal_state_context, ofs_armv8_m_registers, ofs_armv8_m_fault_registers, sizeof_FaultInfo, sizeof_FaultInfoType, sizeof_StateContext, sizeof_CommonRegisters, sizeof_FaultRegisters, sizeof_AdditionalStateContext, sizeof_Armv8mRegisters, sizeof_Armv8mFaultRegisters, FR_FAULT_REGS_EXIST, FR_ARCH_ARMV8x_M, FR_ARCH_ARMV8_M_BASE, FR_ARCH_ARMV8x_M_MAIN, FR_SECURE] at hfit
    unfold Writes newEvents FaultRecord.armv8_m_registers
    simp only [hb, ofs_type, ofs_crc32, ofs_magic_number, ofs_state_context, ofs_common_registers, ofs_fault_registers, ofs_additonal_state_context, ofs_armv8_m_registers, ofs_armv8_m_fault_registers, sizeof_FaultInfo, sizeof_FaultInfoType, sizeof_StateContext, sizeof_CommonRegisters, sizeof_FaultRegisters, sizeof_AdditionalStateContext, sizeof_Armv8mRegisters, sizeof_Armv8mFaultRegisters, FR_FAULT_REGS_EXIST, FR_ARCH_ARMV8x_M, FR_ARCH_ARMV8_M_BASE, FR_ARCH_ARMV8x_M_MAIN, FR_SECURE, Bool.false_eq_true, if_false, if_true]
    repeat' split
    all_goals
      simp [ldr_const, ldr, str, stm2, ldm2, mrs, mov, movs, lsrs, ands, adds, bl, FaultRecord.copy2, Cpu.get, Cpu.set, Cpu.setNZ, replay, Access.storesIn, inField]
      try omega

theorem Writes.fault_regs_section (t : Target) (s : Cpu) (hfit : Fits t) :
    Writes (fun a => FR_FAULT_REGS_EXIST t.build = true
      ∧ (inField (t.FaultInfo_addr + ofs_fault_registers) sizeof_FaultRegisters a
        ∨ (FR_SECURE t.build = true ∧ inField (t.FaultInfo_addr + ofs_armv8_m_fault_registers t.build)
          sizeof_Armv8mFaultRegisters a))) s
      (FaultRecord.fault_registers t s) := by
  unfold Fits at hfit
  rcases hb : t.build with _ | _ | _ | cmse | cmse | cmse
  all_goals (try cases cmse)
  all_goals
    simp [hb, ofs_type, ofs_crc32, ofs_magic_number, ofs_state_context, ofs_common_registers, ofs_fault_registers, ofs_additonal_state_context, ofs_armv8_m_registers, ofs_armv8_m_fault_registers, sizeof_FaultInfo, sizeof_FaultInfoType, sizeof_StateContext, sizeof_CommonRegisters, sizeof_FaultRegisters, sizeof_AdditionalStateContext, sizeof_Armv8mRegisters, sizeof_Armv8mFaultRegisters, FR_FAULT_REGS_EXIST, FR_ARCH_ARMV8x_M, FR_ARCH_ARMV8_M_BASE, FR_ARCH_ARMV8x_M_MAIN, FR_SECURE] at hfit
    unfold Writes newEvents FaultRecord.fault_registers
    simp only [hb, ofs_type, ofs_crc32, ofs_magic_number, ofs_state_context, ofs_common_registers, ofs_fault_registers, ofs_additonal_state_context, ofs_armv8_m_registers, ofs_armv8_m_fault_registers, sizeof_FaultInfo, sizeof_FaultInfoType, sizeof_StateContext, sizeof_CommonRegisters, sizeof_FaultRegisters, sizeof_AdditionalStateContext, sizeof_Armv8mRegisters, sizeof_Armv8mFaultRegisters, FR_FAULT_REGS_EXIST, FR_ARCH_ARMV8x_M, FR_ARCH_ARMV8_M_BASE, FR_ARCH_ARMV8x_M_MAIN, FR_SECURE, Bool.false_eq_true, if_false, if_true]
    repeat' split
    all_goals
      simp [ldr_const, ldr, str, stm2, ldm2, mrs, mov, movs, lsrs, ands, adds, bl, FaultRecord.copy2, Cpu.get, Cpu.set, Cpu.setNZ, replay, Access.storesIn, inField]
      try omega

theorem Writes.magic_number (t : Target) (s : Cpu) (hfit : Fits t) :
    Writes (inField (t.FaultInfo_addr + ofs_magic_number) 4) s
      (FaultRecord.magic_number t s) := by
  unfold Fits at hfit
  rcases hb : t.build with _ | _ | _ | cmse | cmse | cmse
  all_goals (try cases cmse)
  all_goals
    simp [hb, ofs_type, ofs_crc32, ofs_magic_number, ofs_state_context, ofs_common_registers, ofs_fault_registers, ofs_additonal_state_context, ofs_armv8_m_registers, ofs_armv8_m_fault_registers, sizeof_FaultInfo, sizeof_FaultInfoType, sizeof_StateContext, sizeof_CommonRegisters, sizeof_FaultRegisters, sizeof_AdditionalStateContext, sizeof_Armv8mRegisters, sizeof_Armv8mFaultRegisters, FR_FAULT_REGS_EXIST, FR_ARCH_ARMV8x_M, FR_ARCH_ARMV8_M_BASE, FR_ARCH_ARMV8x_M_MAIN, FR_SECURE] at hfit
    unfold Writes newEvents FaultRecord.magic_number
    simp only [hb, ofs_type, ofs_crc32, ofs_magic_number, ofs_state_context, ofs_common_registers, ofs_fault_registers, ofs_additonal_state_context, ofs_armv8_m_registers, ofs_armv8_m_fault_registers, sizeof_FaultInfo, sizeof_FaultInfoType, sizeof_StateContext, sizeof_CommonRegisters, sizeof_FaultRegisters, sizeof_AdditionalStateContext, sizeof_Armv8mRegisters, sizeof_Armv8mFaultRegisters, FR_FAULT_REGS_EXIST, FR_ARCH_ARMV8x_M, FR_ARCH_ARMV8_M_BASE, FR_ARCH_ARMV8x_M_MAIN, FR_SECURE, Bool.false_eq_true, if_false, if_true]
    repeat' split
    all_goals
      simp [ldr_const, ldr, str, stm2, ldm2, mrs, mov, movs, lsrs, ands, adds, bl, FaultRecord.copy2, Cpu.get, Cpu.set, Cpu.setNZ, replay, Access.storesIn, inField]
      try omega

theorem read32_lt (m : Mem) (x : Nat) : read32 m x < 4294967296 := by
  have h0 := read8_lt m x
  have h1 := read8_lt m (x + 1)
  have h2 := read8_lt m (x + 2)
  have h3 := read8_lt m (x + 3)
  unfold read32
  omega

theorem read32_mod_val (m : Mem) (x : Nat) : read32 m x % 4294967296 = read32 m x :=
  Nat.mod_eq_of_lt (read32_lt m x)

theorem read8_add_mod (m : Mem) (a k : Nat) : read8 m (a % 4294967296 + k) = read8 m (a + k) := by
  unfold read8
  simp

theorem write8_add_mod (m : Mem) (a k v : Nat) :
    write8 m (a % 4294967296 + k) v = write8 m (a + k) v := by
  unfold write8
  simp

theorem write8_val_mod (m : Mem) (a v : Nat) : write8 m a (v % 256) = write8 m a v := by
  unfold write8
  simp

theorem read32_add_mod (m : Mem) (a k : Nat) :
    read32 m (a % 4294967296 + k) = read32 m (a + k) := by
  unfold read32
  have e : ∀ j, read8 m (a % 4294967296 + k + j) = read8 m (a + k + j) := by
    intro j
    rw [Nat.add_assoc, Nat.add_assoc, read8_add_mod]
  rw [e 1, e 2, e 3, read8_add_mod]

theorem write32_add_mod (m : Mem) (a k v : Nat) :
    write32 m (a % 4294967296 + k) v = write32 m (a + k) v := by
  unfold write32
  have e : ∀ (m : Mem) (j x : Nat),
      write8 m (a % 4294967296 + k + j) x = write8 m (a + k + j) x := by
    intro m j x
    rw [Nat.add_assoc, Nat.add_assoc, write8_add_mod]
  rw [e _ 1, e _ 2, e _ 3, write8_add_mod]

theorem write32_val_mod (m : Mem) (a v : Nat) :
    write32 m a (v % 4294967296) = write32 m a v := by
  unfold write32
  have e0 : v % 4294967296 % 256 = v % 256 := by omega
  have e1 : v % 4294967296 / 2^8 % 256 = v / 2^8 % 256 := by omega
  have e2 : v % 4294967296 / 2^16 % 256 = v / 2^16 % 256 := by omega
  have e3 : v % 4294967296 / 2^24 % 256 = v / 2^24 % 256 := by omega
  rw [← write8_val_mod _ _ (v % 4294967296), ← write8_val_mod _ _ (v % 4294967296 / 2^8),
    ← write8_val_mod _ _ (v % 4294967296 / 2^16), ← write8_val_mod _ _ (v % 4294967296 / 2^24),
    e0, e1, e2, e3, write8_val_mod, write8_val_mod, write8_val_mod, write8_val_mod]

/-- What one `ldm r3!, {r0, r1} ; stm r2!, {r0, r1}` pair does. -/
theorem FaultRecord.copy2_spec (s : Cpu) :
    (FaultRecord.copy2 s).trace = s.trace ++
        [Access.load (s.get .r3) 4, Access.load ((s.get .r3 + 4) % 2^32) 4,
         Access.store (s.get .r2) 4 (read32 s.mem (s.get .r3)),
         Access.store ((s.get .r2 + 4) % 2^32) 4 (read32 s.mem (s.get .r3 + 4))]
    ∧ (FaultRecord.copy2 s).mem
        = write32 (write32 s.mem (s.get .r2) (read32 s.mem (s.get .r3)))
            (s.get .r2 + 4) (read32 s.mem (s.get .r3 + 4))
    ∧ (FaultRecord.copy2 s).get .r2 = (s.get .r2 + 8) % 2^32
    ∧ (FaultRecord.copy2 s).get .r3 = (s.get .r3 + 8) % 2^32
    ∧ (FaultRecord.copy2 s).r4 = s.r4 ∧ (FaultRecord.copy2 s).r12 = s.r12
    ∧ (FaultRecord.copy2 s).lr = s.lr := by
  simp [FaultRecord.copy2, stm2, ldm2, Cpu.get, Cpu.set, read32_mod, write32_mod, read32_mod_val,
    read32_add_mod, write32_add_mod, write32_val_mod]

theorem Writes.copy2 (s : Cpu) (a : Nat) (h2 : s.get .r2 = a) (ha : a + 8 ≤ 2^32) :
    Writes (inField a 8) s (FaultRecord.copy2 s) := by
  obtain ⟨htr, hmem, _⟩ := FaultRecord.copy2_spec s
  apply Writes.of_events _ htr
  · rw [hmem]
    simp [replay, write32_mod]
  · simp [Access.storesIn, inField, h2]
    omega

/-- What `k` consecutive `ldm r3!, {r0, r1} ; stm r2!, {r0, r1}` pairs do: they
copy `2 * k` words from the place `r3` points to into the place `r2` points to. -/
theorem FaultRecord.copy2_iter (k : Nat) (s : Cpu) (a p : Nat) (h2 : s.get .r2 = a)
    (h3 : s.get .r3 = p) (ha : a + 8 * k ≤ 2^32) :
    Writes (inField a (8 * k)) s (FaultRecord.copy2^[k] s)
    ∧ (FaultRecord.copy2^[k] s).get .r2 = (a + 8 * k) % 2^32
    ∧ (FaultRecord.copy2^[k] s).get .r3 = (p + 8 * k) % 2^32
    ∧ (FaultRecord.copy2^[k] s).r4 = s.r4 ∧ (FaultRecord.copy2^[k] s).r12 = s.r12
    ∧ (FaultRecord.copy2^[k] s).lr = s.lr
    ∧ (p + 8 * k ≤ 2^32 → (p + 8 * k ≤ a ∨ a + 8 * k ≤ p) →
        ∀ j, j < 2 * k →
          read32 (FaultRecord.copy2^[k] s).mem (a + 4 * j) = read32 s.mem (p + 4 * j)) := by
  induction k generalizing s a p with
  | zero =>
    have hlt := get_lt s .r2
    have hlt3 := get_lt s .r3
    refine ⟨Writes.refl _ _, ?_, ?_, rfl, rfl, rfl, ?_⟩
    · simp only [Function.iterate_zero, id_eq, h2]; omega
    · simp only [Function.iterate_zero, id_eq, h3]; omega
    · intro _ _ j hj; omega
  | succ k ih =>
    obtain ⟨ctr, cmem, c2, c3, c4, c12, clr⟩ := FaultRecord.copy2_spec s
    have hlt3 := get_lt s .r3
    have hw1 := Writes.copy2 s a h2 (by omega)
    have ha' : (a + 8) % 2^32 + 8 * k ≤ 2^32 := by omega
    obtain ⟨i1, i2, i3, i4, i12, ilr, ival⟩ :=
      ih (FaultRecord.copy2 s) ((a + 8) % 2^32) ((p + 8) % 2^32) (by rw [c2, h2])
        (by rw [c3, h3]) ha'
    rw [Function.iterate_succ_apply]
    refine ⟨?_, ?_, ?_, by rw [i4, c4], by rw [i12, c12], by rw [ilr, clr], ?_⟩
    · refine Writes.trans (hw1.mono ?_) (i1.mono ?_)
      · intro x hx; unfold inField at *; omega
      · intro x hx; unfold inField at *; omega
    · rw [i2]; omega
    · rw [i3]; omega
    · intro hp hd j hj
      have hmem0 : ∀ c, c + 4 ≤ 2^32 → (c + 4 ≤ a ∨ a + 8 ≤ c) →
          read32 (FaultRecord.copy2 s).mem c = read32 s.mem c :=
        fun c hc hcd => hw1.read32_eq c (by omega) hc (by omega)
      by_cases hj2 : j < 2
      · have hk : read32 (FaultRecord.copy2^[k] (FaultRecord.copy2 s)).mem (a + 4 * j)
            = read32 (FaultRecord.copy2 s).mem (a + 4 * j) :=
          i1.read32_eq (a + 4 * j) (by omega) (by omega) (by omega)
        rw [hk, cmem, h2, h3]
        rcases Nat.lt_succ_iff_lt_or_eq.mp hj2 with h | h
        · have hj0 : j = 0 := by omega
          subst hj0
          simp only [Nat.mul_zero, Nat.add_zero]
          rw [read32_write32_disjoint _ _ _ _ (by omega) (by omega) (by omega),
            read32_write32_same]
          exact read32_mod_val _ _
        · subst h
          rw [read32_write32_same]
          exact read32_mod_val _ _
      · have hk0 : 0 < k := by omega
        have e1 : (a + 8) % 2^32 = a + 8 := by omega
        have e2 : (p + 8) % 2^32 = p + 8 := by omega
        have hv := ival (by omega) (by omega) (j - 2) (by omega)
        rw [e1, e2] at hv
        have e3 : a + 8 + 4 * (j - 2) = a + 4 * j := by omega
        have e4 : p + 8 + 4 * (j - 2) = p + 4 * j := by omega
        rw [e3, e4] at hv
        rw [hv]
        exact hmem0 _ (by omega) (by omega)

theorem Writes.of_silent (R : Nat → Prop) {s s' : Cpu} (h1 : s'.trace = s.trace)
    (h2 : s'.mem = s.mem) : Writes R s s' :=
  Writes.of_events [] (by simp [h1]) (by simp [h2, replay]) (by simp)

theorem Writes.state_context (t : Target) (s : Cpu) (hfit : Fits t) :
    Writes (fun a => inField (t.FaultInfo_addr + ofs_state_context) sizeof_StateContext a
      ∨ (FR_ARCH_ARMV8x_M t.build = true
        ∧ inField (t.FaultInfo_addr + ofs_additonal_state_context t.build)
          sizeof_AdditionalStateContext a)) s (FaultRecord.state_context t s) := by
  have hs := sizeof_FaultInfo_ge t.build
  unfold Fits at hfit
  -- the base registers
  have hbase : ∀ u : Cpu, Writes (fun a =>
      inField (t.FaultInfo_addr + ofs_state_context) sizeof_StateContext a
      ∨ (FR_ARCH_ARMV8x_M t.build = true
        ∧ inField (t.FaultInfo_addr + ofs_additonal_state_context t.build)
          sizeof_AdditionalStateContext a)) u
      (FaultRecord.copy2^[4] (ldr_const .r2 (t.FaultInfo_addr + ofs_state_context) u)) := by
    intro u
    have h2 : (ldr_const .r2 (t.FaultInfo_addr + ofs_state_context) u).get .r2
        = t.FaultInfo_addr + ofs_state_context := by
      simp only [ldr_const, Cpu.get, Cpu.set, ofs_state_context, ofs_type, sizeof_FaultInfoType]
      omega
    have hw := (FaultRecord.copy2_iter 4 _ _ _ h2 rfl (by
      simp only [ofs_state_context, ofs_type, sizeof_FaultInfoType]; omega)).1
    refine Writes.trans (Writes.of_silent _ ?_ ?_) (hw.mono ?_)
    · simp [ldr_const, Cpu.set]
    · simp [ldr_const, Cpu.set]
    · intro a ha
      left
      simpa [sizeof_StateContext] using ha
  -- the additional registers
  have hadd : FR_ARCH_ARMV8x_M t.build = true → ∀ u : Cpu, Writes (fun a =>
      inField (t.FaultInfo_addr + ofs_state_context) sizeof_StateContext a
      ∨ (FR_ARCH_ARMV8x_M t.build = true
        ∧ inField (t.FaultInfo_addr + ofs_additonal_state_context t.build)
          sizeof_AdditionalStateContext a)) u
      (FaultRecord.copy2^[5]
        (ldr_const .r2 (t.FaultInfo_addr + ofs_additonal_state_context t.build) u)) := by
    intro h8 u
    have hsz : ofs_additonal_state_context t.build + 40 ≤ sizeof_FaultInfo t.build := by
      simp only [sizeof_FaultInfo, h8, if_true, sizeof_AdditionalStateContext]
      omega
    have h2 : (ldr_const .r2 (t.FaultInfo_addr + ofs_additonal_state_context t.build) u).get .r2
        = t.FaultInfo_addr + ofs_additonal_state_context t.build := by
      simp only [ldr_const, Cpu.get, Cpu.set]
      omega
    have hw := (FaultRecord.copy2_iter 5 _ _ _ h2 rfl (by omega)).1
    refine Writes.trans (Writes.of_silent _ ?_ ?_) (hw.mono ?_)
    · simp [ldr_const, Cpu.set]
    · simp [ldr_const, Cpu.set]
    · intro a ha
      right
      exact ⟨h8, by simpa [sizeof_AdditionalStateContext] using ha⟩
  have hsil : ∀ (u : Cpu) (k : Nat) (ra rb : Reg),
      (lsrs ra rb k u).trace = u.trace ∧ (lsrs ra rb k u).mem = u.mem := by
    intro u k ra rb
    cases ra <;> simp [lsrs, Cpu.set, Cpu.setNZ]
  have hsil2 : ∀ (u : Cpu) (ra rb : Reg),
      (mov ra rb u).trace = u.trace ∧ (mov ra rb u).mem = u.mem := by
    intro u ra rb
    cases ra <;> simp [mov, Cpu.set]
  unfold FaultRecord.state_context
  simp only []
  split
  · exact Writes.of_silent _ (hsil _ _ _ _).1 (hsil _ _ _ _).2
  · refine Writes.trans (Writes.of_silent _ (hsil s 2 .r0 .r4).1 (hsil s 2 .r0 .r4).2) ?_
    split
    · rename_i h8
      split
      · refine Writes.trans (Writes.of_silent _ ?_ ?_) (hbase _)
        · rw [(hsil _ _ _ _).1, (hsil2 _ _ _).1]
        · rw [(hsil _ _ _ _).2, (hsil2 _ _ _).2]
      · refine Writes.trans (Writes.trans (Writes.of_silent _ ?_ ?_) (hadd h8 _)) (hbase _)
        · rw [(hsil _ _ _ _).1, (hsil2 _ _ _).1]
        · rw [(hsil _ _ _ _).2, (hsil2 _ _ _).2]
    · exact hbase _

theorem write32_zero_apply (m : Mem) (a x : Nat) :
    write32 m a 0 x = if ∃ j : Nat, j < 4 ∧ x = (a + j) % 2^32 then 0 else m x := by
  unfold write32 write8
  by_cases h3 : x = (a + 3) % 2^32
  · rw [if_pos h3, if_pos ⟨3, by omega, h3⟩]
    norm_num
  · by_cases h2 : x = (a + 2) % 2^32
    · rw [if_neg h3, if_pos h2, if_pos ⟨2, by omega, h2⟩]
      norm_num
    · by_cases h1 : x = (a + 1) % 2^32
      · rw [if_neg h3, if_neg h2, if_pos h1, if_pos ⟨1, by omega, h1⟩]
        norm_num
      · by_cases h0 : x = a % 2^32
        · rw [if_neg h3, if_neg h2, if_neg h1, if_pos h0, if_pos ⟨0, by omega, h0⟩]
        · rw [if_neg h3, if_neg h2, if_neg h1, if_neg h0, if_neg]
          rintro ⟨j, hj, hx⟩
          have : j = 0 ∨ j = 1 ∨ j = 2 ∨ j = 3 := by omega
          rcases this with rfl | rfl | rfl | rfl
          · exact h0 hx
          · exact h1 hx
          · exact h2 hx
          · exact h3 hx

/-- The events of the clearing loop: `n` word stores of `v` upwards from `a`. -/
theorem replay_clear (n : Nat) (m : Mem) (a : Nat) :
    replay m ((List.range n).map (fun i => Access.store ((a + 4 * i) % 2^32) 4 0))
      = memset m a 0 (4 * n) := by
  induction n generalizing m a with
  | zero => rfl
  | succ n ih =>
    rw [List.range_succ_eq_map]
    simp only [List.map_cons, List.map_map, replay, Nat.mul_zero, Nat.add_zero]
    have e : ((fun i => Access.store ((a + 4 * i) % 2^32) 4 0) ∘ Nat.succ)
        = fun i => Access.store (((a + 4) + 4 * i) % 2^32) 4 0 := by
      funext i
      simp only [Function.comp_apply, Nat.succ_eq_add_one]
      congr 2
      omega
    rw [e, ih]
    funext x
    rw [memset_apply, memset_apply, write32_zero_apply]
    by_cases h1 : ∃ i, i < 4 * n ∧ x = (a + 4 + i) % 2^32
    · obtain ⟨i, hi, hx⟩ := h1
      rw [if_pos ⟨i, hi, hx⟩, if_pos ⟨i + 4, by omega, by rw [hx]; congr 1; omega⟩]
    · rw [if_neg h1]
      by_cases h2 : ∃ j, j < 4 ∧ x = (a % 2^32 + j) % 2^32
      · obtain ⟨j, hj, hx⟩ := h2
        rw [if_pos ⟨j, hj, hx⟩, if_pos ⟨j, by omega, by rw [hx]; omega⟩]
      · rw [if_neg h2, if_neg]
        rintro ⟨i, hi, hx⟩
        by_cases h4 : i < 4
        · exact h2 ⟨i, h4, by rw [hx]; omega⟩
        · exact h1 ⟨i - 4, by omega, by rw [hx]; congr 1; omega⟩

/-- The clearing loop entered with `r2 = n`, the Z flag telling whether `n` is
zero and `r0 = 0` stores `n` zero words upwards from `r1`. -/
theorem FaultRecord.is_clear_done_spec (n : Nat) (s : Cpu) (hz : s.z = decide (n = 0))
    (hr2 : s.get .r2 = n) (hr0 : s.get .r0 = 0) :
    (FaultRecord.is_clear_done s).trace
        = s.trace ++ (List.range n).map (fun i => Access.store ((s.get .r1 + 4 * i) % 2^32) 4 0)
    ∧ (FaultRecord.is_clear_done s).mem = memset s.mem (s.get .r1) 0 (4 * n)
    ∧ (FaultRecord.is_clear_done s).r3 = s.r3 ∧ (FaultRecord.is_clear_done s).r4 = s.r4
    ∧ (FaultRecord.is_clear_done s).r12 = s.r12 ∧ (FaultRecord.is_clear_done s).lr = s.lr := by
  induction n generalizing s with
  | zero =>
    rw [FaultRecord.is_clear_done]
    simp [hz, memset]
  | succ n ih =>
    have hlt := get_lt s .r2
    have hzf : s.z = false := by rw [hz]; simp
    have hstep : FaultRecord.is_clear_done s
        = FaultRecord.is_clear_done (subs .r2 .r2 1 (stm1 .r1 .r0 s)) := by
      rw [FaultRecord.is_clear_done]
      simp [hzf]
    have h1 : (subs .r2 .r2 1 (stm1 .r1 .r0 s)).z = decide (n = 0)
        ∧ (subs .r2 .r2 1 (stm1 .r1 .r0 s)).get .r2 = n
        ∧ (subs .r2 .r2 1 (stm1 .r1 .r0 s)).get .r0 = 0
        ∧ (subs .r2 .r2 1 (stm1 .r1 .r0 s)).get .r1 = (s.get .r1 + 4) % 2^32
        ∧ (subs .r2 .r2 1 (stm1 .r1 .r0 s)).trace = s.trace ++ [Access.store (s.get .r1) 4 0]
        ∧ (subs .r2 .r2 1 (stm1 .r1 .r0 s)).mem = write32 s.mem (s.get .r1) 0
        ∧ (subs .r2 .r2 1 (stm1 .r1 .r0 s)).r3 = s.r3
        ∧ (subs .r2 .r2 1 (stm1 .r1 .r0 s)).r4 = s.r4
        ∧ (subs .r2 .r2 1 (stm1 .r1 .r0 s)).r12 = s.r12
        ∧ (subs .r2 .r2 1 (stm1 .r1 .r0 s)).lr = s.lr := by
      simp only [Cpu.get] at hr2 hr0 hlt
      simp [subs, stm1, Cpu.get, Cpu.set, Cpu.setNZ, addWithCarry, not32, hr0, hr2]
      have hr0' : s.r0 % 4294967296 = 0 := hr0
      rw [hr0']
      refine ⟨?_, ?_, rfl, rfl⟩
      · constructor <;> intro h <;> omega
      · omega
    obtain ⟨a1, a2, a3, a4, a5, a6, a7, a8, a9, a10⟩ := h1
    obtain ⟨i1, i2, i3, i4, i5, i6⟩ := ih _ a1 a2 a3
    rw [hstep]
    refine ⟨?_, ?_, by rw [i3, a7], by rw [i4, a8], by rw [i5, a9], by rw [i6, a10]⟩
    · rw [i1, a5, a4, List.range_succ_eq_map]
      simp only [List.map_cons, List.map_map, List.append_assoc, List.singleton_append,
        Nat.mul_zero, Nat.add_zero]
      have e1 : s.get .r1 % 2^32 = s.get .r1 := Nat.mod_eq_of_lt (get_lt s .r1)
      rw [e1]
      congr 2
      apply List.map_congr_left
      intro i _
      simp only [Function.comp_apply, Nat.succ_eq_add_one]
      congr 1
      omega
    · rw [i2, a6, a4, ← replay_clear, ← replay_clear, List.range_succ_eq_map]
      simp only [List.map_cons, List.map_map, replay, Nat.mul_zero, Nat.add_zero]
      have e0 : write32 s.mem (s.get .r1 % 2^32) 0 = write32 s.mem (s.get .r1) 0 :=
        write32_mod _ _ _
      rw [e0]
      apply congrArg
      apply List.map_congr_left
      intro i _
      simp only [Function.comp_apply, Nat.succ_eq_add_one]
      have : ((s.get .r1 + 4) % 2^32 + 4 * i) % 2^32 = (s.get .r1 + 4 * (i + 1)) % 2^32 := by
        omega
      rw [this]

theorem sizeof_FaultInfo_div (b : Build) : 4 * (sizeof_FaultInfo b / 4) = sizeof_FaultInfo b := by
  cases b <;> simp [sizeof_FaultInfo, ofs_additonal_state_context, ofs_fault_registers,
    ofs_common_registers, ofs_state_context, ofs_type, sizeof_FaultInfoType, sizeof_StateContext,
    sizeof_CommonRegisters, sizeof_FaultRegisters, sizeof_AdditionalStateContext,
    sizeof_Armv8mRegisters, sizeof_Armv8mFaultRegisters, FR_FAULT_REGS_EXIST, FR_ARCH_ARMV8x_M,
    FR_ARCH_ARMV8x_M_MAIN]

/-- Section "Clear FaultInfo": every word of the record is stored as zero, from
the first (the magic number) upwards; the registers that carry the trap
state are left alone. -/
theorem FaultRecord.clear_spec (t : Target) (s : Cpu) :
    (FaultRecord.clear t s).trace
        = s.trace ++ (List.range (sizeof_FaultInfo t.build / 4)).map
            (fun i => Access.store ((t.FaultInfo_addr + 4 * i) % 2^32) 4 0)
    ∧ (FaultRecord.clear t s).mem = memset s.mem t.FaultInfo_addr 0 (sizeof_FaultInfo t.build)
    ∧ (FaultRecord.clear t s).r3 = s.r3 ∧ (FaultRecord.clear t s).r4 = s.r4
    ∧ (FaultRecord.clear t s).r12 = s.r12 ∧ (FaultRecord.clear t s).lr = s.lr := by
  have hs := sizeof_FaultInfo_ge t.build
  have hd := sizeof_FaultInfo_div t.build
  have hn : sizeof_FaultInfo t.build / 4 ≠ 0 := by omega
  obtain ⟨h1, h2, h3, h4, h5, h6⟩ := FaultRecord.is_clear_done_spec (sizeof_FaultInfo t.build / 4)
    (movs .r2 (sizeof_FaultInfo t.build / 4) (ldr_const .r1 t.FaultInfo_addr (movs .r0 0 s)))
    (by
      simp [movs, ldr_const, Cpu.set, Cpu.setNZ]
      constructor <;> intro h <;> omega)
    (by simp [movs, ldr_const, Cpu.get, Cpu.set, Cpu.setNZ]; omega)
    (by simp [movs, ldr_const, Cpu.get, Cpu.set, Cpu.setNZ])
  have e1 : (movs .r2 (sizeof_FaultInfo t.build / 4)
      (ldr_const .r1 t.FaultInfo_addr (movs .r0 0 s))).get .r1 = t.FaultInfo_addr % 2^32 := by
    simp [movs, ldr_const, Cpu.get, Cpu.set, Cpu.setNZ]
  unfold FaultRecord.clear
  simp only []
  rw [h1, h2, h3, h4, h5, h6, e1, hd]
  refine ⟨?_, ?_, ?_, ?_, ?_, ?_⟩
  · simp [movs, ldr_const, Cpu.set, Cpu.setNZ]
  · funext x
    rw [memset_apply, memset_apply]
    simp [movs, ldr_const, Cpu.set, Cpu.setNZ]
  · simp [movs, ldr_const, Cpu.set, Cpu.setNZ]
  · simp [movs, ldr_const, Cpu.set, Cpu.setNZ]
  · simp [movs, ldr_const, Cpu.set, Cpu.setNZ]
  · simp [movs, ldr_const, Cpu.set, Cpu.setNZ]

/-- The clearing loop forgets what the cleared words held: two states that
differ only in the memory cells about to be cleared end in the same state. -/
theorem FaultRecord.is_clear_done_agree (n : Nat) (s : Cpu) (m2 : Mem)
    (hz : s.z = decide (n = 0)) (hr2 : s.get .r2 = n)
    (hmem : ∀ a, (∀ i, i < 4 * n → a ≠ (s.get .r1 + i) % 2^32) → m2 a = s.mem a) :
    FaultRecord.is_clear_done { s with mem := m2 } = FaultRecord.is_clear_done s := by
  induction n generalizing s m2 with
  | zero =>
    have e : m2 = s.mem := by
      funext a
      exact hmem a (fun i hi => absurd hi (by omega))
    rw [e]
  | succ n ih =>
    have hlt := get_lt s .r2
    have hzf : s.z = false := by rw [hz]; simp
    have hstep : ∀ u : Cpu, u.z = false → FaultRecord.is_clear_done u
        = FaultRecord.is_clear_done (subs .r2 .r2 1 (stm1 .r1 .r0 u)) := by
      intro u hu
      rw [FaultRecord.is_clear_done]
      simp [hu]
    rw [hstep s hzf, hstep { s with mem := m2 } hzf]
    have e : subs .r2 .r2 1 (stm1 .r1 .r0 { s with mem := m2 })
        = { subs .r2 .r2 1 (stm1 .r1 .r0 s) with mem := write32 m2 (s.get .r1) (s.get .r0) } := by
      simp [subs, stm1, Cpu.get, Cpu.set, Cpu.setNZ]
    rw [e]
    have h1 : (subs .r2 .r2 1 (stm1 .r1 .r0 s)).z = decide (n = 0)
        ∧ (subs .r2 .r2 1 (stm1 .r1 .r0 s)).get .r2 = n
        ∧ (subs .r2 .r2 1 (stm1 .r1 .r0 s)).get .r1 = (s.get .r1 + 4) % 2^32
        ∧ (subs .r2 .r2 1 (stm1 .r1 .r0 s)).mem = write32 s.mem (s.get .r1) (s.get .r0) := by
      simp only [Cpu.get] at hr2 hlt
      simp [subs, stm1, Cpu.get, Cpu.set, Cpu.setNZ, addWithCarry, not32]
      refine ⟨?_, ?_⟩
      · constructor <;> intro h <;> omega
      · omega
    obtain ⟨a1, a2, a3, a4⟩ := h1
    apply ih _ _ a1 a2
    intro a ha
    rw [a4]
    rw [a3] at ha
    by_cases hin : ∃ j : Nat, j < 4 ∧ a = (s.get .r1 + j) % 2^32
    · obtain ⟨j, hj, hja⟩ := hin
      have hj' : j = 0 ∨ j = 1 ∨ j = 2 ∨ j = 3 := by omega
      unfold write32 write8
      have e0 : ¬ (s.get .r1 % 2^32 = (s.get .r1 + 1) % 2^32) := by omega
      have e1 : ¬ (s.get .r1 % 2^32 = (s.get .r1 + 2) % 2^32) := by omega
      have e2 : ¬ (s.get .r1 % 2^32 = (s.get .r1 + 3) % 2^32) := by omega
      have e3 : ¬ ((s.get .r1 + 1) % 2^32 = (s.get .r1 + 2) % 2^32) := by omega
      have e4 : ¬ ((s.get .r1 + 1) % 2^32 = (s.get .r1 + 3) % 2^32) := by omega
      have e5 : ¬ ((s.get .r1 + 2) % 2^32 = (s.get .r1 + 3) % 2^32) := by omega
      rcases hj' with rfl | rfl | rfl | rfl <;> subst hja <;>
        simp only [Nat.add_zero, e0, e1, e2, e3, e4, e5, if_true, if_false]
    · have hne : ∀ j, j < 4 → a ≠ (s.get .r1 + j) % 2^32 := fun j hj h => hin ⟨j, hj, h⟩
      have h0 : a ≠ s.get .r1 % 2^32 := hne 0 (by omega)
      rw [write32_apply _ _ _ _ h0 (hne 1 (by omega)) (hne 2 (by omega)) (hne 3 (by omega)),
        write32_apply _ _ _ _ h0 (hne 1 (by omega)) (hne 2 (by omega)) (hne 3 (by omega))]
      apply hmem
      intro i hi
      by_cases h4 : i < 4
      · exact hne i h4
      · have := ha (i - 4) (by omega)
        intro h
        apply this
        rw [h]
        omega

/-- Section "Clear FaultInfo" forgets the prior content of the record. -/
theorem FaultRecord.clear_agree (t : Target) (s : Cpu) (m2 : Mem)
    (hmem : ∀ a, (∀ i, i < sizeof_FaultInfo t.build → a ≠ (t.FaultInfo_addr + i) % 2^32) →
      m2 a = s.mem a) :
    FaultRecord.clear t { s with mem := m2 } = FaultRecord.clear t s := by
  have hs := sizeof_FaultInfo_ge t.build
  have hd := sizeof_FaultInfo_div t.build
  unfold FaultRecord.clear
  simp only []
  have e : movs .r2 (sizeof_FaultInfo t.build / 4)
      (ldr_const .r1 t.FaultInfo_addr (movs .r0 0 { s with mem := m2 }))
      = { movs .r2 (sizeof_FaultInfo t.build / 4)
            (ldr_const .r1 t.FaultInfo_addr (movs .r0 0 s)) with mem := m2 } := by
    simp [movs, ldr_const, Cpu.set, Cpu.setNZ]
  rw [e]
  apply FaultRecord.is_clear_done_agree (sizeof_FaultInfo t.build / 4)
  · simp [movs, ldr_const, Cpu.set, Cpu.setNZ]
    constructor <;> intro h <;> omega
  · simp [movs, ldr_const, Cpu.get, Cpu.set, Cpu.setNZ]
    omega
  · intro a ha
    have e1 : (movs .r2 (sizeof_FaultInfo t.build / 4)
        (ldr_const .r1 t.FaultInfo_addr (movs .r0 0 s))).get .r1 = t.FaultInfo_addr % 2^32 := by
      simp [movs, ldr_const, Cpu.get, Cpu.set, Cpu.setNZ]
    have e2 : (movs .r2 (sizeof_FaultInfo t.build / 4)
        (ldr_const .r1 t.FaultInfo_addr (movs .r0 0 s))).mem = s.mem := by
      simp [movs, ldr_const, Cpu.get, Cpu.set, Cpu.setNZ]
    rw [e1, hd] at ha
    rw [e2]
    apply hmem
    intro i hi h
    apply ha i hi
    rw [h]
    omega

/-- C8: the record left by a capture is a function of the hardware state at
that trap only. Two entries into `FaultRecord` that agree on every register
and on every memory cell outside the record (same EXC_RETURN, same hardware
state), whatever the two prior contents of the record, reach the exit hook in
the same state: the records are byte-identical and `FaultRecordPrint` prints
the same text, so nothing of an earlier capture is left. -/
theorem FaultRecord_independent_of_prior_record (t : Target) (s : Cpu) (m2 : Mem)
    (hmem : ∀ a, (∀ i, i < sizeof_FaultInfo t.build → a ≠ (t.FaultInfo_addr + i) % 2^32) →
      m2 a = s.mem a) :
    FaultRecord t { s with mem := m2 } = FaultRecord t s
    ∧ (∀ i, i < sizeof_FaultInfo t.build →
        read8 (FaultRecord t { s with mem := m2 }).mem (t.FaultInfo_addr + i)
          = read8 (FaultRecord t s).mem (t.FaultInfo_addr + i))
    ∧ textOf (FaultRecordPrint t) (FaultRecord t { s with mem := m2 }).mem
        = textOf (FaultRecordPrint t) (FaultRecord t s).mem := by
  have e : FaultRecord t { s with mem := m2 } = FaultRecord t s := by
    unfold FaultRecord
    simp only []
    rw [FaultRecord.clear_agree t s m2 hmem]
  refine ⟨e, ?_, ?_⟩
  · intro i _
    rw [e]
  · rw [e]

theorem badCrcMem_outside (a : Nat)
    (h : ∀ i, i < sizeof_FaultInfo cortexM4.build → a ≠ (cortexM4.FaultInfo_addr + i) % 2^32) :
    badCrcMem a = (Cpu.init zeroMem).mem a := by
  have h0 := h 0 (by decide)
  have h1 := h 1 (by decide)
  have h2 := h 2 (by decide)
  have h3 := h 3 (by decide)
  have h8 := h 8 (by decide)
  have h9 := h 9 (by decide)
  simp only [cortexM4] at h0 h1 h2 h3 h8 h9
  norm_num at h0 h1 h2 h3 h8 h9
  simp [badCrcMem, Cpu.init, zeroMem, h0, h1, h2, h3, h8, h9]

theorem FaultRecord_independent_of_prior_record_witness :
    (∀ a, (∀ i, i < sizeof_FaultInfo cortexM4.build →
        a ≠ (cortexM4.FaultInfo_addr + i) % 2^32) → badCrcMem a = (Cpu.init zeroMem).mem a)
    ∧ FaultRecord cortexM4 { Cpu.init zeroMem with mem := badCrcMem }
        = FaultRecord cortexM4 (Cpu.init zeroMem) :=
  ⟨badCrcMem_outside,
    (FaultRecord_independent_of_prior_record cortexM4 (Cpu.init zeroMem) badCrcMem
      badCrcMem_outside).1⟩

theorem Writes.r3_points_to_stack (R : Nat → Prop) (t : Target) (s : Cpu) :
    Writes R s (FaultRecord.r3_points_to_stack t s) := by
  apply Writes.of_silent
  · unfold FaultRecord.r3_points_to_stack
    simp only []
    repeat' split
    all_goals simp [mrs, mov, movs, lsrs, Cpu.set, Cpu.setNZ]
  · unfold FaultRecord.r3_points_to_stack
    simp only []
    repeat' split
    all_goals simp [mrs, mov, movs, lsrs, Cpu.set, Cpu.setNZ]

theorem Writes.of_loads (R : Nat → Prop) {s s' : Cpu} (l : List Access)
    (h1 : s'.trace = s.trace ++ l) (h2 : s'.mem = s.mem) (h3 : ∀ e ∈ l, e.isStore = false) :
    Writes R s s' := by
  have hr : ∀ (l : List Access) (m : Mem), (∀ e ∈ l, e.isStore = false) → replay m l = m := by
    intro l
    induction l with
    | nil => intro m _; rfl
    | cons e l ih =>
      intro m h
      have he := h e (List.mem_cons_self _ _)
      cases e with
      | load a sz => exact ih m (fun e he => h e (List.mem_cons_of_mem _ he))
      | store a sz v => simp [Access.isStore] at he
  apply Writes.of_events l h1
  · rw [h2, hr l _ h3]
  · intro e he
    have := h3 e he
    cases e with
    | load a sz => trivial
    | store a sz v => simp [Access.isStore] at this

theorem Writes.stack_check (R : Nat → Prop) (t : Target) (s : Cpu) :
    Writes R s (FaultRecord.stack_check t s) := by
  unfold Writes newEvents FaultRecord.stack_check
  simp only []
  repeat' split
  all_goals
    simp [ldr_const, ldr, lsrs, ands, adds, Cpu.get, Cpu.set, Cpu.setNZ, replay, Access.storesIn]

theorem Writes.crc32 (t : Target) (s : Cpu) (hfit : Fits t) :
    Writes (inField (t.FaultInfo_addr + ofs_crc32) 4) s (FaultRecord.crc32 t s) := by
  have hs := sizeof_FaultInfo_ge t.build
  unfold Fits at hfit
  unfold FaultRecord.crc32
  simp only []
  generalize hu : bl t.ret_CalcCRC32 (ldr_const .r3 FR_CRC32_POLYNOM
    (ldr_const .r2 (FR_CRC32_DATA_LEN t.build) (ldr_const .r1 (t.FaultInfo_addr + ofs_type)
    (ldr_const .r0 FR_CRC32_INIT_VAL s)))) = u
  have h1 : Writes (inField (t.FaultInfo_addr + ofs_crc32) 4) s u := by
    apply Writes.of_silent <;> subst hu <;> simp [bl, ldr_const, Cpu.set]
  obtain ⟨_, cm, ctr⟩ := CalcCRC32_spec u
  have h2 : Writes (inField (t.FaultInfo_addr + ofs_crc32) 4) u (CalcCRC32 u) := by
    apply Writes.of_loads _ _ ctr cm
    intro e he
    obtain ⟨i, _, rfl⟩ := List.mem_map.mp he
    rfl
  refine Writes.trans (Writes.trans h1 h2) ?_
  apply Writes.of_events [Access.store (t.FaultInfo_addr + ofs_crc32) 4 ((CalcCRC32 u).get .r0)]
  · have e : (t.FaultInfo_addr + ofs_crc32) % 4294967296 = t.FaultInfo_addr + ofs_crc32 := by
      simp only [ofs_crc32]; omega
    simp [str, ldr_const, Cpu.get, Cpu.set, e]
  · simp [str, ldr_const, Cpu.get, Cpu.set, replay, write32_mod]
  · simp [Access.storesIn, inField]

/-- The accesses of the CRC section: the byte loads of `CalcCRC32`, then the
store of the result into `FaultInfo.crc32`. -/
theorem FaultRecord.crc32_trace (t : Target) (s : Cpu) (hfit : Fits t) :
    ∃ loads : List Access, (∀ e ∈ loads, e.isStore = false)
      ∧ (FaultRecord.crc32 t s).trace = s.trace ++ loads
          ++ [Access.store (t.FaultInfo_addr + ofs_crc32) 4 (FaultInfo.calc_crc32 t s.mem)] := by
  have hs := sizeof_FaultInfo_ge t.build
  have hcalc := FaultInfo.calc_crc32_eq t s.mem hfit
  unfold Fits at hfit
  unfold FaultRecord.crc32
  simp only []
  generalize hu : bl t.ret_CalcCRC32 (ldr_const .r3 FR_CRC32_POLYNOM
    (ldr_const .r2 (FR_CRC32_DATA_LEN t.build) (ldr_const .r1 (t.FaultInfo_addr + ofs_type)
    (ldr_const .r0 FR_CRC32_INIT_VAL s)))) = u
  have hu0 : u.get .r0 = FR_CRC32_INIT_VAL ∧ u.get .r1 = t.FaultInfo_addr + ofs_type
      ∧ u.get .r2 = FR_CRC32_DATA_LEN t.build ∧ u.get .r3 = FR_CRC32_POLYNOM ∧ u.mem = s.mem
      ∧ u.trace = s.trace := by
    subst hu
    simp only [bl, ldr_const, Cpu.get, Cpu.set, FR_CRC32_INIT_VAL, FR_CRC32_POLYNOM,
      FR_CRC32_DATA_LEN, ofs_type]
    refine ⟨by norm_num, by omega, by omega, by norm_num, trivial, trivial⟩
  obtain ⟨u0, u1, u2, u3, um, ut⟩ := hu0
  obtain ⟨c0, cm, ctr⟩ := CalcCRC32_spec u
  refine ⟨(List.range (u.get .r2)).map (fun i => Access.load ((u.get .r1 + i) % 2^32) 1), ?_, ?_⟩
  · intro e he
    obtain ⟨i, _, rfl⟩ := List.mem_map.mp he
    rfl
  · have e : (t.FaultInfo_addr + ofs_crc32) % 4294967296 = t.FaultInfo_addr + ofs_crc32 := by
      simp only [ofs_crc32]; omega
    have hv : (CalcCRC32 u).get .r0 = FaultInfo.calc_crc32 t s.mem := by
      rw [c0, hcalc, u0, u1, u2, u3, um]
    have hv' : (CalcCRC32 u).r0 % 4294967296 = FaultInfo.calc_crc32 t s.mem := hv
    simp [str, ldr_const, Cpu.get, Cpu.set, e, ctr, ut, hv']

/-- Every store between the clearing of the record and the magic number goes
to a body field or to the CRC word. -/
theorem Writes.body (t : Target) (s : Cpu) (hfit : Fits t) :
    Writes (inField (t.FaultInfo_addr + 4) (sizeof_FaultInfo t.build - 4)) s
      (FaultRecord.body t s) := by
  unfold FaultRecord.body
  simp only []
  refine Writes.trans (Writes.trans (Writes.trans (Writes.trans (Writes.trans (Writes.trans
    (Writes.trans (Writes.r3_points_to_stack _ t s) (Writes.stack_check _ t _))
    ((Writes.type_information t _ hfit).mono ?_)) ((Writes.state_context t _ hfit).mono ?_))
    ((Writes.common_registers t _ hfit).mono ?_)) ((Writes.armv8_m_registers t _ hfit).mono ?_))
    ((Writes.fault_regs_section t _ hfit).mono ?_)) ((Writes.crc32 t _ hfit).mono ?_)
  all_goals
    intro a
    rcases hb : t.build with _ | _ | _ | cmse | cmse | cmse
    all_goals (try cases cmse)
    all_goals
      simp [hb, inField, ofs_type, ofs_crc32, ofs_state_context, ofs_common_registers,
        ofs_fault_registers, ofs_additonal_state_context, ofs_armv8_m_registers,
        ofs_armv8_m_fault_registers, sizeof_FaultInfo, sizeof_FaultInfoType,
        sizeof_StateContext, sizeof_CommonRegisters, sizeof_FaultRegisters,
        sizeof_AdditionalStateContext, sizeof_Armv8mRegisters, sizeof_Armv8mFaultRegisters,
        FR_FAULT_REGS_EXIST, FR_ARCH_ARMV8x_M, FR_ARCH_ARMV8_M_BASE, FR_ARCH_ARMV8x_M_MAIN,
        FR_SECURE]
      try omega

theorem FaultRecord.magic_number_spec (t : Target) (s : Cpu) :
    (FaultRecord.magic_number t s).trace
        = s.trace ++ [Access.store (t.FaultInfo_addr % 2^32) 4 FR_MAGIC_NUMBER]
    ∧ (FaultRecord.magic_number t s).mem = write32 s.mem t.FaultInfo_addr FR_MAGIC_NUMBER := by
  simp [FaultRecord.magic_number, str, ldr_const, Cpu.get, Cpu.set, write32_mod, FR_MAGIC_NUMBER,
    ofs_magic_number]

/-- Reading the magic number after stores that all go to the body or the CRC word. -/
theorem magic_number_replay (t : Target) (hfit : Fits t) (l : List Access) (m : Mem)
    (h : ∀ e ∈ l, e.storesIn (inField (t.FaultInfo_addr + 4) (sizeof_FaultInfo t.build - 4))) :
    FaultInfo.magic_number t (replay m l) = FaultInfo.magic_number t m := by
  have hs := sizeof_FaultInfo_ge t.build
  unfold Fits at hfit
  have e : ∀ k, k < 4 →
      replay m l ((t.FaultInfo_addr + k) % 2^32) = m ((t.FaultInfo_addr + k) % 2^32) := by
    intro k hk
    apply replay_apply _ l m _ h
    intro a ha
    unfold inField at ha
    omega
  unfold FaultInfo.magic_number read32 read8
  simp only [ofs_magic_number, Nat.add_zero]
  have e0 := e 0 (by omega)
  rw [Nat.add_zero] at e0
  rw [e0, e 1 (by omega), e 2 (by omega), e 3 (by omega)]

theorem FaultRecord.body_eq (t : Target) (s : Cpu) :
    FaultRecord.body t s = FaultRecord.crc32 t (FaultRecord.fields t s) := rfl

theorem Writes.fields (t : Target) (s : Cpu) (hfit : Fits t) :
    Writes (inField (t.FaultInfo_addr + 4) (sizeof_FaultInfo t.build - 4)) s
      (FaultRecord.fields t s) := by
  unfold FaultRecord.fields
  simp only []
  refine Writes.trans (Writes.trans (Writes.trans (Writes.trans (Writes.trans (Writes.trans
    (Writes.r3_points_to_stack _ t s) (Writes.stack_check _ t _))
    ((Writes.type_information t _ hfit).mono ?_)) ((Writes.state_context t _ hfit).mono ?_))
    ((Writes.common_registers t _ hfit).mono ?_)) ((Writes.armv8_m_registers t _ hfit).mono ?_))
    ((Writes.fault_regs_section t _ hfit).mono ?_)
  all_goals
    intro a
    rcases hb : t.build with _ | _ | _ | cmse | cmse | cmse
    all_goals (try cases cmse)
    all_goals
      simp [hb, inField, ofs_type, ofs_crc32, ofs_state_context, ofs_common_registers,
        ofs_fault_registers, ofs_additonal_state_context, ofs_armv8_m_registers,
        ofs_armv8_m_fault_registers, sizeof_FaultInfo, sizeof_FaultInfoType,
        sizeof_StateContext, sizeof_CommonRegisters, sizeof_FaultRegisters,
        sizeof_AdditionalStateContext, sizeof_Armv8mRegisters, sizeof_Armv8mFaultRegisters,
        FR_FAULT_REGS_EXIST, FR_ARCH_ARMV8x_M, FR_ARCH_ARMV8_M_BASE, FR_ARCH_ARMV8x_M_MAIN,
        FR_SECURE]
      try omega

/-- Memory at the entry of the exit hook, from the memory left by the capture of the fields. -/
theorem FaultRecord_mem_fields (t : Target) (s : Cpu) (hfit : Fits t) :
    (FaultRecord t s).mem
      = write32 (write32 (FaultRecord.fields t (FaultRecord.clear t s)).mem
          (t.FaultInfo_addr + ofs_crc32)
          (FaultInfo.calc_crc32 t (FaultRecord.fields t (FaultRecord.clear t s)).mem))
          (t.FaultInfo_addr + ofs_magic_number) FR_MAGIC_NUMBER := by
  have e : (FaultRecord t s).mem
      = (FaultRecord.magic_number t (FaultRecord.body t (FaultRecord.clear t s))).mem := by
    simp [FaultRecord, bl, mov, Cpu.set]
  rw [e, (FaultRecord.magic_number_spec t _).2, FaultRecord.body_eq,
    FaultRecord.crc32_mem t _ hfit]
  rfl

/-- The accesses of a whole run of `FaultRecord`: the store of zero into the
magic number, then accesses whose stores all go to the body or the CRC word,
the store of the CRC among them, then the store of the sentinel. -/
theorem FaultRecord_events (t : Target) (s : Cpu) (hfit : Fits t) :
    ∃ mid : List Access,
      (FaultRecord t s).trace = s.trace ++ (Access.store t.FaultInfo_addr 4 0
        :: (mid ++ [Access.store t.FaultInfo_addr 4 FR_MAGIC_NUMBER]))
      ∧ (∀ e ∈ mid,
          e.storesIn (inField (t.FaultInfo_addr + 4) (sizeof_FaultInfo t.build - 4)))
      ∧ Access.store (t.FaultInfo_addr + ofs_crc32) 4
          (FaultInfo.calc_crc32 t (FaultRecord.fields t (FaultRecord.clear t s)).mem) ∈ mid
      ∧ (FaultRecord.body t (FaultRecord.clear t s)).mem
          = replay (write32 s.mem t.FaultInfo_addr 0) mid := by
  have hs := sizeof_FaultInfo_ge t.build
  have hd := sizeof_FaultInfo_div t.build
  have hfit' := hfit
  unfold Fits at hfit'
  obtain ⟨c1, c2, _⟩ := FaultRecord.clear_spec t s
  obtain ⟨n, hn⟩ : ∃ n, sizeof_FaultInfo t.build / 4 = n + 1 := ⟨sizeof_FaultInfo t.build / 4 - 1,
    by omega⟩
  have hbase : t.FaultInfo_addr % 2^32 = t.FaultInfo_addr := by omega
  rw [hn, List.range_succ_eq_map] at c1
  simp only [List.map_cons, List.map_map, Nat.mul_zero, Nat.add_zero, hbase] at c1
  have c2' : (FaultRecord.clear t s).mem = replay s.mem ((List.range (n + 1)).map
      (fun i => Access.store ((t.FaultInfo_addr + 4 * i) % 2^32) 4 0)) := by
    rw [replay_clear, c2, ← hd, hn]
  rw [List.range_succ_eq_map] at c2'
  simp only [List.map_cons, List.map_map, Nat.mul_zero, Nat.add_zero, hbase, replay] at c2'
  obtain ⟨f1, f2, f3⟩ := Writes.fields t (FaultRecord.clear t s) hfit
  obtain ⟨b1, b2, b3⟩ := Writes.body t (FaultRecord.clear t s) hfit
  obtain ⟨loads, _, hcrc⟩ := FaultRecord.crc32_trace t (FaultRecord.fields t (FaultRecord.clear t s))
    hfit
  obtain ⟨m1, _⟩ := FaultRecord.magic_number_spec t (FaultRecord.body t (FaultRecord.clear t s))
  have e : (FaultRecord t s).trace
      = (FaultRecord.magic_number t (FaultRecord.body t (FaultRecord.clear t s))).trace := by
    simp [FaultRecord, bl, mov, Cpu.set]
  refine ⟨List.map ((fun i => Access.store ((t.FaultInfo_addr + 4 * i) % 2^32) 4 0) ∘ Nat.succ)
      (List.range n)
    ++ newEvents (FaultRecord.clear t s) (FaultRecord.body t (FaultRecord.clear t s)), ?_, ?_, ?_,
    ?_⟩
  · rw [e, m1, b1, c1, hbase]
    simp
  · intro ev hev
    rcases List.mem_append.mp hev with h | h
    · obtain ⟨i, hi, rfl⟩ := List.mem_map.mp h
      have hi' := List.mem_range.mp hi
      simp only [Function.comp_apply, Nat.succ_eq_add_one, Access.storesIn, inField, true_and]
      omega
    · exact b3 ev h
  · apply List.mem_append_right
    have h1 : (FaultRecord.body t (FaultRecord.clear t s)).trace
        = (FaultRecord.clear t s).trace
          ++ (newEvents (FaultRecord.clear t s) (FaultRecord.fields t (FaultRecord.clear t s))
            ++ loads ++ [Access.store (t.FaultInfo_addr + ofs_crc32) 4
              (FaultInfo.calc_crc32 t (FaultRecord.fields t (FaultRecord.clear t s)).mem)]) := by
      rw [FaultRecord.body_eq, hcrc, f1]
      simp
    rw [newEvents_of_append _ _ _ h1]
    simp
  · rw [b2, c2', replay_append]

theorem calc_crc32_lt (t : Target) (m : Mem) : FaultInfo.calc_crc32 t m < 2^32 := by
  unfold FaultInfo.calc_crc32 CalcCRC32.call
  exact get_lt _ _

/-- The CRC word read back after the CRC and the magic number have been stored. -/
theorem stamped_crc32 (t : Target) (m : Mem) (hfit : Fits t) :
    FaultInfo.crc32 t (write32 (write32 m (t.FaultInfo_addr + ofs_crc32)
      (FaultInfo.calc_crc32 t m)) (t.FaultInfo_addr + ofs_magic_number) FR_MAGIC_NUMBER)
      = FaultInfo.calc_crc32 t m := by
  have hs := sizeof_FaultInfo_ge t.build
  unfold Fits at hfit
  show read32 (write32 (write32 m _ _) _ _) (t.FaultInfo_addr + ofs_crc32) = _
  simp only [ofs_magic_number, ofs_crc32] at *
  rw [read32_write32_disjoint _ _ _ _ (by omega) (by omega) (by omega), read32_write32_same]
  exact Nat.mod_eq_of_lt (calc_crc32_lt t m)

/-! ## The stack check of `FaultRecord` -/

theorem SameSys.trans_sys {a b c : Cpu} (h1 : SameSys a b) (h2 : SameSys b c) : SameSys a c := by
  unfold SameSys at *
  obtain ⟨a1, a2, a3, a4, a5, a6, a7, a8, a9⟩ := h1
  obtain ⟨b1, b2, b3, b4, b5, b6, b7, b8, b9⟩ := h2
  exact ⟨b1.trans a1, b2.trans a2, b3.trans a3, b4.trans a4, b5.trans a5, b6.trans a6,
    b7.trans a7, b8.trans a8, b9.trans a9⟩

theorem FaultRecord.is_clear_done_sys (n : Nat) (s : Cpu) (hz : s.z = decide (n = 0))
    (hr2 : s.get .r2 = n) : SameSys s (FaultRecord.is_clear_done s) := by
  induction n generalizing s with
  | zero =>
    rw [FaultRecord.is_clear_done]
    simp [hz, SameSys]
  | succ n ih =>
    have hlt := get_lt s .r2
    have hzf : s.z = false := by rw [hz]; simp
    have hstep : FaultRecord.is_clear_done s
        = FaultRecord.is_clear_done (subs .r2 .r2 1 (stm1 .r1 .r0 s)) := by
      rw [FaultRecord.is_clear_done]
      simp [hzf]
    have h1 : (subs .r2 .r2 1 (stm1 .r1 .r0 s)).z = decide (n = 0)
        ∧ (subs .r2 .r2 1 (stm1 .r1 .r0 s)).get .r2 = n
        ∧ SameSys s (subs .r2 .r2 1 (stm1 .r1 .r0 s)) := by
      simp only [Cpu.get] at hr2 hlt
      simp [subs, stm1, Cpu.get, Cpu.set, Cpu.setNZ, addWithCarry, not32, hr2, SameSys]
      refine ⟨?_, ?_⟩
      · constructor <;> intro h <;> omega
      · omega
    obtain ⟨a1, a2, a3⟩ := h1
    rw [hstep]
    exact SameSys.trans_sys a3 (ih _ a1 a2)

theorem FaultRecord.clear_sys (t : Target) (s : Cpu) : SameSys s (FaultRecord.clear t s) := by
  have hs := sizeof_FaultInfo_ge t.build
  have hd := sizeof_FaultInfo_div t.build
  have h := FaultRecord.is_clear_done_sys (sizeof_FaultInfo t.build / 4)
    (movs .r2 (sizeof_FaultInfo t.build / 4) (ldr_const .r1 t.FaultInfo_addr (movs .r0 0 s)))
    (by
      simp [movs, ldr_const, Cpu.set, Cpu.setNZ]
      constructor <;> intro h <;> omega)
    (by simp [movs, ldr_const, Cpu.get, Cpu.set, Cpu.setNZ]; omega)
  unfold FaultRecord.clear
  simp only []
  refine SameSys.trans_sys ?_ h
  simp [movs, ldr_const, Cpu.set, Cpu.setNZ, SameSys]

/-- A word that no store of the run overlaps keeps its value. -/
theorem Writes.read32_of_sep {R : Nat → Prop} {s s' : Cpu} (h : Writes R s s') (c : Nat)
    (hc : c + 4 ≤ 2^32) (hR : ∀ a, R a → a + 4 ≤ 2^32 ∧ (c + 4 ≤ a ∨ a + 4 ≤ c)) :
    read32 s'.mem c = read32 s.mem c := by
  have e : ∀ k, k < 4 → s'.mem ((c + k) % 2^32) = s.mem ((c + k) % 2^32) := by
    intro k hk
    apply h.cell_eq
    intro a ha
    have := hR a ha
    omega
  unfold read32 read8
  have e0 := e 0 (by omega)
  rw [Nat.add_zero] at e0
  rw [e0, e 1 (by omega), e 2 (by omega), e 3 (by omega)]

/-- On a build without Secure-world paths, `r3` receives MSP or PSP as bit 2 of
EXC_RETURN tells, and `r4` is cleared. -/
theorem FaultRecord.r3_points_to_stack_v7 (t : Target) (s : Cpu)
    (hb : FR_SECURE t.build = false) :
    (FaultRecord.r3_points_to_stack t s).get .r3 = framePointer s
    ∧ (FaultRecord.r3_points_to_stack t s).get .r4 = 0
    ∧ (FaultRecord.r3_points_to_stack t s).mem = s.mem
    ∧ (FaultRecord.r3_points_to_stack t s).lr = s.lr
    ∧ SameSys s (FaultRecord.r3_points_to_stack t s) := by
  unfold FaultRecord.r3_points_to_stack framePointer
  simp only [hb, Bool.false_eq_true, if_false]
  by_cases h : s.lr % 4294967296 / 4 % 2 = 1
  · simp [mov, movs, lsrs, mrs, Cpu.get, Cpu.set, Cpu.setNZ, Cpu.sys, SameSys, h]
  · have h0 : s.lr % 4294967296 / 4 % 2 = 0 := by omega
    simp [mov, movs, lsrs, mrs, Cpu.get, Cpu.set, Cpu.setNZ, Cpu.sys, SameSys, h0]

/-- On a build without Secure-world paths and with fault registers, the stack
check adds 2 to `r4` exactly when the word at operand `cfsr_addr` has a bit of
the stacking error mask. -/
theorem FaultRecord.stack_check_v7 (t : Target) (s : Cpu)
    (hb : FR_SECURE t.build = false) (hf : FR_FAULT_REGS_EXIST t.build = true) :
    (FaultRecord.stack_check t s).get .r3 = s.get .r3
    ∧ (FaultRecord.stack_check t s).get .r4
        = (if read32 s.mem (cfsr_addr t) &&& (SCB_CFSR_Stack_Err_Msk t % 2^32) = 0
            then s.get .r4 else (s.get .r4 + 2) % 2^32)
    ∧ (FaultRecord.stack_check t s).mem = s.mem
    ∧ (FaultRecord.stack_check t s).lr = s.lr
    ∧ SameSys s (FaultRecord.stack_check t s) := by
  have hl := read32_lt s.mem (cfsr_addr t)
  have hand : read32 s.mem (cfsr_addr t) &&& (SCB_CFSR_Stack_Err_Msk t % 4294967296)
      < 4294967296 := lt_of_le_of_lt Nat.and_le_left hl
  unfold FaultRecord.stack_check
  simp only [hb, hf, Bool.false_eq_true, if_false, if_true]
  by_cases h : read32 s.mem (cfsr_addr t) &&& (SCB_CFSR_Stack_Err_Msk t % 4294967296) = 0
  · simp [ldr, ldr_const, ands, adds, Cpu.get, Cpu.set, Cpu.setNZ,
      addWithCarry, SameSys, read32_mod, Nat.mod_eq_of_lt hl, h]
  · simp [ldr, ldr_const, ands, adds, Cpu.get, Cpu.set, Cpu.setNZ,
      addWithCarry, SameSys, read32_mod, Nat.mod_eq_of_lt hl, Nat.mod_eq_of_lt hand, h]
    rw [Nat.add_comm]

/-- With bit 1 of `r4` clear, on a build that is not Armv8-M, section "State
Context" copies the eight words at `r3` into `FaultInfo.state_context`. -/
theorem FaultRecord.state_context_copied (t : Target) (s : Cpu) (hfit : Fits t)
    (h8 : FR_ARCH_ARMV8x_M t.build = false) (h4 : s.get .r4 / 2 % 2 = 0)
    (hp : s.get .r3 + 32 ≤ 2^32)
    (hsep : s.get .r3 + 32 ≤ t.FaultInfo_addr + ofs_state_context
      ∨ t.FaultInfo_addr + ofs_state_context + 32 ≤ s.get .r3) :
    ∀ j, j < 8 →
      read32 (FaultRecord.state_context t s).mem (t.FaultInfo_addr + ofs_state_context + 4 * j)
        = read32 s.mem (s.get .r3 + 4 * j) := by
  have hs := sizeof_FaultInfo_ge t.build
  unfold Fits at hfit
  have hc : (lsrs .r0 .r4 2 s).c = false := by
    simp [lsrs, Cpu.set, Cpu.setNZ, h4]
  have h2 : (ldr_const .r2 (t.FaultInfo_addr + ofs_state_context) (lsrs .r0 .r4 2 s)).get .r2
      = t.FaultInfo_addr + ofs_state_context := by
    simp only [ldr_const, Cpu.get, Cpu.set, ofs_state_context, ofs_type, sizeof_FaultInfoType]
    omega
  have h3 : (ldr_const .r2 (t.FaultInfo_addr + ofs_state_context) (lsrs .r0 .r4 2 s)).get .r3
      = s.get .r3 := by
    simp [ldr_const, lsrs, Cpu.get, Cpu.set, Cpu.setNZ]
  have hm : (ldr_const .r2 (t.FaultInfo_addr + ofs_state_context) (lsrs .r0 .r4 2 s)).mem
      = s.mem := by
    simp [ldr_const, lsrs, Cpu.set, Cpu.setNZ]
  have hw := (FaultRecord.copy2_iter 4 _ _ _ h2 h3 (by
    simp only [ofs_state_context, ofs_type, sizeof_FaultInfoType]; omega)).2.2.2.2.2.2
    (by omega) (by omega)
  have e : FaultRecord.state_context t s
      = FaultRecord.copy2^[4]
          (ldr_const .r2 (t.FaultInfo_addr + ofs_state_context) (lsrs .r0 .r4 2 s)) := by
    unfold FaultRecord.state_context
    simp only [hc, h8, Bool.false_eq_true, if_false]
    rfl
  intro j hj
  rw [e, hw j (by omega), hm]

/-- On a build without Secure-world paths, the first word section "Fault
Registers" stores is the word at `SCB_BASE + cfsr_ofs`. -/
theorem FaultRecord.fault_registers_cfsr (t : Target) (s : Cpu) (hfit : Fits t)
    (hb : FR_SECURE t.build = false) (hf : FR_FAULT_REGS_EXIST t.build = true) :
    read32 (FaultRecord.fault_registers t s).mem (t.FaultInfo_addr + ofs_fault_registers)
      = read32 s.mem (t.SCB_BASE + t.ofs_CFSR) := by
  have hs := sizeof_FaultInfo_ge t.build
  have hsz : 84 ≤ sizeof_FaultInfo t.build := by
    simp [sizeof_FaultInfo, hf, ofs_additonal_state_context, ofs_fault_registers,
      ofs_common_registers, ofs_state_context, ofs_type, sizeof_FaultInfoType,
      sizeof_StateContext, sizeof_CommonRegisters, sizeof_FaultRegisters]
    split <;> omega
  unfold Fits at hfit
  unfold FaultRecord.fault_registers
  simp only [hb, hf, Bool.false_eq_true, if_false, if_true]
  simp [ldr, stm2, ldr_const, Cpu.get, Cpu.set, scb_addr, ofs_fault_registers,
      ofs_common_registers, ofs_state_context, ofs_type, sizeof_FaultInfoType,
      sizeof_StateContext, sizeof_CommonRegisters]
  simp only [write32_mod, read32_mod]
  rw [read32_write32_disjoint _ _ _ _ (by omega) (by omega) (by omega),
    read32_write32_disjoint _ _ _ _ (by omega) (by omega) (by omega),
    read32_write32_disjoint _ _ _ _ (by omega) (by omega) (by omega),
    read32_write32_disjoint _ _ _ _ (by omega) (by omega) (by omega),
    read32_write32_disjoint _ _ _ _ (by omega) (by omega) (by omega),
    read32_write32_same]
  have := read32_lt s.mem (t.SCB_BASE + t.ofs_CFSR)
  omega

/-- A word outside a cleared block keeps its value. -/
theorem read32_memset_outside (m : Mem) (dst n c : Nat) (hn : dst + n ≤ 2^32)
    (hc : c + 4 ≤ 2^32) (hd : c + 4 ≤ dst ∨ dst + n ≤ c) :
    read32 (memset m dst 0 n) c = read32 m c := by
  have e : ∀ k, k < 4 → memset m dst 0 n ((c + k) % 2^32) = m ((c + k) % 2^32) := by
    intro k hk
    rw [memset_apply, if_neg]
    rintro ⟨i, hi, e⟩
    omega
  unfold read32 read8
  have e0 := e 0 (by omega)
  rw [Nat.add_zero] at e0
  rw [e0, e 1 (by omega), e 2 (by omega), e 3 (by omega)]

theorem FaultRecord.type_information_regs (t : Target) (s : Cpu) :
    (FaultRecord.type_information t s).get .r3 = s.get .r3
    ∧ (FaultRecord.type_information t s).get .r4 = s.get .r4 := by
  simp [FaultRecord.type_information, ldr_const, str, Cpu.get, Cpu.set]

/-- What a run of `FaultRecord` leaves in the record on a build with fault
registers and without Armv8-M or Secure-world paths: the stored CFSR is the
word at `SCB_BASE + cfsr_ofs`, while the frame is copied from the stack as soon
as the word at operand `cfsr_addr` has no bit of the stacking error mask. -/
theorem FaultRecord.capture_v7 (t : Target) (s : Cpu) (hfit : Fits t)
    (hb7 : t.build = .armv7m ∨ t.build = .armv7em)
    (hscb : t.SCB_BASE + t.ofs_CFSR + 4 ≤ 2^32
      ∧ (t.SCB_BASE + t.ofs_CFSR + 4 ≤ t.FaultInfo_addr
        ∨ t.FaultInfo_addr + sizeof_FaultInfo t.build ≤ t.SCB_BASE + t.ofs_CFSR))
    (htst : cfsr_addr t + 4 ≤ 2^32
      ∧ (cfsr_addr t + 4 ≤ t.FaultInfo_addr
        ∨ t.FaultInfo_addr + sizeof_FaultInfo t.build ≤ cfsr_addr t))
    (hfp : framePointer s + 32 ≤ 2^32
      ∧ (framePointer s + 32 ≤ t.FaultInfo_addr
        ∨ t.FaultInfo_addr + sizeof_FaultInfo t.build ≤ framePointer s)) :
    FaultInfo.fault_registers t (FaultRecord t s).mem 0 = read32 s.mem (t.SCB_BASE + t.ofs_CFSR)
    ∧ (read32 s.mem (cfsr_addr t) &&& (SCB_CFSR_Stack_Err_Msk t % 2^32) = 0 →
        ∀ j, j < 8 →
          FaultInfo.state_context t (FaultRecord t s).mem j
            = read32 s.mem (framePointer s + 4 * j)) := by
  have hs := sizeof_FaultInfo_ge t.build
  have hb : FR_SECURE t.build = false := by
    rcases hb7 with h | h <;> simp [h, FR_SECURE]
  have hf : FR_FAULT_REGS_EXIST t.build = true := by
    rcases hb7 with h | h <;> simp [h, FR_FAULT_REGS_EXIST]
  have h8 : FR_ARCH_ARMV8x_M t.build = false := by
    rcases hb7 with h | h <;> simp [h, FR_ARCH_ARMV8x_M]
  have hsz : sizeof_FaultInfo t.build = 84 := by
    rcases hb7 with h | h <;>
    simp [h, sizeof_FaultInfo, ofs_additonal_state_context, ofs_fault_registers,
      ofs_common_registers, ofs_state_context, ofs_type, sizeof_FaultInfoType,
      sizeof_StateContext, sizeof_CommonRegisters, sizeof_FaultRegisters,
      FR_FAULT_REGS_EXIST, FR_ARCH_ARMV8x_M, FR_ARCH_ARMV8x_M_MAIN]
  have hfit' := hfit
  unfold Fits at hfit'
  -- the clearing of the record
  obtain ⟨-, c2, -, -, -, c6⟩ := FaultRecord.clear_spec t s
  have csys := FaultRecord.clear_sys t s
  have hfp0 : framePointer (FaultRecord.clear t s) = framePointer s := by
    unfold framePointer Cpu.get Cpu.sys
    simp only [c6, csys.2.1, csys.2.2.1]
  have hout : ∀ c, c + 4 ≤ 2^32 →
      (c + 4 ≤ t.FaultInfo_addr ∨ t.FaultInfo_addr + sizeof_FaultInfo t.build ≤ c) →
      read32 (FaultRecord.clear t s).mem c = read32 s.mem c := by
    intro c hc hd
    rw [c2]
    exact read32_memset_outside _ _ _ _ hfit' hc hd
  have hWf := Writes.fields t (FaultRecord.clear t s) hfit
  rw [FaultRecord_mem_fields t s hfit]
  have efields : FaultRecord.fields t (FaultRecord.clear t s)
      = FaultRecord.fault_registers t (FaultRecord.armv8_m_registers t
          (FaultRecord.common_registers t (FaultRecord.state_context t
            (FaultRecord.type_information t (FaultRecord.stack_check t
              (FaultRecord.r3_points_to_stack t (FaultRecord.clear t s))))))) := rfl
  rw [efields] at hWf ⊢
  generalize FaultRecord.clear t s = s0 at hfp0 hout hWf ⊢
  obtain ⟨a1, a2, a3, -, -⟩ := FaultRecord.r3_points_to_stack_v7 t s0 hb
  generalize FaultRecord.r3_points_to_stack t s0 = sA at a1 a2 a3 hWf ⊢
  obtain ⟨b1, b2, b3, -, -⟩ := FaultRecord.stack_check_v7 t sA hb hf
  generalize FaultRecord.stack_check t sA = sB at b1 b2 b3 hWf ⊢
  obtain ⟨d1, d2⟩ := FaultRecord.type_information_regs t sB
  have wC := Writes.type_information t sB hfit
  generalize FaultRecord.type_information t sB = sC at d1 d2 wC hWf ⊢
  have wD := Writes.state_context t sC hfit
  have vD := FaultRecord.state_context_copied t sC hfit h8
  generalize FaultRecord.state_context t sC = sD at wD vD hWf ⊢
  have wE := Writes.common_registers t sD hfit
  generalize FaultRecord.common_registers t sD = sE at wE hWf ⊢
  have wF := Writes.armv8_m_registers t sE hfit
  generalize FaultRecord.armv8_m_registers t sE = sF at wF hWf ⊢
  have wG := Writes.fault_regs_section t sF hfit
  have vG := FaultRecord.fault_registers_cfsr t sF hfit hb hf
  generalize FaultRecord.fault_registers t sF = sG at wG vG hWf ⊢
  have hr3 : sC.get .r3 = framePointer s := by rw [d1, b1, a1, hfp0]
  constructor
  · -- the stored CFSR
    unfold FaultInfo.fault_registers
    simp only [ofs_crc32, ofs_magic_number, ofs_fault_registers, ofs_common_registers,
      ofs_state_context, ofs_type, sizeof_FaultInfoType, sizeof_StateContext,
      sizeof_CommonRegisters] at vG ⊢
    rw [read32_write32_disjoint _ _ _ _ (by omega) (by omega) (by omega),
      read32_write32_disjoint _ _ _ _ (by omega) (by omega) (by omega)]
    have e1 : read32 sG.mem (t.SCB_BASE + t.ofs_CFSR) = read32 sF.mem (t.SCB_BASE + t.ofs_CFSR) := by
      apply wG.read32_of_sep _ hscb.1
      rintro a ⟨-, ha | ⟨hsec, -⟩⟩
      · simp only [inField, ofs_fault_registers, ofs_common_registers, ofs_state_context,
          ofs_type, sizeof_FaultInfoType, sizeof_StateContext, sizeof_CommonRegisters,
          sizeof_FaultRegisters] at ha
        omega
      · rw [hb] at hsec
        exact absurd hsec (by simp)
    have e2 : read32 sG.mem (t.SCB_BASE + t.ofs_CFSR) = read32 s0.mem (t.SCB_BASE + t.ofs_CFSR) := by
      apply hWf.read32_of_sep _ hscb.1
      intro a ha
      simp only [inField] at ha
      omega
    rw [show t.FaultInfo_addr + 60 + 4 * 0 = t.FaultInfo_addr + 60 from rfl, vG, ← e1, e2]
    exact hout _ hscb.1 hscb.2
  · -- the frame
    intro hz j hj
    have hcf : read32 sA.mem (cfsr_addr t) = read32 s.mem (cfsr_addr t) := by
      rw [a3]
      exact hout _ htst.1 htst.2
    have hr4 : sC.get .r4 = 0 := by
      rw [d2, b2, hcf, if_pos hz, a2]
    have hv := vD (by rw [hr4]) (by rw [hr3]; exact hfp.1) (by
      rw [hr3]
      simp only [ofs_state_context, ofs_type, sizeof_FaultInfoType]
      omega) j hj
    unfold FaultInfo.state_context
    simp only [ofs_crc32, ofs_magic_number, ofs_state_context, ofs_type,
      sizeof_FaultInfoType] at hv ⊢
    rw [read32_write32_disjoint _ _ _ _ (by omega) (by omega) (by omega),
      read32_write32_disjoint _ _ _ _ (by omega) (by omega) (by omega)]
    have e1 : read32 sG.mem (t.FaultInfo_addr + 12 + 4 * j)
        = read32 sF.mem (t.FaultInfo_addr + 12 + 4 * j) := by
      apply wG.read32_of_sep _ (by omega)
      rintro a ⟨-, ha | ⟨hsec, -⟩⟩
      · simp only [inField, ofs_fault_registers, ofs_common_registers, ofs_state_context,
          ofs_type, sizeof_FaultInfoType, sizeof_StateContext, sizeof_CommonRegisters,
          sizeof_FaultRegisters] at ha
        omega
      · rw [hb] at hsec
        exact absurd hsec (by simp)
    have e2 : read32 sF.mem (t.FaultInfo_addr + 12 + 4 * j)
        = read32 sE.mem (t.FaultInfo_addr + 12 + 4 * j) := by
      apply wF.read32_of_sep _ (by omega)
      rintro a ⟨h, -⟩
      rw [h8] at h
      exact absurd h (by simp)
    have e3 : read32 sE.mem (t.FaultInfo_addr + 12 + 4 * j)
        = read32 sD.mem (t.FaultInfo_addr + 12 + 4 * j) := by
      apply wE.read32_of_sep _ (by omega)
      intro a ha
      simp only [inField, ofs_common_registers, ofs_state_context,
          ofs_type, sizeof_FaultInfoType, sizeof_StateContext, sizeof_CommonRegisters] at ha
      omega
    have e4 : read32 sC.mem (framePointer s + 4 * j) = read32 sB.mem (framePointer s + 4 * j) := by
      apply wC.read32_of_sep _ (by omega)
      intro a ha
      simp only [inField, ofs_type, sizeof_FaultInfoType] at ha
      omega
    rw [e1, e2, e3, hv, hr3, e4, b3, a3]
    exact hout _ (by omega) (by omega)

theorem read32_stkerrMem_cfsr : read32 stkerrMem (cortexM4.SCB_BASE + cortexM4.ofs_CFSR) = 0x1000 := by
  simp [read32, read8, stkerrMem, cortexM4]

theorem read32_stkerrMem_tested : read32 stkerrMem (cfsr_addr cortexM4) = 0 := by
  simp [read32, read8, stkerrMem, cortexM4, cfsr_addr]

theorem framePointer_stkerrCpu : framePointer stkerrCpu = 0x20001000 := by
  simp [framePointer, stkerrCpu, Cpu.init, Cpu.get, Cpu.sys]

/-- C9: on `cortexM4` with the CMSIS addresses, a fault entry whose CFSR (at
`SCB_BASE + 0x28`) has STKERR set while the word at `SCS_BASE + 0x28` is zero
is captured with the stacking error in the stored CFSR and nevertheless with
the eight words of the frame copied into `state_context`; the Decoder takes
the stacked context of that record as not valid. -/
theorem FaultRecord_stack_check_tests_other_word :
    FaultInfo.fault_registers cortexM4 (FaultRecord cortexM4 stkerrCpu).mem 0 = 0x1000
    ∧ FaultInfo.fault_registers cortexM4 (FaultRecord cortexM4 stkerrCpu).mem 0
        &&& SCB_CFSR_Stack_Err_Msk cortexM4 ≠ 0
    ∧ (∀ j, j < 8 → FaultInfo.state_context cortexM4 (FaultRecord cortexM4 stkerrCpu).mem j
        = read32 stkerrMem (0x20001000 + 4 * j))
    ∧ FaultInfo.state_context cortexM4 (FaultRecord cortexM4 stkerrCpu).mem 6 = 0x08001234
    ∧ FaultRecordPrint.state_context_valid cortexM4
        ⟨(FaultRecord cortexM4 stkerrCpu).mem, []⟩ = false := by
  have hsz : sizeof_FaultInfo cortexM4.build = 84 := by decide
  obtain ⟨h1, h2⟩ := FaultRecord.capture_v7 cortexM4 stkerrCpu Fits_cortexM4 (Or.inr rfl)
    (by rw [hsz]; simp [cortexM4])
    (by rw [hsz]; simp [cortexM4, cfsr_addr])
    (by rw [hsz, framePointer_stkerrCpu]; simp [cortexM4])
  have hm : (stkerrCpu).mem = stkerrMem := rfl
  rw [hm, read32_stkerrMem_cfsr] at h1
  rw [hm, read32_stkerrMem_tested, framePointer_stkerrCpu] at h2
  have h3 := h2 (by simp)
  have hmask : (0x1000 : Nat) &&& SCB_CFSR_Stack_Err_Msk cortexM4 ≠ 0 := by decide
  refine ⟨h1, ?_, h3, ?_, ?_⟩
  · rw [h1]
    exact hmask
  · rw [h3 6 (by omega)]
    simp [read32, read8, stkerrMem]
  · unfold FaultRecordPrint.state_context_valid tst
    simp only [h1]
    simp [hmask]
    decide

/-! ## Detection of a corrupted byte -/

theorem crcSpec.bitStep_lt {p v : Nat} (hp : p < 2^32) : crcSpec.bitStep p v < 2^32 := by
  unfold crcSpec.bitStep
  apply xor_lt32 (Nat.mod_lt _ (by norm_num))
  split
  · exact hp
  · norm_num

/-- With an odd polynomial the bit step loses nothing: bit 0 of the result is
the bit shifted out. -/
theorem crcSpec.bitStep_inj {p v w : Nat} (hp : p % 2 = 1) (hv : v < 2^32) (hw : w < 2^32)
    (h : crcSpec.bitStep p v = crcSpec.bitStep p w) : v = w := by
  unfold crcSpec.bitStep at h
  simp only [Nat.testBit_to_div_mod, Nat.shiftLeft_eq, decide_eq_true_eq] at h
  have hpar := congrArg (fun x => x % 2) h
  simp only [Nat.xor_mod_two_eq] at hpar
  by_cases h1 : v / 2^31 % 2 = 1 <;> by_cases h2 : w / 2^31 % 2 = 1
  · simp only [h1, h2, if_true] at h
    have := Nat.xor_left_injective h
    omega
  · simp only [h1, h2, if_true, if_false] at hpar
    omega
  · simp only [h1, h2, if_true, if_false] at hpar
    omega
  · simp only [h1, h2, if_false] at h
    have := Nat.xor_left_injective h
    omega

theorem crcSpec.bitStep_iter_lt {p : Nat} (hp : p < 2^32) (k : Nat) {v : Nat} (hv : v < 2^32) :
    (crcSpec.bitStep p)^[k] v < 2^32 := by
  induction k generalizing v with
  | zero => simpa using hv
  | succ k ih =>
    rw [Function.iterate_succ, Function.comp_apply]
    exact ih (crcSpec.bitStep_lt hp)

theorem crcSpec.bitStep_iter_inj {p : Nat} (hp : p % 2 = 1) (hp32 : p < 2^32) (k : Nat)
    {v w : Nat} (hv : v < 2^32) (hw : w < 2^32)
    (h : (crcSpec.bitStep p)^[k] v = (crcSpec.bitStep p)^[k] w) : v = w := by
  induction k generalizing v w with
  | zero => simpa using h
  | succ k ih =>
    simp only [Function.iterate_succ, Function.comp_apply] at h
    exact crcSpec.bitStep_inj hp hv hw
      (ih (crcSpec.bitStep_lt hp32) (crcSpec.bitStep_lt hp32) h)

theorem shift24_lt {b : Nat} (hb : b < 256) : b <<< 24 < 2^32 := by
  rw [Nat.shiftLeft_eq]
  omega

theorem crcSpec.byteStep_lt {p v b : Nat} (hp : p < 2^32) (hv : v < 2^32) (hb : b < 256) :
    crcSpec.byteStep p v b < 2^32 :=
  crcSpec.bitStep_iter_lt hp 8 (xor_lt32 hv (shift24_lt hb))

/-- The byte step is injective in the running value. -/
theorem crcSpec.byteStep_inj_val {p v w b : Nat} (hp : p % 2 = 1) (hp32 : p < 2^32)
    (hv : v < 2^32) (hw : w < 2^32) (hb : b < 256)
    (h : crcSpec.byteStep p v b = crcSpec.byteStep p w b) : v = w := by
  unfold crcSpec.byteStep at h
  have := crcSpec.bitStep_iter_inj hp hp32 8 (xor_lt32 hv (shift24_lt hb))
    (xor_lt32 hw (shift24_lt hb)) h
  exact Nat.xor_left_injective this

/-- The byte step is injective in the byte. -/
theorem crcSpec.byteStep_inj_byte {p v b c : Nat} (hp : p % 2 = 1) (hp32 : p < 2^32)
    (hv : v < 2^32) (hb : b < 256) (hc : c < 256)
    (h : crcSpec.byteStep p v b = crcSpec.byteStep p v c) : b = c := by
  unfold crcSpec.byteStep at h
  have := crcSpec.bitStep_iter_inj hp hp32 8 (xor_lt32 hv (shift24_lt hb))
    (xor_lt32 hv (shift24_lt hc)) h
  have e := Nat.xor_right_injective this
  simp only [Nat.shiftLeft_eq] at e
  omega

theorem crcSpec_lt {p v : Nat} (hp : p < 2^32) (l : List Nat) (hv : v < 2^32)
    (hl : ∀ x ∈ l, x < 256) : crcSpec v p l < 2^32 := by
  induction l generalizing v with
  | nil => simpa [crcSpec] using hv
  | cons x l ih =>
    simp only [crcSpec, List.foldl_cons]
    exact ih (crcSpec.byteStep_lt hp hv (hl x (by simp))) (fun y hy => hl y (by simp [hy]))

/-- Two different running values stay different over the same bytes. -/
theorem crcSpec_inj_val {p v w : Nat} (hp : p % 2 = 1) (hp32 : p < 2^32) (l : List Nat)
    (hv : v < 2^32) (hw : w < 2^32) (hl : ∀ x ∈ l, x < 256) (hne : v ≠ w) :
    crcSpec v p l ≠ crcSpec w p l := by
  induction l generalizing v w with
  | nil => simpa [crcSpec] using hne
  | cons x l ih =>
    simp only [crcSpec, List.foldl_cons]
    have hx := hl x (by simp)
    exact ih (crcSpec.byteStep_lt hp32 hv hx) (crcSpec.byteStep_lt hp32 hw hx)
      (fun y hy => hl y (by simp [hy]))
      (fun e => hne (crcSpec.byteStep_inj_val hp hp32 hv hw hx e))

theorem bytesAt_lt (m : Mem) (p n : Nat) : ∀ x ∈ bytesAt m p n, x < 256 := by
  intro x hx
  unfold bytesAt at hx
  obtain ⟨i, -, rfl⟩ := List.mem_map.mp hx
  exact read8_lt _ _

/-- A byte store outside a block leaves its bytes as they were. -/
theorem bytesAt_write8 (m : Mem) (a b p n : Nat) (ha : a < 2^32) (hp : p + n ≤ 2^32)
    (h : a < p ∨ p + n ≤ a) : bytesAt (write8 m a b) p n = bytesAt m p n := by
  unfold bytesAt
  apply List.map_congr_left
  intro i hi
  have hi' : i < n := List.mem_range.mp hi
  rw [read8_write8, if_neg]
  omega

/-- Replacing one byte of a block by a different value changes the checksum of
the block, whatever the running value at its start. -/
theorem crcSpec_write8_ne {p : Nat} (hp : p % 2 = 1) (hp32 : p < 2^32) (m : Mem) (a b : Nat)
    (hb : b < 256) (hne : b ≠ read8 m a) (n : Nat) :
    ∀ (q v : Nat), v < 2^32 → q + n ≤ 2^32 → q ≤ a → a < q + n →
      crcSpec v p (bytesAt (write8 m a b) q n) ≠ crcSpec v p (bytesAt m q n) := by
  induction n with
  | zero => intro q v _ _ h1 h2; omega
  | succ n ih =>
    intro q v hv hq h1 h2
    rw [bytesAt_succ, bytesAt_succ]
    simp only [crcSpec, List.foldl_cons]
    have hq1 : (q + 1) % 2^32 = q + 1 ∨ n = 0 := by omega
    by_cases haq : a = q
    · subst haq
      have e1 : read8 (write8 m a b) a = b := by
        rw [read8_write8, if_pos rfl]
        exact Nat.mod_eq_of_lt hb
      have e2 : bytesAt (write8 m a b) ((a + 1) % 2^32) n = bytesAt m ((a + 1) % 2^32) n := by
        rcases hq1 with e | e
        · rw [e]
          exact bytesAt_write8 _ _ _ _ _ (by omega) (by omega) (by omega)
        · subst e
          rfl
      rw [e1, e2]
      exact crcSpec_inj_val hp hp32 _ (crcSpec.byteStep_lt hp32 hv hb)
        (crcSpec.byteStep_lt hp32 hv (read8_lt _ _)) (bytesAt_lt _ _ _)
        (fun e => hne (crcSpec.byteStep_inj_byte hp hp32 hv hb (read8_lt _ _) e))
    · have e1 : read8 (write8 m a b) q = read8 m q := by
        rw [read8_write8, if_neg]
        omega
      have e : (q + 1) % 2^32 = q + 1 := by omega
      rw [e1, e]
      exact ih (q + 1) _ (crcSpec.byteStep_lt hp32 hv (read8_lt _ _)) (by omega) (by omega)
        (by omega)

/-- A byte store outside a word leaves the word as it was. -/
theorem read32_write8_disjoint (m : Mem) (a b c : Nat) (ha : a < 2^32) (hc : c + 4 ≤ 2^32)
    (h : a < c ∨ c + 4 ≤ a) : read32 (write8 m a b) c = read32 m c := by
  have e : ∀ k, k < 4 → read8 (write8 m a b) (c + k) = read8 m (c + k) := by
    intro k hk
    rw [read8_write8, if_neg]
    omega
  have e0 := e 0 (by omega)
  rw [Nat.add_zero] at e0
  unfold read32
  rw [e0, e 1 (by omega), e 2 (by omega), e 3 (by omega)]

theorem stampedMem_trustworthy : Trustworthy cortexM4 stampedMem :=
  stamped_valid cortexM4 zeroMem Fits_cortexM4

/-- C4: in a trustworthy record, replacing any one byte after the magic number
and the CRC word by a different byte value makes the CRC recomputed over the
body (initial value 0xFFFFFFFF, polynomial 0x04C11DB7) differ from the stored
CRC: the record is not trustworthy any more and `FaultRecordPrint` prints the
header and the invalid-CRC message only. -/
theorem corrupted_body_byte_detected (t : Target) (m : Mem) (hfit : Fits t)
    (hT : Trustworthy t m) (i b : Nat) (hi : 8 ≤ i) (hi2 : i < sizeof_FaultInfo t.build)
    (hb : b < 256) (hne : b ≠ read8 m (t.FaultInfo_addr + i)) :
    crcSpec 0xFFFFFFFF 0x04C11DB7
        (bytesAt (write8 m (t.FaultInfo_addr + i) b) (t.FaultInfo_addr + 8)
          (sizeof_FaultInfo t.build - 8))
      ≠ FaultInfo.crc32 t (write8 m (t.FaultInfo_addr + i) b)
    ∧ FaultInfo.calc_crc32 t (write8 m (t.FaultInfo_addr + i) b)
      ≠ FaultInfo.crc32 t (write8 m (t.FaultInfo_addr + i) b)
    ∧ ¬ Trustworthy t (write8 m (t.FaultInfo_addr + i) b)
    ∧ textOf (FaultRecordPrint t) (write8 m (t.FaultInfo_addr + i) b)
        = [headerText t (write8 m (t.FaultInfo_addr + i) b), invalidCrcText] := by
  have hs := sizeof_FaultInfo_ge t.build
  have hfit' := hfit
  unfold Fits at hfit'
  obtain ⟨hmag, hcrc⟩ := hT
  have e1 : FaultInfo.crc32 t (write8 m (t.FaultInfo_addr + i) b) = FaultInfo.crc32 t m := by
    unfold FaultInfo.crc32
    simp only [ofs_crc32]
    exact read32_write8_disjoint _ _ _ _ (by omega) (by omega) (by omega)
  have e2 : FaultInfo.magic_number t (write8 m (t.FaultInfo_addr + i) b)
      = FaultInfo.magic_number t m := by
    unfold FaultInfo.magic_number
    simp only [ofs_magic_number]
    exact read32_write8_disjoint _ _ _ _ (by omega) (by omega) (by omega)
  have e3 := FaultInfo.calc_crc32_eq t m hfit'
  have e4 := FaultInfo.calc_crc32_eq t (write8 m (t.FaultInfo_addr + i) b) hfit'
  simp only [ofs_type, sizeof_FaultInfoType, FR_CRC32_DATA_LEN, FR_CRC32_INIT_VAL,
    FR_CRC32_POLYNOM] at e3 e4
  have key := crcSpec_write8_ne (p := 0x04C11DB7) (by norm_num) (by norm_num) m
    (t.FaultInfo_addr + i) b hb hne (sizeof_FaultInfo t.build - 8) (t.FaultInfo_addr + 8)
    0xFFFFFFFF (by norm_num) (by omega) (by omega) (by omega)
  have h1 : crcSpec 0xFFFFFFFF 0x04C11DB7
        (bytesAt (write8 m (t.FaultInfo_addr + i) b) (t.FaultInfo_addr + 8)
          (sizeof_FaultInfo t.build - 8))
      ≠ FaultInfo.crc32 t (write8 m (t.FaultInfo_addr + i) b) := by
    rw [e1, hcrc, e3]
    exact key
  have h2 : FaultInfo.calc_crc32 t (write8 m (t.FaultInfo_addr + i) b)
      ≠ FaultInfo.crc32 t (write8 m (t.FaultInfo_addr + i) b) := by
    rw [e4]
    exact h1
  refine ⟨h1, h2, ?_, ?_⟩
  · intro hT'
    exact h2 hT'.2.symm
  · exact textOf_bad_crc t _ (by rw [e2]; exact hmag) (fun e => h2 e.symm)

theorem corrupted_body_byte_detected_witness :
    Fits cortexM4 ∧ Trustworthy cortexM4 stampedMem
    ∧ (1 : Nat) ≠ read8 stampedMem (cortexM4.FaultInfo_addr + 12)
    ∧ ¬ Trustworthy cortexM4 (write8 stampedMem (cortexM4.FaultInfo_addr + 12) 1) :=
  ⟨Fits_cortexM4, stampedMem_trustworthy, by
    have : read8 stampedMem (cortexM4.FaultInfo_addr + 12) = 0 := by
      unfold stampedMem
      rw [read8_write32 _ _ _ _ (by decide) (by decide) (by decide) (by decide),
        read8_write32 _ _ _ _ (by decide) (by decide) (by decide) (by decide)]
      rfl
    rw [this]
    decide,
   (corrupted_body_byte_detected cortexM4 stampedMem Fits_cortexM4 stampedMem_trustworthy 12 1
    (by decide) (by decide) (by decide) (by
      have : read8 stampedMem (cortexM4.FaultInfo_addr + 12) = 0 := by
        unfold stampedMem
        rw [read8_write32 _ _ _ _ (by decide) (by decide) (by decide) (by decide),
          read8_write32 _ _ _ _ (by decide) (by decide) (by decide) (by decide)]
        rfl
      rw [this]
      decide)).2.2.1⟩

/-! ## Incremental computation of the checksum -/

theorem bytesAt_mod (m : Mem) (p n : Nat) : bytesAt m (p % 4294967296) n = bytesAt m p n := by
  unfold bytesAt
  apply List.map_congr_left
  intro i _
  exact read8_add_mod m p i

theorem bytesAt_length (m : Mem) (p n : Nat) : (bytesAt m p n).length = n := by
  simp [bytesAt]

theorem crcSpec_append (v p : Nat) (l1 l2 : List Nat) :
    crcSpec v p (l1 ++ l2) = crcSpec (crcSpec v p l1) p l2 := by
  simp [crcSpec, List.foldl_append]

theorem CalcCRC32.call_lt (m : Mem) (i p n q : Nat) : CalcCRC32.call m i p n q < 2^32 := by
  unfold CalcCRC32.call
  exact get_lt _ _

/-- C20: for every 32-bit initial value `I` and polynomial `P` and all byte
sequences `B1` and `B2` (held by any memories at any addresses), the call of
`CalcCRC32` on `B2` started from the result of the call on `B1` returns what
the call on a buffer holding `B1 ++ B2` returns. -/
theorem CalcCRC32_incremental (I P : Nat) (B1 B2 : List Nat)
    (m1 m2 m : Mem) (p1 p2 p : Nat)
    (h1 : bytesAt m1 p1 B1.length = B1) (h2 : bytesAt m2 p2 B2.length = B2)
    (h : bytesAt m p (B1.length + B2.length) = B1 ++ B2)
    (hlen : B1.length + B2.length < 2^32) :
    CalcCRC32.call m2 (CalcCRC32.call m1 I p1 B1.length P) p2 B2.length P
      = CalcCRC32.call m I p (B1.length + B2.length) P := by
  have hlt := CalcCRC32.call_lt m1 I p1 B1.length P
  rw [CalcCRC32.call_eq m2, CalcCRC32.call_eq m, Nat.mod_eq_of_lt hlt, CalcCRC32.call_eq m1]
  have e1 : B1.length % 2^32 = B1.length := Nat.mod_eq_of_lt (by omega)
  have e2 : B2.length % 2^32 = B2.length := Nat.mod_eq_of_lt (by omega)
  have e3 : (B1.length + B2.length) % 2^32 = B1.length + B2.length := Nat.mod_eq_of_lt hlen
  rw [e1, e2, e3]
  have b1 := bytesAt_mod m1 p1 B1.length
  have b2 := bytesAt_mod m2 p2 B2.length
  have b3 := bytesAt_mod m p (B1.length + B2.length)
  have f1 : bytesAt m1 (p1 % 2^32) B1.length = B1 := b1.trans h1
  have f2 : bytesAt m2 (p2 % 2^32) B2.length = B2 := b2.trans h2
  have f3 : bytesAt m (p % 2^32) (B1.length + B2.length) = B1 ++ B2 := b3.trans h
  rw [f1, f2, f3, crcSpec_append]

theorem CalcCRC32_incremental_witness :
    CalcCRC32.call badCrcMem (CalcCRC32.call badCrcMem 0xFFFFFFFF 0x20000008 [7, 2].length
        0x04C11DB7) 0x2000000A [0, 0, 0].length 0x04C11DB7
      = CalcCRC32.call badCrcMem 0xFFFFFFFF 0x20000008 ([7, 2].length + [0, 0, 0].length)
          0x04C11DB7 :=
  CalcCRC32_incremental 0xFFFFFFFF 0x04C11DB7 [7, 2] [0, 0, 0] badCrcMem badCrcMem badCrcMem
    0x20000008 0x2000000A 0x20000008 (by decide) (by decide) (by decide) (by decide)

/-! ## The format descriptor -/

theorem read8_of_read32 (m : Mem) (a : Nat) :
    read8 m a = read32 m a % 256 ∧ read8 m (a + 1) = read32 m a / 256 % 256
    ∧ read16 m (a + 2) = read32 m a / 65536 := by
  have h0 := read8_lt m a
  have h1 := read8_lt m (a + 1)
  have h2 := read8_lt m (a + 2)
  have h3 := read8_lt m (a + 3)
  unfold read32 read16
  rw [show a + 2 + 1 = a + 3 from rfl]
  refine ⟨?_, ?_, ?_⟩ <;> omega

/-- Where the optional fields lie inside the record. -/
theorem layout_bounds (b : Build) :
    60 ≤ ofs_additonal_state_context b
    ∧ (FR_FAULT_REGS_EXIST b = true → 84 ≤ sizeof_FaultInfo b)
    ∧ (FR_ARCH_ARMV8x_M b = true →
        ofs_additonal_state_context b + 40 = ofs_armv8_m_registers b
        ∧ ofs_armv8_m_registers b + 8 ≤ sizeof_FaultInfo b)
    ∧ (FR_FAULT_REGS_EXIST b = true → FR_SECURE b = true →
        ofs_armv8_m_fault_registers b = 132 ∧ sizeof_FaultInfo b = 140) := by
  rcases b with _ | _ | _ | c | c | c <;> (try cases c) <;> decide

/-- The word stored by section "Type information" is still there at the exit hook. -/
theorem FaultRecord_type_word (t : Target) (s : Cpu) (hfit : Fits t) :
    read32 (FaultRecord t s).mem (t.FaultInfo_addr + ofs_type) = FR_FAULT_INFO_TYPE t.build := by
  have hs := sizeof_FaultInfo_ge t.build
  have hfit' := hfit
  unfold Fits at hfit'
  rw [FaultRecord_mem_fields t s hfit]
  have efields : FaultRecord.fields t (FaultRecord.clear t s)
      = FaultRecord.fault_registers t (FaultRecord.armv8_m_registers t
          (FaultRecord.common_registers t (FaultRecord.state_context t
            (FaultRecord.type_information t (FaultRecord.stack_check t
              (FaultRecord.r3_points_to_stack t (FaultRecord.clear t s))))))) := rfl
  rw [efields]
  generalize FaultRecord.stack_check t
    (FaultRecord.r3_points_to_stack t (FaultRecord.clear t s)) = sB
  have vC : read32 (FaultRecord.type_information t sB).mem (t.FaultInfo_addr + ofs_type)
      = FR_FAULT_INFO_TYPE t.build := by
    have hlt : FR_FAULT_INFO_TYPE t.build < 2^32 := by
      rcases t.build with _ | _ | _ | c | c | c <;> (try cases c) <;> decide
    have e : (t.FaultInfo_addr + ofs_type) % 2^32 = t.FaultInfo_addr + ofs_type := by
      simp only [ofs_type]; omega
    simp only [FaultRecord.type_information, str, ldr_const, Cpu.get, Cpu.set, Nat.mod_mod, e]
    rw [read32_write32_same]
    omega
  generalize FaultRecord.type_information t sB = sC at vC
  have wD := Writes.state_context t sC hfit
  generalize FaultRecord.state_context t sC = sD at wD
  have wE := Writes.common_registers t sD hfit
  generalize FaultRecord.common_registers t sD = sE at wE
  have wF := Writes.armv8_m_registers t sE hfit
  generalize FaultRecord.armv8_m_registers t sE = sF at wF
  have wG := Writes.fault_regs_section t sF hfit
  generalize FaultRecord.fault_registers t sF = sG at wG
  obtain ⟨hofs, hl1, hl2, hl3⟩ := layout_bounds t.build
  simp only [ofs_crc32, ofs_magic_number, ofs_type] at vC ⊢
  rw [read32_write32_disjoint _ _ _ _ (by omega) (by omega) (by omega),
    read32_write32_disjoint _ _ _ _ (by omega) (by omega) (by omega)]
  have e1 : read32 sG.mem (t.FaultInfo_addr + 8) = read32 sF.mem (t.FaultInfo_addr + 8) := by
    apply wG.read32_of_sep _ (by omega)
    rintro a ⟨hf, ha | ⟨hsec, ha⟩⟩
    · have := hl1 hf
      simp only [inField, ofs_fault_registers, ofs_common_registers, ofs_state_context,
        ofs_type, sizeof_FaultInfoType, sizeof_StateContext, sizeof_CommonRegisters,
        sizeof_FaultRegisters] at ha
      omega
    · have := hl3 hf hsec
      have := hl1 hf
      simp only [inField, sizeof_Armv8mFaultRegisters] at ha
      omega
  have e2 : read32 sF.mem (t.FaultInfo_addr + 8) = read32 sE.mem (t.FaultInfo_addr + 8) := by
    apply wF.read32_of_sep _ (by omega)
    rintro a ⟨h8, ha⟩
    have := hl2 h8
    simp only [inField, sizeof_Armv8mRegisters] at ha
    omega
  have e3 : read32 sE.mem (t.FaultInfo_addr + 8) = read32 sD.mem (t.FaultInfo_addr + 8) := by
    apply wE.read32_of_sep _ (by omega)
    intro a ha
    simp only [inField, ofs_common_registers, ofs_state_context,
      ofs_type, sizeof_FaultInfoType, sizeof_StateContext, sizeof_CommonRegisters] at ha
    omega
  have e4 : read32 sD.mem (t.FaultInfo_addr + 8) = read32 sC.mem (t.FaultInfo_addr + 8) := by
    apply wD.read32_of_sep _ (by omega)
    rintro a (ha | ⟨h8, ha⟩)
    · simp only [inField, ofs_state_context, ofs_type, sizeof_FaultInfoType,
        sizeof_StateContext] at ha
      omega
    · have := hl2 h8
      simp only [inField, sizeof_AdditionalStateContext] at ha
      omega
  rw [e1, e2, e3, e4, vC]

theorem FaultRecord_trustworthy (t : Target) (s : Cpu) (hfit : Fits t) :
    Trustworthy t (FaultRecord t s).mem := by
  obtain ⟨m, hm⟩ := FaultRecord_mem t s hfit
  have hv := stamped_valid t m hfit
  simp only [] at hv
  rw [← hm] at hv
  exact hv

/-- C19: `FaultRecord` leaves in `FaultInfo.type` the 32-bit word
`minor | major << 8 | fault_regs << 16 | armv8m << 17 | secure << 18` with
version 0.1; read back through the fields of the record it gives major 0,
minor 1, the three flags of the build and 13 reserved bits that are 0, so that
the header printed by `FaultRecordPrint` for a captured record shows v0.1. -/
theorem FaultRecord_format_descriptor (t : Target) (s : Cpu) (hfit : Fits t) :
    read32 (FaultRecord t s).mem (t.FaultInfo_addr + ofs_type)
      = 1 ||| (0 <<< 8) ||| (bit (FR_FAULT_REGS_EXIST t.build) <<< 16)
          ||| (bit (FR_ARCH_ARMV8x_M t.build) <<< 17) ||| (bit (FR_SECURE t.build) <<< 18)
    ∧ FaultInfo.type.version.major t (FaultRecord t s).mem = 0
    ∧ FaultInfo.type.version.minor t (FaultRecord t s).mem = 1
    ∧ FaultInfo.type.fault_regs t (FaultRecord t s).mem = bit (FR_FAULT_REGS_EXIST t.build)
    ∧ FaultInfo.type.armv8m t (FaultRecord t s).mem = bit (FR_ARCH_ARMV8x_M t.build)
    ∧ FaultInfo.type.secure t (FaultRecord t s).mem = bit (FR_SECURE t.build)
    ∧ read16 (FaultRecord t s).mem (t.FaultInfo_addr + ofs_type + 2) / 2^3 = 0
    ∧ headerText t (FaultRecord t s).mem = "\n--- Last recorded Fault information (v0.1) ---\n\n"
    ∧ (textOf (FaultRecordPrint t) (FaultRecord t s).mem).head?
        = some "\n--- Last recorded Fault information (v0.1) ---\n\n" := by
  have hw := FaultRecord_type_word t s hfit
  obtain ⟨r0, r1, r2⟩ := read8_of_read32 (FaultRecord t s).mem (t.FaultInfo_addr + ofs_type)
  rw [hw] at r0 r1 r2
  have hmaj : FaultInfo.type.version.major t (FaultRecord t s).mem = 0 := by
    unfold FaultInfo.type.version.major
    rw [r1]
    rcases t.build with _ | _ | _ | c | c | c <;> (try cases c) <;> decide
  have hmin : FaultInfo.type.version.minor t (FaultRecord t s).mem = 1 := by
    unfold FaultInfo.type.version.minor
    rw [r0]
    rcases t.build with _ | _ | _ | c | c | c <;> (try cases c) <;> decide
  have hhead : headerText t (FaultRecord t s).mem
      = "\n--- Last recorded Fault information (v0.1) ---\n\n" := by
    unfold headerText
    rw [hmaj, hmin]
    decide
  refine ⟨hw, hmaj, hmin, ?_, ?_, ?_, ?_, hhead, ?_⟩
  · unfold FaultInfo.type.fault_regs
    rw [r2]
    rcases t.build with _ | _ | _ | c | c | c <;> (try cases c) <;> decide
  · unfold FaultInfo.type.armv8m
    rw [r2]
    rcases t.build with _ | _ | _ | c | c | c <;> (try cases c) <;> decide
  · unfold FaultInfo.type.secure
    rw [r2]
    rcases t.build with _ | _ | _ | c | c | c <;> (try cases c) <;> decide
  · rw [r2]
    rcases t.build with _ | _ | _ | c | c | c <;> (try cases c) <;> decide
  · rw [textOf_FaultRecordPrint_valid t _ (FaultRecord_trustworthy t s hfit), hhead]
    rfl

theorem FaultRecord_format_descriptor_witness :
    Fits cortexM4
    ∧ read32 (FaultRecord cortexM4 stkerrCpu).mem (cortexM4.FaultInfo_addr + ofs_type) = 0x00010001
    ∧ FaultInfo.type.fault_regs cortexM4 (FaultRecord cortexM4 stkerrCpu).mem = 1 :=
  ⟨Fits_cortexM4, (FaultRecord_format_descriptor cortexM4 stkerrCpu Fits_cortexM4).1,
    (FaultRecord_format_descriptor cortexM4 stkerrCpu Fits_cortexM4).2.2.2.1⟩

/-! ## The exception handler line -/

theorem textOf_exception_handler (t : Target) (m : Mem) :
    textOf (FaultRecordPrint.exception_handler t true) m
      = "  Exception Handler: " :: (worldTextSpec t m
          ++ [exceptionNameSpec (FaultInfo.common_registers t m 0 &&& t.IPSR_ISR_Msk), "\n"]) := by
  unfold textOf FaultRecordPrint.exception_handler worldTextSpec
  simp only [FR_PRINT_mem, if_true]
  generalize FaultInfo.common_registers t m 0 &&& t.IPSR_ISR_Msk = n
  split <;> split <;> (try split) <;> simp [exceptionNameSpec, fmt_u, *]
  all_goals
    rw [if_neg (fun e => ‹n = 3 → False› e), if_neg (fun e => ‹n = 4 → False› e),
      if_neg (fun e => ‹n = 5 → False› e), if_neg (fun e => ‹n = 6 → False› e),
      if_neg (fun e => ‹n = 7 → False› e)]
    rfl

/-- C13: for every trustworthy record the exception handler line, printed
right after the header, names the exception from the exception number (stored
xPSR and `IPSR_ISR_Msk`): 3 HardFault, 4 MemManage fault, 5 BusFault,
6 UsageFault, 7 SecureFault, any other number `n` the text "unknown, exception
number = " followed by `n` in decimal. -/
theorem FaultRecordPrint_exception_name (t : Target) (m : Mem) (h : Trustworthy t m) :
    (∃ rest, textOf (FaultRecordPrint t) m
      = headerText t m :: "  Exception Handler: " :: (worldTextSpec t m
          ++ exceptionNameSpec (FaultInfo.common_registers t m 0 &&& t.IPSR_ISR_Msk)
            :: "\n" :: rest))
    ∧ exceptionNameSpec 3 = "HardFault" ∧ exceptionNameSpec 4 = "MemManage fault"
    ∧ exceptionNameSpec 5 = "BusFault" ∧ exceptionNameSpec 6 = "UsageFault"
    ∧ exceptionNameSpec 7 = "SecureFault"
    ∧ (∀ n, n ≠ 3 → n ≠ 4 → n ≠ 5 → n ≠ 6 → n ≠ 7 →
        (exceptionNameSpec n).data = "unknown, exception number = ".data ++ Nat.toDigits 10 n) := by
  refine ⟨?_, rfl, rfl, rfl, rfl, rfl, ?_⟩
  · rw [textOf_FaultRecordPrint_valid t m h, textOf_decode, textOf_exception_handler]
    simp only [List.cons_append, List.append_assoc, List.nil_append]
    exact ⟨_, rfl⟩
  · intro n h3 h4 h5 h6 h7
    unfold exceptionNameSpec
    rw [if_neg h3, if_neg h4, if_neg h5, if_neg h6, if_neg h7]
    rfl

theorem FaultRecordPrint_exception_name_witness :
    Trustworthy cortexM4 stampedMem
    ∧ ∃ rest, textOf (FaultRecordPrint cortexM4) stampedMem
      = headerText cortexM4 stampedMem :: "  Exception Handler: " :: (worldTextSpec cortexM4 stampedMem
          ++ exceptionNameSpec
              (FaultInfo.common_registers cortexM4 stampedMem 0 &&& cortexM4.IPSR_ISR_Msk)
            :: "\n" :: rest) :=
  ⟨stampedMem_trustworthy,
    (FaultRecordPrint_exception_name cortexM4 stampedMem stampedMem_trustworthy).1⟩

/-! ## What the printed texts start with -/

theorem clash_not_prefix (l a : List Char) (h : clash l a = true) (r : List Char) :
    ¬ l <+: a ++ r := by
  induction l generalizing a with
  | nil => simp [clash] at h
  | cons c l ih =>
    cases a with
    | nil => simp [clash] at h
    | cons d a =>
      simp only [clash, Bool.or_eq_true, bne_iff_ne, ne_eq] at h
      intro hp
      rw [List.cons_append, List.cons_prefix_cons] at hp
      rcases h with h | h
      · exact h hp.1
      · exact ih a h hp.2

theorem StartsWith.append {a x : String} (h : StartsWith a x) (y : String) :
    StartsWith a (x ++ y) := by
  unfold StartsWith at *
  rw [String.data_append]
  exact h.trans (List.prefix_append _ _)

theorem Heads.lit {hs : List String} {a : String} (h : a ∈ hs) : Heads hs a :=
  ⟨a, h, List.prefix_refl _⟩

theorem Heads.append1 {hs : List String} {a : String} (h : a ∈ hs) (b : String) :
    Heads hs (a ++ b) :=
  ⟨a, h, StartsWith.append (List.prefix_refl _) b⟩

theorem Heads.append2 {hs : List String} {a : String} (h : a ∈ hs) (b c : String) :
    Heads hs (a ++ b ++ c) :=
  ⟨a, h, StartsWith.append (StartsWith.append (List.prefix_refl _) b) c⟩

theorem Heads.fmt_line {hs : List String} {a : String} (h : a ∈ hs) (v : Nat) :
    Heads hs (fmt_line a v) :=
  ⟨a, h, StartsWith.append (StartsWith.append (StartsWith.append (List.prefix_refl _) _) _) _⟩

theorem Heads.of_subset {hs hs' : List String} {x : String} (h : Heads hs x) (hsub : hs ⊆ hs') :
    Heads hs' x := by
  obtain ⟨a, ha, hp⟩ := h
  exact ⟨a, hsub ha, hp⟩

/-- A text that starts with one of `hs` does not start with a label that
clashes with each of them. -/
theorem Heads.not_startsWith {hs : List String} {x : String} (h : Heads hs x) (l : String)
    (hl : ∀ a ∈ hs, clash l.data a.data = true) : ¬ StartsWith l x := by
  obtain ⟨a, ha, hp⟩ := h
  obtain ⟨r, hr⟩ := hp
  unfold StartsWith
  rw [← hr]
  exact clash_not_prefix _ _ (hl a ha) r

/-- A text that starts with one of `hs` is not a text that none of them starts. -/
theorem Heads.ne {hs : List String} {x : String} (h : Heads hs x) (l : String)
    (hl : ∀ a ∈ hs, ¬ a.data <+: l.data) : x ≠ l := by
  obtain ⟨a, ha, hp⟩ := h
  intro e
  subst e
  exact hl a ha hp

theorem Heads.all_singleton {hs : List String} {a : String} (h : Heads hs a) :
    ∀ x ∈ [a], Heads hs x := by
  intro x hx
  rw [List.mem_singleton.mp hx]
  exact h

theorem Heads.all_ite {hs : List String} {a : String} (c : Bool) (h : Heads hs a) :
    ∀ x ∈ (if c = true then [a] else []), Heads hs x := by
  intro x hx
  split at hx
  · rw [List.mem_singleton.mp hx]
    exact h
  · simp at hx

theorem heads_exception_handler (t : Target) (v : Bool) (m : Mem) :
    ∀ x ∈ textOf (FaultRecordPrint.exception_handler t v) m, Heads (headsExceptionHandler (FR_ARCH_ARMV8x_M t.build)) x := by
  unfold textOf FaultRecordPrint.exception_handler
  generalize FR_ARCH_ARMV8x_M t.build = flag0
  cases flag0
  all_goals
    simp only [FR_PRINT_mem, FR_PRINT_if_mem, Bool.false_eq_true, if_false, if_true]
    repeat' split
  all_goals
    simp only [FR_PRINT_out, FR_PRINT_if_out, List.nil_append, List.forall_mem_append]
  all_goals (repeat' apply And.intro)
  all_goals first
    | exact Heads.all_singleton (Heads.lit (by decide))
    | exact Heads.all_singleton (Heads.fmt_line (by decide) _)
    | exact Heads.all_singleton (Heads.append1 (by decide) _)
    | exact Heads.all_singleton (Heads.append2 (by decide) _ _)
    | exact Heads.all_ite _ (Heads.lit (by decide))
    | exact Heads.all_ite _ (Heads.fmt_line (by decide) _)
    | exact Heads.all_ite _ (Heads.append1 (by decide) _)
    | simp

theorem heads_state (t : Target) (v : Bool) (m : Mem) :
    ∀ x ∈ textOf (FaultRecordPrint.state t v) m, Heads (headsState) x := by
  unfold textOf FaultRecordPrint.state
  all_goals
    simp only [FR_PRINT_mem, FR_PRINT_if_mem, Bool.false_eq_true, if_false, if_true]
    repeat' split
  all_goals
    simp only [FR_PRINT_out, FR_PRINT_if_out, List.nil_append, List.forall_mem_append]
  all_goals (repeat' apply And.intro)
  all_goals first
    | exact Heads.all_singleton (Heads.lit (by decide))
    | exact Heads.all_singleton (Heads.fmt_line (by decide) _)
    | exact Heads.all_singleton (Heads.append1 (by decide) _)
    | exact Heads.all_singleton (Heads.append2 (by decide) _ _)
    | exact Heads.all_ite _ (Heads.lit (by decide))
    | exact Heads.all_ite _ (Heads.fmt_line (by decide) _)
    | exact Heads.all_ite _ (Heads.append1 (by decide) _)
    | simp

theorem heads_mode (t : Target) (v : Bool) (m : Mem) :
    ∀ x ∈ textOf (FaultRecordPrint.mode t v) m, Heads (headsMode) x := by
  unfold textOf FaultRecordPrint.mode
  all_goals
    simp only [FR_PRINT_mem, FR_PRINT_if_mem, Bool.false_eq_true, if_false, if_true]
    repeat' split
  all_goals
    simp only [FR_PRINT_out, FR_PRINT_if_out, List.nil_append, List.forall_mem_append]
  all_goals (repeat' apply And.intro)
  all_goals first
    | exact Heads.all_singleton (Heads.lit (by decide))
    | exact Heads.all_singleton (Heads.fmt_line (by decide) _)
    | exact Heads.all_singleton (Heads.append1 (by decide) _)
    | exact Heads.all_singleton (Heads.append2 (by decide) _ _)
    | exact Heads.all_ite _ (Heads.lit (by decide))
    | exact Heads.all_ite _ (Heads.fmt_line (by decide) _)
    | exact Heads.all_ite _ (Heads.append1 (by decide) _)
    | simp

theorem heads_hard_fault (t : Target) (v : Bool) (m : Mem) :
    ∀ x ∈ textOf (FaultRecordPrint.hard_fault t v) m, Heads (headsFaultsBase) x := by
  unfold textOf FaultRecordPrint.hard_fault
  all_goals
    simp only [FR_PRINT_mem, FR_PRINT_if_mem, Bool.false_eq_true, if_false, if_true]
    repeat' split
  all_goals
    simp only [FR_PRINT_out, FR_PRINT_if_out, List.nil_append, List.forall_mem_append]
  all_goals (repeat' apply And.intro)
  all_goals first
    | exact Heads.all_singleton (Heads.lit (by decide))
    | exact Heads.all_singleton (Heads.fmt_line (by decide) _)
    | exact Heads.all_singleton (Heads.append1 (by decide) _)
    | exact Heads.all_singleton (Heads.append2 (by decide) _ _)
    | exact Heads.all_ite _ (Heads.lit (by decide))
    | exact Heads.all_ite _ (Heads.fmt_line (by decide) _)
    | exact Heads.all_ite _ (Heads.append1 (by decide) _)
    | simp

theorem heads_mem_manage (t : Target) (v : Bool) (m : Mem) :
    ∀ x ∈ textOf (FaultRecordPrint.mem_manage t v) m, Heads (headsFaultsBase) x := by
  unfold textOf FaultRecordPrint.mem_manage
  all_goals
    simp only [FR_PRINT_mem, FR_PRINT_if_mem, Bool.false_eq_true, if_false, if_true]
    repeat' split
  all_goals
    simp only [FR_PRINT_out, FR_PRINT_if_out, List.nil_append, List.forall_mem_append]
  all_goals (repeat' apply And.intro)
  all_goals first
    | exact Heads.all_singleton (Heads.lit (by decide))
    | exact Heads.all_singleton (Heads.fmt_line (by decide) _)
    | exact Heads.all_singleton (Heads.append1 (by decide) _)
    | exact Heads.all_singleton (Heads.append2 (by decide) _ _)
    | exact Heads.all_ite _ (Heads.lit (by decide))
    | exact Heads.all_ite _ (Heads.fmt_line (by decide) _)
    | exact Heads.all_ite _ (Heads.append1 (by decide) _)
    | simp

theorem heads_bus_fault (t : Target) (v : Bool) (m : Mem) :
    ∀ x ∈ textOf (FaultRecordPrint.bus_fault t v) m, Heads (headsFaultsBase) x := by
  unfold textOf FaultRecordPrint.bus_fault
  all_goals
    simp only [FR_PRINT_mem, FR_PRINT_if_mem, Bool.false_eq_true, if_false, if_true]
    repeat' split
  all_goals
    simp only [FR_PRINT_out, FR_PRINT_if_out, List.nil_append, List.forall_mem_append]
  all_goals (repeat' apply And.intro)
  all_goals first
    | exact Heads.all_singleton (Heads.lit (by decide))
    | exact Heads.all_singleton (Heads.fmt_line (by decide) _)
    | exact Heads.all_singleton (Heads.append1 (by decide) _)
    | exact Heads.all_singleton (Heads.append2 (by decide) _ _)
    | exact Heads.all_ite _ (Heads.lit (by decide))
    | exact Heads.all_ite _ (Heads.fmt_line (by decide) _)
    | exact Heads.all_ite _ (Heads.append1 (by decide) _)
    | simp

theorem heads_usage_fault (t : Target) (v : Bool) (m : Mem) :
    ∀ x ∈ textOf (FaultRecordPrint.usage_fault t v) m, Heads (headsFaultsBase) x := by
  unfold textOf FaultRecordPrint.usage_fault
  all_goals
    simp only [FR_PRINT_mem, FR_PRINT_if_mem, Bool.false_eq_true, if_false, if_true]
    repeat' split
  all_goals
    simp only [FR_PRINT_out, FR_PRINT_if_out, List.nil_append, List.forall_mem_append]
  all_goals (repeat' apply And.intro)
  all_goals first
    | exact Heads.all_singleton (Heads.lit (by decide))
    | exact Heads.all_singleton (Heads.fmt_line (by decide) _)
    | exact Heads.all_singleton (Heads.append1 (by decide) _)
    | exact Heads.all_singleton (Heads.append2 (by decide) _ _)
    | exact Heads.all_ite _ (Heads.lit (by decide))
    | exact Heads.all_ite _ (Heads.fmt_line (by decide) _)
    | exact Heads.all_ite _ (Heads.append1 (by decide) _)
    | simp

theorem heads_secure_fault (t : Target) (v : Bool) (m : Mem) :
    ∀ x ∈ textOf (FaultRecordPrint.secure_fault t v) m, Heads (headsSecureFault) x := by
  unfold textOf FaultRecordPrint.secure_fault
  all_goals
    simp only [FR_PRINT_mem, FR_PRINT_if_mem, Bool.false_eq_true, if_false, if_true]
    repeat' split
  all_goals
    simp only [FR_PRINT_out, FR_PRINT_if_out, List.nil_append, List.forall_mem_append]
  all_goals (repeat' apply And.intro)
  all_goals first
    | exact Heads.all_singleton (Heads.lit (by decide))
    | exact Heads.all_singleton (Heads.fmt_line (by decide) _)
    | exact Heads.all_singleton (Heads.append1 (by decide) _)
    | exact Heads.all_singleton (Heads.append2 (by decide) _ _)
    | exact Heads.all_ite _ (Heads.lit (by decide))
    | exact Heads.all_ite _ (Heads.fmt_line (by decide) _)
    | exact Heads.all_ite _ (Heads.append1 (by decide) _)
    | simp

theorem heads_pc_msp_psp (t : Target) (v : Bool) (m : Mem) :
    ∀ x ∈ textOf (FaultRecordPrint.pc_msp_psp t v) m, Heads (headsPc (FR_ARCH_ARMV8x_M t.build)) x := by
  unfold textOf FaultRecordPrint.pc_msp_psp
  generalize FR_ARCH_ARMV8x_M t.build = flag0
  cases flag0
  all_goals
    simp only [FR_PRINT_mem, FR_PRINT_if_mem, Bool.false_eq_true, if_false, if_true]
    repeat' split
  all_goals
    simp only [FR_PRINT_out, FR_PRINT_if_out, List.nil_append, List.forall_mem_append]
  all_goals (repeat' apply And.intro)
  all_goals first
    | exact Heads.all_singleton (Heads.lit (by decide))
    | exact Heads.all_singleton (Heads.fmt_line (by decide) _)
    | exact Heads.all_singleton (Heads.append1 (by decide) _)
    | exact Heads.all_singleton (Heads.append2 (by decide) _ _)
    | exact Heads.all_ite _ (Heads.lit (by decide))
    | exact Heads.all_ite _ (Heads.fmt_line (by decide) _)
    | exact Heads.all_ite _ (Heads.append1 (by decide) _)
    | simp

theorem heads_state_context_r0_r3 (t : Target) (v scv : Bool) (m : Mem) :
    ∀ x ∈ textOf (FaultRecordPrint.state_context_r0_r3 t v scv) m, Heads (headsBaseRegisters) x := by
  unfold textOf FaultRecordPrint.state_context_r0_r3
  all_goals
    simp only [FR_PRINT_mem, FR_PRINT_if_mem, Bool.false_eq_true, if_false, if_true]
    repeat' split
  all_goals
    simp only [FR_PRINT_out, FR_PRINT_if_out, List.nil_append, List.forall_mem_append]
  all_goals (repeat' apply And.intro)
  all_goals first
    | exact Heads.all_singleton (Heads.lit (by decide))
    | exact Heads.all_singleton (Heads.fmt_line (by decide) _)
    | exact Heads.all_singleton (Heads.append1 (by decide) _)
    | exact Heads.all_singleton (Heads.append2 (by decide) _ _)
    | exact Heads.all_ite _ (Heads.lit (by decide))
    | exact Heads.all_ite _ (Heads.fmt_line (by decide) _)
    | exact Heads.all_ite _ (Heads.append1 (by decide) _)
    | simp

theorem heads_additional_state_context (t : Target) (v scv : Bool) (m : Mem) :
    ∀ x ∈ textOf (FaultRecordPrint.additional_state_context t v scv) m, Heads (headsAdditional) x := by
  unfold textOf FaultRecordPrint.additional_state_context
  all_goals
    simp only [FR_PRINT_mem, FR_PRINT_if_mem, Bool.false_eq_true, if_false, if_true]
    repeat' split
  all_goals
    simp only [FR_PRINT_out, FR_PRINT_if_out, List.nil_append, List.forall_mem_append]
  all_goals (repeat' apply And.intro)
  all_goals first
    | exact Heads.all_singleton (Heads.lit (by decide))
    | exact Heads.all_singleton (Heads.fmt_line (by decide) _)
    | exact Heads.all_singleton (Heads.append1 (by decide) _)
    | exact Heads.all_singleton (Heads.append2 (by decide) _ _)
    | exact Heads.all_ite _ (Heads.lit (by decide))
    | exact Heads.all_ite _ (Heads.fmt_line (by decide) _)
    | exact Heads.all_ite _ (Heads.append1 (by decide) _)
    | simp

theorem heads_state_context_r12_xpsr (t : Target) (v scv : Bool) (m : Mem) :
    ∀ x ∈ textOf (FaultRecordPrint.state_context_r12_xpsr t v scv) m, Heads (headsBaseRegisters) x := by
  unfold textOf FaultRecordPrint.state_context_r12_xpsr
  all_goals
    simp only [FR_PRINT_mem, FR_PRINT_if_mem, Bool.false_eq_true, if_false, if_true]
    repeat' split
  all_goals
    simp only [FR_PRINT_out, FR_PRINT_if_out, List.nil_append, List.forall_mem_append]
  all_goals (repeat' apply And.intro)
  all_goals first
    | exact Heads.all_singleton (Heads.lit (by decide))
    | exact Heads.all_singleton (Heads.fmt_line (by decide) _)
    | exact Heads.all_singleton (Heads.append1 (by decide) _)
    | exact Heads.all_singleton (Heads.append2 (by decide) _ _)
    | exact Heads.all_ite _ (Heads.lit (by decide))
    | exact Heads.all_ite _ (Heads.fmt_line (by decide) _)
    | exact Heads.all_ite _ (Heads.append1 (by decide) _)
    | simp

theorem heads_fault_registers (t : Target) (v : Bool) (m : Mem) :
    ∀ x ∈ textOf (FaultRecordPrint.fault_registers t v) m, Heads (headsFaultRegisters (FR_ARCH_ARMV8x_M_MAIN t.build)) x := by
  unfold textOf FaultRecordPrint.fault_registers
  generalize FR_ARCH_ARMV8x_M_MAIN t.build = flag0
  cases flag0
  all_goals
    simp only [FR_PRINT_mem, FR_PRINT_if_mem, Bool.false_eq_true, if_false, if_true]
    repeat' split
  all_goals
    simp only [FR_PRINT_out, FR_PRINT_if_out, List.nil_append, List.forall_mem_append]
  all_goals (repeat' apply And.intro)
  all_goals first
    | exact Heads.all_singleton (Heads.lit (by decide))
    | exact Heads.all_singleton (Heads.fmt_line (by decide) _)
    | exact Heads.all_singleton (Heads.append1 (by decide) _)
    | exact Heads.all_singleton (Heads.append2 (by decide) _ _)
    | exact Heads.all_ite _ (Heads.lit (by decide))
    | exact Heads.all_ite _ (Heads.fmt_line (by decide) _)
    | exact Heads.all_ite _ (Heads.append1 (by decide) _)
    | simp

/-! ## The texts of the register blocks -/

theorem textOf_pc_msp_psp (t : Target) (m : Mem) :
    textOf (FaultRecordPrint.pc_msp_psp t true) m
      = "\n" :: (pcText t m
          ++ fmt_line "   - MSP:            " (FaultInfo.common_registers t m 2)
            :: (limLine t m "   - MSPLIM:         " 0
          ++ fmt_line "   - PSP:            " (FaultInfo.common_registers t m 3)
            :: (limLine t m "   - PSPLIM:         " 1 ++ ["\n"]))) := by
  unfold textOf FaultRecordPrint.pc_msp_psp pcText limLine
  simp only [FR_PRINT_mem, FR_PRINT_if_mem, if_true]
  repeat' split
  all_goals simp_all

theorem textOf_state_context_r0_r3 (t : Target) (scv : Bool) (m : Mem) :
    textOf (FaultRecordPrint.state_context_r0_r3 t true scv) m
      = if scv then baseLinesR0R3 t m else [] := by
  unfold textOf FaultRecordPrint.state_context_r0_r3 baseLinesR0R3
  cases scv <;> simp

theorem textOf_state_context_r12_xpsr (t : Target) (scv : Bool) (m : Mem) :
    textOf (FaultRecordPrint.state_context_r12_xpsr t true scv) m
      = if scv then baseLinesR12 t m else [] := by
  unfold textOf FaultRecordPrint.state_context_r12_xpsr baseLinesR12
  cases scv <;> simp

theorem textOf_additional_state_context (t : Target) (scv : Bool) (m : Mem) :
    textOf (FaultRecordPrint.additional_state_context t true scv) m
      = if FR_ARCH_ARMV8x_M t.build = true ∧ scv = true ∧ FaultInfo.type.armv8m t m ≠ 0
            ∧ FaultInfo.additonal_state_context t m 0 &&& 0xFFFFFFFE = FR_ASC_INTEGRITY_SIG
          then extendedLines t m else [] := by
  unfold textOf FaultRecordPrint.additional_state_context extendedLines
  simp only [FR_PRINT_mem]
  cases scv <;> repeat' split
  all_goals simp_all

theorem textOf_fault_registers (t : Target) (m : Mem) :
    textOf (FaultRecordPrint.fault_registers t true) m
      = if FR_FAULT_REGS_EXIST t.build then
          "  Fault registers:\n" :: (rawFaultLines t m ++ rawSecureFaultLines t m ++ ["\n"])
        else [] := by
  unfold textOf FaultRecordPrint.fault_registers rawFaultLines rawSecureFaultLines
  simp only [FR_PRINT_mem, if_true]
  repeat' split
  all_goals simp_all

/-! ## The output on a trustworthy record, block by block -/

theorem heads_header (t : Target) (m : Mem) : Heads headsHeader (headerText t m) := by
  unfold headerText
  exact ⟨_, List.mem_singleton.mpr rfl,
    StartsWith.append (StartsWith.append (StartsWith.append (StartsWith.append
      (List.prefix_refl _) _) _) _) _⟩

theorem heads_faults (t : Target) (v : Bool) (m : Mem) :
    ∀ x ∈ textOf (FaultRecordPrint.faults t v) m,
      Heads (headsFaults (FR_ARCH_ARMV8x_M_MAIN t.build)) x := by
  intro x hx
  rw [textOf_faults] at hx
  split at hx
  · simp only [List.mem_append] at hx
    rcases hx with (((hx | hx) | hx) | hx) | hx
    · exact (heads_hard_fault t v m x hx).of_subset (List.subset_append_left _ _)
    · exact (heads_mem_manage t v m x hx).of_subset (List.subset_append_left _ _)
    · exact (heads_bus_fault t v m x hx).of_subset (List.subset_append_left _ _)
    · exact (heads_usage_fault t v m x hx).of_subset (List.subset_append_left _ _)
    · split at hx
      · rename_i hmain
        rw [hmain]
        exact (heads_secure_fault t v m x hx).of_subset (List.subset_append_right _ _)
      · simp at hx
  · simp at hx

/-- The output on a trustworthy record: the header, then the blocks in order. -/
theorem textOf_valid_blocks (t : Target) (m : Mem) (h : Trustworthy t m) :
    textOf (FaultRecordPrint t) m
      = headerText t m :: (textOf (FaultRecordPrint.exception_handler t true) m
        ++ textOf (FaultRecordPrint.state t true) m
        ++ textOf (FaultRecordPrint.mode t true) m
        ++ textOf (FaultRecordPrint.faults t true) m
        ++ textOf (FaultRecordPrint.pc_msp_psp t true) m
        ++ textOf (FaultRecordPrint.state_context_r0_r3 t true
            (FaultRecordPrint.state_context_valid t ⟨m, []⟩)) m
        ++ textOf (FaultRecordPrint.additional_state_context t true
            (FaultRecordPrint.state_context_valid t ⟨m, []⟩)) m
        ++ textOf (FaultRecordPrint.state_context_r12_xpsr t true
            (FaultRecordPrint.state_context_valid t ⟨m, []⟩)) m
        ++ textOf (FaultRecordPrint.fault_registers t true) m) := by
  rw [textOf_FaultRecordPrint_valid t m h, textOf_decode]

theorem heads_state_v8 (t : Target) (v : Bool) (m : Mem) :
    ∀ x ∈ textOf (FaultRecordPrint.state t v) m,
      FR_ARCH_ARMV8x_M t.build = true ∧ Heads headsState x := by
  intro x hx
  refine ⟨?_, heads_state t v m x hx⟩
  unfold textOf FaultRecordPrint.state at hx
  split at hx
  · assumption
  · simp at hx

/-- On a trustworthy record every printed text that does not come from a
register block starts with one of `headsOther`. -/
theorem heads_valid (t : Target) (m : Mem) (h : Trustworthy t m) (pc : List String)
    (hpc : ∀ x ∈ textOf (FaultRecordPrint.pc_msp_psp t true) m, Heads pc x) :
    ∀ x ∈ textOf (FaultRecordPrint t) m,
      Heads (headsOther (FR_ARCH_ARMV8x_M t.build) (FR_ARCH_ARMV8x_M_MAIN t.build) pc) x
      ∨ x ∈ textOf (FaultRecordPrint.state_context_r0_r3 t true
            (FaultRecordPrint.state_context_valid t ⟨m, []⟩)) m
      ∨ x ∈ textOf (FaultRecordPrint.additional_state_context t true
            (FaultRecordPrint.state_context_valid t ⟨m, []⟩)) m
      ∨ x ∈ textOf (FaultRecordPrint.state_context_r12_xpsr t true
            (FaultRecordPrint.state_context_valid t ⟨m, []⟩)) m := by
  intro x hx
  rw [textOf_valid_blocks t m h] at hx
  simp only [List.mem_cons, List.mem_append] at hx
  unfold headsOther
  rcases hx with rfl | (((((((hx | hx) | hx) | hx) | hx) | hx) | hx) | hx) | hx
  · left
    exact (heads_header t m).of_subset (by intro a ha; simp [ha])
  · left
    exact (heads_exception_handler t true m x hx).of_subset (by intro a ha; simp [ha])
  · left
    exact (heads_state t true m x hx).of_subset (by intro a ha; simp [ha])
  · left
    exact (heads_mode t true m x hx).of_subset (by intro a ha; simp [ha])
  · left
    exact (heads_faults t true m x hx).of_subset (by intro a ha; simp [ha])
  · left
    exact (hpc x hx).of_subset (by intro a ha; simp [ha])
  · right; left; exact hx
  · right; right; left; exact hx
  · right; right; right; exact hx
  · left
    exact (heads_fault_registers t true m x hx).of_subset (by intro a ha; simp [ha])

theorem heads_limLine (t : Target) (m : Mem) (label : String) (i : Nat) (hs : List String)
    (h : label ∈ hs) : ∀ x ∈ limLine t m label i, Heads hs x := by
  intro x hx
  unfold limLine at hx
  repeat' split at hx
  all_goals simp at hx
  all_goals
    rw [hx]
    exact Heads.fmt_line h _

theorem state_context_valid_false (t : Target) (m : Mem)
    (hf : FR_FAULT_REGS_EXIST t.build = true)
    (hs : FaultInfo.fault_registers t m 0 &&& SCB_CFSR_Stack_Err_Msk t ≠ 0) :
    FaultRecordPrint.state_context_valid t ⟨m, []⟩ = false := by
  simp [FaultRecordPrint.state_context_valid, hf, tst, hs]

theorem pcText_unknown (t : Target) (m : Mem) (hf : FR_FAULT_REGS_EXIST t.build = true)
    (hs : FaultInfo.fault_registers t m 0 &&& SCB_CFSR_Stack_Err_Msk t ≠ 0) :
    pcText t m = ["   - PC:             ", "unknown\n"] := by
  simp [pcText, hf, hs]

theorem heads_pc_unknown (t : Target) (m : Mem) (hf : FR_FAULT_REGS_EXIST t.build = true)
    (hs : FaultInfo.fault_registers t m 0 &&& SCB_CFSR_Stack_Err_Msk t ≠ 0) :
    ∀ x ∈ textOf (FaultRecordPrint.pc_msp_psp t true) m, Heads headsPcUnknown x := by
  intro x hx
  rw [textOf_pc_msp_psp, pcText_unknown t m hf hs] at hx
  simp only [List.mem_cons, List.mem_append, List.mem_singleton, List.not_mem_nil,
    or_false] at hx
  rcases hx with rfl | (rfl | rfl) | rfl | hx | rfl | hx | rfl
  · exact Heads.lit (by decide)
  · exact Heads.lit (by decide)
  · exact Heads.lit (by decide)
  · exact Heads.fmt_line (by decide) _
  · exact heads_limLine t m _ 0 _ (by decide) x hx
  · exact Heads.fmt_line (by decide) _
  · exact heads_limLine t m _ 1 _ (by decide) x hx
  · exact Heads.lit (by decide)

theorem clash_registers_other (v8 main : Bool) :
    ∀ l ∈ "0x" :: (baseRegisterLabels ++ extendedRegisterLabels),
      ∀ a ∈ headsOther v8 main headsPcUnknown, clash l.data a.data = true := by
  cases v8 <;> cases main <;> decide

/-- C12: on a build with fault status registers, for every trustworthy record
whose stored CFSR has a bit of the stacking error mask, `FaultRecordPrint`
shows the program counter as "unknown" (and prints no value for it), prints no
line of the base register block (R0-R3, R12, LR, ReturnAddress, xPSR) and no
line R4-R11, and still prints the MSP and PSP lines and the raw values of
CFSR, HFSR, DFSR, MMFAR, BFAR and AFSR. -/
theorem FaultRecordPrint_stacking_error (t : Target) (m : Mem)
    (hf : FR_FAULT_REGS_EXIST t.build = true) (h : Trustworthy t m)
    (hs : FaultInfo.fault_registers t m 0 &&& SCB_CFSR_Stack_Err_Msk t ≠ 0) :
    (∃ pre post, textOf (FaultRecordPrint t) m
        = pre ++ "   - PC:             " :: "unknown\n" :: post)
    ∧ (∀ x ∈ textOf (FaultRecordPrint t) m, ¬ StartsWith "0x" x)
    ∧ (∀ x ∈ textOf (FaultRecordPrint t) m,
        ∀ l ∈ baseRegisterLabels ++ extendedRegisterLabels, ¬ StartsWith l x)
    ∧ fmt_line "   - MSP:            " (FaultInfo.common_registers t m 2)
        ∈ textOf (FaultRecordPrint t) m
    ∧ fmt_line "   - PSP:            " (FaultInfo.common_registers t m 3)
        ∈ textOf (FaultRecordPrint t) m
    ∧ (∀ x ∈ rawFaultLines t m, x ∈ textOf (FaultRecordPrint t) m) := by
  have hscv := state_context_valid_false t m hf hs
  have hblocks := textOf_valid_blocks t m h
  have hnone : ∀ x ∈ textOf (FaultRecordPrint t) m,
      ∀ l ∈ "0x" :: (baseRegisterLabels ++ extendedRegisterLabels), ¬ StartsWith l x := by
    intro x hx l hl
    rcases heads_valid t m h headsPcUnknown (heads_pc_unknown t m hf hs) x hx with
      hh | hh | hh | hh
    · exact hh.not_startsWith l (clash_registers_other _ _ l hl)
    · rw [hscv, textOf_state_context_r0_r3] at hh
      simp at hh
    · rw [hscv, textOf_additional_state_context] at hh
      simp at hh
    · rw [hscv, textOf_state_context_r12_xpsr] at hh
      simp at hh
  refine ⟨?_, ?_, ?_, ?_, ?_, ?_⟩
  · rw [hblocks, textOf_pc_msp_psp, pcText_unknown t m hf hs]
    refine ⟨headerText t m :: (textOf (FaultRecordPrint.exception_handler t true) m
        ++ textOf (FaultRecordPrint.state t true) m
        ++ textOf (FaultRecordPrint.mode t true) m
        ++ textOf (FaultRecordPrint.faults t true) m ++ ["\n"]), ?post, ?eq⟩
    case eq =>
      simp only [List.cons_append, List.append_assoc, List.nil_append, List.singleton_append]
      exact rfl
  · intro x hx
    exact hnone x hx _ (List.mem_cons_self _ _)
  · intro x hx l hl
    exact hnone x hx l (List.mem_cons_of_mem _ hl)
  · rw [hblocks, textOf_pc_msp_psp]
    simp
  · rw [hblocks, textOf_pc_msp_psp]
    simp
  · intro x hx
    rw [hblocks, textOf_fault_registers, hf]
    simp [hx]

theorem stkerr_record_cfsr :
    FaultInfo.fault_registers cortexM4 (FaultRecord cortexM4 stkerrCpu).mem 0 = 0x1000 := by
  have hsz : sizeof_FaultInfo cortexM4.build = 84 := by decide
  obtain ⟨h1, -⟩ := FaultRecord.capture_v7 cortexM4 stkerrCpu Fits_cortexM4 (Or.inr rfl)
    (by rw [hsz]; simp [cortexM4])
    (by rw [hsz]; simp [cortexM4, cfsr_addr])
    (by rw [hsz, framePointer_stkerrCpu]; simp [cortexM4])
  have hm : (stkerrCpu).mem = stkerrMem := rfl
  rw [hm, read32_stkerrMem_cfsr] at h1
  exact h1

theorem stkerr_record_mask :
    FaultInfo.fault_registers cortexM4 (FaultRecord cortexM4 stkerrCpu).mem 0
      &&& SCB_CFSR_Stack_Err_Msk cortexM4 ≠ 0 := by
  rw [stkerr_record_cfsr]
  decide

theorem FaultRecordPrint_stacking_error_witness :
    FR_FAULT_REGS_EXIST cortexM4.build = true
    ∧ Trustworthy cortexM4 (FaultRecord cortexM4 stkerrCpu).mem
    ∧ FaultInfo.fault_registers cortexM4 (FaultRecord cortexM4 stkerrCpu).mem 0
        &&& SCB_CFSR_Stack_Err_Msk cortexM4 ≠ 0
    ∧ ∃ pre post, textOf (FaultRecordPrint cortexM4) (FaultRecord cortexM4 stkerrCpu).mem
        = pre ++ "   - PC:             " :: "unknown\n" :: post :=
  ⟨rfl, FaultRecord_trustworthy cortexM4 stkerrCpu Fits_cortexM4, stkerr_record_mask,
    (FaultRecordPrint_stacking_error cortexM4 (FaultRecord cortexM4 stkerrCpu).mem rfl
      (FaultRecord_trustworthy cortexM4 stkerrCpu Fits_cortexM4) stkerr_record_mask).1⟩

/-! ## The extended register block -/

/-- Masking the least significant bit of a word. -/
theorem and_fffffffe (x : Nat) (hx : x < 2^32) : x &&& 0xFFFFFFFE = 2 * (x / 2) := by
  have e1 : x = Nat.bit (decide (x % 2 = 1)) (x / 2) := by
    rw [Nat.bit_val]
    by_cases h : x % 2 = 1 <;> simp [h] <;> omega
  have e2 : (0xFFFFFFFE : Nat) = Nat.bit false (2^31 - 1) := by
    rw [Nat.bit_val]
    norm_num
  rw [e2]
  nth_rewrite 1 [e1]
  rw [Nat.land_bit, Nat.and_pow_two_sub_one_eq_mod, Nat.bit_val]
  simp only [Bool.and_false, Bool.toNat_false, Nat.add_zero]
  have : x / 2 % 2^31 = x / 2 := Nat.mod_eq_of_lt (by omega)
  rw [this]

theorem integrity_signature_accepted (x : Nat) (hx : x < 2^32) :
    x &&& 0xFFFFFFFE = 0xFEFA125A ↔ x = 0xFEFA125A ∨ x = 0xFEFA125B := by
  rw [and_fffffffe x hx]
  omega

theorem clash_extended_other (v8 main : Bool) :
    ∀ l ∈ extendedRegisterLabels,
      ∀ a ∈ headsOther v8 main (headsPc v8) ++ headsBaseRegisters,
        clash l.data a.data = true := by
  cases v8 <;> cases main <;> decide

theorem invalidCrcText_not_startsWith (ls : List String)
    (h : ∀ l ∈ ls, clash l.data invalidCrcText.data = true) :
    ∀ l ∈ ls, ¬ StartsWith l invalidCrcText := by
  intro l hl
  have := clash_not_prefix _ _ (h l hl) []
  rwa [List.append_nil] at this

/-- The output of `FaultRecordPrint`, whatever the record: nothing, the header
and the invalid CRC report, or the header and the decoded record. -/
theorem textOf_cases (t : Target) (m : Mem) :
    (¬ Trustworthy t m ∧ (textOf (FaultRecordPrint t) m = []
        ∨ textOf (FaultRecordPrint t) m = [headerText t m, invalidCrcText]))
    ∨ Trustworthy t m := by
  by_cases h : Trustworthy t m
  · exact Or.inr h
  · left
    refine ⟨h, ?_⟩
    by_cases hmagic : FaultInfo.magic_number t m = FR_MAGIC_NUMBER
    · right
      exact textOf_bad_crc t m hmagic (fun e => h ⟨hmagic, e⟩)
    · left
      exact textOf_no_magic t m hmagic

/-! ## Builds without the Armv8-M fields -/

/-- On a trustworthy record every printed text that does not come from a
register block starts with one of the texts the other blocks open with. -/
theorem heads_valid_gen (t : Target) (m : Mem) (h : Trustworthy t m)
    (eh st fl pc fr : List String)
    (heh : ∀ x ∈ textOf (FaultRecordPrint.exception_handler t true) m, Heads eh x)
    (hst : ∀ x ∈ textOf (FaultRecordPrint.state t true) m, Heads st x)
    (hfl : ∀ x ∈ textOf (FaultRecordPrint.faults t true) m, Heads fl x)
    (hpc : ∀ x ∈ textOf (FaultRecordPrint.pc_msp_psp t true) m, Heads pc x)
    (hfr : ∀ x ∈ textOf (FaultRecordPrint.fault_registers t true) m, Heads fr x) :
    ∀ x ∈ textOf (FaultRecordPrint t) m,
      Heads (headsBlocks eh st fl pc fr) x
      ∨ x ∈ textOf (FaultRecordPrint.state_context_r0_r3 t true
            (FaultRecordPrint.state_context_valid t ⟨m, []⟩)) m
      ∨ x ∈ textOf (FaultRecordPrint.additional_state_context t true
            (FaultRecordPrint.state_context_valid t ⟨m, []⟩)) m
      ∨ x ∈ textOf (FaultRecordPrint.state_context_r12_xpsr t true
            (FaultRecordPrint.state_context_valid t ⟨m, []⟩)) m := by
  intro x hx
  rw [textOf_valid_blocks t m h] at hx
  simp only [List.mem_cons, List.mem_append] at hx
  unfold headsBlocks
  rcases hx with rfl | (((((((hx | hx) | hx) | hx) | hx) | hx) | hx) | hx) | hx
  · left
    exact (heads_header t m).of_subset (by intro a ha; simp [ha])
  · left
    exact (heh x hx).of_subset (by intro a ha; simp [ha])
  · left
    exact (hst x hx).of_subset (by intro a ha; simp [ha])
  · left
    exact (heads_mode t true m x hx).of_subset (by intro a ha; simp [ha])
  · left
    exact (hfl x hx).of_subset (by intro a ha; simp [ha])
  · left
    exact (hpc x hx).of_subset (by intro a ha; simp [ha])
  · right; left; exact hx
  · right; right; left; exact hx
  · right; right; right; exact hx
  · left
    exact (hfr x hx).of_subset (by intro a ha; simp [ha])

theorem not_main_of_not_v8 (b : Build) (h : FR_ARCH_ARMV8x_M b = false) :
    FR_ARCH_ARMV8x_M_MAIN b = false := by
  rcases b with _ | _ | _ | c | c | c <;> simp_all [FR_ARCH_ARMV8x_M, FR_ARCH_ARMV8x_M_MAIN]

theorem textOf_state_not_v8 (t : Target) (v : Bool) (m : Mem)
    (h8 : FR_ARCH_ARMV8x_M t.build = false) :
    textOf (FaultRecordPrint.state t v) m = [] := by
  simp [textOf, FaultRecordPrint.state, h8]

theorem clash_extended_fields :
    ∀ l ∈ extendedFieldLabels,
      ∀ a ∈ headsBlocks (headsExceptionHandler false) [] (headsFaults false) (headsPc false)
          (headsFaultRegisters false) ++ headsBaseRegisters ++ [invalidCrcText],
        clash l.data a.data = true := by
  decide

theorem not_prefix_world_text :
    ∀ l ∈ ["Secure", "Non-Secure"],
      ∀ a ∈ headsBlocks (headsExceptionHandler false) [] (headsFaults false) (headsPc false)
          (headsFaultRegisters false) ++ headsBaseRegisters ++ [invalidCrcText],
        ¬ a.data <+: l.data := by
  decide

/-- On a build that is not Armv8/8.1-M every printed text starts with one of
the texts of the blocks compiled for that build. -/
theorem heads_not_v8 (t : Target) (m : Mem) (h8 : FR_ARCH_ARMV8x_M t.build = false) :
    ∀ x ∈ textOf (FaultRecordPrint t) m,
      Heads (headsBlocks (headsExceptionHandler false) [] (headsFaults false) (headsPc false)
          (headsFaultRegisters false) ++ headsBaseRegisters ++ [invalidCrcText]) x := by
  have hmain := not_main_of_not_v8 t.build h8
  intro x hx
  rcases textOf_cases t m with ⟨-, hout | hout⟩ | htr
  · rw [hout] at hx
    simp at hx
  · rw [hout] at hx
    simp only [List.mem_cons, List.mem_singleton, List.not_mem_nil, or_false] at hx
    rcases hx with rfl | rfl
    · exact (heads_header t m).of_subset (by intro a ha; simp [headsBlocks, ha])
    · exact Heads.lit (by simp)
  · have heh := heads_exception_handler t true m
    rw [h8] at heh
    have hpc := heads_pc_msp_psp t true m
    rw [h8] at hpc
    have hfl := heads_faults t true m
    rw [hmain] at hfl
    have hfr := heads_fault_registers t true m
    rw [hmain] at hfr
    have hst : ∀ x ∈ textOf (FaultRecordPrint.state t true) m, Heads [] x := by
      intro x hx
      rw [textOf_state_not_v8 t true m h8] at hx
      simp at hx
    rcases heads_valid_gen t m htr _ _ _ _ _ heh hst hfl hpc hfr x hx with hh | hh | hh | hh
    · exact hh.of_subset (by intro a ha; simp [ha])
    · exact (heads_state_context_r0_r3 t true _ m x hh).of_subset (by intro a ha; simp [ha])
    · rw [textOf_additional_state_context] at hh
      simp [h8] at hh
    · exact (heads_state_context_r12_xpsr t true _ m x hh).of_subset (by intro a ha; simp [ha])

/-- C18: on a build that is not Armv8/8.1-M, for every record content the
output of `FaultRecordPrint` holds no extended field: no "Secure" or
"Non-Secure" text, no state line, no MSPLIM or PSPLIM line, no line R4-R11
and no SFSR or SFAR line; and `FaultInfo` ends where the first extended field
would start, after the common registers or the fault registers. -/
theorem FaultRecordPrint_no_extended_fields (t : Target) (m : Mem)
    (h8 : FR_ARCH_ARMV8x_M t.build = false) :
    (∀ x ∈ textOf (FaultRecordPrint t) m,
      x ≠ "Secure" ∧ x ≠ "Non-Secure" ∧ ∀ l ∈ extendedFieldLabels, ¬ StartsWith l x)
    ∧ sizeof_FaultInfo t.build = ofs_additonal_state_context t.build
    ∧ sizeof_FaultInfo t.build
        = ofs_common_registers + sizeof_CommonRegisters
          + (if FR_FAULT_REGS_EXIST t.build then sizeof_FaultRegisters else 0) := by
  refine ⟨?_, ?_, ?_⟩
  · intro x hx
    have hh := heads_not_v8 t m h8 x hx
    refine ⟨?_, ?_, ?_⟩
    · exact hh.ne _ (not_prefix_world_text _ (by simp))
    · exact hh.ne _ (not_prefix_world_text _ (by simp))
    · intro l hl
      exact hh.not_startsWith l (clash_extended_fields l hl)
  · rcases hb : t.build with _ | _ | _ | c | c | c <;> simp_all [FR_ARCH_ARMV8x_M] <;> decide
  · rcases hb : t.build with _ | _ | _ | c | c | c <;> simp_all [FR_ARCH_ARMV8x_M] <;> decide

theorem FaultRecordPrint_no_extended_fields_witness :
    FR_ARCH_ARMV8x_M cortexM4.build = false
    ∧ ∀ x ∈ textOf (FaultRecordPrint cortexM4) stampedMem,
      x ≠ "Secure" ∧ x ≠ "Non-Secure" ∧ ∀ l ∈ extendedFieldLabels, ¬ StartsWith l x :=
  ⟨rfl, (FaultRecordPrint_no_extended_fields cortexM4 stampedMem rfl).1⟩

/-! ## The `fault_regs` flag of the record -/

theorem stamp_trustworthy (t : Target) (m : Mem) (hfit : Fits t) : Trustworthy t (stamp t m) :=
  stamped_valid t m hfit

/-- The body of a stamped record is the body of the memory it was made from. -/
theorem read8_stamp (t : Target) (m : Mem) (k : Nat) (hk : 8 ≤ k)
    (hfit : t.FaultInfo_addr + k < 2^32) :
    read8 (stamp t m) (t.FaultInfo_addr + k) = read8 m (t.FaultInfo_addr + k) := by
  unfold stamp
  simp only [ofs_crc32, ofs_magic_number]
  rw [read8_write32 _ _ _ _ (by omega) (by omega) (by omega) (by omega),
    read8_write32 _ _ _ _ (by omega) (by omega) (by omega) (by omega)]

theorem read32_stamp (t : Target) (m : Mem) (k : Nat) (hk : 8 ≤ k)
    (hfit : t.FaultInfo_addr + k + 4 ≤ 2^32) :
    read32 (stamp t m) (t.FaultInfo_addr + k) = read32 m (t.FaultInfo_addr + k) := by
  unfold read32
  have e1 := read8_stamp t m (k + 1) (by omega) (by omega)
  have e2 := read8_stamp t m (k + 2) (by omega) (by omega)
  have e3 := read8_stamp t m (k + 3) (by omega) (by omega)
  rw [← Nat.add_assoc] at e1 e2 e3
  rw [read8_stamp t m k hk (by omega), e1, e2, e3]

theorem noFlagMem_flag : FaultInfo.type.fault_regs cortexM4 noFlagMem = 0 := by
  unfold FaultInfo.type.fault_regs read16 noFlagMem
  have e1 := read8_stamp cortexM4
    (fun a => if a = 0x20000008 then 1 else if a = 0x2000003D then 0x10 else 0) 10 (by omega)
    (by decide)
  have e2 := read8_stamp cortexM4
    (fun a => if a = 0x20000008 then 1 else if a = 0x2000003D then 0x10 else 0) 11 (by omega)
    (by decide)
  have a1 : cortexM4.FaultInfo_addr + ofs_type + 2 = cortexM4.FaultInfo_addr + 10 := rfl
  have a2 : cortexM4.FaultInfo_addr + 10 + 1 = cortexM4.FaultInfo_addr + 11 := rfl
  rw [a1, a2, e1, e2]
  decide

theorem noFlagMem_cfsr : FaultInfo.fault_registers cortexM4 noFlagMem 0 = 0x1000 := by
  unfold FaultInfo.fault_registers noFlagMem
  have a1 : cortexM4.FaultInfo_addr + ofs_fault_registers + 4 * 0
      = cortexM4.FaultInfo_addr + 60 := rfl
  rw [a1, read32_stamp cortexM4 _ 60 (by omega) (by decide)]
  decide

theorem or_eq_zero_iff (p q : Nat) : p ||| q = 0 ↔ p = 0 ∧ q = 0 := by
  constructor
  · intro h
    have hb : ∀ i, p.testBit i = false ∧ q.testBit i = false := by
      intro i
      have := congrArg (fun z => z.testBit i) h
      simpa [Nat.testBit_or] using this
    constructor
    · apply Nat.eq_of_testBit_eq
      intro i
      simp [(hb i).1]
    · apply Nat.eq_of_testBit_eq
      intro i
      simp [(hb i).2]
  · rintro ⟨rfl, rfl⟩
    rfl

theorem tst_or (x a b : Nat) : tst x (a ||| b) = (tst x a || tst x b) := by
  unfold tst
  rw [Nat.and_or_distrib_left]
  by_cases h1 : x &&& a = 0 <;> by_cases h2 : x &&& b = 0 <;> simp [h1, h2, or_eq_zero_iff]

theorem tst_optMsk (x : Nat) (o : Option Nat) : tst x (optMsk o) = tstOpt x o := by
  cases o <;> simp [tst, tstOpt, optMsk]

theorem tstOpt_some (x M : Nat) : tstOpt x (some M) = tst x M := rfl

theorem textOf_hard_fault (t : Target) (m : Mem) :
    textOf (FaultRecordPrint.hard_fault t true) m
      = if FaultInfo.type.fault_regs t m ≠ 0 then
          faultLineSpec "  Fault:             HardFault - " (hardFaultCauses t)
            (FaultInfo.fault_registers t m 1) []
        else [] := by
  unfold textOf FaultRecordPrint.hard_fault faultLineSpec hardFaultCauses
  simp only [FR_PRINT_mem, FR_PRINT_if_mem, tst_or, tst_optMsk, List.any_cons, List.any_nil,
    List.filter_cons, List.filter_nil, tstOpt_some, Bool.or_false, Bool.true_and]
  generalize tst (FaultInfo.fault_registers t m 1) t.SCB_HFSR_VECTTBL_Msk = b1
  generalize tst (FaultInfo.fault_registers t m 1) t.SCB_HFSR_FORCED_Msk = b2
  generalize tst (FaultInfo.fault_registers t m 1) t.SCB_HFSR_DEBUGEVT_Msk = b3
  by_cases hflag : FaultInfo.type.fault_regs t m = 0
  · simp [hflag]
  · simp only [hflag, ne_eq, not_false_eq_true, decide_True, if_true]
    cases b1 <;> cases b2 <;> cases b3 <;> simp

theorem textOf_mem_manage (t : Target) (m : Mem) :
    textOf (FaultRecordPrint.mem_manage t true) m
      = if FaultInfo.type.fault_regs t m ≠ 0 then
          faultLineSpec "  Fault:             MemManage - " (memManageCauses t)
            (FaultInfo.fault_registers t m 0) (faultAddressSpec (FaultInfo.fault_registers t m 0) t.SCB_CFSR_MMARVALID_Msk (FaultInfo.fault_registers t m 3))
        else [] := by
  unfold textOf FaultRecordPrint.mem_manage faultLineSpec memManageCauses faultAddressSpec
  simp only [FR_PRINT_mem, FR_PRINT_if_mem, tst_or, tst_optMsk, List.any_cons, List.any_nil,
    List.filter_cons, List.filter_nil, tstOpt_some, Bool.or_false, Bool.true_and]
  generalize tst (FaultInfo.fault_registers t m 0) t.SCB_CFSR_IACCVIOL_Msk = b0
  generalize tst (FaultInfo.fault_registers t m 0) t.SCB_CFSR_DACCVIOL_Msk = b1
  generalize tst (FaultInfo.fault_registers t m 0) t.SCB_CFSR_MUNSTKERR_Msk = b2
  generalize tst (FaultInfo.fault_registers t m 0) t.SCB_CFSR_MSTKERR_Msk = b3
  generalize tstOpt (FaultInfo.fault_registers t m 0) t.SCB_CFSR_MLSPERR_Msk = b4
  generalize tst (FaultInfo.fault_registers t m 0) t.SCB_CFSR_MMARVALID_Msk = ba
  by_cases hflag : FaultInfo.type.fault_regs t m = 0
  · simp [hflag]
  · simp only [hflag, ne_eq, not_false_eq_true, decide_True, if_true]
    cases b0 <;> cases b1 <;> cases b2 <;> cases b3 <;> cases b4 <;> cases ba <;> simp

theorem textOf_bus_fault (t : Target) (m : Mem) :
    textOf (FaultRecordPrint.bus_fault t true) m
      = if FaultInfo.type.fault_regs t m ≠ 0 then
          faultLineSpec "  Fault:             BusFault - " (busFaultCauses t)
            (FaultInfo.fault_registers t m 0) (faultAddressSpec (FaultInfo.fault_registers t m 0) t.SCB_CFSR_BFARVALID_Msk (FaultInfo.fault_registers t m 4))
        else [] := by
  unfold textOf FaultRecordPrint.bus_fault faultLineSpec busFaultCauses faultAddressSpec
  simp only [FR_PRINT_mem, FR_PRINT_if_mem, tst_or, tst_optMsk, List.any_cons, List.any_nil,
    List.filter_cons, List.filter_nil, tstOpt_some, Bool.or_false, Bool.true_and]
  generalize tst (FaultInfo.fault_registers t m 0) t.SCB_CFSR_IBUSERR_Msk = b0
  generalize tst (FaultInfo.fault_registers t m 0) t.SCB_CFSR_PRECISERR_Msk = b1
  generalize tst (FaultInfo.fault_registers t m 0) t.SCB_CFSR_IMPRECISERR_Msk = b2
  generalize tst (FaultInfo.fault_registers t m 0) t.SCB_CFSR_UNSTKERR_Msk = b3
  generalize tst (FaultInfo.fault_registers t m 0) t.SCB_CFSR_STKERR_Msk = b4
  generalize tstOpt (FaultInfo.fault_registers t m 0) t.SCB_CFSR_LSPERR_Msk = b5
  generalize tst (FaultInfo.fault_registers t m 0) t.SCB_CFSR_BFARVALID_Msk = ba
  by_cases hflag : FaultInfo.type.fault_regs t m = 0
  · simp [hflag]
  · simp only [hflag, ne_eq, not_false_eq_true, decide_True, if_true]
    cases b0 <;> cases b1 <;> cases b2 <;> cases b3 <;> cases b4 <;> cases b5 <;> cases ba <;> simp

theorem textOf_usage_fault (t : Target) (m : Mem) :
    textOf (FaultRecordPrint.usage_fault t true) m
      = if FaultInfo.type.fault_regs t m ≠ 0 then
          faultLineSpec "  Fault:             UsageFault - " (usageFaultCauses t)
            (FaultInfo.fault_registers t m 0) []
        else [] := by
  unfold textOf FaultRecordPrint.usage_fault faultLineSpec usageFaultCauses
  simp only [FR_PRINT_mem, FR_PRINT_if_mem, tst_or, tst_optMsk, List.any_cons, List.any_nil,
    List.filter_cons, List.filter_nil, tstOpt_some, Bool.or_false, Bool.true_and]
  generalize tst (FaultInfo.fault_registers t m 0) t.SCB_CFSR_UNDEFINSTR_Msk = b0
  generalize tst (FaultInfo.fault_registers t m 0) t.SCB_CFSR_INVSTATE_Msk = b1
  generalize tst (FaultInfo.fault_registers t m 0) t.SCB_CFSR_INVPC_Msk = b2
  generalize tst (FaultInfo.fault_registers t m 0) t.SCB_CFSR_NOCP_Msk = b3
  generalize tstOpt (FaultInfo.fault_registers t m 0) t.SCB_CFSR_STKOF_Msk = b4
  generalize tst (FaultInfo.fault_registers t m 0) t.SCB_CFSR_UNALIGNED_Msk = b5
  generalize tst (FaultInfo.fault_registers t m 0) t.SCB_CFSR_DIVBYZERO_Msk = b6
  by_cases hflag : FaultInfo.type.fault_regs t m = 0
  · simp [hflag]
  · simp only [hflag, ne_eq, not_false_eq_true, decide_True, if_true]
    cases b0 <;> cases b1 <;> cases b2 <;> cases b3 <;> cases b4 <;> cases b5 <;> cases b6 <;> simp

theorem textOf_secure_fault (t : Target) (m : Mem) :
    textOf (FaultRecordPrint.secure_fault t true) m
      = if FaultInfo.type.secure t m ≠ 0 then
          faultLineSpec "  Fault:             SecureFault - " (secureFaultCauses)
            (FaultInfo.armv8_m_fault_registers t m 0) (faultAddressSpec (FaultInfo.armv8_m_fault_registers t m 0) SAU_SFSR_SFARVALID_Msk (FaultInfo.armv8_m_fault_registers t m 1))
        else [] := by
  unfold textOf FaultRecordPrint.secure_fault faultLineSpec secureFaultCauses faultAddressSpec
  simp only [FR_PRINT_mem, FR_PRINT_if_mem, tst_or, tst_optMsk, List.any_cons, List.any_nil,
    List.filter_cons, List.filter_nil, tstOpt_some, Bool.or_false, Bool.true_and]
  generalize tst (FaultInfo.armv8_m_fault_registers t m 0) SAU_SFSR_INVEP_Msk = b0
  generalize tst (FaultInfo.armv8_m_fault_registers t m 0) SAU_SFSR_INVIS_Msk = b1
  generalize tst (FaultInfo.armv8_m_fault_registers t m 0) SAU_SFSR_INVER_Msk = b2
  generalize tst (FaultInfo.armv8_m_fault_registers t m 0) SAU_SFSR_AUVIOL_Msk = b3
  generalize tst (FaultInfo.armv8_m_fault_registers t m 0) SAU_SFSR_INVTRAN_Msk = b4
  generalize tst (FaultInfo.armv8_m_fault_registers t m 0) SAU_SFSR_LSPERR_Msk = b5
  generalize tst (FaultInfo.armv8_m_fault_registers t m 0) SAU_SFSR_LSERR_Msk = b6
  generalize tst (FaultInfo.armv8_m_fault_registers t m 0) SAU_SFSR_SFARVALID_Msk = ba
  by_cases hflag : FaultInfo.type.secure t m = 0
  · simp [hflag]
  · simp only [hflag, ne_eq, not_false_eq_true, decide_True, if_true]
    cases b0 <;> cases b1 <;> cases b2 <;> cases b3 <;> cases b4 <;> cases b5 <;> cases b6 <;> cases ba <;> simp

theorem faultLineSpec_ne_nil (header : String) (causes : List (Option Nat × String)) (x : Nat)
    (addr : List String) :
    faultLineSpec header causes x addr ≠ [] ↔ ∃ c ∈ causes, tstOpt x c.1 = true := by
  unfold faultLineSpec
  split
  · rename_i h
    simp only [ne_eq, reduceCtorEq, not_false_eq_true, true_iff]
    simpa using h
  · rename_i h
    simp only [ne_eq, not_true_eq_false, false_iff]
    simpa using h

theorem textOf_faults_spec (t : Target) (m : Mem) :
    textOf (FaultRecordPrint.faults t true) m = faultLinesSpec t m := by
  rw [textOf_faults, textOf_hard_fault, textOf_mem_manage, textOf_bus_fault, textOf_usage_fault,
    textOf_secure_fault]
  unfold faultLinesSpec
  by_cases hf : FR_FAULT_REGS_EXIST t.build = true
  · by_cases hflag : FaultInfo.type.fault_regs t m = 0
    · by_cases hmain : FR_ARCH_ARMV8x_M_MAIN t.build = true
      · by_cases hsec : FaultInfo.type.secure t m = 0 <;> simp [hf, hflag, hmain, hsec]
      · simp [hf, hflag, hmain]
    · by_cases hmain : FR_ARCH_ARMV8x_M_MAIN t.build = true
      · by_cases hsec : FaultInfo.type.secure t m = 0 <;> simp [hf, hflag, hmain, hsec]
      · simp [hf, hflag, hmain]
  · simp [hf]

theorem clash_fault_label (v8 main : Bool) :
    ∀ l ∈ ["  Fault:", ", fault address"],
      ∀ a ∈ headsBlocks (headsExceptionHandler v8) headsState [] (headsPc v8)
          (headsFaultRegisters main) ++ headsBaseRegisters ++ headsAdditional,
        clash l.data a.data = true := by
  cases v8 <;> cases main <;> decide

/-- On a trustworthy record the fault blocks print between the mode line and
the program counter, and no other block prints a text that starts like a fault
line or like a fault address. -/
theorem textOf_around_faults (t : Target) (m : Mem) (h : Trustworthy t m) :
    ∃ pre post, textOf (FaultRecordPrint t) m
        = pre ++ textOf (FaultRecordPrint.faults t true) m ++ post
      ∧ ∀ x ∈ pre ++ post, ∀ l ∈ ["  Fault:", ", fault address"], ¬ StartsWith l x := by
  refine ⟨headerText t m :: (textOf (FaultRecordPrint.exception_handler t true) m
        ++ textOf (FaultRecordPrint.state t true) m
        ++ textOf (FaultRecordPrint.mode t true) m),
    textOf (FaultRecordPrint.pc_msp_psp t true) m
        ++ textOf (FaultRecordPrint.state_context_r0_r3 t true
            (FaultRecordPrint.state_context_valid t ⟨m, []⟩)) m
        ++ textOf (FaultRecordPrint.additional_state_context t true
            (FaultRecordPrint.state_context_valid t ⟨m, []⟩)) m
        ++ textOf (FaultRecordPrint.state_context_r12_xpsr t true
            (FaultRecordPrint.state_context_valid t ⟨m, []⟩)) m
        ++ textOf (FaultRecordPrint.fault_registers t true) m, ?_, ?_⟩
  · rw [textOf_valid_blocks t m h]
    simp only [List.cons_append, List.append_assoc]
  · intro x hx l hl
    have hh : Heads (headsBlocks (headsExceptionHandler (FR_ARCH_ARMV8x_M t.build)) headsState []
        (headsPc (FR_ARCH_ARMV8x_M t.build)) (headsFaultRegisters (FR_ARCH_ARMV8x_M_MAIN t.build))
        ++ headsBaseRegisters ++ headsAdditional) x := by
      simp only [List.mem_cons, List.mem_append] at hx
      unfold headsBlocks
      rcases hx with (rfl | ((hx | hx) | hx)) | ((((hx | hx) | hx) | hx) | hx)
      · exact (heads_header t m).of_subset (by intro a ha; simp [ha])
      · exact (heads_exception_handler t true m x hx).of_subset (by intro a ha; simp [ha])
      · exact (heads_state t true m x hx).of_subset (by intro a ha; simp [ha])
      · exact (heads_mode t true m x hx).of_subset (by intro a ha; simp [ha])
      · exact (heads_pc_msp_psp t true m x hx).of_subset (by intro a ha; simp [ha])
      · exact (heads_state_context_r0_r3 t true _ m x hx).of_subset (by intro a ha; simp [ha])
      · exact (heads_additional_state_context t true _ m x hx).of_subset (by intro a ha; simp [ha])
      · exact (heads_state_context_r12_xpsr t true _ m x hx).of_subset (by intro a ha; simp [ha])
      · exact (heads_fault_registers t true m x hx).of_subset (by intro a ha; simp [ha])
    exact hh.not_startsWith l (clash_fault_label _ _ l hl)

theorem noFlagMem_trustworthy : Trustworthy cortexM4 noFlagMem :=
  stamp_trustworthy cortexM4 _ Fits_cortexM4

/-- C14 as stated fails for a record whose `fault_regs` flag is clear: on
`cortexM4`, a build with fault status registers, the trustworthy record
`noFlagMem` has the BusFault cause bit STKERR set in its CFSR, and
`FaultRecordPrint` prints no fault line. -/
theorem FaultRecordPrint_flag_clear_no_fault_line :
    FR_FAULT_REGS_EXIST cortexM4.build = true
    ∧ Trustworthy cortexM4 noFlagMem
    ∧ tst (FaultInfo.fault_registers cortexM4 noFlagMem 0) cortexM4.SCB_CFSR_STKERR_Msk = true
    ∧ ∀ x ∈ textOf (FaultRecordPrint cortexM4) noFlagMem, ¬ StartsWith "  Fault:" x := by
  refine ⟨rfl, noFlagMem_trustworthy, ?_, ?_⟩
  · rw [noFlagMem_cfsr]
    decide
  · intro x hx
    obtain ⟨pre, post, hout, hno⟩ := textOf_around_faults cortexM4 noFlagMem noFlagMem_trustworthy
    have hfl : textOf (FaultRecordPrint.faults cortexM4 true) noFlagMem = [] := by
      rw [textOf_faults_spec]
      have hmain : FR_ARCH_ARMV8x_M_MAIN cortexM4.build = false := rfl
      simp [faultLinesSpec, noFlagMem_flag, hmain]
    rw [hout, hfl, List.append_nil] at hx
    exact hno x hx _ (by simp)

/-- C14, amended: for every trustworthy record, the fault lines are printed
between the mode line and the program counter and nowhere else, for the
categories of the build whose flag the record has (`fault_regs` for HardFault,
MemManage, BusFault and UsageFault, `secure` for SecureFault); the line of a
category is printed if and only if at least one cause bit of the category is
set in the stored status register, and it then holds the header of the
category, the message of every set cause bit and of no clear one, the fault
address if any, and the end of line. -/
theorem FaultRecordPrint_fault_lines (t : Target) (m : Mem) (h : Trustworthy t m) :
    (∃ pre post, textOf (FaultRecordPrint t) m = pre ++ faultLinesSpec t m ++ post
      ∧ ∀ x ∈ pre ++ post, ¬ StartsWith "  Fault:" x)
    ∧ (∀ header causes x addr,
        (faultLineSpec header causes x addr ≠ [] ↔ ∃ c ∈ causes, tstOpt x c.1 = true)
        ∧ (faultLineSpec header causes x addr ≠ [] →
            faultLineSpec header causes x addr
              = header :: ((causes.filter (fun c => tstOpt x c.1)).map Prod.snd
                  ++ addr ++ ["\n"]))) := by
  refine ⟨?_, ?_⟩
  · obtain ⟨pre, post, hout, hno⟩ := textOf_around_faults t m h
    rw [textOf_faults_spec] at hout
    exact ⟨pre, post, hout, fun x hx => hno x hx _ (by simp)⟩
  · intro header causes x addr
    refine ⟨faultLineSpec_ne_nil header causes x addr, ?_⟩
    intro hne
    unfold faultLineSpec at hne ⊢
    split
    · rfl
    · rename_i hc
      rw [if_neg hc] at hne
      exact absurd rfl hne

theorem FaultRecordPrint_fault_lines_witness :
    Trustworthy cortexM4 (FaultRecord cortexM4 stkerrCpu).mem
    ∧ ∃ pre post, textOf (FaultRecordPrint cortexM4) (FaultRecord cortexM4 stkerrCpu).mem
        = pre ++ faultLinesSpec cortexM4 (FaultRecord cortexM4 stkerrCpu).mem ++ post
      ∧ ∀ x ∈ pre ++ post, ¬ StartsWith "  Fault:" x :=
  ⟨FaultRecord_trustworthy cortexM4 stkerrCpu Fits_cortexM4,
    (FaultRecordPrint_fault_lines cortexM4 (FaultRecord cortexM4 stkerrCpu).mem
      (FaultRecord_trustworthy cortexM4 stkerrCpu Fits_cortexM4)).1⟩

/-! ## The fault address -/

theorem no_address_in_messages (causes : List (Option Nat × String)) (x : Nat)
    (hc : ∀ s ∈ causes.map Prod.snd, clash ", fault address".data s.data = true) :
    ∀ y ∈ (causes.filter (fun c => tstOpt x c.1)).map Prod.snd,
      ¬ StartsWith ", fault address" y := by
  intro y hy
  obtain ⟨c, hcm, rfl⟩ := List.mem_map.mp hy
  have hmem : c.2 ∈ causes.map Prod.snd := List.mem_map.mpr ⟨c, (List.mem_filter.mp hcm).1, rfl⟩
  have := clash_not_prefix _ _ (hc _ hmem) []
  rwa [List.append_nil] at this

/-- A printed fault line: the header, messages none of which is an address,
the address text, the end of line. -/
theorem faultLineSpec_shape (header : String) (causes : List (Option Nat × String)) (x : Nat)
    (addr : List String)
    (hc : ∀ s ∈ causes.map Prod.snd, clash ", fault address".data s.data = true)
    (hne : faultLineSpec header causes x addr ≠ []) :
    ∃ msgs, faultLineSpec header causes x addr = header :: (msgs ++ addr ++ ["\n"])
      ∧ ∀ y ∈ msgs, ¬ StartsWith ", fault address" y := by
  refine ⟨(causes.filter (fun c => tstOpt x c.1)).map Prod.snd, ?_,
    no_address_in_messages causes x hc⟩
  unfold faultLineSpec at hne ⊢
  split
  · rfl
  · rename_i h
    rw [if_neg h] at hne
    exact absurd rfl hne

theorem fmt_08X_length (v : Nat) : (fmt_08X v).length = 8 := rfl

/-- C15: for every trustworthy record, a printed MemManage, BusFault or
SecureFault line ends with ", fault address 0x" and 8 hexadecimal digits if
and only if the address valid bit of its own category (MMARVALID, BFARVALID,
SFARVALID) is set, the address being the stored MMFAR, BFAR or SFAR; no other
text of these lines, no text of a HardFault or UsageFault line and no text
outside the fault lines is a fault address. -/
theorem FaultRecordPrint_fault_address (t : Target) (m : Mem) (h : Trustworthy t m) :
    (textOf (FaultRecordPrint.mem_manage t true) m ≠ [] →
      ∃ msgs, textOf (FaultRecordPrint.mem_manage t true) m
          = "  Fault:             MemManage - " :: (msgs
            ++ (if FaultInfo.fault_registers t m 0 &&& t.SCB_CFSR_MMARVALID_Msk ≠ 0 then
                [", fault address 0x" ++ fmt_08X (FaultInfo.fault_registers t m 3)] else [])
            ++ ["\n"])
        ∧ ∀ y ∈ msgs, ¬ StartsWith ", fault address" y)
    ∧ (textOf (FaultRecordPrint.bus_fault t true) m ≠ [] →
      ∃ msgs, textOf (FaultRecordPrint.bus_fault t true) m
          = "  Fault:             BusFault - " :: (msgs
            ++ (if FaultInfo.fault_registers t m 0 &&& t.SCB_CFSR_BFARVALID_Msk ≠ 0 then
                [", fault address 0x" ++ fmt_08X (FaultInfo.fault_registers t m 4)] else [])
            ++ ["\n"])
        ∧ ∀ y ∈ msgs, ¬ StartsWith ", fault address" y)
    ∧ (textOf (FaultRecordPrint.secure_fault t true) m ≠ [] →
      ∃ msgs, textOf (FaultRecordPrint.secure_fault t true) m
          = "  Fault:             SecureFault - " :: (msgs
            ++ (if FaultInfo.armv8_m_fault_registers t m 0 &&& SAU_SFSR_SFARVALID_Msk ≠ 0 then
                [", fault address 0x" ++ fmt_08X (FaultInfo.armv8_m_fault_registers t m 1)]
                else [])
            ++ ["\n"])
        ∧ ∀ y ∈ msgs, ¬ StartsWith ", fault address" y)
    ∧ (∀ y ∈ textOf (FaultRecordPrint.hard_fault t true) m
          ++ textOf (FaultRecordPrint.usage_fault t true) m, ¬ StartsWith ", fault address" y)
    ∧ (∃ pre post, textOf (FaultRecordPrint t) m
          = pre ++ textOf (FaultRecordPrint.faults t true) m ++ post
        ∧ ∀ y ∈ pre ++ post, ¬ StartsWith ", fault address" y)
    ∧ textOf (FaultRecordPrint.faults t true) m
        = (if FR_FAULT_REGS_EXIST t.build then
            textOf (FaultRecordPrint.hard_fault t true) m
              ++ textOf (FaultRecordPrint.mem_manage t true) m
              ++ textOf (FaultRecordPrint.bus_fault t true) m
              ++ textOf (FaultRecordPrint.usage_fault t true) m
              ++ (if FR_ARCH_ARMV8x_M_MAIN t.build then
                  textOf (FaultRecordPrint.secure_fault t true) m else [])
          else [])
    ∧ (∀ v, (fmt_08X v).length = 8) := by
  have hadr : ∀ x valid addr, faultAddressSpec x valid addr
      = if x &&& valid ≠ 0 then [", fault address 0x" ++ fmt_08X addr] else [] := by
    intro x valid addr
    simp [faultAddressSpec, tst]
  refine ⟨?_, ?_, ?_, ?_, ?_, textOf_faults t true m, fmt_08X_length⟩
  · intro hne
    rw [textOf_mem_manage] at hne ⊢
    split at hne
    · rename_i hflag
      rw [if_pos hflag, ← hadr]
      exact faultLineSpec_shape _ _ _ _ (by simp only [memManageCauses, List.map]; decide) hne
    · exact absurd rfl hne
  · intro hne
    rw [textOf_bus_fault] at hne ⊢
    split at hne
    · rename_i hflag
      rw [if_pos hflag, ← hadr]
      exact faultLineSpec_shape _ _ _ _ (by simp only [busFaultCauses, List.map]; decide) hne
    · exact absurd rfl hne
  · intro hne
    rw [textOf_secure_fault] at hne ⊢
    split at hne
    · rename_i hflag
      rw [if_pos hflag, ← hadr]
      exact faultLineSpec_shape _ _ _ _ (by simp only [secureFaultCauses, List.map]; decide) hne
    · exact absurd rfl hne
  · intro y hy
    have hh : Heads headsFaultsBase y := by
      rcases List.mem_append.mp hy with hy | hy
      · exact heads_hard_fault t true m y hy
      · exact heads_usage_fault t true m y hy
    intro hp
    rcases List.mem_append.mp hy with hy | hy
    · rw [textOf_hard_fault] at hy
      split at hy
      · by_cases hne : faultLineSpec "  Fault:             HardFault - " (hardFaultCauses t)
            (FaultInfo.fault_registers t m 1) [] = []
        · rw [hne] at hy
          simp at hy
        · obtain ⟨msgs, he, hm⟩ := faultLineSpec_shape _ _ _ _
            (by simp only [hardFaultCauses, List.map]; decide) hne
          rw [he] at hy
          simp only [List.append_nil, List.mem_cons, List.mem_append, List.mem_singleton,
            List.not_mem_nil, or_false] at hy
          rcases hy with rfl | hy | rfl
          · exact absurd hp (by unfold StartsWith; decide)
          · exact hm y hy hp
          · exact absurd hp (by unfold StartsWith; decide)
      · simp at hy
    · rw [textOf_usage_fault] at hy
      split at hy
      · by_cases hne : faultLineSpec "  Fault:             UsageFault - " (usageFaultCauses t)
            (FaultInfo.fault_registers t m 0) [] = []
        · rw [hne] at hy
          simp at hy
        · obtain ⟨msgs, he, hm⟩ := faultLineSpec_shape _ _ _ _
            (by simp only [usageFaultCauses, List.map]; decide) hne
          rw [he] at hy
          simp only [List.append_nil, List.mem_cons, List.mem_append, List.mem_singleton,
            List.not_mem_nil, or_false] at hy
          rcases hy with rfl | hy | rfl
          · exact absurd hp (by unfold StartsWith; decide)
          · exact hm y hy hp
          · exact absurd hp (by unfold StartsWith; decide)
      · simp at hy
  · obtain ⟨pre, post, hout, hno⟩ := textOf_around_faults t m h
    exact ⟨pre, post, hout, fun x hx => hno x hx _ (by simp)⟩

theorem FaultRecordPrint_fault_address_witness :
    Trustworthy cortexM4 (FaultRecord cortexM4 stkerrCpu).mem
    ∧ ∃ pre post, textOf (FaultRecordPrint cortexM4) (FaultRecord cortexM4 stkerrCpu).mem
        = pre ++ textOf (FaultRecordPrint.faults cortexM4 true)
            (FaultRecord cortexM4 stkerrCpu).mem ++ post
      ∧ ∀ y ∈ pre ++ post, ¬ StartsWith ", fault address" y :=
  ⟨FaultRecord_trustworthy cortexM4 stkerrCpu Fits_cortexM4,
    (FaultRecordPrint_fault_address cortexM4 (FaultRecord cortexM4 stkerrCpu).mem
      (FaultRecord_trustworthy cortexM4 stkerrCpu Fits_cortexM4)).2.2.2.2.1⟩

/-! ## The loads of `FaultRecord` -/

theorem newEvents_append {s s' s'' : Cpu} (h1 : s'.trace = s.trace ++ newEvents s s')
    (h2 : s''.trace = s'.trace ++ newEvents s' s'') :
    newEvents s s'' = newEvents s s' ++ newEvents s' s'' := by
  apply newEvents_of_append
  rw [h2, h1, List.append_assoc]

theorem Reads.of_trace {P : Nat → Nat → Prop} {s s' : Cpu} (l : List Access)
    (h1 : s'.trace = s.trace ++ l) (h2 : ∀ e ∈ l, e.loadsIn P) : Reads P s s' := by
  have e := newEvents_of_append s s' l h1
  exact ⟨by rw [e]; exact h1, by rw [e]; exact h2⟩

theorem Reads.of_quiet (P : Nat → Nat → Prop) {s s' : Cpu} (h1 : s'.trace = s.trace) :
    Reads P s s' :=
  Reads.of_trace [] (by simp [h1]) (by simp)

theorem Reads.seq {P : Nat → Nat → Prop} {s s' s'' : Cpu} (h : Reads P s s')
    (h' : Reads P s' s'') : Reads P s s'' := by
  have e := newEvents_append h.1 h'.1
  refine ⟨?_, ?_⟩
  · rw [e, ← List.append_assoc, ← h.1]; exact h'.1
  · rw [e]
    intro x hx
    rcases List.mem_append.mp hx with hx | hx
    · exact h.2 x hx
    · exact h'.2 x hx

theorem Reads.weaken {P Q : Nat → Nat → Prop} {s s' : Cpu} (h : Reads P s s')
    (hpq : ∀ a sz, P a sz → Q a sz) : Reads Q s s' := by
  refine ⟨h.1, fun e he => ?_⟩
  have := h.2 e he
  cases e with
  | load a sz => exact hpq a sz this
  | store a sz v => trivial

/-! ### The special registers are left alone -/

theorem CalcCRC32.skip_xor_sys (s : Cpu) : SameSys s (CalcCRC32.skip_xor s) := by
  unfold CalcCRC32.skip_xor
  simp only []
  split <;> simp [SameSys, lsls, eors, Cpu.set, Cpu.setNZ]

theorem CalcCRC32.loop_sys (s : Cpu) : SameSys s (CalcCRC32.loop s) := by
  have h1 : SameSys s (eors .r0 .r0 .r4 (lsls .r4 .r4 24 (ldrb .r4 .r1 s))) := by
    simp [SameSys, lsls, eors, ldrb, Cpu.set, Cpu.setNZ]
  have h2 : ∀ u : Cpu, SameSys u (subs .r2 .r2 1 (adds .r1 .r1 1 u)) := by
    intro u
    simp [SameSys, subs, adds, Cpu.set, Cpu.setNZ]
  unfold CalcCRC32.loop
  simp only []
  exact ((((((((h1.trans_sys (CalcCRC32.skip_xor_sys _)).trans_sys
    (CalcCRC32.skip_xor_sys _)).trans_sys (CalcCRC32.skip_xor_sys _)).trans_sys
    (CalcCRC32.skip_xor_sys _)).trans_sys (CalcCRC32.skip_xor_sys _)).trans_sys
    (CalcCRC32.skip_xor_sys _)).trans_sys (CalcCRC32.skip_xor_sys _)).trans_sys
    (CalcCRC32.skip_xor_sys _)).trans_sys (h2 _)

theorem CalcCRC32.check_sys (n : Nat) (s : Cpu) (hn : s.get .r2 = n) :
    SameSys s (CalcCRC32.check s) := by
  have hc : SameSys s (cmp .r2 0 s) := by simp [SameSys, cmp, Cpu.setNZ]
  induction n generalizing s with
  | zero =>
    obtain ⟨hz, _⟩ := cmp_r2_zero s
    rw [CalcCRC32.check]
    simp only [hz, hn, decide_True, dite_true]
    exact hc
  | succ n ih =>
    obtain ⟨hz, hg, _⟩ := cmp_r2_zero s
    obtain ⟨_, _, l2, _⟩ := CalcCRC32.loop_spec (cmp .r2 0 s)
    have hlt := get_lt s .r2
    have hn' : (CalcCRC32.loop (cmp .r2 0 s)).get .r2 = n := by
      rw [l2, hg, hn]; omega
    rw [CalcCRC32.check]
    have hzf : (cmp .r2 0 s).z = false := by rw [hz, hn]; simp
    simp only [hzf, Bool.false_eq_true, dite_false]
    refine (hc.trans_sys (CalcCRC32.loop_sys _)).trans_sys (ih _ hn' ?_)
    simp [SameSys, cmp, Cpu.setNZ]

theorem CalcCRC32_sys (s : Cpu) : SameSys s (CalcCRC32 s) := by
  have h1 : SameSys s (mov .r12 .r4 s) := by simp [SameSys, mov, Cpu.set]
  have h2 : ∀ u : Cpu, SameSys u (mov .r4 .r12 u) := by
    intro u; simp [SameSys, mov, Cpu.set]
  unfold CalcCRC32
  simp only []
  exact (h1.trans_sys (CalcCRC32.check_sys _ _ rfl)).trans_sys (h2 _)

theorem FaultRecord.copy2_sys (s : Cpu) : SameSys s (FaultRecord.copy2 s) := by
  simp [SameSys, FaultRecord.copy2, stm2, ldm2, Cpu.set]

theorem FaultRecord.state_context_sys (t : Target) (s : Cpu) :
    SameSys s (FaultRecord.state_context t s) := by
  have h1 : ∀ (u : Cpu) (k : Nat), SameSys u (lsrs .r0 .r4 k u) := by
    intro u k; simp [SameSys, lsrs, Cpu.set, Cpu.setNZ]
  have h2 : ∀ (u : Cpu) (c : Nat), SameSys u (ldr_const .r2 c u) := by
    intro u c; simp [SameSys, ldr_const, Cpu.set]
  have h3 : ∀ (u : Cpu), SameSys u (lsrs .r0 .r0 6 (mov .r0 .lr u)) := by
    intro u; simp [SameSys, lsrs, mov, Cpu.set, Cpu.setNZ]
  have hb : ∀ u : Cpu, SameSys u (FaultRecord.copy2 (FaultRecord.copy2 (FaultRecord.copy2
      (FaultRecord.copy2 (ldr_const .r2 (t.FaultInfo_addr + ofs_state_context) u))))) :=
    fun u => ((((h2 u _).trans_sys (FaultRecord.copy2_sys _)).trans_sys
      (FaultRecord.copy2_sys _)).trans_sys (FaultRecord.copy2_sys _)).trans_sys
      (FaultRecord.copy2_sys _)
  unfold FaultRecord.state_context
  simp only []
  split
  · exact h1 _ _
  · refine (h1 s 2).trans_sys ?_
    split
    · split
      · exact (h3 _).trans_sys (hb _)
      · exact ((((((h3 _).trans_sys (h2 _ _)).trans_sys (FaultRecord.copy2_sys _)).trans_sys
          (FaultRecord.copy2_sys _)).trans_sys (FaultRecord.copy2_sys _)).trans_sys
          (FaultRecord.copy2_sys _)).trans_sys ((FaultRecord.copy2_sys _).trans_sys (hb _))
    · exact hb _

theorem FaultRecord.tail_sys (t : Target) (s : Cpu) :
    SameSys s (FaultRecord.common_registers t s)
    ∧ SameSys s (FaultRecord.armv8_m_registers t s)
    ∧ SameSys s (FaultRecord.fault_registers t s)
    ∧ SameSys s (FaultRecord.magic_number t s)
    ∧ SameSys s (FaultRecord.type_information t s) := by
  refine ⟨?_, ?_, ?_, ?_, ?_⟩
  · unfold FaultRecord.common_registers
    simp only []
    repeat' split
    all_goals simp [SameSys, ldr_const, mrs, mov, lsrs, stm2, Cpu.set, Cpu.setNZ]
  · unfold FaultRecord.armv8_m_registers
    simp only []
    repeat' split
    all_goals simp [SameSys, ldr_const, mrs, mov, lsrs, stm2, Cpu.set, Cpu.setNZ]
  · unfold FaultRecord.fault_registers
    simp only []
    repeat' split
    all_goals simp [SameSys, ldr_const, ldr, mrs, mov, lsrs, stm2, Cpu.set, Cpu.setNZ]
  · simp [SameSys, FaultRecord.magic_number, ldr_const, str, Cpu.set]
  · simp [SameSys, FaultRecord.type_information, ldr_const, str, Cpu.set]

theorem FaultRecord.crc32_sys (t : Target) (s : Cpu) : SameSys s (FaultRecord.crc32 t s) := by
  have h1 : SameSys s (bl t.ret_CalcCRC32 (ldr_const .r3 FR_CRC32_POLYNOM
      (ldr_const .r2 (FR_CRC32_DATA_LEN t.build) (ldr_const .r1 (t.FaultInfo_addr + ofs_type)
      (ldr_const .r0 FR_CRC32_INIT_VAL s))))) := by
    simp [SameSys, bl, ldr_const, Cpu.set]
  have h2 : ∀ (u : Cpu) (c : Nat), SameSys u (str .r0 .r2 (ldr_const .r2 c u)) := by
    intro u c; simp [SameSys, str, ldr_const, Cpu.set]
  unfold FaultRecord.crc32
  simp only []
  exact (h1.trans_sys (CalcCRC32_sys _)).trans_sys (h2 _ _)

/-! ### Up to section "State Context" -/

/-- At label `r3_points_to_stack:`, on every build: `r3` holds the selected
stack pointer, `r4` the alias flag, and nothing was loaded or stored. -/
theorem FaultRecord.r3_points_to_stack_spec (t : Target) (s : Cpu) :
    (FaultRecord.r3_points_to_stack t s).get .r3 = selectedStackPointer t s
    ∧ (FaultRecord.r3_points_to_stack t s).get .r4 = bit (usesNonSecureAlias t s)
    ∧ (FaultRecord.r3_points_to_stack t s).mem = s.mem
    ∧ (FaultRecord.r3_points_to_stack t s).trace = s.trace
    ∧ (FaultRecord.r3_points_to_stack t s).lr = s.lr
    ∧ SameSys s (FaultRecord.r3_points_to_stack t s) := by
  unfold FaultRecord.r3_points_to_stack selectedStackPointer usesNonSecureAlias
  generalize FR_SECURE t.build = sec
  by_cases h : s.lr % 4294967296 / 4 % 2 = 1
  · by_cases h6 : s.lr % 4294967296 / 64 % 2 = 1
    · cases sec <;>
        simp [mov, movs, lsrs, mrs, Cpu.get, Cpu.set, Cpu.setNZ, Cpu.sys, SameSys, h, h6, bit]
    · have h60 : s.lr % 4294967296 / 64 % 2 = 0 := by omega
      cases sec <;>
        simp [mov, movs, lsrs, mrs, Cpu.get, Cpu.set, Cpu.setNZ, Cpu.sys, SameSys, h, h60, bit]
  · have h0 : s.lr % 4294967296 / 4 % 2 = 0 := by omega
    by_cases h6 : s.lr % 4294967296 / 64 % 2 = 1
    · cases sec <;>
        simp [mov, movs, lsrs, mrs, Cpu.get, Cpu.set, Cpu.setNZ, Cpu.sys, SameSys, h0, h6, bit]
    · have h60 : s.lr % 4294967296 / 64 % 2 = 0 := by omega
      cases sec <;>
        simp [mov, movs, lsrs, mrs, Cpu.get, Cpu.set, Cpu.setNZ, Cpu.sys, SameSys, h0, h60, bit]

/-- The stack check on every build, entered with the alias flag `b` in `r4`:
on a build with fault registers it loads one word, at `[cfsr_ns_addr]` if the
flag is set on a Secure build and at `[cfsr_addr]` otherwise, and adds 2 to `r4`
exactly when that word has a bit of the stacking error mask. -/
theorem FaultRecord.stack_check_spec (t : Target) (s : Cpu) (b : Bool)
    (h4 : s.get .r4 = bit b) (hb : b = true → FR_SECURE t.build = true) :
    (FaultRecord.stack_check t s).get .r3 = s.get .r3
    ∧ (FaultRecord.stack_check t s).get .r4
        = bit b + 2 * bit (FR_FAULT_REGS_EXIST t.build
            && (read32 s.mem (if b then cfsr_ns_addr t else cfsr_addr t)
                  &&& (SCB_CFSR_Stack_Err_Msk t % 2^32) != 0))
    ∧ (FaultRecord.stack_check t s).mem = s.mem
    ∧ (FaultRecord.stack_check t s).trace
        = s.trace ++ (if FR_FAULT_REGS_EXIST t.build
            then [Access.load ((if b then cfsr_ns_addr t else cfsr_addr t) % 2^32) 4] else [])
    ∧ (FaultRecord.stack_check t s).lr = s.lr
    ∧ SameSys s (FaultRecord.stack_check t s) := by
  have key : ∀ (u : Cpu) (a : Nat), u.get .r4 = bit b →
      let v := ands .r0 .r1 (ldr .r0 .r2 0 u)
      u.get .r2 = a % 2^32 → u.get .r1 = SCB_CFSR_Stack_Err_Msk t % 2^32 →
      let w := if v.z = true then v else adds .r4 .r4 2 v
      w.get .r3 = u.get .r3
      ∧ w.get .r4 = bit b + 2 * bit (read32 u.mem a &&& (SCB_CFSR_Stack_Err_Msk t % 2^32) != 0)
      ∧ w.mem = u.mem ∧ w.trace = u.trace ++ [Access.load (a % 2^32) 4] ∧ w.lr = u.lr
      ∧ SameSys u w := by
    intro u a h4 v h2 h1 w
    have hl := read32_lt u.mem a
    have hand : read32 u.mem a &&& (SCB_CFSR_Stack_Err_Msk t % 4294967296)
        < 4294967296 := lt_of_le_of_lt Nat.and_le_left hl
    simp only [Cpu.get, Nat.reducePow] at h1 h2 h4
    have hr : read32 u.mem u.r2 = read32 u.mem a := by
      rw [← read32_mod u.mem u.r2, h2, read32_mod]
    have hv : v.z = decide (read32 u.mem a &&& (SCB_CFSR_Stack_Err_Msk t % 4294967296) = 0) := by
      simp [v, ands, ldr, Cpu.get, Cpu.set, Cpu.setNZ, h1, hr, read32_mod,
        Nat.mod_eq_of_lt hl, Nat.mod_eq_of_lt hand]
    have hbit : bit b < 2 := by cases b <;> simp [bit]
    by_cases h : read32 u.mem a &&& (SCB_CFSR_Stack_Err_Msk t % 4294967296) = 0
    · have hz : v.z = true := by rw [hv]; simpa using h
      simp only [w, hz, if_true]
      simp [v, ands, ldr, Cpu.get, Cpu.set, Cpu.setNZ, SameSys, h, h2, h4, bit]
    · have hz : v.z = false := by rw [hv]; simpa using h
      simp only [w, hz, Bool.false_eq_true, if_false]
      simp [v, ands, ldr, adds, addWithCarry, Cpu.get, Cpu.set, Cpu.setNZ, SameSys, h, h2, h4,
        bit]
      cases b <;> simp
  unfold FaultRecord.stack_check
  cases hf : FR_FAULT_REGS_EXIST t.build
  · simpa [SameSys, bit] using h4
  · simp only [if_true, Bool.true_and]
    cases hsec : FR_SECURE t.build
    · have hbf : b = false := by
        cases b
        · rfl
        · rw [hb rfl] at hsec; cases hsec
      subst hbf
      simp only [Bool.false_eq_true, if_false]
      have := key (ldr_const .r2 (cfsr_addr t) (ldr_const .r1 (SCB_CFSR_Stack_Err_Msk t) s))
        (cfsr_addr t) (by simpa [ldr_const, Cpu.get, Cpu.set] using h4)
        (by simp [ldr_const, Cpu.get, Cpu.set]) (by simp [ldr_const, Cpu.get, Cpu.set])
      simpa [ldr_const, Cpu.get, Cpu.set, SameSys] using this
    · simp only [if_true]
      simp only [Cpu.get, Nat.reducePow] at h4
      have hc : (lsrs .r0 .r4 1 (ldr_const .r1 (SCB_CFSR_Stack_Err_Msk t) s)).c = b := by
        cases b <;> simp [lsrs, ldr_const, Cpu.get, Cpu.set, Cpu.setNZ, h4, bit]
      cases b
      · simp only [hc, if_true, Bool.false_eq_true, if_false]
        have := key (ldr_const .r2 (cfsr_addr t) (lsrs .r0 .r4 1
          (ldr_const .r1 (SCB_CFSR_Stack_Err_Msk t) s)))
          (cfsr_addr t) (by simpa [ldr_const, lsrs, Cpu.get, Cpu.set, Cpu.setNZ] using h4)
          (by simp [ldr_const, lsrs, Cpu.get, Cpu.set, Cpu.setNZ])
          (by simp [ldr_const, lsrs, Cpu.get, Cpu.set, Cpu.setNZ])
        simpa [ldr_const, lsrs, Cpu.get, Cpu.set, Cpu.setNZ, SameSys] using this
      · simp only [hc, if_true, Bool.true_eq_false, if_false]
        have := key (ldr_const .r2 (cfsr_ns_addr t) (lsrs .r0 .r4 1
          (ldr_const .r1 (SCB_CFSR_Stack_Err_Msk t) s)))
          (cfsr_ns_addr t) (by simpa [ldr_const, lsrs, Cpu.get, Cpu.set, Cpu.setNZ] using h4)
          (by simp [ldr_const, lsrs, Cpu.get, Cpu.set, Cpu.setNZ])
          (by simp [ldr_const, lsrs, Cpu.get, Cpu.set, Cpu.setNZ])
        simpa [ldr_const, lsrs, Cpu.get, Cpu.set, Cpu.setNZ, SameSys] using this

theorem Reads.stores_only (P : Nat → Nat → Prop) (t : Target) (s : Cpu) :
    Reads P s (FaultRecord.type_information t s)
    ∧ Reads P s (FaultRecord.common_registers t s)
    ∧ Reads P s (FaultRecord.armv8_m_registers t s)
    ∧ Reads P s (FaultRecord.magic_number t s) := by
  refine ⟨?_, ?_, ?_, ?_⟩
  · unfold Reads newEvents FaultRecord.type_information
    simp [ldr_const, str, Cpu.get, Cpu.set, Access.loadsIn]
  · unfold Reads newEvents FaultRecord.common_registers
    simp only []
    repeat' split
    all_goals
      simp [ldr_const, stm2, mrs, mov, lsrs, Cpu.get, Cpu.set, Cpu.setNZ, Access.loadsIn]
  · unfold Reads newEvents FaultRecord.armv8_m_registers
    simp only []
    repeat' split
    all_goals
      simp [ldr_const, stm2, mrs, mov, lsrs, Cpu.get, Cpu.set, Cpu.setNZ, Access.loadsIn]
  · unfold Reads newEvents FaultRecord.magic_number
    simp [ldr_const, str, Cpu.get, Cpu.set, Access.loadsIn]

theorem Reads.clear_section (P : Nat → Nat → Prop) (t : Target) (s : Cpu) :
    Reads P s (FaultRecord.clear t s) := by
  apply Reads.of_trace _ (FaultRecord.clear_spec t s).1
  intro e he
  obtain ⟨i, _, rfl⟩ := List.mem_map.mp he
  trivial

/-- The state at the entry of section "State Context": `r3` holds the selected
stack pointer, bit 0 of `r4` the alias flag and bit 1 the outcome of the stack
check; the only load made so far is the load of the stack check. -/
theorem FaultRecord.upto_state_context_spec (t : Target) (s : Cpu) :
    (FaultRecord.upto_state_context t s).get .r3 = selectedStackPointer t s
    ∧ (FaultRecord.upto_state_context t s).get .r4
        = bit (usesNonSecureAlias t s) + 2 * bit (stackTestFailed t s)
    ∧ (FaultRecord.upto_state_context t s).get .lr = s.get .lr
    ∧ SameSys s (FaultRecord.upto_state_context t s)
    ∧ Reads (stackTestLoad t s) s (FaultRecord.upto_state_context t s) := by
  obtain ⟨_, _, _, _, _, clr⟩ := FaultRecord.clear_spec t s
  have csys := FaultRecord.clear_sys t s
  have hlr : (FaultRecord.clear t s).get .lr = s.get .lr := by simp [Cpu.get, clr]
  have hal : usesNonSecureAlias t (FaultRecord.clear t s) = usesNonSecureAlias t s := by
    unfold usesNonSecureAlias; rw [hlr]
  have hsp : selectedStackPointer t (FaultRecord.clear t s) = selectedStackPointer t s := by
    obtain ⟨_, b2, b3, b4, b5, _⟩ := csys
    unfold selectedStackPointer
    rw [hal, hlr]
    simp only [Cpu.sys, b2, b3, b4, b5]
  obtain ⟨p3, p4, pmem, ptr, plr, psys⟩ :=
    FaultRecord.r3_points_to_stack_spec t (FaultRecord.clear t s)
  rw [hal] at p4
  rw [hsp] at p3
  have hsec : usesNonSecureAlias t s = true → FR_SECURE t.build = true := by
    unfold usesNonSecureAlias
    intro h
    simp only [Bool.and_eq_true] at h
    exact h.1
  obtain ⟨q3, q4, qmem, qtr, qlr, qsys⟩ := FaultRecord.stack_check_spec t
    (FaultRecord.r3_points_to_stack t (FaultRecord.clear t s)) (usesNonSecureAlias t s) p4 hsec
  obtain ⟨r3, r4⟩ := FaultRecord.type_information_regs t (FaultRecord.stack_check t
    (FaultRecord.r3_points_to_stack t (FaultRecord.clear t s)))
  unfold FaultRecord.upto_state_context
  refine ⟨by rw [r3, q3, p3], ?_, ?_, ?_, ?_⟩
  · rw [r4, q4, pmem]
    rfl
  · have e : ∀ u : Cpu, (FaultRecord.type_information t u).lr = u.lr := by
      intro u; simp [FaultRecord.type_information, ldr_const, str, Cpu.set]
    simp only [Cpu.get, e, qlr, plr, clr]
  · exact ((csys.trans_sys psys).trans_sys qsys).trans_sys (FaultRecord.tail_sys t _).2.2.2.2
  · refine Reads.seq (Reads.seq (Reads.seq (Reads.clear_section _ t s)
      (Reads.of_quiet _ ptr)) (Reads.of_trace _ qtr ?_)) (Reads.stores_only _ t _).1
    intro e he
    cases hf : FR_FAULT_REGS_EXIST t.build
    · simp [hf] at he
    · simp only [hf, if_true, List.mem_singleton] at he
      subst he
      exact ⟨hf, rfl, rfl⟩

/-- With bit 1 of `r4` set, section "State Context" makes no access at all. -/
theorem FaultRecord.state_context_skipped (t : Target) (s : Cpu) (h : s.get .r4 / 2 % 2 = 1) :
    newEvents s (FaultRecord.state_context t s) = [] := by
  apply newEvents_of_append
  simp only [Cpu.get, Nat.reducePow] at h
  unfold FaultRecord.state_context
  simp [lsrs, Cpu.get, Cpu.set, Cpu.setNZ, h]

/-! ### Section "State Context" -/

theorem FaultRecord.copy2_reads (k : Nat) (s : Cpu) (p : Nat) (h3 : s.get .r3 = p % 2^32) :
    Reads (fun a sz => sz = 4 ∧ ∃ j, j < 2 * k ∧ a = (p + 4 * j) % 2^32) s
      (FaultRecord.copy2^[k] s)
    ∧ (FaultRecord.copy2^[k] s).get .r3 = (p + 8 * k) % 2^32 := by
  induction k generalizing s p with
  | zero => exact ⟨Reads.of_quiet _ rfl, h3⟩
  | succ k ih =>
    obtain ⟨ctr, _, _, c3, _⟩ := FaultRecord.copy2_spec s
    obtain ⟨i1, i2⟩ := ih (FaultRecord.copy2 s) (p + 8) (by rw [c3, h3]; omega)
    rw [Function.iterate_succ_apply]
    refine ⟨Reads.seq (Reads.of_trace _ ctr ?_) (i1.weaken ?_), ?_⟩
    · intro e he
      simp only [List.mem_cons, List.mem_singleton, List.not_mem_nil, or_false] at he
      rcases he with rfl | rfl | rfl | rfl
      · exact ⟨rfl, 0, by omega, by rw [h3, Nat.mul_zero, Nat.add_zero]⟩
      · exact ⟨rfl, 1, by omega, by rw [h3]; omega⟩
      · trivial
      · trivial
    · rintro a sz ⟨hsz, j, hj, rfl⟩
      exact ⟨hsz, j + 2, by omega, by congr 1; omega⟩
    · rw [i2]; congr 1; omega

theorem Reads.frame_words_upto (t : Target) (s : Cpu) (n : Nat) (hn8 : 8 ≤ n)
    (hn18 : FR_ARCH_ARMV8x_M t.build = true → s.get .lr / 2^5 % 2 = 0 → 18 ≤ n) :
    Reads (fun a sz => sz = 4 ∧ ∃ j, j < n ∧ a = (s.get .r3 + 4 * j) % 2^32) s
      (FaultRecord.state_context t s) := by
  have h3 := get_lt s .r3
  have hq : ∀ (P : Nat → Nat → Prop) (u : Cpu) (k : Nat) (ra rb : Reg),
      Reads P u (lsrs ra rb k u) := by
    intro P u k ra rb
    apply Reads.of_quiet
    cases ra <;> simp [lsrs, Cpu.set, Cpu.setNZ]
  have hbase : ∀ (u : Cpu) (d : Nat), u.get .r3 = (s.get .r3 + 4 * d) % 2^32 → d + 8 ≤ n →
      Reads (fun a sz => sz = 4 ∧ ∃ j, j < n ∧ a = (s.get .r3 + 4 * j) % 2^32) u
        (FaultRecord.copy2^[4] (ldr_const .r2 (t.FaultInfo_addr + ofs_state_context) u)) := by
    intro u d hu hd
    have hw := (FaultRecord.copy2_reads 4
      (ldr_const .r2 (t.FaultInfo_addr + ofs_state_context) u) (s.get .r3 + 4 * d)
      (by simpa [ldr_const, Cpu.get, Cpu.set] using hu)).1
    refine Reads.seq (Reads.of_quiet _ (by simp [ldr_const, Cpu.set])) (hw.weaken ?_)
    rintro a sz ⟨hsz, j, hj, rfl⟩
    exact ⟨hsz, d + j, by omega, by congr 1; omega⟩
  have e0 : s.get .r3 = (s.get .r3 + 4 * 0) % 2^32 := by
    rw [Nat.mul_zero, Nat.add_zero, Nat.mod_eq_of_lt h3]
  unfold FaultRecord.state_context
  simp only []
  split
  · exact hq _ _ _ _ _
  · refine Reads.seq (hq _ s 2 .r0 .r4) ?_
    have e3 : (lsrs .r0 .r4 2 s).get .r3 = s.get .r3 := by
      simp [lsrs, Cpu.get, Cpu.set, Cpu.setNZ]
    split
    · rename_i h8
      have e3' : (lsrs .r0 .r0 6 (mov .r0 .lr (lsrs .r0 .r4 2 s))).get .r3 = s.get .r3 := by
        simp [lsrs, mov, Cpu.get, Cpu.set, Cpu.setNZ]
      have hq' : ∀ P : Nat → Nat → Prop, Reads P (lsrs .r0 .r4 2 s)
          (lsrs .r0 .r0 6 (mov .r0 .lr (lsrs .r0 .r4 2 s))) := by
        intro P
        apply Reads.of_quiet
        simp [lsrs, mov, Cpu.set, Cpu.setNZ]
      split
      · exact Reads.seq (hq' _) (hbase _ 0 (by rw [e3']; exact e0) (by omega))
      · rename_i hc
        have hd : s.get .lr / 2^5 % 2 = 0 := by
          simp [lsrs, mov, Cpu.get, Cpu.set, Cpu.setNZ] at hc
          simp only [Cpu.get, Nat.reducePow]
          omega
        have hn := hn18 h8 hd
        have ha := FaultRecord.copy2_reads 5
          (ldr_const .r2 (t.FaultInfo_addr + ofs_additonal_state_context t.build)
            (lsrs .r0 .r0 6 (mov .r0 .lr (lsrs .r0 .r4 2 s)))) (s.get .r3)
          (by
            have := e3'
            simp only [ldr_const, Cpu.get, Cpu.set] at this ⊢
            rw [this]
            simp)
        refine Reads.seq (Reads.seq (hq' _)
          (Reads.seq (Reads.of_quiet _ (by simp [ldr_const, Cpu.set])) (ha.1.weaken ?_)))
          (hbase _ 10 ha.2 (by omega))
        rintro a sz ⟨hsz, j, hj, rfl⟩
        exact ⟨hsz, j, by omega, rfl⟩
    · exact hbase _ 0 (by rw [e3]; exact e0) (by omega)

/-- The loads of section "State Context": words at `r3 + 4 * j`, eight of them,
or eighteen on Armv8-M when bit 5 (DCRS) of EXC_RETURN is clear. -/
theorem Reads.frame_words (t : Target) (s : Cpu) :
    Reads (fun a sz => sz = 4 ∧ ∃ j,
        j < (if FR_ARCH_ARMV8x_M t.build && decide (s.get .lr / 2^5 % 2 = 0) then 18 else 8)
        ∧ a = (s.get .r3 + 4 * j) % 2^32) s (FaultRecord.state_context t s) := by
  apply Reads.frame_words_upto
  · split <;> omega
  · intro h8 hd
    simp only [Nat.reducePow] at hd
    simp [h8, hd]

/-! ### After section "State Context" -/

theorem statusOrBodyLoad_register (t : Target) (b o : Nat)
    (hb : b ∈ [scb_addr t, scb_ns_addr t])
    (ho : o ∈ [t.ofs_CFSR, t.ofs_HFSR, t.ofs_DFSR, t.ofs_MMFAR, t.ofs_BFAR, t.ofs_AFSR,
      t.ofs_SFSR, t.ofs_SFAR]) :
    statusOrBodyLoad t ((b + o) % 4294967296) 4 := by
  left
  refine ⟨rfl, List.mem_flatMap.mpr ⟨b, hb, List.mem_map.mpr ⟨o, ho, rfl⟩⟩⟩

theorem Reads.status_registers (t : Target) (s : Cpu) :
    Reads (statusOrBodyLoad t) s (FaultRecord.fault_registers t s) := by
  unfold Reads newEvents FaultRecord.fault_registers
  simp only []
  repeat' split
  all_goals
    simp only [ldr_const, ldr, stm2, lsrs, Cpu.get, Cpu.set, Cpu.setNZ, List.append_assoc,
      List.drop_left, List.mem_append, List.mem_cons, List.mem_singleton, List.not_mem_nil,
      or_false, forall_eq_or_imp, forall_eq, Access.loadsIn, Nat.mod_mod, Nat.mod_add_mod,
      Nat.reducePow, List.singleton_append, List.cons_append, List.nil_append, true_and,
      and_true, List.length_nil, List.drop_zero, List.append_nil, forall_const,
      implies_true, List.drop_length]
  all_goals
    repeat' apply And.intro
  all_goals
    first
      | exact statusOrBodyLoad_register t _ _ (by simp) (by simp)
      | trivial
      | exact fun _ he => he.elim

theorem Reads.body_bytes (t : Target) (s : Cpu) :
    Reads (statusOrBodyLoad t) s (FaultRecord.crc32 t s) := by
  unfold FaultRecord.crc32
  simp only []
  generalize hu : bl t.ret_CalcCRC32 (ldr_const .r3 FR_CRC32_POLYNOM
    (ldr_const .r2 (FR_CRC32_DATA_LEN t.build) (ldr_const .r1 (t.FaultInfo_addr + ofs_type)
    (ldr_const .r0 FR_CRC32_INIT_VAL s)))) = u
  have hu0 : u.get .r1 = (t.FaultInfo_addr + ofs_type) % 2^32
      ∧ u.get .r2 = FR_CRC32_DATA_LEN t.build % 2^32 ∧ u.trace = s.trace := by
    subst hu
    simp [bl, ldr_const, Cpu.get, Cpu.set]
  obtain ⟨u1, u2, ut⟩ := hu0
  obtain ⟨_, _, ctr⟩ := CalcCRC32_spec u
  refine Reads.seq (Reads.seq (Reads.of_quiet _ ut) (Reads.of_trace _ ctr ?_))
    (Reads.of_trace [Access.store ((t.FaultInfo_addr + ofs_crc32) % 2^32) 4
      ((CalcCRC32 u).get .r0)] ?_ ?_)
  · intro e he
    obtain ⟨i, hi, rfl⟩ := List.mem_map.mp he
    right
    refine ⟨rfl, List.mem_map.mpr ⟨i, ?_, ?_⟩⟩
    · rw [List.mem_range] at hi ⊢
      rw [u2] at hi
      exact lt_of_lt_of_le hi (Nat.mod_le _ _)
    · rw [u1]
      simp
  · simp [str, ldr_const, Cpu.get, Cpu.set]
  · intro e he
    simp only [List.mem_singleton] at he
    subst he
    trivial

/-! ### The whole run -/

/-- A run of `FaultRecord` up to the entry of the exit hook changes memory by
word stores into the record only. -/
theorem Writes.whole_run (t : Target) (s : Cpu) (hfit : Fits t) :
    Writes (inField t.FaultInfo_addr (sizeof_FaultInfo t.build)) s (FaultRecord t s) := by
  have hs := sizeof_FaultInfo_ge t.build
  obtain ⟨mid, h1, h2, _, h4⟩ := FaultRecord_events t s hfit
  have hmem : (FaultRecord t s).mem
      = write32 (FaultRecord.body t (FaultRecord.clear t s)).mem t.FaultInfo_addr
          FR_MAGIC_NUMBER := by
    have e : (FaultRecord t s).mem
        = (FaultRecord.magic_number t (FaultRecord.body t (FaultRecord.clear t s))).mem := by
      simp [FaultRecord, bl, mov, Cpu.set]
    rw [e, (FaultRecord.magic_number_spec t _).2]
  apply Writes.of_events _ h1
  · rw [hmem, h4]
    show _ = replay (write32 s.mem t.FaultInfo_addr 0) (mid ++ _)
    rw [replay_append]
    rfl
  · intro e he
    simp only [List.mem_cons, List.mem_append, List.mem_singleton, List.not_mem_nil,
      or_false] at he
    rcases he with rfl | he | rfl
    · exact ⟨rfl, by unfold inField; omega⟩
    · have := h2 e he
      cases e with
      | load a sz => trivial
      | store a sz v =>
        refine ⟨this.1, ?_⟩
        have h := this.2
        unfold inField at h ⊢
        omega
    · exact ⟨rfl, by unfold inField; omega⟩

theorem FaultRecord_sys (t : Target) (s : Cpu) : SameSys s (FaultRecord t s) := by
  obtain ⟨_, _, _, hsys, _⟩ := FaultRecord.upto_state_context_spec t s
  have h1 : ∀ u : Cpu, SameSys u (bl t.ret_FaultRecordOnExit (mov .r4 .r12 u)) := by
    intro u; simp [SameSys, bl, mov, Cpu.set]
  unfold FaultRecord FaultRecord.body
  simp only []
  exact ((((((hsys.trans_sys (FaultRecord.state_context_sys t _)).trans_sys
    (FaultRecord.tail_sys t _).1).trans_sys (FaultRecord.tail_sys t _).2.1).trans_sys
    (FaultRecord.tail_sys t _).2.2.1).trans_sys (FaultRecord.crc32_sys t _)).trans_sys
    (FaultRecord.tail_sys t _).2.2.2.1).trans_sys (h1 _)

/-- After section "State Context" the run loads fault status registers and
bytes of the record body only. -/
theorem Reads.after_state_context (t : Target) (s : Cpu) :
    Reads (statusOrBodyLoad t) (FaultRecord.state_context t (FaultRecord.upto_state_context t s))
      (FaultRecord t s) := by
  have h1 : ∀ u : Cpu, Reads (statusOrBodyLoad t) u
      (bl t.ret_FaultRecordOnExit (mov .r4 .r12 u)) := by
    intro u
    apply Reads.of_quiet
    simp [bl, mov, Cpu.set]
  unfold FaultRecord FaultRecord.body FaultRecord.upto_state_context
  simp only []
  exact Reads.seq (Reads.seq (Reads.seq (Reads.seq (Reads.seq
    (Reads.stores_only _ t _).2.1 (Reads.stores_only _ t _).2.2.1)
    (Reads.status_registers t _)) (Reads.body_bytes t _)) (Reads.stores_only _ t _).2.2.2) (h1 _)

/-- C11: for every input state, on every build whose record fits the address
space, a run of `FaultRecord` up to the entry of the exit hook stores words
inside the Fault Record only: memory is the entry memory with these stores
applied, every cell outside the record keeps its content, and the stack
pointers and stack limits are unchanged.  Its accesses come in three parts.
Up to section "State Context" the only load is the word tested by the stack
check (none on a build without fault registers, where no test is made).  If
that test failed, section "State Context" makes no access; in any case its
loads are words of the exception frame at the selected stack pointer.  After
it, the loads are fault status registers and bytes of the record body. -/
theorem FaultRecord_stores_record_only (t : Target) (s : Cpu) (hfit : Fits t) :
    (∀ e ∈ newEvents s (FaultRecord t s),
        e.storesIn (inField t.FaultInfo_addr (sizeof_FaultInfo t.build)))
    ∧ (FaultRecord t s).mem = replay s.mem (newEvents s (FaultRecord t s))
    ∧ (∀ x, (∀ i, i < sizeof_FaultInfo t.build → x ≠ t.FaultInfo_addr + i) →
        (FaultRecord t s).mem x = s.mem x)
    ∧ SameSys s (FaultRecord t s)
    ∧ newEvents s (FaultRecord t s)
        = newEvents s (FaultRecord.upto_state_context t s)
          ++ newEvents (FaultRecord.upto_state_context t s)
              (FaultRecord.state_context t (FaultRecord.upto_state_context t s))
          ++ newEvents (FaultRecord.state_context t (FaultRecord.upto_state_context t s))
              (FaultRecord t s)
    ∧ (∀ e ∈ newEvents s (FaultRecord.upto_state_context t s), e.loadsIn (stackTestLoad t s))
    ∧ (stackTestFailed t s = true →
        newEvents (FaultRecord.upto_state_context t s)
          (FaultRecord.state_context t (FaultRecord.upto_state_context t s)) = [])
    ∧ (∀ e ∈ newEvents (FaultRecord.upto_state_context t s)
          (FaultRecord.state_context t (FaultRecord.upto_state_context t s)),
        e.loadsIn (frameLoad t s))
    ∧ (∀ e ∈ newEvents (FaultRecord.state_context t (FaultRecord.upto_state_context t s))
          (FaultRecord t s), e.loadsIn (statusOrBodyLoad t)) := by
  have hw := Writes.whole_run t s hfit
  obtain ⟨c3, c4, clr, _, r1⟩ := FaultRecord.upto_state_context_spec t s
  have r2 := Reads.frame_words t (FaultRecord.upto_state_context t s)
  have r3 := Reads.after_state_context t s
  have e12 := newEvents_append r1.1 r2.1
  have t12 : (FaultRecord.state_context t (FaultRecord.upto_state_context t s)).trace
      = s.trace ++ newEvents s
          (FaultRecord.state_context t (FaultRecord.upto_state_context t s)) := by
    rw [e12, ← List.append_assoc, ← r1.1]
    exact r2.1
  refine ⟨hw.2.2, hw.2.1, ?_, FaultRecord_sys t s, ?_, r1.2, ?_, ?_, r3.2⟩
  · intro x hx
    apply hw.cell_eq
    intro a ha
    unfold Fits at hfit
    unfold inField at ha
    have e : ∀ k, k < 4 → (a + k) % 2^32 = t.FaultInfo_addr + (a - t.FaultInfo_addr + k) := by
      intro k hk; omega
    have h0 := e 0 (by omega)
    rw [Nat.add_zero] at h0
    rw [h0, e 1 (by omega), e 2 (by omega), e 3 (by omega)]
    exact ⟨hx _ (by omega), hx _ (by omega), hx _ (by omega), hx _ (by omega)⟩
  · rw [newEvents_append t12 r3.1, e12]
  · intro hf
    apply FaultRecord.state_context_skipped
    rw [c4, hf]
    cases usesNonSecureAlias t s <;> simp [bit]
  · refine (r2.weaken ?_).2
    rintro a sz ⟨hsz, j, hj, rfl⟩
    refine ⟨hsz, List.mem_map.mpr ⟨j, List.mem_range.mpr ?_, by rw [c3]⟩⟩
    rw [clr] at hj
    exact hj

theorem FaultRecord_stores_record_only_witness :
    Fits cortexM4
    ∧ (∀ e ∈ newEvents stkerrCpu (FaultRecord cortexM4 stkerrCpu),
        e.storesIn (inField cortexM4.FaultInfo_addr (sizeof_FaultInfo cortexM4.build)))
    ∧ (FaultRecord cortexM4 stkerrCpu).mem
        = replay stkerrCpu.mem (newEvents stkerrCpu (FaultRecord cortexM4 stkerrCpu))
    ∧ (∀ x, (∀ i, i < sizeof_FaultInfo cortexM4.build → x ≠ cortexM4.FaultInfo_addr + i) →
        (FaultRecord cortexM4 stkerrCpu).mem x = stkerrCpu.mem x)
    ∧ SameSys stkerrCpu (FaultRecord cortexM4 stkerrCpu)
    ∧ newEvents stkerrCpu (FaultRecord cortexM4 stkerrCpu)
        = newEvents stkerrCpu (FaultRecord.upto_state_context cortexM4 stkerrCpu)
          ++ newEvents (FaultRecord.upto_state_context cortexM4 stkerrCpu)
              (FaultRecord.state_context cortexM4
                (FaultRecord.upto_state_context cortexM4 stkerrCpu))
          ++ newEvents (FaultRecord.state_context cortexM4
                (FaultRecord.upto_state_context cortexM4 stkerrCpu))
              (FaultRecord cortexM4 stkerrCpu)
    ∧ (∀ e ∈ newEvents stkerrCpu (FaultRecord.upto_state_context cortexM4 stkerrCpu),
        e.loadsIn (stackTestLoad cortexM4 stkerrCpu))
    ∧ (stackTestFailed cortexM4 stkerrCpu = true →
        newEvents (FaultRecord.upto_state_context cortexM4 stkerrCpu)
          (FaultRecord.state_context cortexM4
            (FaultRecord.upto_state_context cortexM4 stkerrCpu)) = [])
    ∧ (∀ e ∈ newEvents (FaultRecord.upto_state_context cortexM4 stkerrCpu)
          (FaultRecord.state_context cortexM4
            (FaultRecord.upto_state_context cortexM4 stkerrCpu)),
        e.loadsIn (frameLoad cortexM4 stkerrCpu))
    ∧ (∀ e ∈ newEvents (FaultRecord.state_context cortexM4
            (FaultRecord.upto_state_context cortexM4 stkerrCpu))
          (FaultRecord cortexM4 stkerrCpu), e.loadsIn (statusOrBodyLoad cortexM4)) :=
  ⟨Fits_cortexM4, FaultRecord_stores_record_only cortexM4 stkerrCpu Fits_cortexM4⟩

/-! ## `CalcCRC32` on no data -/

/-- C21: called with `data_len == 0` (register `r2`), `CalcCRC32` returns in
`r0` the value `init_val` it received in `r0`, for every initial value and
polynomial, and makes no memory access at all, so reads no data byte; as a C
call, `CalcCRC32(init_val, data_ptr, 0, polynom)` is `init_val` for every
32-bit `init_val`, and `CalcCRC32(0xFFFFFFFF, data_ptr, 0, 0x04C11DB7)` is
`0xFFFFFFFF`. -/
theorem CalcCRC32_empty_data (s : Cpu) (h : s.get .r2 = 0) :
    (CalcCRC32 s).get .r0 = s.get .r0
    ∧ newEvents s (CalcCRC32 s) = []
    ∧ (CalcCRC32 s).mem = s.mem
    ∧ (∀ init_val polynom, init_val < 2^32 →
        CalcCRC32.call s.mem init_val (s.get .r1) 0 polynom = init_val)
    ∧ CalcCRC32.call s.mem 0xFFFFFFFF (s.get .r1) 0 0x04C11DB7 = 0xFFFFFFFF := by
  obtain ⟨h0, hm, htr⟩ := CalcCRC32_spec s
  have hcall : ∀ init_val polynom, init_val < 2^32 →
      CalcCRC32.call s.mem init_val (s.get .r1) 0 polynom = init_val := by
    intro i p hi
    rw [CalcCRC32.call_eq]
    simp only [Nat.zero_mod, bytesAt, List.range_zero, List.map_nil, crcSpec, List.foldl_nil]
    exact Nat.mod_eq_of_lt hi
  refine ⟨?_, ?_, hm, hcall, hcall _ _ (by norm_num)⟩
  · rw [h0, h]
    simp [bytesAt, crcSpec]
  · apply newEvents_of_append
    rw [htr, h]
    simp

theorem CalcCRC32_empty_data_witness :
    emptyCallCpu.get .r2 = 0
    ∧ (CalcCRC32 emptyCallCpu).get .r0 = 0xFFFFFFFF
    ∧ newEvents emptyCallCpu (CalcCRC32 emptyCallCpu) = []
    ∧ CalcCRC32.call emptyCallCpu.mem 0xFFFFFFFF (emptyCallCpu.get .r1) 0 0x04C11DB7
        = 0xFFFFFFFF :=
  ⟨rfl, (CalcCRC32_empty_data emptyCallCpu rfl).1, (CalcCRC32_empty_data emptyCallCpu rfl).2.1,
    (CalcCRC32_empty_data emptyCallCpu rfl).2.2.2.2⟩

/-! ## `FaultRecordPrint` leaves the record alone -/

theorem Local.print (t : Target) : Local (FaultRecordPrint t) := by
  intro w
  by_cases hm : FaultInfo.magic_number t w.mem = FR_MAGIC_NUMBER
  · by_cases hc : FaultInfo.crc32 t w.mem = FaultInfo.calc_crc32 t w.mem
    · have hT : Trustworthy t w.mem := ⟨hm, hc⟩
      have hT' : Trustworthy t (⟨w.mem, []⟩ : World).mem := hT
      rw [FaultRecordPrint_valid t w hT, FaultRecordPrint_valid t ⟨w.mem, []⟩ hT']
      obtain ⟨a1, a2⟩ := Local.decode t true (FaultRecordPrint.state_context_valid t w)
        { mem := w.mem, out := w.out ++ [headerText t w.mem] }
      obtain ⟨b1, b2⟩ := Local.decode t true (FaultRecordPrint.state_context_valid t w)
        { mem := w.mem, out := [] ++ [headerText t w.mem] }
      have e : FaultRecordPrint.state_context_valid t ⟨w.mem, []⟩
          = FaultRecordPrint.state_context_valid t w := rfl
      rw [e]
      refine ⟨a1, ?_⟩
      rw [a2, b2]
      simp
    · rw [FaultRecordPrint_bad_crc t w hm hc, FaultRecordPrint_bad_crc t ⟨w.mem, []⟩ hm hc]
      simp
  · rw [FaultRecordPrint_no_magic t w hm, FaultRecordPrint_no_magic t ⟨w.mem, []⟩ hm]
    simp

/-- C23: for every record content and every output so far, `FaultRecordPrint`
leaves memory, hence the record, exactly as it found it, and appends to the
output a text that depends on memory only; so any number `n` of calls leaves
the record unchanged and appends `n` times the same text. -/
theorem FaultRecordPrint_record_unchanged (t : Target) (w : World) :
    (FaultRecordPrint t w).mem = w.mem
    ∧ (FaultRecordPrint t w).out = w.out ++ textOf (FaultRecordPrint t) w.mem
    ∧ (∀ n, ((FaultRecordPrint t)^[n] w).mem = w.mem
        ∧ ((FaultRecordPrint t)^[n] w).out
            = w.out ++ (List.replicate n (textOf (FaultRecordPrint t) w.mem)).flatten) := by
  have h := Local.print t
  refine ⟨(h w).1, (h w).2, ?_⟩
  intro n
  induction n generalizing w with
  | zero => simp
  | succ n ih =>
    obtain ⟨i1, i2⟩ := ih (FaultRecordPrint t w)
    rw [Function.iterate_succ_apply]
    refine ⟨by rw [i1, (h w).1], ?_⟩
    rw [i2, (h w).2, (h w).1]
    show _ = w.out ++ (textOf (FaultRecordPrint t) w.mem
      :: List.replicate n (textOf (FaultRecordPrint t) w.mem)).flatten
    simp [textOf]

/-! ## The order of the blocks -/

theorem and_two_pow_eq_zero_iff (x k : Nat) : x &&& 2^k = 0 ↔ ¬ x / 2^k % 2 = 1 := by
  rw [Nat.and_two_pow, Nat.testBit_to_div_mod]
  have hp : 0 < 2^k := Nat.two_pow_pos k
  by_cases h : x / 2^k % 2 = 1
  · simp [h, Nat.ne_of_gt hp]
  · simp [h]

theorem textOf_state (t : Target) (m : Mem) :
    textOf (FaultRecordPrint.state t true) m = stateTextSpec t m := by
  unfold textOf FaultRecordPrint.state stateTextSpec
  simp only [FR_PRINT_mem, if_true]
  repeat' split
  all_goals simp_all [FR_PRINT]

theorem textOf_mode (t : Target) (m : Mem) :
    textOf (FaultRecordPrint.mode t true) m = modeTextSpec t m := by
  unfold textOf FaultRecordPrint.mode modeTextSpec
  simp only [FR_PRINT_mem, if_true]
  by_cases h : FaultInfo.common_registers t m 1 / 2^2 % 2 = 1
  · have h' : ¬ FaultInfo.common_registers t m 1 &&& (1 <<< 2) = 0 := by
      rw [show (1 <<< 2 : Nat) = 2^2 from rfl, and_two_pow_eq_zero_iff]; exact fun hn => hn h
    rw [if_neg h', if_pos h]
    rfl
  · have h' : FaultInfo.common_registers t m 1 &&& (1 <<< 2) = 0 := by
      rw [show (1 <<< 2 : Nat) = 2^2 from rfl, and_two_pow_eq_zero_iff]; exact h
    rw [if_pos h', if_neg h]
    rfl

/-- C22: for every trustworthy record the output of `FaultRecordPrint` is, in
this order: the header with the version; the exception handler line; the state
line (Armv8/8.1-M builds); the mode line; the fault lines HardFault,
MemManage, BusFault, UsageFault, SecureFault, each only if it has a cause; the
block PC, MSP, (MSPLIM), PSP, (PSPLIM); the lines R0 to R3, the lines R4 to
R11 and the lines R12, LR, ReturnAddress, xPSR, each group only when it is
valid; and last the fault status register block. -/
theorem FaultRecordPrint_block_order (t : Target) (m : Mem) (h : Trustworthy t m) :
    textOf (FaultRecordPrint t) m
      = [("\n--- Last recorded Fault information (v"
            ++ fmt_u (FaultInfo.type.version.major t m) ++ "."
            ++ fmt_u (FaultInfo.type.version.minor t m) ++ ") ---\n\n")]
        ++ ("  Exception Handler: " :: (worldTextSpec t m
            ++ [exceptionNameSpec (FaultInfo.common_registers t m 0 &&& t.IPSR_ISR_Msk), "\n"]))
        ++ stateTextSpec t m
        ++ modeTextSpec t m
        ++ faultLinesSpec t m
        ++ ("\n" :: (pcText t m
            ++ fmt_line "   - MSP:            " (FaultInfo.common_registers t m 2)
              :: (limLine t m "   - MSPLIM:         " 0
            ++ fmt_line "   - PSP:            " (FaultInfo.common_registers t m 3)
              :: (limLine t m "   - PSPLIM:         " 1 ++ ["\n"]))))
        ++ (if FaultRecordPrint.state_context_valid t ⟨m, []⟩ then baseLinesR0R3 t m else [])
        ++ (if FR_ARCH_ARMV8x_M t.build = true
              ∧ FaultRecordPrint.state_context_valid t ⟨m, []⟩ = true
              ∧ FaultInfo.type.armv8m t m ≠ 0
              ∧ FaultInfo.additonal_state_context t m 0 &&& 0xFFFFFFFE = FR_ASC_INTEGRITY_SIG
            then extendedLines t m else [])
        ++ (if FaultRecordPrint.state_context_valid t ⟨m, []⟩ then baseLinesR12 t m else [])
        ++ (if FR_FAULT_REGS_EXIST t.build then
              "  Fault registers:\n" :: (rawFaultLines t m ++ rawSecureFaultLines t m ++ ["\n"])
            else []) := by
  rw [textOf_valid_blocks t m h, textOf_exception_handler, textOf_state, textOf_mode,
    textOf_faults_spec, textOf_pc_msp_psp, textOf_state_context_r0_r3,
    textOf_additional_state_context, textOf_state_context_r12_xpsr, textOf_fault_registers]
  unfold headerText
  simp only [List.singleton_append, List.cons_append, List.append_assoc, List.nil_append]

theorem FaultRecordPrint_block_order_witness :
    Trustworthy cortexM4 stampedMem
    ∧ textOf (FaultRecordPrint cortexM4) stampedMem
      = [("\n--- Last recorded Fault information (v"
            ++ fmt_u (FaultInfo.type.version.major cortexM4 stampedMem) ++ "."
            ++ fmt_u (FaultInfo.type.version.minor cortexM4 stampedMem) ++ ") ---\n\n")]
        ++ ("  Exception Handler: " :: (worldTextSpec cortexM4 stampedMem
            ++ [exceptionNameSpec
                  (FaultInfo.common_registers cortexM4 stampedMem 0 &&& cortexM4.IPSR_ISR_Msk),
                "\n"]))
        ++ stateTextSpec cortexM4 stampedMem
        ++ modeTextSpec cortexM4 stampedMem
        ++ faultLinesSpec cortexM4 stampedMem
        ++ ("\n" :: (pcText cortexM4 stampedMem
            ++ fmt_line "   - MSP:            " (FaultInfo.common_registers cortexM4 stampedMem 2)
              :: (limLine cortexM4 stampedMem "   - MSPLIM:         " 0
            ++ fmt_line "   - PSP:            " (FaultInfo.common_registers cortexM4 stampedMem 3)
              :: (limLine cortexM4 stampedMem "   - PSPLIM:         " 1 ++ ["\n"]))))
        ++ (if FaultRecordPrint.state_context_valid cortexM4 ⟨stampedMem, []⟩
            then baseLinesR0R3 cortexM4 stampedMem else [])
        ++ (if FR_ARCH_ARMV8x_M cortexM4.build = true
              ∧ FaultRecordPrint.state_context_valid cortexM4 ⟨stampedMem, []⟩ = true
              ∧ FaultInfo.type.armv8m cortexM4 stampedMem ≠ 0
              ∧ FaultInfo.additonal_state_context cortexM4 stampedMem 0 &&& 0xFFFFFFFE
                  = FR_ASC_INTEGRITY_SIG
            then extendedLines cortexM4 stampedMem else [])
        ++ (if FaultRecordPrint.state_context_valid cortexM4 ⟨stampedMem, []⟩
            then baseLinesR12 cortexM4 stampedMem else [])
        ++ (if FR_FAULT_REGS_EXIST cortexM4.build then
              "  Fault registers:\n"
                :: (rawFaultLines cortexM4 stampedMem ++ rawSecureFaultLines cortexM4 stampedMem
                  ++ ["\n"])
            else []) :=
  ⟨stampedMem_trustworthy, FaultRecordPrint_block_order cortexM4 stampedMem stampedMem_trustworthy⟩

/-! ## The label column and the values -/

theorem IsPrinted.plain {x : String} (h : x ∈ plainTexts) : IsPrinted x := Or.inl h

theorem IsPrinted.value {l : String} (h : l ∈ valueLabels) (v : Nat) (hv : v < 2^32) :
    IsPrinted (fmt_line l v) :=
  Or.inr (Or.inr (Or.inr (Or.inl ⟨l, h, v, hv, rfl⟩)))

theorem FaultInfo.word_lt (t : Target) (m : Mem) (i : Nat) :
    FaultInfo.state_context t m i < 2^32 ∧ FaultInfo.common_registers t m i < 2^32
    ∧ FaultInfo.fault_registers t m i < 2^32 ∧ FaultInfo.additonal_state_context t m i < 2^32
    ∧ FaultInfo.armv8_m_registers t m i < 2^32
    ∧ FaultInfo.armv8_m_fault_registers t m i < 2^32 :=
  ⟨read32_lt _ _, read32_lt _ _, read32_lt _ _, read32_lt _ _, read32_lt _ _, read32_lt _ _⟩

theorem printed_exception_handler (t : Target) (m : Mem) :
    ∀ x ∈ textOf (FaultRecordPrint.exception_handler t true) m, IsPrinted x := by
  intro x hx
  rw [textOf_exception_handler] at hx
  unfold worldTextSpec at hx
  simp only [List.mem_cons, List.mem_append, List.mem_singleton, List.not_mem_nil,
    or_false] at hx
  rcases hx with rfl | hx | rfl | rfl
  · exact IsPrinted.plain (by decide)
  · split at hx
    · simp only [List.mem_singleton] at hx
      subst hx
      split <;> exact IsPrinted.plain (by decide)
    · simp at hx
  · exact Or.inr (Or.inr (Or.inl ⟨_, rfl⟩))
  · exact IsPrinted.plain (by decide)

theorem printed_state_mode (t : Target) (m : Mem) :
    (∀ x ∈ textOf (FaultRecordPrint.state t true) m, IsPrinted x)
    ∧ (∀ x ∈ textOf (FaultRecordPrint.mode t true) m, IsPrinted x) := by
  constructor
  · intro x hx
    rw [textOf_state] at hx
    unfold stateTextSpec at hx
    split at hx
    · simp only [List.mem_cons, List.mem_singleton, List.not_mem_nil, or_false] at hx
      rcases hx with rfl | rfl | rfl
      · exact IsPrinted.plain (by decide)
      · split <;> exact IsPrinted.plain (by decide)
      · exact IsPrinted.plain (by decide)
    · simp at hx
  · intro x hx
    rw [textOf_mode] at hx
    unfold modeTextSpec at hx
    simp only [List.mem_cons, List.mem_singleton, List.not_mem_nil, or_false] at hx
    rcases hx with rfl | rfl | rfl
    · exact IsPrinted.plain (by decide)
    · split <;> exact IsPrinted.plain (by decide)
    · exact IsPrinted.plain (by decide)

theorem printed_fault_line (header : String) (causes : List (Option Nat × String)) (x : Nat)
    (addr : List String) (hh : header ∈ plainTexts)
    (hc : ∀ y ∈ causes.map Prod.snd, y ∈ causeMessages)
    (ha : ∀ y ∈ addr, IsPrinted y) :
    ∀ y ∈ faultLineSpec header causes x addr, IsPrinted y := by
  intro y hy
  unfold faultLineSpec at hy
  split at hy
  · simp only [List.mem_cons, List.mem_append, List.mem_singleton, List.not_mem_nil,
      or_false] at hy
    rcases hy with rfl | (hy | hy) | rfl
    · exact IsPrinted.plain hh
    · obtain ⟨c, hcm, rfl⟩ := List.mem_map.mp hy
      have := hc c.2 (List.mem_map.mpr ⟨c, (List.mem_filter.mp hcm).1, rfl⟩)
      exact IsPrinted.plain (by
        unfold plainTexts
        exact List.mem_append_right _ this)
    · exact ha y hy
    · exact IsPrinted.plain (by decide)
  · simp at hy

theorem printed_fault_address (x valid addr : Nat) (h : addr < 2^32) :
    ∀ y ∈ faultAddressSpec x valid addr, IsPrinted y := by
  intro y hy
  unfold faultAddressSpec at hy
  split at hy
  · simp only [List.mem_singleton] at hy
    subst hy
    exact Or.inr (Or.inr (Or.inr (Or.inr (Or.inr ⟨addr, h, rfl⟩))))
  · simp at hy

theorem printed_faults (t : Target) (m : Mem) :
    ∀ x ∈ textOf (FaultRecordPrint.faults t true) m, IsPrinted x := by
  intro x hx
  rw [textOf_faults_spec] at hx
  unfold faultLinesSpec at hx
  have hnil : ∀ y ∈ ([] : List String), IsPrinted y := by simp
  have h1 := printed_fault_line "  Fault:             HardFault - " (hardFaultCauses t)
    (FaultInfo.fault_registers t m 1) [] (by decide) (by
      intro y hy
      simp only [hardFaultCauses, List.map_cons, List.map_nil, List.mem_cons,
        List.mem_singleton, List.not_mem_nil, or_false] at hy
      rcases hy with rfl | rfl | rfl <;> decide) hnil
  have h2 := printed_fault_line "  Fault:             MemManage - " (memManageCauses t)
    (FaultInfo.fault_registers t m 0)
    (faultAddressSpec (FaultInfo.fault_registers t m 0) t.SCB_CFSR_MMARVALID_Msk
      (FaultInfo.fault_registers t m 3)) (by decide) (by
      intro y hy
      simp only [memManageCauses, List.map_cons, List.map_nil, List.mem_cons,
        List.mem_singleton, List.not_mem_nil, or_false] at hy
      rcases hy with rfl | rfl | rfl | rfl | rfl <;> decide)
    (printed_fault_address _ _ _ (FaultInfo.word_lt t m 3).2.2.1)
  have h3 := printed_fault_line "  Fault:             BusFault - " (busFaultCauses t)
    (FaultInfo.fault_registers t m 0)
    (faultAddressSpec (FaultInfo.fault_registers t m 0) t.SCB_CFSR_BFARVALID_Msk
      (FaultInfo.fault_registers t m 4)) (by decide) (by
      intro y hy
      simp only [busFaultCauses, List.map_cons, List.map_nil, List.mem_cons,
        List.mem_singleton, List.not_mem_nil, or_false] at hy
      rcases hy with rfl | rfl | rfl | rfl | rfl | rfl <;> decide)
    (printed_fault_address _ _ _ (FaultInfo.word_lt t m 4).2.2.1)
  have h4 := printed_fault_line "  Fault:             UsageFault - " (usageFaultCauses t)
    (FaultInfo.fault_registers t m 0) [] (by decide) (by
      intro y hy
      simp only [usageFaultCauses, List.map_cons, List.map_nil, List.mem_cons,
        List.mem_singleton, List.not_mem_nil, or_false] at hy
      rcases hy with rfl | rfl | rfl | rfl | rfl | rfl | rfl <;> decide) hnil
  have h5 := printed_fault_line "  Fault:             SecureFault - " secureFaultCauses
    (FaultInfo.armv8_m_fault_registers t m 0)
    (faultAddressSpec (FaultInfo.armv8_m_fault_registers t m 0) SAU_SFSR_SFARVALID_Msk
      (FaultInfo.armv8_m_fault_registers t m 1)) (by decide) (by decide)
    (printed_fault_address _ _ _ (FaultInfo.word_lt t m 1).2.2.2.2.2)
  split at hx
  · rcases List.mem_append.mp hx with hx | hx
    · split at hx
      · simp only [List.mem_append] at hx
        rcases hx with ((hx | hx) | hx) | hx
        · exact h1 x hx
        · exact h2 x hx
        · exact h3 x hx
        · exact h4 x hx
      · simp at hx
    · split at hx
      · exact h5 x hx
      · simp at hx
  · simp at hx

theorem printed_limLine (t : Target) (m : Mem) (l : String) (i : Nat) (hl : l ∈ valueLabels) :
    ∀ x ∈ limLine t m l i, IsPrinted x := by
  intro x hx
  unfold limLine at hx
  repeat' split at hx
  all_goals
    first
      | (simp only [List.mem_singleton] at hx
         subst hx
         exact IsPrinted.value hl _ (FaultInfo.word_lt t m i).2.2.2.2.1)
      | simp at hx

theorem printed_pc_msp_psp (t : Target) (m : Mem) :
    ∀ x ∈ textOf (FaultRecordPrint.pc_msp_psp t true) m, IsPrinted x := by
  intro x hx
  rw [textOf_pc_msp_psp] at hx
  simp only [List.mem_cons, List.mem_append, List.mem_singleton, List.not_mem_nil,
    or_false] at hx
  rcases hx with rfl | hx | rfl | hx | rfl | hx | rfl
  · exact IsPrinted.plain (by decide)
  · unfold pcText at hx
    split at hx
    · simp only [List.mem_cons, List.mem_singleton, List.not_mem_nil, or_false] at hx
      rcases hx with rfl | rfl
      · exact IsPrinted.plain (by decide)
      · split
        · exact Or.inr (Or.inr (Or.inr (Or.inr (Or.inl ⟨_, (FaultInfo.word_lt t m 6).1, rfl⟩))))
        · exact IsPrinted.plain (by decide)
    · simp only [List.mem_singleton] at hx
      subst hx
      exact IsPrinted.value (by decide) _ (FaultInfo.word_lt t m 6).1
  · exact IsPrinted.value (by decide) _ (FaultInfo.word_lt t m 2).2.1
  · exact printed_limLine t m _ 0 (by decide) x hx
  · exact IsPrinted.value (by decide) _ (FaultInfo.word_lt t m 3).2.1
  · exact printed_limLine t m _ 1 (by decide) x hx
  · exact IsPrinted.plain (by decide)

theorem printed_registers (t : Target) (m : Mem) (scv : Bool) :
    (∀ x ∈ textOf (FaultRecordPrint.state_context_r0_r3 t true scv) m, IsPrinted x)
    ∧ (∀ x ∈ textOf (FaultRecordPrint.additional_state_context t true scv) m, IsPrinted x)
    ∧ (∀ x ∈ textOf (FaultRecordPrint.state_context_r12_xpsr t true scv) m, IsPrinted x)
    ∧ (∀ x ∈ textOf (FaultRecordPrint.fault_registers t true) m, IsPrinted x) := by
  have hs := fun i => (FaultInfo.word_lt t m i).1
  have ha := fun i => (FaultInfo.word_lt t m i).2.2.2.1
  have hf := fun i => (FaultInfo.word_lt t m i).2.2.1
  have hg := fun i => (FaultInfo.word_lt t m i).2.2.2.2.2
  refine ⟨?_, ?_, ?_, ?_⟩
  · intro x hx
    rw [textOf_state_context_r0_r3] at hx
    split at hx
    · simp only [baseLinesR0R3, List.mem_cons, List.mem_singleton, List.not_mem_nil,
        or_false] at hx
      rcases hx with rfl | rfl | rfl | rfl | rfl
      · exact IsPrinted.plain (by decide)
      all_goals exact IsPrinted.value (by decide) _ (hs _)
    · simp at hx
  · intro x hx
    rw [textOf_additional_state_context] at hx
    split at hx
    · simp only [extendedLines, List.mem_cons, List.mem_singleton, List.not_mem_nil,
        or_false] at hx
      rcases hx with rfl | rfl | rfl | rfl | rfl | rfl | rfl | rfl
      all_goals exact IsPrinted.value (by decide) _ (ha _)
    · simp at hx
  · intro x hx
    rw [textOf_state_context_r12_xpsr] at hx
    split at hx
    · simp only [baseLinesR12, List.mem_cons, List.mem_singleton, List.not_mem_nil,
        or_false] at hx
      rcases hx with rfl | rfl | rfl | rfl | rfl
      · exact IsPrinted.value (by decide) _ (hs _)
      · exact IsPrinted.value (by decide) _ (hs _)
      · exact IsPrinted.value (by decide) _ (hs _)
      · exact IsPrinted.value (by decide) _ (hs _)
      · exact IsPrinted.plain (by decide)
    · simp at hx
  · intro x hx
    rw [textOf_fault_registers] at hx
    split at hx
    · simp only [List.mem_cons, List.mem_append, List.mem_singleton, List.not_mem_nil,
        or_false] at hx
      rcases hx with rfl | (hx | hx) | rfl
      · exact IsPrinted.plain (by decide)
      · simp only [rawFaultLines, List.mem_cons, List.mem_singleton, List.not_mem_nil,
          or_false] at hx
        rcases hx with rfl | rfl | rfl | rfl | rfl | rfl
        all_goals exact IsPrinted.value (by decide) _ (hf _)
      · unfold rawSecureFaultLines at hx
        repeat' split at hx
        all_goals
          first
            | (simp only [List.mem_cons, List.mem_singleton, List.not_mem_nil, or_false] at hx
               rcases hx with rfl | rfl
               all_goals exact IsPrinted.value (by decide) _ (hg _))
            | simp at hx
      · exact IsPrinted.plain (by decide)
    · simp at hx

/-- Every text `FaultRecordPrint` prints on a trustworthy record has one of the
forms of `IsPrinted`. -/
theorem printed_valid (t : Target) (m : Mem) (h : Trustworthy t m) :
    ∀ x ∈ textOf (FaultRecordPrint t) m, IsPrinted x := by
  intro x hx
  rw [textOf_valid_blocks t m h] at hx
  obtain ⟨r1, r2, r3, r4⟩ := printed_registers t m (FaultRecordPrint.state_context_valid t ⟨m, []⟩)
  simp only [List.mem_cons, List.mem_append] at hx
  rcases hx with rfl | (((((((hx | hx) | hx) | hx) | hx) | hx) | hx) | hx) | hx
  · exact Or.inr (Or.inl ⟨_, _, rfl⟩)
  · exact printed_exception_handler t m x hx
  · exact (printed_state_mode t m).1 x hx
  · exact (printed_state_mode t m).2 x hx
  · exact printed_faults t m x hx
  · exact printed_pc_msp_psp t m x hx
  · exact r1 x hx
  · exact r2 x hx
  · exact r3 x hx
  · exact r4 x hx

theorem not_clash_of_prefix (l a x : List Char) (hl : l <+: x) (ha : a <+: x) :
    clash l a = false := by
  induction l generalizing a x with
  | nil => cases a <;> rfl
  | cons c l ih =>
    cases a with
    | nil => rfl
    | cons d a =>
      obtain ⟨r, rfl⟩ := hl
      obtain ⟨r', hr'⟩ := ha
      simp only [List.cons_append, List.cons.injEq] at hr'
      obtain ⟨rfl, hr'⟩ := hr'
      simp only [clash, bne_self_eq_false, Bool.false_or]
      exact ih a (l ++ r) ⟨r, rfl⟩ ⟨r', hr'⟩

/-- The forms of a printed text, with the header and the name of the exception
given by the text that opens them. -/
theorem IsPrinted.cases_heads {x : String} (h : IsPrinted x) :
    x ∈ plainTexts ∨ Heads headsNames x
    ∨ (∃ l ∈ valueLabels, ∃ v, v < 2^32 ∧ x = l ++ "0x" ++ fmt_08X v ++ "\n")
    ∨ (∃ v, v < 2^32 ∧ x = "0x" ++ fmt_08X v ++ "\n")
    ∨ (∃ v, v < 2^32 ∧ x = ", fault address 0x" ++ fmt_08X v) := by
  rcases h with h | ⟨a, b, rfl⟩ | ⟨n, rfl⟩ | h | h | h
  · exact Or.inl h
  · right; left
    exact ⟨_, by decide, StartsWith.append (StartsWith.append (StartsWith.append
      (StartsWith.append (List.prefix_refl _) _) _) _) _⟩
  · right; left
    unfold exceptionNameSpec
    repeat' split
    all_goals
      first
        | exact Heads.lit (by decide)
        | exact Heads.append1 (by decide) _
  · exact Or.inr (Or.inr (Or.inl h))
  · exact Or.inr (Or.inr (Or.inr (Or.inl h)))
  · exact Or.inr (Or.inr (Or.inr (Or.inr h)))

theorem plainTexts_indent :
    ∀ p ∈ plainTexts, clash "  ".data p.data = true ∨ p ∈ blockTitles
      ∨ ∃ l ∈ lineLabels ++ valueLabels, l.data <+: p.data := by
  decide

theorem plainTexts_value_label :
    ∀ p ∈ plainTexts, ∀ l ∈ valueLabels,
      clash l.data p.data = true ∨ p = "   - PC:             " := by
  decide

theorem plainTexts_value :
    ∀ p ∈ plainTexts, clash "0x".data p.data = true
      ∧ clash ", fault address".data p.data = true := by
  decide

theorem headsNames_clash :
    ∀ a ∈ headsNames, clash "  ".data a.data = true ∧ clash "0x".data a.data = true
      ∧ clash ", fault address".data a.data = true
      ∧ ∀ l ∈ valueLabels, clash l.data a.data = true := by
  decide

theorem valueLabels_clash :
    ∀ l ∈ valueLabels, clash "0x".data l.data = true
      ∧ clash ", fault address".data l.data = true
      ∧ clash l.data ", fault address 0x".data = true := by
  decide

theorem labels_shape : ∀ l ∈ lineLabels ++ valueLabels, labelShape l.data = true := by
  decide

theorem hexDigit_spec (d : Nat) :
    hexDigit d ∈ "0123456789ABCDEF".data ∧ hexDigitValue (hexDigit d) = d % 16 := by
  have h : d % 16 < 16 := Nat.mod_lt _ (by norm_num)
  unfold hexDigit
  generalize d % 16 = k at h ⊢
  interval_cases k <;> decide

theorem fmt_08X_spec (v : Nat) :
    (fmt_08X v).length = 8
    ∧ (∀ c ∈ (fmt_08X v).data, c ∈ "0123456789ABCDEF".data)
    ∧ (v < 2^32 → hexValue (fmt_08X v).data = v) := by
  refine ⟨rfl, ?_, ?_⟩
  · intro c hc
    simp only [fmt_08X, List.mem_cons, List.mem_singleton, List.not_mem_nil, or_false] at hc
    rcases hc with rfl | rfl | rfl | rfl | rfl | rfl | rfl | rfl <;> exact (hexDigit_spec _).1
  · intro hv
    simp only [fmt_08X, hexValue, List.foldl_cons, List.foldl_nil, (hexDigit_spec _).2]
    omega

theorem StartsWith.not_clash {l a x : String} (hl : StartsWith l x) (ha : StartsWith a x) :
    clash l.data a.data = false :=
  not_clash_of_prefix _ _ _ hl ha

theorem StartsWith.same (x : String) : StartsWith x x := List.prefix_refl _

/-- C30: on a trustworthy record, every printed text that starts with the
indent of two spaces is the title of a register block or starts with a label,
and every label has the same shape of 21 characters: two spaces, a column of
18 characters with the name, a colon and spaces, and one separating space.
Every text that starts with the label of a value is that label alone (PC, whose
value or "unknown" is the next text) or the label followed by "0x", the 8
digits of a 32-bit value and the end of line; a value on its own and a fault
address have the same form. The conversion gives, for every value, 8
upper-case hexadecimal digits, which for a value up to `0xFFFFFFFF` are the
zero-padded digits of that value. -/
theorem FaultRecordPrint_label_column (t : Target) (m : Mem) (h : Trustworthy t m) :
    (∀ l ∈ lineLabels ++ valueLabels, l.length = 21 ∧ labelShape l.data = true)
    ∧ (∀ x ∈ textOf (FaultRecordPrint t) m, StartsWith "  " x →
        x ∈ blockTitles ∨ Heads (lineLabels ++ valueLabels) x)
    ∧ (∀ x ∈ textOf (FaultRecordPrint t) m, Heads valueLabels x →
        x = "   - PC:             "
        ∨ ∃ l ∈ valueLabels, ∃ v, v < 2^32 ∧ x = l ++ "0x" ++ fmt_08X v ++ "\n")
    ∧ (∀ x ∈ textOf (FaultRecordPrint t) m, StartsWith "0x" x →
        ∃ v, v < 2^32 ∧ x = "0x" ++ fmt_08X v ++ "\n")
    ∧ (∀ x ∈ textOf (FaultRecordPrint t) m, StartsWith ", fault address" x →
        ∃ v, v < 2^32 ∧ x = ", fault address 0x" ++ fmt_08X v)
    ∧ (∀ v, (fmt_08X v).length = 8
        ∧ (∀ c ∈ (fmt_08X v).data, c ∈ "0123456789ABCDEF".data)
        ∧ (v < 2^32 → hexValue (fmt_08X v).data = v)) := by
  have hval : ∀ (l : String) (v : Nat), StartsWith l (l ++ "0x" ++ fmt_08X v ++ "\n") :=
    fun l v => StartsWith.append (StartsWith.append (StartsWith.append (List.prefix_refl _) _) _) _
  have h0x : ∀ v : Nat, StartsWith "0x" ("0x" ++ fmt_08X v ++ "\n") :=
    fun v => StartsWith.append (StartsWith.append (List.prefix_refl _) _) _
  have hadr : ∀ v : Nat, StartsWith ", fault address 0x" (", fault address 0x" ++ fmt_08X v) :=
    fun v => StartsWith.append (List.prefix_refl _) _
  have absurd_clash : ∀ {l a x : String} {P : Prop}, StartsWith l x → StartsWith a x →
      clash l.data a.data = true → P := by
    intro l a x P hl ha hc
    rw [hl.not_clash ha] at hc
    exact absurd hc (by decide)
  refine ⟨?_, ?_, ?_, ?_, ?_, fmt_08X_spec⟩
  · intro l hl
    have hs := labels_shape l hl
    refine ⟨?_, hs⟩
    simp only [labelShape, Bool.and_eq_true, beq_iff_eq] at hs
    exact hs.1.1.1.1
  · intro x hx hs
    rcases (printed_valid t m h x hx).cases_heads with hp | ⟨a, ha, hpa⟩ | ⟨l, hl, v, -, rfl⟩
      | ⟨v, -, rfl⟩ | ⟨v, -, rfl⟩
    · rcases plainTexts_indent x hp with hc | ht | ⟨l, hl, hpl⟩
      · exact absurd_clash hs (StartsWith.same x) hc
      · exact Or.inl ht
      · exact Or.inr ⟨l, hl, hpl⟩
    · exact absurd_clash hs hpa (headsNames_clash a ha).1
    · exact Or.inr ⟨l, List.mem_append_right _ hl, hval l v⟩
    · exact absurd_clash hs (h0x v) (by decide)
    · exact absurd_clash hs (hadr v) (by decide)
  · rintro x hx ⟨l, hl, hs⟩
    rcases (printed_valid t m h x hx).cases_heads with hp | ⟨a, ha, hpa⟩ | hv
      | ⟨v, -, rfl⟩ | ⟨v, -, rfl⟩
    · rcases plainTexts_value_label x hp l hl with hc | he
      · exact absurd_clash hs (StartsWith.same x) hc
      · exact Or.inl he
    · exact absurd_clash hs hpa ((headsNames_clash a ha).2.2.2 l hl)
    · exact Or.inr hv
    · exact absurd_clash (h0x v) hs (valueLabels_clash l hl).1
    · exact absurd_clash hs (hadr v) (valueLabels_clash l hl).2.2
  · intro x hx hs
    rcases (printed_valid t m h x hx).cases_heads with hp | ⟨a, ha, hpa⟩ | ⟨l, hl, v, -, rfl⟩
      | hv | ⟨v, -, rfl⟩
    · exact absurd_clash hs (StartsWith.same x) (plainTexts_value x hp).1
    · exact absurd_clash hs hpa (headsNames_clash a ha).2.1
    · exact absurd_clash hs (hval l v) (valueLabels_clash l hl).1
    · exact hv
    · exact absurd_clash hs (hadr v) (by decide)
  · intro x hx hs
    rcases (printed_valid t m h x hx).cases_heads with hp | ⟨a, ha, hpa⟩ | ⟨l, hl, v, -, rfl⟩
      | ⟨v, -, rfl⟩ | hv
    · exact absurd_clash hs (StartsWith.same x) (plainTexts_value x hp).2
    · exact absurd_clash hs hpa (headsNames_clash a ha).2.2.1
    · exact absurd_clash hs (hval l v) (valueLabels_clash l hl).2.1
    · exact absurd_clash hs (h0x v) (by decide)
    · exact hv

theorem FaultRecordPrint_label_column_witness :
    Trustworthy cortexM4 stampedMem
    ∧ (∀ x ∈ textOf (FaultRecordPrint cortexM4) stampedMem, StartsWith "  " x →
        x ∈ blockTitles ∨ Heads (lineLabels ++ valueLabels) x)
    ∧ (∀ x ∈ textOf (FaultRecordPrint cortexM4) stampedMem, Heads valueLabels x →
        x = "   - PC:             "
        ∨ ∃ l ∈ valueLabels, ∃ v, v < 2^32 ∧ x = l ++ "0x" ++ fmt_08X v ++ "\n")
    ∧ (fmt_08X 0x1A2B).data = "00001A2B".data :=
  ⟨stampedMem_trustworthy,
    (FaultRecordPrint_label_column cortexM4 stampedMem stampedMem_trustworthy).2.1,
    (FaultRecordPrint_label_column cortexM4 stampedMem stampedMem_trustworthy).2.2.1,
    by decide⟩

/-! ## What `FaultRecord` leaves in each field -/

theorem FaultRecord.fields_eq (t : Target) (s : Cpu) :
    FaultRecord.fields t (FaultRecord.clear t s)
      = FaultRecord.fault_registers t (FaultRecord.upto_fault_registers t s) := rfl

/-- Sections "State Context", "Common Registers" and "Armv8/8.1-M specific
Registers" leave `r4` and the link register alone. -/
theorem FaultRecord.sections_regs (t : Target) (u : Cpu) :
    ((FaultRecord.state_context t u).get .r4 = u.get .r4
      ∧ (FaultRecord.state_context t u).get .lr = u.get .lr)
    ∧ ((FaultRecord.common_registers t u).get .r4 = u.get .r4
      ∧ (FaultRecord.common_registers t u).get .lr = u.get .lr)
    ∧ ((FaultRecord.armv8_m_registers t u).get .r4 = u.get .r4
      ∧ (FaultRecord.armv8_m_registers t u).get .lr = u.get .lr) := by
  refine ⟨?_, ?_, ?_⟩
  · unfold FaultRecord.state_context
    simp only []
    repeat' split
    all_goals
      simp [FaultRecord.copy2, ldr_const, stm2, ldm2, mov, lsrs, Cpu.get, Cpu.set, Cpu.setNZ]
  · unfold FaultRecord.common_registers
    simp only []
    repeat' split
    all_goals simp [ldr_const, stm2, mrs, mov, lsrs, Cpu.get, Cpu.set, Cpu.setNZ]
  · unfold FaultRecord.armv8_m_registers
    simp only []
    repeat' split
    all_goals simp [ldr_const, stm2, mrs, mov, lsrs, Cpu.get, Cpu.set, Cpu.setNZ]

/-- At the entry of each section after "State Context": `r4` holds the alias
flag and the outcome of the stack check, the link register EXC_RETURN, and the
special registers are those of the entry. -/
theorem FaultRecord.upto_regs (t : Target) (s : Cpu) :
    ((FaultRecord.upto_common_registers t s).get .r4
        = bit (usesNonSecureAlias t s) + 2 * bit (stackTestFailed t s)
      ∧ (FaultRecord.upto_common_registers t s).get .lr = s.get .lr
      ∧ SameSys s (FaultRecord.upto_common_registers t s))
    ∧ ((FaultRecord.upto_armv8_m_registers t s).get .r4
        = bit (usesNonSecureAlias t s) + 2 * bit (stackTestFailed t s)
      ∧ (FaultRecord.upto_armv8_m_registers t s).get .lr = s.get .lr
      ∧ SameSys s (FaultRecord.upto_armv8_m_registers t s))
    ∧ ((FaultRecord.upto_fault_registers t s).get .r4
        = bit (usesNonSecureAlias t s) + 2 * bit (stackTestFailed t s)
      ∧ (FaultRecord.upto_fault_registers t s).get .lr = s.get .lr
      ∧ SameSys s (FaultRecord.upto_fault_registers t s)) := by
  obtain ⟨-, c4, clr, csys, -⟩ := FaultRecord.upto_state_context_spec t s
  obtain ⟨⟨a4, alr⟩, -, -⟩ := FaultRecord.sections_regs t (FaultRecord.upto_state_context t s)
  obtain ⟨-, ⟨b4, blr⟩, -⟩ := FaultRecord.sections_regs t (FaultRecord.upto_common_registers t s)
  obtain ⟨-, -, ⟨d4, dlr⟩⟩ := FaultRecord.sections_regs t (FaultRecord.upto_armv8_m_registers t s)
  have s1 : SameSys s (FaultRecord.upto_common_registers t s) :=
    csys.trans_sys (FaultRecord.state_context_sys t _)
  have s2 : SameSys s (FaultRecord.upto_armv8_m_registers t s) :=
    s1.trans_sys (FaultRecord.tail_sys t _).1
  have s3 : SameSys s (FaultRecord.upto_fault_registers t s) :=
    s2.trans_sys (FaultRecord.tail_sys t _).2.1
  have e1 : (FaultRecord.upto_common_registers t s).get .r4
      = bit (usesNonSecureAlias t s) + 2 * bit (stackTestFailed t s) := by
    unfold FaultRecord.upto_common_registers; rw [a4, c4]
  have e2 : (FaultRecord.upto_common_registers t s).get .lr = s.get .lr := by
    unfold FaultRecord.upto_common_registers; rw [alr, clr]
  have e3 : (FaultRecord.upto_armv8_m_registers t s).get .r4
      = bit (usesNonSecureAlias t s) + 2 * bit (stackTestFailed t s) := by
    unfold FaultRecord.upto_armv8_m_registers; rw [b4, e1]
  have e4 : (FaultRecord.upto_armv8_m_registers t s).get .lr = s.get .lr := by
    unfold FaultRecord.upto_armv8_m_registers; rw [blr, e2]
  refine ⟨⟨e1, e2, s1⟩, ⟨e3, e4, s2⟩, ?_, ?_, s3⟩
  · unfold FaultRecord.upto_fault_registers; rw [d4, e3]
  · unfold FaultRecord.upto_fault_registers; rw [dlr, e4]

/-- Layout of the record, build by build: the offsets of the optional fields
and the size. -/
theorem layout_cases (b : Build) :
    (ofs_additonal_state_context b = if FR_FAULT_REGS_EXIST b then 84 else 60)
    ∧ ofs_armv8_m_registers b = ofs_additonal_state_context b + 40
    ∧ ofs_armv8_m_fault_registers b = ofs_additonal_state_context b + 48
    ∧ sizeof_FaultInfo b = ofs_additonal_state_context b
        + (if FR_ARCH_ARMV8x_M b then 48 else 0) + (if FR_ARCH_ARMV8x_M_MAIN b then 8 else 0)
    ∧ (FR_SECURE b = true → FR_ARCH_ARMV8x_M b = true)
    ∧ (FR_ARCH_ARMV8x_M_MAIN b = true → FR_ARCH_ARMV8x_M b = true ∧ FR_FAULT_REGS_EXIST b = true
        ∧ FR_ARCH_ARMV8_M_BASE b = false)
    ∧ (FR_ARCH_ARMV8_M_BASE b = true → FR_ARCH_ARMV8x_M b = true ∧ FR_FAULT_REGS_EXIST b = false)
    ∧ (FR_FAULT_REGS_EXIST b = true → FR_ARCH_ARMV8x_M b = true → FR_ARCH_ARMV8x_M_MAIN b = true)
    ∧ (FR_ARCH_ARMV8x_M b = true → FR_ARCH_ARMV8_M_BASE b = false →
        FR_ARCH_ARMV8x_M_MAIN b = true) := by
  rcases b with _ | _ | _ | c | c | c <;> (try cases c) <;> decide

/-- A word that section "Fault Registers" does not store keeps its value. -/
theorem FaultRecord.kept_fault_registers (t : Target) (u : Cpu) (hfit : Fits t) (c : Nat)
    (hc : c + 4 ≤ 2^32)
    (h1 : c + 4 ≤ t.FaultInfo_addr + ofs_fault_registers
      ∨ t.FaultInfo_addr + ofs_fault_registers + 24 ≤ c)
    (h2 : FR_SECURE t.build = true →
      c + 4 ≤ t.FaultInfo_addr + ofs_armv8_m_fault_registers t.build
      ∨ t.FaultInfo_addr + ofs_armv8_m_fault_registers t.build + 8 ≤ c) :
    read32 (FaultRecord.fault_registers t u).mem c = read32 u.mem c := by
  obtain ⟨l1, l2, l3, l4, l5, l6, l7, l8, l9⟩ := layout_cases t.build
  apply (Writes.fault_regs_section t u hfit).read32_of_sep c hc
  unfold Fits at hfit
  rintro a ⟨hf, ha | ⟨hsec, ha⟩⟩
  · unfold inField at ha
    simp only [hf, if_true, sizeof_FaultRegisters, ofs_fault_registers, ofs_common_registers,
      ofs_state_context, ofs_type, sizeof_FaultInfoType, sizeof_StateContext,
      sizeof_CommonRegisters] at *
    omega
  · have h2' := h2 hsec
    have h8 := l5 hsec
    have hm := l8 hf h8
    unfold inField at ha
    simp only [hf, h8, hm, if_true, sizeof_Armv8mFaultRegisters] at *
    omega

/-- A word that section "Armv8/8.1-M specific Registers" does not store keeps its value. -/
theorem FaultRecord.kept_armv8_m_registers (t : Target) (u : Cpu) (hfit : Fits t) (c : Nat)
    (hc : c + 4 ≤ 2^32)
    (h1 : FR_ARCH_ARMV8x_M t.build = true →
      c + 4 ≤ t.FaultInfo_addr + ofs_armv8_m_registers t.build
      ∨ t.FaultInfo_addr + ofs_armv8_m_registers t.build + 8 ≤ c) :
    read32 (FaultRecord.armv8_m_registers t u).mem c = read32 u.mem c := by
  obtain ⟨l1, l2, l3, l4, l5, l6, l7, l8, l9⟩ := layout_cases t.build
  apply (Writes.armv8_m_registers t u hfit).read32_of_sep c hc
  unfold Fits at hfit
  rintro a ⟨h8, ha⟩
  have h1' := h1 h8
  unfold inField at ha
  simp only [h8, if_true, sizeof_Armv8mRegisters] at *
  omega

/-- A word that section "Common Registers" does not store keeps its value. -/
theorem FaultRecord.kept_common_registers (t : Target) (u : Cpu) (hfit : Fits t) (c : Nat)
    (hc : c + 4 ≤ 2^32)
    (h1 : c + 4 ≤ t.FaultInfo_addr + ofs_common_registers
      ∨ t.FaultInfo_addr + ofs_common_registers + 16 ≤ c) :
    read32 (FaultRecord.common_registers t u).mem c = read32 u.mem c := by
  have hs := sizeof_FaultInfo_ge t.build
  apply (Writes.common_registers t u hfit).read32_of_sep c hc
  unfold Fits at hfit
  intro a ha
  unfold inField at ha
  simp only [sizeof_CommonRegisters, ofs_common_registers,
      ofs_state_context, ofs_type, sizeof_FaultInfoType, sizeof_StateContext] at *
  omega

/-- A word that section "State Context" does not store keeps its value. -/
theorem FaultRecord.kept_state_context (t : Target) (u : Cpu) (hfit : Fits t) (c : Nat)
    (hc : c + 4 ≤ 2^32)
    (h1 : c + 4 ≤ t.FaultInfo_addr + ofs_state_context
      ∨ t.FaultInfo_addr + ofs_state_context + 32 ≤ c)
    (h2 : FR_ARCH_ARMV8x_M t.build = true →
      c + 4 ≤ t.FaultInfo_addr + ofs_additonal_state_context t.build
      ∨ t.FaultInfo_addr + ofs_additonal_state_context t.build + 40 ≤ c) :
    read32 (FaultRecord.state_context t u).mem c = read32 u.mem c := by
  obtain ⟨l1, l2, l3, l4, l5, l6, l7, l8, l9⟩ := layout_cases t.build
  have hs := sizeof_FaultInfo_ge t.build
  apply (Writes.state_context t u hfit).read32_of_sep c hc
  unfold Fits at hfit
  rintro a (ha | ⟨h8, ha⟩)
  · unfold inField at ha
    simp only [sizeof_StateContext, ofs_state_context, ofs_type, sizeof_FaultInfoType] at *
    omega
  · have h2' := h2 h8
    unfold inField at ha
    simp only [h8, if_true, sizeof_AdditionalStateContext] at *
    split at l1 <;> split at l4 <;> omega

/-- A word of the record body is at the exit hook what the capture of the
fields left there. -/
theorem FaultRecord.kept_final (t : Target) (s : Cpu) (hfit : Fits t) (k : Nat)
    (hk : 8 ≤ k) (hk' : k + 4 ≤ sizeof_FaultInfo t.build) :
    read32 (FaultRecord t s).mem (t.FaultInfo_addr + k)
      = read32 (FaultRecord.fault_registers t (FaultRecord.upto_fault_registers t s)).mem
          (t.FaultInfo_addr + k) := by
  have hfit' := hfit
  unfold Fits at hfit'
  rw [FaultRecord_mem_fields t s hfit, FaultRecord.fields_eq]
  simp only [ofs_crc32, ofs_magic_number]
  rw [read32_write32_disjoint _ _ _ _ (by omega) (by omega) (by omega),
    read32_write32_disjoint _ _ _ _ (by omega) (by omega) (by omega)]

/-- Memory at the entry of section "State Context": the cleared record with
the type word, the rest of memory as at the entry. -/
theorem FaultRecord.upto_state_context_mem (t : Target) (s : Cpu) (hfit : Fits t) (c : Nat)
    (hc : c + 4 ≤ 2^32)
    (h : c + 4 ≤ t.FaultInfo_addr + ofs_type ∨ t.FaultInfo_addr + ofs_type + 4 ≤ c) :
    read32 (FaultRecord.upto_state_context t s).mem c
      = read32 (memset s.mem t.FaultInfo_addr 0 (sizeof_FaultInfo t.build)) c := by
  have hs := sizeof_FaultInfo_ge t.build
  have hfit' := hfit
  unfold Fits at hfit'
  unfold FaultRecord.upto_state_context
  rw [(Writes.type_information t _ hfit).read32_of_sep c hc (by
      intro a ha
      unfold inField at ha
      simp only [sizeof_FaultInfoType, ofs_type] at *
      omega),
    (Writes.stack_check (fun _ => False) t _).read32_of_sep c hc (fun a ha => ha.elim),
    (Writes.r3_points_to_stack (fun _ => False) t _).read32_of_sep c hc (fun a ha => ha.elim),
    (FaultRecord.clear_spec t s).2.1]

theorem read32_memset_inside (m : Mem) (dst n k : Nat) (hk : k + 4 ≤ n) :
    read32 (memset m dst 0 n) (dst + k) = 0 := by
  unfold read32
  have e1 := read8_memset_zero m dst n (k + 1) (by omega)
  have e2 := read8_memset_zero m dst n (k + 2) (by omega)
  have e3 := read8_memset_zero m dst n (k + 3) (by omega)
  rw [← Nat.add_assoc] at e1 e2 e3
  rw [read8_memset_zero m dst n k (by omega), e1, e2, e3]
  norm_num

/-- With bit 1 of `r4` set, section "State Context" leaves memory alone. -/
theorem FaultRecord.state_context_mem_skipped (t : Target) (u : Cpu)
    (h : u.get .r4 / 2 % 2 = 1) : (FaultRecord.state_context t u).mem = u.mem := by
  simp only [Cpu.get, Nat.reducePow] at h
  unfold FaultRecord.state_context
  simp [lsrs, Cpu.get, Cpu.set, Cpu.setNZ, h]

/-- On a Secure Armv8-M Baseline build with the alias flag set, section
"Armv8/8.1-M specific Registers" leaves memory alone. -/
theorem FaultRecord.armv8_m_registers_mem_skipped (t : Target) (u : Cpu)
    (hsec : FR_SECURE t.build = true) (hbase : FR_ARCH_ARMV8_M_BASE t.build = true)
    (h : u.get .r4 % 2 = 1) : (FaultRecord.armv8_m_registers t u).mem = u.mem := by
  obtain ⟨-, -, -, -, l5, -, -, -, -⟩ := layout_cases t.build
  simp only [Cpu.get, Nat.reducePow] at h
  unfold FaultRecord.armv8_m_registers
  simp [l5 hsec, hsec, hbase, lsrs, ldr_const, Cpu.get, Cpu.set, Cpu.setNZ, h]

/-- When the additional state context is not copied (not an Armv8-M build, or
bit 5 of EXC_RETURN set), section "State Context" stores into
`FaultInfo.state_context` only. -/
theorem Writes.state_context_basic (t : Target) (u : Cpu) (hfit : Fits t)
    (h : FR_ARCH_ARMV8x_M t.build = true → u.get .lr / 2^5 % 2 = 1) :
    Writes (inField (t.FaultInfo_addr + ofs_state_context) 32) u
      (FaultRecord.state_context t u) := by
  have hs := sizeof_FaultInfo_ge t.build
  unfold Fits at hfit
  have hbase : ∀ v : Cpu, Writes (inField (t.FaultInfo_addr + ofs_state_context) 32) v
      (FaultRecord.copy2^[4] (ldr_const .r2 (t.FaultInfo_addr + ofs_state_context) v)) := by
    intro v
    have h2 : (ldr_const .r2 (t.FaultInfo_addr + ofs_state_context) v).get .r2
        = t.FaultInfo_addr + ofs_state_context := by
      simp only [ldr_const, Cpu.get, Cpu.set, ofs_state_context, ofs_type, sizeof_FaultInfoType]
      omega
    have hw := (FaultRecord.copy2_iter 4 _ _ _ h2 rfl (by
      simp only [ofs_state_context, ofs_type, sizeof_FaultInfoType]; omega)).1
    refine Writes.trans (Writes.of_silent _ ?_ ?_) hw
    · simp [ldr_const, Cpu.set]
    · simp [ldr_const, Cpu.set]
  have hsil : ∀ (v : Cpu) (k : Nat) (ra rb : Reg),
      (lsrs ra rb k v).trace = v.trace ∧ (lsrs ra rb k v).mem = v.mem := by
    intro v k ra rb
    cases ra <;> simp [lsrs, Cpu.set, Cpu.setNZ]
  have hsil2 : ∀ (v : Cpu) (ra rb : Reg),
      (mov ra rb v).trace = v.trace ∧ (mov ra rb v).mem = v.mem := by
    intro v ra rb
    cases ra <;> simp [mov, Cpu.set]
  unfold FaultRecord.state_context
  simp only []
  split
  · exact Writes.of_silent _ (hsil _ _ _ _).1 (hsil _ _ _ _).2
  · refine Writes.trans (Writes.of_silent _ (hsil u 2 .r0 .r4).1 (hsil u 2 .r0 .r4).2) ?_
    split
    · rename_i h8
      have hd := h h8
      simp only [Cpu.get, Nat.reducePow] at hd
      have hc : (lsrs .r0 .r0 6 (mov .r0 .lr (lsrs .r0 .r4 2 u))).c = true := by
        simp [lsrs, mov, Cpu.get, Cpu.set, Cpu.setNZ, hd]
      rw [if_pos hc]
      refine Writes.trans (Writes.of_silent _ ?_ ?_) (hbase _)
      · rw [(hsil _ _ _ _).1, (hsil2 _ _ _).1]
      · rw [(hsil _ _ _ _).2, (hsil2 _ _ _).2]
    · exact hbase _

theorem Cpu.sys_lt (s : Cpu) (r : SysReg) : s.sys r < 2^32 := by
  cases r
  case xpsr =>
    have := Nat.mod_lt s.xpsr (show 0 < 2^28 by norm_num)
    simp only [Cpu.sys]
    repeat' split
    all_goals omega
  all_goals exact Nat.mod_lt _ (by norm_num)

/-- Memory after section "Common Registers": xPSR as `mrs` returns it, the link
register, and MSP and PSP, or MSP_NS and PSP_NS if bit 0 of `r4` is set, stored
in `FaultInfo.common_registers`. -/
theorem FaultRecord.common_registers_mem (t : Target) (u : Cpu) (hfit : Fits t) (b : Bool)
    (h4 : u.get .r4 % 2 = bit b) (hb : b = true → FR_SECURE t.build = true) :
    (FaultRecord.common_registers t u).mem
      = write32 (write32 (write32 (write32 u.mem (t.FaultInfo_addr + 44) (u.sys .xpsr))
          (t.FaultInfo_addr + 48) (u.get .lr))
          (t.FaultInfo_addr + 52) (if b then u.sys .msp_ns else u.sys .msp))
          (t.FaultInfo_addr + 56) (if b then u.sys .psp_ns else u.sys .psp) := by
  have hs := sizeof_FaultInfo_ge t.build
  unfold Fits at hfit
  simp only [Cpu.get, Nat.reducePow] at h4
  have e0 : (t.FaultInfo_addr + 44) % 4294967296 = t.FaultInfo_addr + 44 := by omega
  have e1 : t.FaultInfo_addr + 44 + 4 = t.FaultInfo_addr + 48 := by omega
  have e2 : (t.FaultInfo_addr + 44 + 8) % 4294967296 = t.FaultInfo_addr + 52 := by omega
  have e3 : t.FaultInfo_addr + 52 + 4 = t.FaultInfo_addr + 56 := by omega
  unfold FaultRecord.common_registers
  cases hsec : FR_SECURE t.build
  · have hbf : b = false := by
      cases b
      · rfl
      · rw [hb rfl] at hsec; cases hsec
    subst hbf
    simp only [ofs_common_registers, ofs_state_context, ofs_type, sizeof_FaultInfoType,
      sizeof_StateContext, Bool.false_eq_true, if_false]
    simp only [ldr_const, stm2, mrs, mov, lsrs, Cpu.get, Cpu.set, Cpu.setNZ, Cpu.sys,
      Nat.mod_mod, e0, e1, e2, e3, Nat.reducePow, Nat.reduceAdd, write32_mod, write32_add_mod,
      write32_val_mod]
  · simp only [ofs_common_registers, ofs_state_context, ofs_type, sizeof_FaultInfoType,
      sizeof_StateContext, if_true]
    cases b
    · have hc : ¬ u.r4 % 4294967296 % 2 = 1 := by simp [bit] at h4; omega
      simp only [ldr_const, stm2, mrs, mov, lsrs, Cpu.get, Cpu.set, Cpu.setNZ, Cpu.sys,
        Nat.mod_mod, e0, e1, e2, e3, Nat.reducePow, Nat.reduceAdd, write32_mod, write32_add_mod,
        write32_val_mod, Nat.pow_zero, Nat.div_one, Nat.sub_self, hc, decide_False,
        Bool.false_eq_true, if_false, if_true]
    · have hc : u.r4 % 4294967296 % 2 = 1 := by simpa [bit] using h4
      simp only [ldr_const, stm2, mrs, mov, lsrs, Cpu.get, Cpu.set, Cpu.setNZ, Cpu.sys,
        Nat.mod_mod, e0, e1, e2, e3, Nat.reducePow, Nat.reduceAdd, write32_mod, write32_add_mod,
        write32_val_mod, Nat.pow_zero, Nat.div_one, Nat.sub_self, hc, decide_True,
        Bool.true_eq_false, if_false, if_true]

/-- The four words section "Common Registers" stores. -/
theorem FaultRecord.common_registers_words (t : Target) (u : Cpu) (hfit : Fits t) (b : Bool)
    (h4 : u.get .r4 % 2 = bit b) (hb : b = true → FR_SECURE t.build = true) :
    read32 (FaultRecord.common_registers t u).mem (t.FaultInfo_addr + 44) = u.sys .xpsr
    ∧ read32 (FaultRecord.common_registers t u).mem (t.FaultInfo_addr + 48) = u.get .lr
    ∧ read32 (FaultRecord.common_registers t u).mem (t.FaultInfo_addr + 52)
      = (if b then u.sys .msp_ns else u.sys .msp)
    ∧ read32 (FaultRecord.common_registers t u).mem (t.FaultInfo_addr + 56)
      = (if b then u.sys .psp_ns else u.sys .psp) := by
  have hs := sizeof_FaultInfo_ge t.build
  have hfit' := hfit
  unfold Fits at hfit'
  rw [FaultRecord.common_registers_mem t u hfit b h4 hb]
  refine ⟨?_, ?_, ?_, ?_⟩
  · rw [read32_write32_disjoint _ _ _ _ (by omega) (by omega) (by omega), read32_write32_disjoint _ _ _ _ (by omega) (by omega) (by omega), read32_write32_disjoint _ _ _ _ (by omega) (by omega) (by omega), read32_write32_same]
    exact Nat.mod_eq_of_lt (Cpu.sys_lt _ _)
  · rw [read32_write32_disjoint _ _ _ _ (by omega) (by omega) (by omega), read32_write32_disjoint _ _ _ _ (by omega) (by omega) (by omega), read32_write32_same]
    exact Nat.mod_eq_of_lt (get_lt _ _)
  · rw [read32_write32_disjoint _ _ _ _ (by omega) (by omega) (by omega), read32_write32_same]
    cases b <;> exact Nat.mod_eq_of_lt (by simpa using Cpu.sys_lt _ _)
  · rw [read32_write32_same]
    cases b <;> exact Nat.mod_eq_of_lt (by simpa using Cpu.sys_lt _ _)

theorem Cpu.sys_xpsr_mod (u : Cpu) : u.sys .xpsr % 2^28 = u.xpsr % 2^28 := by
  have hx := Nat.mod_lt u.xpsr (show 0 < 2^28 by norm_num)
  simp only [Cpu.sys]
  cases u.n <;> cases u.z <;> cases u.c <;> cases u.v <;> simp <;> omega

theorem bit_mod_two (a b : Bool) : (bit a + 2 * bit b) % 2 = bit a
    ∧ (bit a + 2 * bit b) / 2 % 2 = bit b := by
  cases a <;> cases b <;> decide

theorem usesNonSecureAlias_secure (t : Target) (s : Cpu) :
    usesNonSecureAlias t s = true → FR_SECURE t.build = true := by
  unfold usesNonSecureAlias
  intro h
  simp only [Bool.and_eq_true] at h
  exact h.1

/-- A word of `FaultInfo.common_registers` is at the exit hook what section
"Common Registers" stored. -/
theorem FaultRecord.final_common_registers (t : Target) (s : Cpu) (hfit : Fits t) (k : Nat)
    (hk : 44 ≤ k) (hk' : k + 4 ≤ 60) :
    read32 (FaultRecord t s).mem (t.FaultInfo_addr + k)
      = read32 (FaultRecord.upto_armv8_m_registers t s).mem (t.FaultInfo_addr + k) := by
  obtain ⟨l1, l2, l3, l4, l5, l6, l7, l8, l9⟩ := layout_cases t.build
  have hs := sizeof_FaultInfo_ge t.build
  have hfit' := hfit
  unfold Fits at hfit'
  rw [FaultRecord.kept_final t s hfit k (by omega) (by omega),
    FaultRecord.kept_fault_registers t _ hfit _ (by omega)
      (by simp only [ofs_fault_registers, ofs_common_registers, ofs_state_context, ofs_type,
            sizeof_FaultInfoType, sizeof_StateContext, sizeof_CommonRegisters]; omega)
      (by intro _; rw [l3]; split at l1 <;> omega)]
  unfold FaultRecord.upto_fault_registers
  rw [FaultRecord.kept_armv8_m_registers t _ hfit _ (by omega)
      (by intro _; rw [l2]; split at l1 <;> omega)]

/-- The words of `FaultInfo.common_registers` at the exit hook: the xPSR read
at the entry of section "Common Registers", the link register of the entry, the
stack pointers of the entry, from the Non-secure aliases if the alias flag is set. -/
theorem FaultRecord.final_common_words (t : Target) (s : Cpu) (hfit : Fits t) :
    FaultInfo.common_registers t (FaultRecord t s).mem 0
      = (FaultRecord.upto_common_registers t s).sys .xpsr
    ∧ FaultInfo.common_registers t (FaultRecord t s).mem 1 = s.get .lr
    ∧ FaultInfo.common_registers t (FaultRecord t s).mem 2
      = (if usesNonSecureAlias t s then s.sys .msp_ns else s.sys .msp)
    ∧ FaultInfo.common_registers t (FaultRecord t s).mem 3
      = (if usesNonSecureAlias t s then s.sys .psp_ns else s.sys .psp) := by
  obtain ⟨⟨r4, rlr, rsys⟩, -, -⟩ := FaultRecord.upto_regs t s
  obtain ⟨w0, w1, w2, w3⟩ := FaultRecord.common_registers_words t
    (FaultRecord.upto_common_registers t s) hfit (usesNonSecureAlias t s)
    (by rw [r4, (bit_mod_two _ _).1]) (usesNonSecureAlias_secure t s)
  obtain ⟨y1, y2, y3, y4, y5, -⟩ := rsys
  have a0 : t.FaultInfo_addr + ofs_common_registers + 4 * 0 = t.FaultInfo_addr + 44 := by
    simp [ofs_common_registers, ofs_state_context, ofs_type, sizeof_FaultInfoType,
      sizeof_StateContext]
  have a1 : t.FaultInfo_addr + ofs_common_registers + 4 * 1 = t.FaultInfo_addr + 48 := by
    simp [ofs_common_registers, ofs_state_context, ofs_type, sizeof_FaultInfoType,
      sizeof_StateContext]
  have a2 : t.FaultInfo_addr + ofs_common_registers + 4 * 2 = t.FaultInfo_addr + 52 := by
    simp [ofs_common_registers, ofs_state_context, ofs_type, sizeof_FaultInfoType,
      sizeof_StateContext]
  have a3 : t.FaultInfo_addr + ofs_common_registers + 4 * 3 = t.FaultInfo_addr + 56 := by
    simp [ofs_common_registers, ofs_state_context, ofs_type, sizeof_FaultInfoType,
      sizeof_StateContext]
  have f0 := FaultRecord.final_common_registers t s hfit 44 (by omega) (by omega)
  have f1 := FaultRecord.final_common_registers t s hfit 48 (by omega) (by omega)
  have f2 := FaultRecord.final_common_registers t s hfit 52 (by omega) (by omega)
  have f3 := FaultRecord.final_common_registers t s hfit 56 (by omega) (by omega)
  unfold FaultRecord.upto_armv8_m_registers at f0 f1 f2 f3
  unfold FaultInfo.common_registers
  rw [a0, a1, a2, a3, f0, f1, f2, f3, w0, w1, w2, w3, rlr]
  refine ⟨rfl, rfl, ?_, ?_⟩
  · simp only [Cpu.sys, y2, y4]
  · simp only [Cpu.sys, y3, y5]

/-- C26: for every input, whatever the outcome of the stack check, the record
holds at the exit hook in `FaultInfo.common_registers`: the xPSR as `mrs`
returned it when section "Common Registers" ran, whose bits 27..0 (with the
exception number) are those of the xPSR at the entry; the EXC_RETURN value the
link register held at the entry; and the live MSP and PSP, or MSP_NS and PSP_NS
if and only if the alias flag is set, which is the case on a Secure build when
bit 6 (S) of EXC_RETURN is clear, and on no other build. -/
theorem FaultRecord_live_registers (t : Target) (s : Cpu) (hfit : Fits t) :
    FaultInfo.common_registers t (FaultRecord t s).mem 0
      = (FaultRecord.upto_common_registers t s).sys .xpsr
    ∧ (FaultRecord.upto_common_registers t s).sys .xpsr % 2^28 = s.sys .xpsr % 2^28
    ∧ FaultInfo.common_registers t (FaultRecord t s).mem 1 = s.get .lr
    ∧ FaultInfo.common_registers t (FaultRecord t s).mem 2
      = (if usesNonSecureAlias t s then s.sys .msp_ns else s.sys .msp)
    ∧ FaultInfo.common_registers t (FaultRecord t s).mem 3
      = (if usesNonSecureAlias t s then s.sys .psp_ns else s.sys .psp)
    ∧ (usesNonSecureAlias t s = true ↔ FR_SECURE t.build = true ∧ s.get .lr / 2^6 % 2 = 0) := by
  obtain ⟨w0, w1, w2, w3⟩ := FaultRecord.final_common_words t s hfit
  obtain ⟨⟨-, -, rsys⟩, -, -⟩ := FaultRecord.upto_regs t s
  refine ⟨w0, ?_, w1, w2, w3, ?_⟩
  · rw [Cpu.sys_xpsr_mod, Cpu.sys_xpsr_mod, rsys.1]
  · unfold usesNonSecureAlias
    simp

theorem FaultRecord_live_registers_witness :
    Fits cortexM4
    ∧ FaultInfo.common_registers cortexM4 (FaultRecord cortexM4 stkerrCpu).mem 1 = 0xFFFFFFF9
    ∧ FaultInfo.common_registers cortexM4 (FaultRecord cortexM4 stkerrCpu).mem 2 = 0x20001000
    ∧ FaultInfo.common_registers cortexM4 (FaultRecord cortexM4 stkerrCpu).mem 3 = 0 :=
  ⟨Fits_cortexM4, (FaultRecord_live_registers cortexM4 stkerrCpu Fits_cortexM4).2.2.1,
    (FaultRecord_live_registers cortexM4 stkerrCpu Fits_cortexM4).2.2.2.1,
    (FaultRecord_live_registers cortexM4 stkerrCpu Fits_cortexM4).2.2.2.2.1⟩

/-! ## The fault status registers -/

theorem StatusOutside_cortexM4 : StatusOutside cortexM4 := by
  unfold StatusOutside
  decide

set_option maxHeartbeats 2000000 in
/-- Memory after sections "Fault Registers" and "Armv8/8.1-M Fault
Registers": CFSR, HFSR, DFSR, MMFAR, BFAR and AFSR read at `[scb_addr]`, or at
`[scb_ns_addr]` if bit 0 of `r4` is set, and on a Secure build SFSR and SFAR
read at `[scb_addr]`. -/
theorem FaultRecord.fault_registers_mem (t : Target) (u : Cpu) (hfit : Fits t) (b : Bool)
    (h4 : u.get .r4 % 2 = bit b) (hb : b = true → FR_SECURE t.build = true)
    (hf : FR_FAULT_REGS_EXIST t.build = true) (hout : StatusOutside t) :
    (FaultRecord.fault_registers t u).mem
      = (fun m6 : Mem => if FR_SECURE t.build then
            write32 (write32 m6 (t.FaultInfo_addr + 132)
              (read32 u.mem (scb_addr t + t.ofs_SFSR)))
              (t.FaultInfo_addr + 136) (read32 u.mem (scb_addr t + t.ofs_SFAR))
          else m6)
        (write32 (write32 (write32 (write32 (write32 (write32 u.mem
          (t.FaultInfo_addr + 60)
            (read32 u.mem ((if b then scb_ns_addr t else scb_addr t) + t.ofs_CFSR)))
          (t.FaultInfo_addr + 64)
            (read32 u.mem ((if b then scb_ns_addr t else scb_addr t) + t.ofs_HFSR)))
          (t.FaultInfo_addr + 68)
            (read32 u.mem ((if b then scb_ns_addr t else scb_addr t) + t.ofs_DFSR)))
          (t.FaultInfo_addr + 72)
            (read32 u.mem ((if b then scb_ns_addr t else scb_addr t) + t.ofs_MMFAR)))
          (t.FaultInfo_addr + 76)
            (read32 u.mem ((if b then scb_ns_addr t else scb_addr t) + t.ofs_BFAR)))
          (t.FaultInfo_addr + 80)
            (read32 u.mem ((if b then scb_ns_addr t else scb_addr t) + t.ofs_AFSR))) := by
  have hsz := (layout_bounds t.build).2.1 hf
  have hsz2 := (layout_bounds t.build).2.2.2 hf
  unfold Fits at hfit
  simp only [Cpu.get, Nat.reducePow] at h4
  have e60 : (t.FaultInfo_addr + 60) % 4294967296 = t.FaultInfo_addr + 60 := by omega
  have a1 := hout (scb_addr t) (by simp) t.ofs_CFSR (by simp)
  have a2 := hout (scb_addr t) (by simp) t.ofs_HFSR (by simp)
  have a3 := hout (scb_addr t) (by simp) t.ofs_DFSR (by simp)
  have a4 := hout (scb_addr t) (by simp) t.ofs_MMFAR (by simp)
  have a5 := hout (scb_addr t) (by simp) t.ofs_BFAR (by simp)
  have a6 := hout (scb_addr t) (by simp) t.ofs_AFSR (by simp)
  have a7 := hout (scb_addr t) (by simp) t.ofs_SFSR (by simp)
  have a8 := hout (scb_addr t) (by simp) t.ofs_SFAR (by simp)
  have n1 := hout (scb_ns_addr t) (by simp) t.ofs_CFSR (by simp)
  have n2 := hout (scb_ns_addr t) (by simp) t.ofs_HFSR (by simp)
  have n3 := hout (scb_ns_addr t) (by simp) t.ofs_DFSR (by simp)
  have n4 := hout (scb_ns_addr t) (by simp) t.ofs_MMFAR (by simp)
  have n5 := hout (scb_ns_addr t) (by simp) t.ofs_BFAR (by simp)
  have n6 := hout (scb_ns_addr t) (by simp) t.ofs_AFSR (by simp)
  unfold FaultRecord.fault_registers
  cases hsec : FR_SECURE t.build
  · have hbf : b = false := by
      cases b
      · rfl
      · rw [hb rfl] at hsec; cases hsec
    subst hbf
    have hc : True := trivial
    clear n1 n2 n3 n4 n5 n6 a7 a8
    simp only [hf, ofs_fault_registers, ofs_common_registers, ofs_state_context, ofs_type,
      sizeof_FaultInfoType, sizeof_StateContext, sizeof_CommonRegisters, Bool.false_eq_true,
      if_false, if_true]
    simp only [ldr_const, ldr, stm2, lsrs, Cpu.get, Cpu.set, Cpu.setNZ,
      Nat.mod_mod, Nat.reducePow, Nat.reduceAdd, write32_mod, write32_add_mod,
      write32_val_mod, read32_mod, read32_add_mod, read32_mod_val, Nat.mod_add_mod,
      Nat.pow_zero, Nat.div_one, Nat.sub_self, hc, decide_True, decide_False,
      Bool.false_eq_true, Bool.true_eq_false, if_false, if_true, e60, Nat.add_assoc]
    simp (disch := omega) only [read32_write32_disjoint]
  · obtain ⟨o1, o2⟩ := hsz2 hsec
    have e132 : (t.FaultInfo_addr + 132) % 4294967296 = t.FaultInfo_addr + 132 := by omega
    simp only [hf, o1, ofs_fault_registers, ofs_common_registers, ofs_state_context, ofs_type,
      sizeof_FaultInfoType, sizeof_StateContext, sizeof_CommonRegisters, if_true]
    cases b
    · have hc : ¬ u.r4 % 4294967296 % 2 = 1 := by simp [bit] at h4; omega
      clear n1 n2 n3 n4 n5 n6
      simp only [ldr_const, ldr, stm2, lsrs, Cpu.get, Cpu.set, Cpu.setNZ,
      Nat.mod_mod, Nat.reducePow, Nat.reduceAdd, write32_mod, write32_add_mod,
      write32_val_mod, read32_mod, read32_add_mod, read32_mod_val, Nat.mod_add_mod,
      Nat.pow_zero, Nat.div_one, Nat.sub_self, hc, decide_True, decide_False,
      Bool.false_eq_true, Bool.true_eq_false, if_false, if_true, e60, Nat.add_assoc]
      simp (disch := omega) only [read32_write32_disjoint]
    · have hc : u.r4 % 4294967296 % 2 = 1 := by simpa [bit] using h4
      simp only [ldr_const, ldr, stm2, lsrs, Cpu.get, Cpu.set, Cpu.setNZ,
      Nat.mod_mod, Nat.reducePow, Nat.reduceAdd, write32_mod, write32_add_mod,
      write32_val_mod, read32_mod, read32_add_mod, read32_mod_val, Nat.mod_add_mod,
      Nat.pow_zero, Nat.div_one, Nat.sub_self, hc, decide_True, decide_False,
      Bool.false_eq_true, Bool.true_eq_false, if_false, if_true, e60, Nat.add_assoc]
      simp (disch := omega) only [read32_write32_disjoint]

/-- A word outside the record is, at the entry of each section, what it was at
the entry of `FaultRecord`. -/
theorem FaultRecord.outside_upto (t : Target) (s : Cpu) (hfit : Fits t) (c : Nat)
    (hc : c + 4 ≤ 2^32)
    (h : c + 4 ≤ t.FaultInfo_addr ∨ t.FaultInfo_addr + sizeof_FaultInfo t.build ≤ c) :
    read32 (FaultRecord.upto_state_context t s).mem c = read32 s.mem c
    ∧ read32 (FaultRecord.upto_common_registers t s).mem c = read32 s.mem c
    ∧ read32 (FaultRecord.upto_armv8_m_registers t s).mem c = read32 s.mem c
    ∧ read32 (FaultRecord.upto_fault_registers t s).mem c = read32 s.mem c := by
  obtain ⟨l1, l2, l3, l4, l5, l6, l7, l8, l9⟩ := layout_cases t.build
  have hs := sizeof_FaultInfo_ge t.build
  have hfit' := hfit
  unfold Fits at hfit'
  have e1 : read32 (FaultRecord.upto_state_context t s).mem c = read32 s.mem c := by
    rw [FaultRecord.upto_state_context_mem t s hfit c hc (by simp only [ofs_type]; omega)]
    exact read32_memset_outside _ _ _ _ hfit' hc h
  have e2 : read32 (FaultRecord.upto_common_registers t s).mem c = read32 s.mem c := by
    unfold FaultRecord.upto_common_registers
    rw [FaultRecord.kept_state_context t _ hfit c hc
      (by simp only [ofs_state_context, ofs_type, sizeof_FaultInfoType]; omega)
      (by intro h8; rw [h8] at l4; simp only [if_true] at l4; split at l4 <;> omega), e1]
  have e3 : read32 (FaultRecord.upto_armv8_m_registers t s).mem c = read32 s.mem c := by
    unfold FaultRecord.upto_armv8_m_registers
    rw [FaultRecord.kept_common_registers t _ hfit c hc
      (by simp only [ofs_common_registers, ofs_state_context, ofs_type, sizeof_FaultInfoType,
            sizeof_StateContext]; omega), e2]
  refine ⟨e1, e2, e3, ?_⟩
  unfold FaultRecord.upto_fault_registers
  rw [FaultRecord.kept_armv8_m_registers t _ hfit c hc
    (by intro h8; rw [h8] at l4; simp only [if_true] at l4; rw [l2]; split at l4 <;> omega), e3]

/-- The words sections "Fault Registers" and "Armv8/8.1-M Fault Registers" store. -/
theorem FaultRecord.fault_registers_words (t : Target) (u : Cpu) (hfit : Fits t) (b : Bool)
    (h4 : u.get .r4 % 2 = bit b) (hb : b = true → FR_SECURE t.build = true)
    (hf : FR_FAULT_REGS_EXIST t.build = true) (hout : StatusOutside t) :
    (read32 (FaultRecord.fault_registers t u).mem (t.FaultInfo_addr + 60)
        = read32 u.mem ((if b then scb_ns_addr t else scb_addr t) + t.ofs_CFSR)
      ∧ read32 (FaultRecord.fault_registers t u).mem (t.FaultInfo_addr + 64)
        = read32 u.mem ((if b then scb_ns_addr t else scb_addr t) + t.ofs_HFSR)
      ∧ read32 (FaultRecord.fault_registers t u).mem (t.FaultInfo_addr + 68)
        = read32 u.mem ((if b then scb_ns_addr t else scb_addr t) + t.ofs_DFSR)
      ∧ read32 (FaultRecord.fault_registers t u).mem (t.FaultInfo_addr + 72)
        = read32 u.mem ((if b then scb_ns_addr t else scb_addr t) + t.ofs_MMFAR)
      ∧ read32 (FaultRecord.fault_registers t u).mem (t.FaultInfo_addr + 76)
        = read32 u.mem ((if b then scb_ns_addr t else scb_addr t) + t.ofs_BFAR)
      ∧ read32 (FaultRecord.fault_registers t u).mem (t.FaultInfo_addr + 80)
        = read32 u.mem ((if b then scb_ns_addr t else scb_addr t) + t.ofs_AFSR))
    ∧ (FR_SECURE t.build = true →
        read32 (FaultRecord.fault_registers t u).mem (t.FaultInfo_addr + 132)
          = read32 u.mem (scb_addr t + t.ofs_SFSR)
        ∧ read32 (FaultRecord.fault_registers t u).mem (t.FaultInfo_addr + 136)
          = read32 u.mem (scb_addr t + t.ofs_SFAR)) := by
  have hsz := (layout_bounds t.build).2.1 hf
  have hsz2 := (layout_bounds t.build).2.2.2 hf
  have hfit' := hfit
  unfold Fits at hfit'
  rw [FaultRecord.fault_registers_mem t u hfit b h4 hb hf hout]
  cases hsec : FR_SECURE t.build
  · simp only [Bool.false_eq_true, if_false]
    refine ⟨⟨?_, ?_, ?_, ?_, ?_, ?_⟩, fun h => absurd h (by simp)⟩
    ·
      rw [read32_write32_disjoint _ _ _ _ (by omega) (by omega) (by omega),
        read32_write32_disjoint _ _ _ _ (by omega) (by omega) (by omega),
        read32_write32_disjoint _ _ _ _ (by omega) (by omega) (by omega),
        read32_write32_disjoint _ _ _ _ (by omega) (by omega) (by omega),
        read32_write32_disjoint _ _ _ _ (by omega) (by omega) (by omega),
        read32_write32_same]
      exact read32_mod_val _ _
    ·
      rw [read32_write32_disjoint _ _ _ _ (by omega) (by omega) (by omega),
        read32_write32_disjoint _ _ _ _ (by omega) (by omega) (by omega),
        read32_write32_disjoint _ _ _ _ (by omega) (by omega) (by omega),
        read32_write32_disjoint _ _ _ _ (by omega) (by omega) (by omega),
        read32_write32_same]
      exact read32_mod_val _ _
    ·
      rw [read32_write32_disjoint _ _ _ _ (by omega) (by omega) (by omega),
        read32_write32_disjoint _ _ _ _ (by omega) (by omega) (by omega),
        read32_write32_disjoint _ _ _ _ (by omega) (by omega) (by omega),
        read32_write32_same]
      exact read32_mod_val _ _
    ·
      rw [read32_write32_disjoint _ _ _ _ (by omega) (by omega) (by omega),
        read32_write32_disjoint _ _ _ _ (by omega) (by omega) (by omega),
        read32_write32_same]
      exact read32_mod_val _ _
    ·
      rw [read32_write32_disjoint _ _ _ _ (by omega) (by omega) (by omega),
        read32_write32_same]
      exact read32_mod_val _ _
    ·
      rw [read32_write32_same]
      exact read32_mod_val _ _
  · obtain ⟨o1, o2⟩ := hsz2 hsec
    simp only [if_true]
    refine ⟨⟨?_, ?_, ?_, ?_, ?_, ?_⟩, fun _ => ⟨?_, ?_⟩⟩
    ·
      rw [read32_write32_disjoint _ _ _ _ (by omega) (by omega) (by omega),
        read32_write32_disjoint _ _ _ _ (by omega) (by omega) (by omega),
        read32_write32_disjoint _ _ _ _ (by omega) (by omega) (by omega),
        read32_write32_disjoint _ _ _ _ (by omega) (by omega) (by omega),
        read32_write32_disjoint _ _ _ _ (by omega) (by omega) (by omega),
        read32_write32_disjoint _ _ _ _ (by omega) (by omega) (by omega),
        read32_write32_disjoint _ _ _ _ (by omega) (by omega) (by omega),
        read32_write32_same]
      exact read32_mod_val _ _
    ·
      rw [read32_write32_disjoint _ _ _ _ (by omega) (by omega) (by omega),
        read32_write32_disjoint _ _ _ _ (by omega) (by omega) (by omega),
        read32_write32_disjoint _ _ _ _ (by omega) (by omega) (by omega),
        read32_write32_disjoint _ _ _ _ (by omega) (by omega) (by omega),
        read32_write32_disjoint _ _ _ _ (by omega) (by omega) (by omega),
        read32_write32_disjoint _ _ _ _ (by omega) (by omega) (by omega),
        read32_write32_same]
      exact read32_mod_val _ _
    ·
      rw [read32_write32_disjoint _ _ _ _ (by omega) (by omega) (by omega),
        read32_write32_disjoint _ _ _ _ (by omega) (by omega) (by omega),
        read32_write32_disjoint _ _ _ _ (by omega) (by omega) (by omega),
        read32_write32_disjoint _ _ _ _ (by omega) (by omega) (by omega),
        read32_write32_disjoint _ _ _ _ (by omega) (by omega) (by omega),
        read32_write32_same]
      exact read32_mod_val _ _
    ·
      rw [read32_write32_disjoint _ _ _ _ (by omega) (by omega) (by omega),
        read32_write32_disjoint _ _ _ _ (by omega) (by omega) (by omega),
        read32_write32_disjoint _ _ _ _ (by omega) (by omega) (by omega),
        read32_write32_disjoint _ _ _ _ (by omega) (by omega) (by omega),
        read32_write32_same]
      exact read32_mod_val _ _
    ·
      rw [read32_write32_disjoint _ _ _ _ (by omega) (by omega) (by omega),
        read32_write32_disjoint _ _ _ _ (by omega) (by omega) (by omega),
        read32_write32_disjoint _ _ _ _ (by omega) (by omega) (by omega),
        read32_write32_same]
      exact read32_mod_val _ _
    ·
      rw [read32_write32_disjoint _ _ _ _ (by omega) (by omega) (by omega),
        read32_write32_disjoint _ _ _ _ (by omega) (by omega) (by omega),
        read32_write32_same]
      exact read32_mod_val _ _
    ·
      rw [read32_write32_disjoint _ _ _ _ (by omega) (by omega) (by omega),
        read32_write32_same]
      exact read32_mod_val _ _
    ·
      rw [read32_write32_same]
      exact read32_mod_val _ _

/-- The fields of the record by the offset of their words. -/
theorem FaultInfo.word_addr (t : Target) (m : Mem) (i : Nat) :
    FaultInfo.state_context t m i = read32 m (t.FaultInfo_addr + (12 + 4 * i))
    ∧ FaultInfo.common_registers t m i = read32 m (t.FaultInfo_addr + (44 + 4 * i))
    ∧ FaultInfo.fault_registers t m i = read32 m (t.FaultInfo_addr + (60 + 4 * i))
    ∧ FaultInfo.additonal_state_context t m i
        = read32 m (t.FaultInfo_addr + (ofs_additonal_state_context t.build + 4 * i))
    ∧ FaultInfo.armv8_m_registers t m i
        = read32 m (t.FaultInfo_addr + (ofs_additonal_state_context t.build + 40 + 4 * i))
    ∧ FaultInfo.armv8_m_fault_registers t m i
        = read32 m (t.FaultInfo_addr + (ofs_additonal_state_context t.build + 48 + 4 * i)) := by
  obtain ⟨-, l2, l3, -⟩ := layout_cases t.build
  unfold FaultInfo.state_context FaultInfo.common_registers FaultInfo.fault_registers
    FaultInfo.additonal_state_context FaultInfo.armv8_m_registers
    FaultInfo.armv8_m_fault_registers
  rw [l2, l3]
  simp only [ofs_fault_registers, ofs_common_registers, ofs_state_context, ofs_type,
    sizeof_FaultInfoType, sizeof_StateContext, sizeof_CommonRegisters, Nat.add_assoc,
    Nat.reduceAdd, and_self]

/-- A word of the record after `FaultInfo.fault_registers` that no section
stores is zero at the exit hook. -/
theorem FaultRecord.final_zero_secure_fault (t : Target) (s : Cpu) (hfit : Fits t)
    (hm : FR_ARCH_ARMV8x_M_MAIN t.build = true) (hsec : FR_SECURE t.build = false) (k : Nat)
    (hk : 132 ≤ k) (hk' : k + 4 ≤ 140) :
    read32 (FaultRecord t s).mem (t.FaultInfo_addr + k) = 0 := by
  obtain ⟨l1, l2, l3, l4, l5, l6, l7, l8, l9⟩ := layout_cases t.build
  obtain ⟨h8, hf, -⟩ := l6 hm
  rw [hf] at l1
  rw [h8, hm, l1] at l4
  simp only [if_true] at l1 l4
  rw [l1] at l2 l3
  have hfit' := hfit
  unfold Fits at hfit'
  rw [FaultRecord.kept_final t s hfit k (by omega) (by omega),
    FaultRecord.kept_fault_registers t _ hfit _ (by omega)
      (by simp only [ofs_fault_registers, ofs_common_registers, ofs_state_context, ofs_type,
            sizeof_FaultInfoType, sizeof_StateContext, sizeof_CommonRegisters]; omega)
      (by intro h; rw [hsec] at h; cases h)]
  unfold FaultRecord.upto_fault_registers
  rw [FaultRecord.kept_armv8_m_registers t _ hfit _ (by omega) (by intro _; omega)]
  unfold FaultRecord.upto_armv8_m_registers
  rw [FaultRecord.kept_common_registers t _ hfit _ (by omega)
      (by simp only [ofs_common_registers, ofs_state_context, ofs_type, sizeof_FaultInfoType,
            sizeof_StateContext]; omega)]
  unfold FaultRecord.upto_common_registers
  rw [FaultRecord.kept_state_context t _ hfit _ (by omega)
      (by simp only [ofs_state_context, ofs_type, sizeof_FaultInfoType]; omega)
      (by intro _; omega),
    FaultRecord.upto_state_context_mem t s hfit _ (by omega) (by simp only [ofs_type]; omega)]
  exact read32_memset_inside _ _ _ _ (by omega)

/-- C27: on a build with fault status registers, for every input and whatever
the outcome of the stack check, the record holds at the exit hook in
`FaultInfo.fault_registers` the words CFSR, HFSR, DFSR, MMFAR, BFAR and AFSR of
one block: the block at `[scb_ns_addr]` if and only if the alias flag is set
(Secure build, bit 6 of EXC_RETURN clear), the block at `[scb_addr]` otherwise.
On a Secure build `FaultInfo.armv8_m_fault_registers` holds SFSR and SFAR of
the block at `[scb_addr]` in every case; on a build that is not Secure and has
the field, it holds zero. -/
theorem FaultRecord_fault_registers (t : Target) (s : Cpu) (hfit : Fits t)
    (hf : FR_FAULT_REGS_EXIST t.build = true) (hout : StatusOutside t) :
    (FaultInfo.fault_registers t (FaultRecord t s).mem 0
        = read32 s.mem ((if usesNonSecureAlias t s then scb_ns_addr t else scb_addr t)
            + t.ofs_CFSR)
      ∧ FaultInfo.fault_registers t (FaultRecord t s).mem 1
        = read32 s.mem ((if usesNonSecureAlias t s then scb_ns_addr t else scb_addr t)
            + t.ofs_HFSR)
      ∧ FaultInfo.fault_registers t (FaultRecord t s).mem 2
        = read32 s.mem ((if usesNonSecureAlias t s then scb_ns_addr t else scb_addr t)
            + t.ofs_DFSR)
      ∧ FaultInfo.fault_registers t (FaultRecord t s).mem 3
        = read32 s.mem ((if usesNonSecureAlias t s then scb_ns_addr t else scb_addr t)
            + t.ofs_MMFAR)
      ∧ FaultInfo.fault_registers t (FaultRecord t s).mem 4
        = read32 s.mem ((if usesNonSecureAlias t s then scb_ns_addr t else scb_addr t)
            + t.ofs_BFAR)
      ∧ FaultInfo.fault_registers t (FaultRecord t s).mem 5
        = read32 s.mem ((if usesNonSecureAlias t s then scb_ns_addr t else scb_addr t)
            + t.ofs_AFSR))
    ∧ (usesNonSecureAlias t s = true ↔ FR_SECURE t.build = true ∧ s.get .lr / 2^6 % 2 = 0)
    ∧ (FR_SECURE t.build = true →
        FaultInfo.armv8_m_fault_registers t (FaultRecord t s).mem 0
          = read32 s.mem (scb_addr t + t.ofs_SFSR)
        ∧ FaultInfo.armv8_m_fault_registers t (FaultRecord t s).mem 1
          = read32 s.mem (scb_addr t + t.ofs_SFAR))
    ∧ (FR_SECURE t.build = false → FR_ARCH_ARMV8x_M_MAIN t.build = true →
        FaultInfo.armv8_m_fault_registers t (FaultRecord t s).mem 0 = 0
        ∧ FaultInfo.armv8_m_fault_registers t (FaultRecord t s).mem 1 = 0) := by
  obtain ⟨l1, l2, l3, l4, l5, l6, l7, l8, l9⟩ := layout_cases t.build
  have hsz := (layout_bounds t.build).2.1 hf
  have hsz2 := (layout_bounds t.build).2.2.2 hf
  have hfit' := hfit
  unfold Fits at hfit'
  obtain ⟨-, -, r4, -, -⟩ := FaultRecord.upto_regs t s
  obtain ⟨w, wsec⟩ := FaultRecord.fault_registers_words t (FaultRecord.upto_fault_registers t s)
    hfit (usesNonSecureAlias t s) (by rw [r4, (bit_mod_two _ _).1])
    (usesNonSecureAlias_secure t s) hf hout
  obtain ⟨w0, w1, w2, w3, w4, w5⟩ := w
  have hB : ∀ o ∈ [t.ofs_CFSR, t.ofs_HFSR, t.ofs_DFSR, t.ofs_MMFAR, t.ofs_BFAR, t.ofs_AFSR,
      t.ofs_SFSR, t.ofs_SFAR],
      read32 (FaultRecord.upto_fault_registers t s).mem
          ((if usesNonSecureAlias t s then scb_ns_addr t else scb_addr t) + o)
        = read32 s.mem ((if usesNonSecureAlias t s then scb_ns_addr t else scb_addr t) + o)
      ∧ read32 (FaultRecord.upto_fault_registers t s).mem (scb_addr t + o)
        = read32 s.mem (scb_addr t + o) := by
    intro o ho
    have h1 := hout (scb_addr t) (by simp) o ho
    have h2 := hout (scb_ns_addr t) (by simp) o ho
    constructor
    · split
      · exact (FaultRecord.outside_upto t s hfit _ h2.1 h2.2).2.2.2
      · exact (FaultRecord.outside_upto t s hfit _ h1.1 h1.2).2.2.2
    · exact (FaultRecord.outside_upto t s hfit _ h1.1 h1.2).2.2.2
  have hal : usesNonSecureAlias t s = true
      ↔ FR_SECURE t.build = true ∧ s.get .lr / 2^6 % 2 = 0 := by
    unfold usesNonSecureAlias
    simp
  rw [hf] at l1
  simp only [if_true] at l1
  refine ⟨?_, hal, ?_, ?_⟩
  · simp only [(FaultInfo.word_addr t _ _).2.2.1, Nat.reduceMul, Nat.reduceAdd]
    rw [FaultRecord.kept_final t s hfit 60 (by omega) (by omega),
      FaultRecord.kept_final t s hfit 64 (by omega) (by omega),
      FaultRecord.kept_final t s hfit 68 (by omega) (by omega),
      FaultRecord.kept_final t s hfit 72 (by omega) (by omega),
      FaultRecord.kept_final t s hfit 76 (by omega) (by omega),
      FaultRecord.kept_final t s hfit 80 (by omega) (by omega),
      w0, w1, w2, w3, w4, w5, (hB _ (by simp)).1, (hB t.ofs_HFSR (by simp)).1,
      (hB t.ofs_DFSR (by simp)).1, (hB t.ofs_MMFAR (by simp)).1, (hB t.ofs_BFAR (by simp)).1,
      (hB t.ofs_AFSR (by simp)).1]
    exact ⟨rfl, rfl, rfl, rfl, rfl, rfl⟩
  · intro hsec
    obtain ⟨o1, o2⟩ := hsz2 hsec
    obtain ⟨v0, v1⟩ := wsec hsec
    simp only [(FaultInfo.word_addr t _ _).2.2.2.2.2, l1, Nat.reduceMul, Nat.reduceAdd]
    rw [FaultRecord.kept_final t s hfit 132 (by omega) (by omega),
      FaultRecord.kept_final t s hfit 136 (by omega) (by omega), v0, v1,
      (hB t.ofs_SFSR (by simp)).2, (hB t.ofs_SFAR (by simp)).2]
    exact ⟨rfl, rfl⟩
  · intro hsec hm
    simp only [(FaultInfo.word_addr t _ _).2.2.2.2.2, l1, Nat.reduceMul, Nat.reduceAdd]
    exact ⟨FaultRecord.final_zero_secure_fault t s hfit hm hsec 132 (by omega) (by omega),
      FaultRecord.final_zero_secure_fault t s hfit hm hsec 136 (by omega) (by omega)⟩

theorem FaultRecord_fault_registers_witness :
    Fits cortexM4 ∧ FR_FAULT_REGS_EXIST cortexM4.build = true ∧ StatusOutside cortexM4
    ∧ FaultInfo.fault_registers cortexM4 (FaultRecord cortexM4 stkerrCpu).mem 0
        = read32 stkerrCpu.mem
            ((if usesNonSecureAlias cortexM4 stkerrCpu then scb_ns_addr cortexM4
              else scb_addr cortexM4) + cortexM4.ofs_CFSR)
    ∧ (usesNonSecureAlias cortexM4 stkerrCpu = true
        ↔ FR_SECURE cortexM4.build = true ∧ stkerrCpu.get .lr / 2^6 % 2 = 0) :=
  ⟨Fits_cortexM4, rfl, StatusOutside_cortexM4,
    (FaultRecord_fault_registers cortexM4 stkerrCpu Fits_cortexM4 rfl
      StatusOutside_cortexM4).1.1,
    (FaultRecord_fault_registers cortexM4 stkerrCpu Fits_cortexM4 rfl
      StatusOutside_cortexM4).2.1⟩

/-! ## The stack limit registers -/

/-- Memory after section "Armv8/8.1-M specific Registers" on an Armv8-M build:
MSPLIM and PSPLIM, or MSPLIM_NS and PSPLIM_NS if bit 0 of `r4` is set, stored
in `FaultInfo.armv8_m_registers`; nothing on a Secure Baseline build if bit 0
of `r4` is set. -/
theorem FaultRecord.armv8_m_registers_mem (t : Target) (u : Cpu) (hfit : Fits t) (b : Bool)
    (h4 : u.get .r4 % 2 = bit b) (hb : b = true → FR_SECURE t.build = true)
    (h8 : FR_ARCH_ARMV8x_M t.build = true) :
    (FaultRecord.armv8_m_registers t u).mem
      = if b = true ∧ FR_ARCH_ARMV8_M_BASE t.build = true then u.mem
        else write32 (write32 u.mem
          (t.FaultInfo_addr + (ofs_additonal_state_context t.build + 40))
            (if b then u.sys .msplim_ns else u.sys .msplim))
          (t.FaultInfo_addr + (ofs_additonal_state_context t.build + 44))
            (if b then u.sys .psplim_ns else u.sys .psplim) := by
  obtain ⟨l1, l2, l3, l4, l5, l6, l7, l8, l9⟩ := layout_cases t.build
  have hs := sizeof_FaultInfo_ge t.build
  unfold Fits at hfit
  rw [h8] at l4
  simp only [if_true] at l4
  simp only [Cpu.get, Nat.reducePow] at h4
  have hadd : ofs_additonal_state_context t.build ≤ 84 := by rw [l1]; split <;> omega
  have e0 : (t.FaultInfo_addr + (ofs_additonal_state_context t.build + 40)) % 4294967296
      = t.FaultInfo_addr + (ofs_additonal_state_context t.build + 40) := by
    split at l4 <;> omega
  have e1 : t.FaultInfo_addr + (ofs_additonal_state_context t.build + 40) + 4
      = t.FaultInfo_addr + (ofs_additonal_state_context t.build + 44) := by omega
  unfold FaultRecord.armv8_m_registers
  rw [l2]
  cases hsec : FR_SECURE t.build
  · have hbf : b = false := by
      cases b
      · rfl
      · rw [hb rfl] at hsec; cases hsec
    subst hbf
    simp only [h8, if_true, Bool.false_eq_true, if_false, false_and]
    simp only [ldr_const, stm2, mrs, lsrs, Cpu.get, Cpu.set, Cpu.setNZ, Cpu.sys,
      Nat.mod_mod, e0, e1, Nat.reducePow, Nat.reduceAdd, write32_mod, write32_add_mod,
      write32_val_mod, Nat.add_assoc]
  · simp only [h8, if_true]
    cases b
    · have hc : ¬ u.r4 % 4294967296 % 2 = 1 := by simp [bit] at h4; omega
      simp only [ldr_const, stm2, mrs, lsrs, Cpu.get, Cpu.set, Cpu.setNZ, Cpu.sys,
        Nat.mod_mod, e0, e1, Nat.reducePow, Nat.reduceAdd, write32_mod, write32_add_mod,
        write32_val_mod, Nat.pow_zero, Nat.div_one, Nat.sub_self, hc, decide_False,
        Bool.false_eq_true, if_false, if_true, false_and, Nat.add_assoc]
    · have hc : u.r4 % 4294967296 % 2 = 1 := by simpa [bit] using h4
      cases hbase : FR_ARCH_ARMV8_M_BASE t.build
      · simp only [ldr_const, stm2, mrs, lsrs, Cpu.get, Cpu.set, Cpu.setNZ, Cpu.sys,
          Nat.mod_mod, e0, e1, Nat.reducePow, Nat.reduceAdd, write32_mod, write32_add_mod,
          write32_val_mod, Nat.pow_zero, Nat.div_one, Nat.sub_self, hc, decide_True,
          Bool.true_eq_false, Bool.false_eq_true, if_false, if_true, and_false, Nat.add_assoc]
      · simp only [ldr_const, stm2, mrs, lsrs, Cpu.get, Cpu.set, Cpu.setNZ, Cpu.sys,
          Nat.mod_mod, e0, e1, Nat.reducePow, Nat.reduceAdd, write32_mod, write32_add_mod,
          write32_val_mod, Nat.pow_zero, Nat.div_one, Nat.sub_self, hc, decide_True,
          Bool.true_eq_false, Bool.false_eq_true, if_false, if_true, and_self]

/-- The words of `FaultInfo.armv8_m_registers` at the exit hook on an Armv8-M
build: zero if the branch `b splims_end` was taken, else the stack limits of
the world the alias flag selects. -/
theorem FaultRecord.final_armv8_m_words (t : Target) (s : Cpu) (hfit : Fits t)
    (h8 : FR_ARCH_ARMV8x_M t.build = true) :
    FaultInfo.armv8_m_registers t (FaultRecord t s).mem 0
      = (if limitsSkipped t s then 0
         else if usesNonSecureAlias t s then s.sys .msplim_ns else s.sys .msplim)
    ∧ FaultInfo.armv8_m_registers t (FaultRecord t s).mem 1
      = (if limitsSkipped t s then 0
         else if usesNonSecureAlias t s then s.sys .psplim_ns else s.sys .psplim) := by
  obtain ⟨l1, l2, l3, l4, l5, l6, l7, l8, l9⟩ := layout_cases t.build
  obtain ⟨-, ⟨r4, rlr, rsys⟩, -⟩ := FaultRecord.upto_regs t s
  obtain ⟨-, -, -, -, -, y6, y7, y8, y9⟩ := rsys
  have hfit' := hfit
  unfold Fits at hfit'
  rw [h8] at l4
  simp only [if_true] at l4
  have hadd : 60 ≤ ofs_additonal_state_context t.build
      ∧ ofs_additonal_state_context t.build ≤ 84 := by rw [l1]; split <;> omega
  have hsz : ofs_additonal_state_context t.build + 48 ≤ sizeof_FaultInfo t.build := by
    split at l4 <;> omega
  have hmem := FaultRecord.armv8_m_registers_mem t (FaultRecord.upto_armv8_m_registers t s) hfit
    (usesNonSecureAlias t s) (by rw [r4, (bit_mod_two _ _).1]) (usesNonSecureAlias_secure t s) h8
  have key : ∀ k, 40 ≤ k → k + 4 ≤ 48 →
      read32 (FaultRecord t s).mem (t.FaultInfo_addr + (ofs_additonal_state_context t.build + k))
        = read32 (FaultRecord.armv8_m_registers t (FaultRecord.upto_armv8_m_registers t s)).mem
            (t.FaultInfo_addr + (ofs_additonal_state_context t.build + k)) := by
    intro k hk hk'
    rw [FaultRecord.kept_final t s hfit _ (by omega) (by omega),
      FaultRecord.kept_fault_registers t _ hfit _ (by omega)
        (by simp only [ofs_fault_registers, ofs_common_registers, ofs_state_context, ofs_type,
              sizeof_FaultInfoType, sizeof_StateContext, sizeof_CommonRegisters]
            omega)
        (by intro _; rw [l3]; omega)]
    rfl
  have zero : ∀ k, 40 ≤ k → k + 4 ≤ 48 →
      read32 (FaultRecord.upto_armv8_m_registers t s).mem
        (t.FaultInfo_addr + (ofs_additonal_state_context t.build + k)) = 0 := by
    intro k hk hk'
    unfold FaultRecord.upto_armv8_m_registers
    rw [FaultRecord.kept_common_registers t _ hfit _ (by omega)
        (by simp only [ofs_common_registers, ofs_state_context, ofs_type, sizeof_FaultInfoType,
              sizeof_StateContext]; omega)]
    unfold FaultRecord.upto_common_registers
    rw [FaultRecord.kept_state_context t _ hfit _ (by omega)
        (by simp only [ofs_state_context, ofs_type, sizeof_FaultInfoType]; omega)
        (by intro _; omega),
      FaultRecord.upto_state_context_mem t s hfit _ (by omega) (by simp only [ofs_type]; omega)]
    exact read32_memset_inside _ _ _ _ (by omega)
  have w0 := (FaultInfo.word_addr t (FaultRecord t s).mem 0).2.2.2.2.1
  have w1 := (FaultInfo.word_addr t (FaultRecord t s).mem 1).2.2.2.2.1
  have k0 := key 40 (by omega) (by omega)
  have k1 := key 44 (by omega) (by omega)
  have z0 := zero 40 (by omega) (by omega)
  have z1 := zero 44 (by omega) (by omega)
  rw [show ofs_additonal_state_context t.build + 40 + 4 * 0
        = ofs_additonal_state_context t.build + 40 from rfl, k0, hmem] at w0
  rw [show ofs_additonal_state_context t.build + 40 + 4 * 1
        = ofs_additonal_state_context t.build + 44 from rfl, k1, hmem] at w1
  rw [w0, w1]
  have hsk : limitsSkipped t s = true
      ↔ (usesNonSecureAlias t s = true ∧ FR_ARCH_ARMV8_M_BASE t.build = true) := by
    unfold limitsSkipped
    constructor
    · intro h
      simp only [Bool.and_eq_true] at h
      exact ⟨h.2, h.1.2⟩
    · intro h
      simp only [Bool.and_eq_true]
      exact ⟨⟨usesNonSecureAlias_secure t s h.1, h.2⟩, h.1⟩
  by_cases hc : usesNonSecureAlias t s = true ∧ FR_ARCH_ARMV8_M_BASE t.build = true
  · rw [if_pos hc, if_pos (hsk.2 hc), if_pos (hsk.2 hc)]
    exact ⟨z0, z1⟩
  · have hns : ¬ limitsSkipped t s = true := fun h => hc (hsk.1 h)
    rw [if_neg hc, if_neg hns, if_neg hns]
    constructor
    · rw [read32_write32_disjoint _ _ _ _ (by omega) (by omega) (by omega),
        read32_write32_same]
      cases usesNonSecureAlias t s
      · simp only [Bool.false_eq_true, if_false, Cpu.sys, y6]
        exact Nat.mod_eq_of_lt (Nat.mod_lt _ (by norm_num))
      · simp only [if_true, Cpu.sys, y8]
        exact Nat.mod_eq_of_lt (Nat.mod_lt _ (by norm_num))
    · rw [read32_write32_same]
      cases usesNonSecureAlias t s
      · simp only [Bool.false_eq_true, if_false, Cpu.sys, y7]
        exact Nat.mod_eq_of_lt (Nat.mod_lt _ (by norm_num))
      · simp only [if_true, Cpu.sys, y9]
        exact Nat.mod_eq_of_lt (Nat.mod_lt _ (by norm_num))

/-- The record of a run has the `secure` flag of the build. -/
theorem FaultRecord.final_secure_flag (t : Target) (s : Cpu) (hfit : Fits t) :
    FaultInfo.type.secure t (FaultRecord t s).mem = bit (FR_SECURE t.build) := by
  have hw := FaultRecord_type_word t s hfit
  obtain ⟨-, -, r2⟩ := read8_of_read32 (FaultRecord t s).mem (t.FaultInfo_addr + ofs_type)
  rw [hw] at r2
  unfold FaultInfo.type.secure
  rw [r2]
  rcases t.build with _ | _ | _ | c | c | c <;> (try cases c) <;> decide

theorem clash_limit_labels (v8 main : Bool) :
    ∀ l ∈ ["   - MSPLIM:", "   - PSPLIM:"], ∀ a ∈ headsNotPc v8 main,
      clash l.data a.data = true := by
  cases v8 <;> cases main <;> decide

/-- On a trustworthy record every printed text comes from block "Print: Program
Counter, MSP, PSP" or starts with one of the texts of the other blocks. -/
theorem heads_not_pc (t : Target) (m : Mem) (h : Trustworthy t m) :
    ∀ x ∈ textOf (FaultRecordPrint t) m,
      x ∈ textOf (FaultRecordPrint.pc_msp_psp t true) m
      ∨ Heads (headsNotPc (FR_ARCH_ARMV8x_M t.build) (FR_ARCH_ARMV8x_M_MAIN t.build)) x := by
  intro x hx
  rw [textOf_valid_blocks t m h] at hx
  simp only [List.mem_cons, List.mem_append] at hx
  unfold headsNotPc headsBlocks
  rcases hx with rfl | (((((((hx | hx) | hx) | hx) | hx) | hx) | hx) | hx) | hx
  · right
    exact (heads_header t m).of_subset (by intro a ha; simp [ha])
  · right
    exact (heads_exception_handler t true m x hx).of_subset (by intro a ha; simp [ha])
  · right
    exact (heads_state t true m x hx).of_subset (by intro a ha; simp [ha])
  · right
    exact (heads_mode t true m x hx).of_subset (by intro a ha; simp [ha])
  · right
    exact (heads_faults t true m x hx).of_subset (by intro a ha; simp [ha])
  · left
    exact hx
  · right
    exact (heads_state_context_r0_r3 t true _ m x hx).of_subset (by intro a ha; simp [ha])
  · right
    exact (heads_additional_state_context t true _ m x hx).of_subset
      (by intro a ha; simp [ha])
  · right
    exact (heads_state_context_r12_xpsr t true _ m x hx).of_subset (by intro a ha; simp [ha])
  · right
    exact (heads_fault_registers t true m x hx).of_subset (by intro a ha; simp [ha])

theorem heads_pcText (t : Target) (m : Mem) :
    ∀ x ∈ pcText t m, Heads ["   - PC:             ", "0x", "unknown\n"] x := by
  intro x hx
  unfold pcText at hx
  split at hx
  · simp only [List.mem_cons, List.mem_singleton, List.not_mem_nil, or_false] at hx
    rcases hx with rfl | rfl
    · exact Heads.lit (by decide)
    · split
      · exact Heads.append2 (by decide) _ _
      · exact Heads.lit (by decide)
  · simp only [List.mem_singleton] at hx
    subst hx
    exact Heads.fmt_line (by decide) _

/-- On a trustworthy record a text that starts with the MSPLIM or the PSPLIM
label is the stack limit line of block "Print: Program Counter, MSP, PSP". -/
theorem limit_lines_only (t : Target) (m : Mem) (h : Trustworthy t m) :
    ∀ x ∈ textOf (FaultRecordPrint t) m,
      (StartsWith "   - MSPLIM:" x → x ∈ limLine t m "   - MSPLIM:         " 0)
      ∧ (StartsWith "   - PSPLIM:" x → x ∈ limLine t m "   - PSPLIM:         " 1) := by
  intro x hx
  rcases heads_not_pc t m h x hx with hp | hh
  · rw [textOf_pc_msp_psp] at hp
    simp only [List.mem_cons, List.mem_append, List.mem_singleton, List.not_mem_nil,
      or_false] at hp
    rcases hp with rfl | hp | rfl | hp | rfl | hp | rfl
    · exact ⟨fun hs => absurd hs ((Heads.lit (List.mem_singleton_self "\n")).not_startsWith _
          (by decide)),
        fun hs => absurd hs ((Heads.lit (List.mem_singleton_self "\n")).not_startsWith _
          (by decide))⟩
    · exact ⟨fun hs => absurd hs ((heads_pcText t m x hp).not_startsWith _ (by decide)),
        fun hs => absurd hs ((heads_pcText t m x hp).not_startsWith _ (by decide))⟩
    · exact ⟨fun hs => absurd hs ((Heads.fmt_line
          (List.mem_singleton_self "   - MSP:            ") _).not_startsWith _ (by decide)),
        fun hs => absurd hs ((Heads.fmt_line
          (List.mem_singleton_self "   - MSP:            ") _).not_startsWith _ (by decide))⟩
    · exact ⟨fun _ => hp,
        fun hs => absurd hs ((heads_limLine t m _ 0 _
          (List.mem_singleton_self "   - MSPLIM:         ") x hp).not_startsWith _ (by decide))⟩
    · exact ⟨fun hs => absurd hs ((Heads.fmt_line
          (List.mem_singleton_self "   - PSP:            ") _).not_startsWith _ (by decide)),
        fun hs => absurd hs ((Heads.fmt_line
          (List.mem_singleton_self "   - PSP:            ") _).not_startsWith _ (by decide))⟩
    · exact ⟨fun hs => absurd hs ((heads_limLine t m _ 1 _
          (List.mem_singleton_self "   - PSPLIM:         ") x hp).not_startsWith _ (by decide)),
        fun _ => hp⟩
    · exact ⟨fun hs => absurd hs ((Heads.lit (List.mem_singleton_self "\n")).not_startsWith _
          (by decide)),
        fun hs => absurd hs ((Heads.lit (List.mem_singleton_self "\n")).not_startsWith _
          (by decide))⟩
  · exact ⟨fun hs => absurd hs (hh.not_startsWith _
        (clash_limit_labels _ _ _ (by decide))),
      fun hs => absurd hs (hh.not_startsWith _ (clash_limit_labels _ _ _ (by decide)))⟩

/-- A stack limit line of the printer on an Armv8-M build is printed only if the
build is not Baseline or the stored EXC_RETURN has the bit `EXC_RETURN_S`. -/
theorem limLine_cases (t : Target) (m : Mem) (label : String) (i : Nat)
    (h8 : FR_ARCH_ARMV8x_M t.build = true) (x : String) (hx : x ∈ limLine t m label i) :
    x = fmt_line label (FaultInfo.armv8_m_registers t m i)
    ∧ (FR_ARCH_ARMV8_M_BASE t.build = true →
        FaultInfo.common_registers t m 1 &&& t.EXC_RETURN_S ≠ 0) := by
  unfold limLine at hx
  rw [h8] at hx
  simp only [if_true] at hx
  split at hx
  · split at hx
    · rename_i hc
      exact ⟨List.mem_singleton.1 hx, fun _ => hc⟩
    · cases hx
  · rename_i hb
    exact ⟨List.mem_singleton.1 hx, fun h => absurd h hb⟩

theorem Fits_cortexM33s : Fits cortexM33s := by
  unfold Fits; decide

/-! ## The world, state and mode lines -/

theorem heads_exceptionNameSpec (n : Nat) : Heads headsExceptionName (exceptionNameSpec n) := by
  unfold exceptionNameSpec
  repeat' split
  all_goals first
    | exact Heads.lit (by decide)
    | exact Heads.append1 (by decide) _

theorem not_prefix_world_state_mode (v8 main : Bool) :
    ∀ l ∈ ["Secure - ", "Non-Secure - ", "Secure", "Non-Secure", "Thread", "Handler"],
      ∀ a ∈ headsHeader ++ headsExceptionName
          ++ ["  Exception Handler: ", "  State:             ", "  Mode:              ", "\n"]
          ++ headsAfterMode v8 main,
        ¬ a.data <+: l.data := by
  cases v8 <;> cases main <;> decide

/-- On a trustworthy record the output is the header, the exception handler
line, the state line, the mode line and then texts of the later blocks. -/
theorem text_after_mode (t : Target) (m : Mem) (h : Trustworthy t m) :
    ∃ rest, textOf (FaultRecordPrint t) m
        = headerText t m :: ("  Exception Handler: " :: (worldTextSpec t m
            ++ [exceptionNameSpec (FaultInfo.common_registers t m 0 &&& t.IPSR_ISR_Msk), "\n"]))
          ++ stateTextSpec t m ++ modeTextSpec t m ++ rest
      ∧ ∀ x ∈ rest,
          Heads (headsAfterMode (FR_ARCH_ARMV8x_M t.build) (FR_ARCH_ARMV8x_M_MAIN t.build)) x := by
  refine ⟨textOf (FaultRecordPrint.faults t true) m
        ++ textOf (FaultRecordPrint.pc_msp_psp t true) m
        ++ textOf (FaultRecordPrint.state_context_r0_r3 t true
            (FaultRecordPrint.state_context_valid t ⟨m, []⟩)) m
        ++ textOf (FaultRecordPrint.additional_state_context t true
            (FaultRecordPrint.state_context_valid t ⟨m, []⟩)) m
        ++ textOf (FaultRecordPrint.state_context_r12_xpsr t true
            (FaultRecordPrint.state_context_valid t ⟨m, []⟩)) m
        ++ textOf (FaultRecordPrint.fault_registers t true) m, ?_, ?_⟩
  · rw [textOf_valid_blocks t m h, textOf_exception_handler, textOf_state, textOf_mode]
    simp only [List.cons_append, List.append_assoc, List.nil_append]
  · intro x hx
    simp only [List.mem_append] at hx
    unfold headsAfterMode
    rcases hx with ((((hx | hx) | hx) | hx) | hx) | hx
    · exact (heads_faults t true m x hx).of_subset (by intro a ha; simp [ha])
    · exact (heads_pc_msp_psp t true m x hx).of_subset (by intro a ha; simp [ha])
    · exact (heads_state_context_r0_r3 t true _ m x hx).of_subset (by intro a ha; simp [ha])
    · exact (heads_additional_state_context t true _ m x hx).of_subset
        (by intro a ha; simp [ha])
    · exact (heads_state_context_r12_xpsr t true _ m x hx).of_subset (by intro a ha; simp [ha])
    · exact (heads_fault_registers t true m x hx).of_subset (by intro a ha; simp [ha])

/-- The state line on an Armv8-M build whose `EXC_RETURN_S` is bit 6. -/
theorem stateTextSpec_bit (t : Target) (m : Mem) (h8 : FR_ARCH_ARMV8x_M t.build = true)
    (hS : t.EXC_RETURN_S = 2^6) :
    stateTextSpec t m
      = ["  State:             ",
          if FaultInfo.common_registers t m 1 / 2^6 % 2 = 1 then "Secure" else "Non-Secure",
          "\n"] := by
  unfold stateTextSpec
  rw [h8, hS]
  simp only [if_true]
  by_cases hb : FaultInfo.common_registers t m 1 / 2^6 % 2 = 1
  · rw [if_pos hb, if_pos (fun h0 => (and_two_pow_eq_zero_iff _ _).1 h0 hb)]
  · rw [if_neg hb, if_neg (fun hn => hn ((and_two_pow_eq_zero_iff _ _).2 hb))]

/-- On a trustworthy record of an Armv8-M build the texts that name the world,
the state and the mode occur in the output only as the second text of the
exception handler line, of the state line and of the mode line. -/
theorem mem_world_state_mode (t : Target) (m : Mem) (h8 : FR_ARCH_ARMV8x_M t.build = true)
    (hS : t.EXC_RETURN_S = 2^6) (h : Trustworthy t m) :
    ∀ l ∈ ["Secure - ", "Non-Secure - ", "Secure", "Non-Secure", "Thread", "Handler"],
      (l ∈ textOf (FaultRecordPrint t) m
        ↔ l = (if FaultInfo.type.secure t m ≠ 0 then "Secure - " else "Non-Secure - ")
          ∨ l = (if FaultInfo.common_registers t m 1 / 2^6 % 2 = 1 then "Secure"
                 else "Non-Secure")
          ∨ l = (if FaultInfo.common_registers t m 1 / 2^2 % 2 = 1 then "Thread"
                 else "Handler")) := by
  intro l hl
  obtain ⟨rest, e, hrest⟩ := text_after_mode t m h
  have hno := not_prefix_world_state_mode (FR_ARCH_ARMV8x_M t.build)
    (FR_ARCH_ARMV8x_M_MAIN t.build) l hl
  rw [e, stateTextSpec_bit t m h8 hS]
  unfold worldTextSpec modeTextSpec
  rw [h8]
  simp only [if_true, List.cons_append, List.nil_append, List.mem_cons, List.mem_append,
    List.mem_singleton, List.not_mem_nil, or_false]
  constructor
  · intro hx
    rcases hx with hx | hx | hx | hx | hx | hx | hx | hx | hx | hx | hx | hx
    · exact absurd hx.symm ((heads_header t m).ne l
        (fun a ha => hno a (by simp [ha])))
    · exact absurd hx.symm ((Heads.lit (List.mem_singleton_self _)).ne l
        (fun a ha => hno a (by simp [List.mem_singleton.1 ha])))
    · exact Or.inl hx
    · exact absurd hx.symm ((heads_exceptionNameSpec _).ne l
        (fun a ha => hno a (by simp [ha])))
    · exact absurd hx.symm ((Heads.lit (List.mem_singleton_self _)).ne l
        (fun a ha => hno a (by simp [List.mem_singleton.1 ha])))
    · exact absurd hx.symm ((Heads.lit (List.mem_singleton_self _)).ne l
        (fun a ha => hno a (by simp [List.mem_singleton.1 ha])))
    · exact Or.inr (Or.inl hx)
    · exact absurd hx.symm ((Heads.lit (List.mem_singleton_self _)).ne l
        (fun a ha => hno a (by simp [List.mem_singleton.1 ha])))
    · exact absurd hx.symm ((Heads.lit (List.mem_singleton_self _)).ne l
        (fun a ha => hno a (by simp [List.mem_singleton.1 ha])))
    · exact Or.inr (Or.inr hx)
    · exact absurd hx.symm ((Heads.lit (List.mem_singleton_self _)).ne l
        (fun a ha => hno a (by simp [List.mem_singleton.1 ha])))
    · exact absurd rfl ((hrest l hx).ne l (fun a ha => hno a (by simp [ha])))
  · intro hx
    rcases hx with hx | hx | hx
    · exact Or.inr (Or.inr (Or.inl hx))
    · exact Or.inr (Or.inr (Or.inr (Or.inr (Or.inr (Or.inr (Or.inl hx))))))
    · exact Or.inr (Or.inr (Or.inr (Or.inr (Or.inr (Or.inr (Or.inr (Or.inr (Or.inr
        (Or.inl hx)))))))))

/-- Which of the six texts that name the world, the state and the mode is one
of three chosen texts. -/
theorem world_state_mode_choice (P Q R : Prop) [Decidable P] [Decidable Q] [Decidable R] :
    (("Secure - " = (if P then "Secure - " else "Non-Secure - ")
        ∨ "Secure - " = (if Q then "Secure" else "Non-Secure")
        ∨ "Secure - " = (if R then "Thread" else "Handler")) ↔ P)
    ∧ (("Non-Secure - " = (if P then "Secure - " else "Non-Secure - ")
        ∨ "Non-Secure - " = (if Q then "Secure" else "Non-Secure")
        ∨ "Non-Secure - " = (if R then "Thread" else "Handler")) ↔ ¬ P)
    ∧ (("Secure" = (if P then "Secure - " else "Non-Secure - ")
        ∨ "Secure" = (if Q then "Secure" else "Non-Secure")
        ∨ "Secure" = (if R then "Thread" else "Handler")) ↔ Q)
    ∧ (("Non-Secure" = (if P then "Secure - " else "Non-Secure - ")
        ∨ "Non-Secure" = (if Q then "Secure" else "Non-Secure")
        ∨ "Non-Secure" = (if R then "Thread" else "Handler")) ↔ ¬ Q)
    ∧ (("Thread" = (if P then "Secure - " else "Non-Secure - ")
        ∨ "Thread" = (if Q then "Secure" else "Non-Secure")
        ∨ "Thread" = (if R then "Thread" else "Handler")) ↔ R)
    ∧ (("Handler" = (if P then "Secure - " else "Non-Secure - ")
        ∨ "Handler" = (if Q then "Secure" else "Non-Secure")
        ∨ "Handler" = (if R then "Thread" else "Handler")) ↔ ¬ R) := by
  by_cases hp : P <;> by_cases hq : Q <;> by_cases hr : R <;> simp [hp, hq, hr]

/-- C28: on an Armv8-M build (with `EXC_RETURN_S` bit 6), for every trustworthy
record the output starts with the header, the exception handler line whose
second text is "Secure - " if the `secure` flag of the record is set and
"Non-Secure - " if not, the state line with "Secure" if bit 6 of the stored
EXC_RETURN is set and "Non-Secure" if not, and the mode line with "Thread" if
bit 2 of the stored EXC_RETURN is set and "Handler" if not; each of these six
texts occurs in the whole output exactly in that case. For the record of a run
of `FaultRecord` the stored EXC_RETURN is the link register of the entry, the
`secure` flag is the one of the build, and bit 2 is the bit by which the
routine loads the process stack pointer instead of the main one into `r3`
before it reads the frame. -/
theorem FaultRecordPrint_world_state_mode (t : Target) (m : Mem)
    (h8 : FR_ARCH_ARMV8x_M t.build = true) (hS : t.EXC_RETURN_S = 2^6)
    (h : Trustworthy t m) :
    (∃ rest, textOf (FaultRecordPrint t) m
        = headerText t m :: "  Exception Handler: "
          :: (if FaultInfo.type.secure t m ≠ 0 then "Secure - " else "Non-Secure - ")
          :: exceptionNameSpec (FaultInfo.common_registers t m 0 &&& t.IPSR_ISR_Msk) :: "\n"
          :: "  State:             "
          :: (if FaultInfo.common_registers t m 1 / 2^6 % 2 = 1 then "Secure" else "Non-Secure")
          :: "\n"
          :: "  Mode:              "
          :: (if FaultInfo.common_registers t m 1 / 2^2 % 2 = 1 then "Thread" else "Handler")
          :: "\n" :: rest)
    ∧ ("Secure - " ∈ textOf (FaultRecordPrint t) m ↔ FaultInfo.type.secure t m ≠ 0)
    ∧ ("Non-Secure - " ∈ textOf (FaultRecordPrint t) m ↔ FaultInfo.type.secure t m = 0)
    ∧ ("Secure" ∈ textOf (FaultRecordPrint t) m
        ↔ FaultInfo.common_registers t m 1 / 2^6 % 2 = 1)
    ∧ ("Non-Secure" ∈ textOf (FaultRecordPrint t) m
        ↔ FaultInfo.common_registers t m 1 / 2^6 % 2 = 0)
    ∧ ("Thread" ∈ textOf (FaultRecordPrint t) m
        ↔ FaultInfo.common_registers t m 1 / 2^2 % 2 = 1)
    ∧ ("Handler" ∈ textOf (FaultRecordPrint t) m
        ↔ FaultInfo.common_registers t m 1 / 2^2 % 2 = 0)
    ∧ (∀ s, Fits t →
        FaultInfo.common_registers t (FaultRecord t s).mem 1 = s.get .lr
        ∧ (FaultInfo.type.secure t (FaultRecord t s).mem ≠ 0 ↔ FR_SECURE t.build = true)
        ∧ (FaultRecord.upto_state_context t s).get .r3
            = (if FaultInfo.common_registers t (FaultRecord t s).mem 1 / 2^2 % 2 = 1 then
                (if usesNonSecureAlias t s then s.sys .psp_ns else s.sys .psp)
              else (if usesNonSecureAlias t s then s.sys .msp_ns else s.sys .msp))
        ∧ ("Thread" ∈ textOf (FaultRecordPrint t) (FaultRecord t s).mem
            ↔ s.get .lr / 2^2 % 2 = 1)) := by
  have hmem := mem_world_state_mode t m h8 hS h
  have h6 : FaultInfo.common_registers t m 1 / 2^6 % 2 = 0
      ↔ ¬ FaultInfo.common_registers t m 1 / 2^6 % 2 = 1 := by omega
  have h2 : FaultInfo.common_registers t m 1 / 2^2 % 2 = 0
      ↔ ¬ FaultInfo.common_registers t m 1 / 2^2 % 2 = 1 := by omega
  refine ⟨?_, ?_, ?_, ?_, ?_, ?_, ?_, ?_⟩
  · obtain ⟨rest, e, -⟩ := text_after_mode t m h
    refine ⟨rest, ?_⟩
    rw [e, stateTextSpec_bit t m h8 hS]
    unfold worldTextSpec modeTextSpec
    rw [h8]
    simp only [if_true, List.cons_append, List.nil_append]
  · rw [hmem "Secure - " (by decide)]
    exact (world_state_mode_choice _ _ _).1
  · rw [hmem "Non-Secure - " (by decide)]
    exact (world_state_mode_choice _ _ _).2.1.trans not_not
  · rw [hmem "Secure" (by decide)]
    exact (world_state_mode_choice _ _ _).2.2.1
  · rw [hmem "Non-Secure" (by decide), h6]
    exact (world_state_mode_choice _ _ _).2.2.2.1
  · rw [hmem "Thread" (by decide)]
    exact (world_state_mode_choice _ _ _).2.2.2.2.1
  · rw [hmem "Handler" (by decide), h2]
    exact (world_state_mode_choice _ _ _).2.2.2.2.2
  · intro s hfit
    obtain ⟨-, c1, -, -⟩ := FaultRecord.final_common_words t s hfit
    obtain ⟨r3, -⟩ := FaultRecord.upto_state_context_spec t s
    have hT := mem_world_state_mode t (FaultRecord t s).mem h8 hS
      (FaultRecord_trustworthy t s hfit) "Thread" (by decide)
    refine ⟨c1, ?_, ?_, ?_⟩
    · rw [FaultRecord.final_secure_flag t s hfit]
      cases FR_SECURE t.build <;> simp [bit]
    · rw [r3, c1]
      rfl
    · rw [hT, c1]
      exact (world_state_mode_choice _ _ _).2.2.2.2.1

theorem FaultRecordPrint_world_state_mode_witness :
    FR_ARCH_ARMV8x_M cortexM33s.build = true ∧ cortexM33s.EXC_RETURN_S = 2^6
    ∧ Trustworthy cortexM33s (stamp cortexM33s zeroMem)
    ∧ ("Handler" ∈ textOf (FaultRecordPrint cortexM33s) (stamp cortexM33s zeroMem)
        ↔ FaultInfo.common_registers cortexM33s (stamp cortexM33s zeroMem) 1 / 2^2 % 2 = 0)
    ∧ ("Secure - " ∈ textOf (FaultRecordPrint cortexM33s) (stamp cortexM33s zeroMem)
        ↔ FaultInfo.type.secure cortexM33s (stamp cortexM33s zeroMem) ≠ 0) :=
  ⟨rfl, rfl, stamp_trustworthy cortexM33s zeroMem Fits_cortexM33s,
    (FaultRecordPrint_world_state_mode cortexM33s (stamp cortexM33s zeroMem) rfl rfl
      (stamp_trustworthy cortexM33s zeroMem Fits_cortexM33s)).2.2.2.2.2.2.1,
    (FaultRecordPrint_world_state_mode cortexM33s (stamp cortexM33s zeroMem) rfl rfl
      (stamp_trustworthy cortexM33s zeroMem Fits_cortexM33s)).2.1⟩

/-! ## The copy of the frame -/

theorem ldr_const_r2_spec (c : Nat) (v : Cpu) :
    (ldr_const .r2 c v).get .r2 = c % 2^32 ∧ (ldr_const .r2 c v).get .r3 = v.get .r3
    ∧ (ldr_const .r2 c v).mem = v.mem := by
  simp [ldr_const, Cpu.get, Cpu.set]

/-- Four `ldm`/`stm` pairs after `ldr r2, =FaultInfo_state_ctx_addr` copy eight
words from the place `r3` points to into `FaultInfo.state_context`. -/
theorem FaultRecord.copy_basic (t : Target) (v : Cpu) (hfit : Fits t) (p : Nat)
    (hv : v.get .r3 = p) (hp : p + 32 ≤ 2^32)
    (hsep : p + 32 ≤ t.FaultInfo_addr ∨ t.FaultInfo_addr + sizeof_FaultInfo t.build ≤ p) :
    Writes (inField (t.FaultInfo_addr + 12) 32) v
      (FaultRecord.copy2^[4] (ldr_const .r2 (t.FaultInfo_addr + ofs_state_context) v))
    ∧ ∀ j, j < 8 →
      read32 (FaultRecord.copy2^[4]
        (ldr_const .r2 (t.FaultInfo_addr + ofs_state_context) v)).mem
          (t.FaultInfo_addr + (12 + 4 * j)) = read32 v.mem (p + 4 * j) := by
  have hs := sizeof_FaultInfo_ge t.build
  unfold Fits at hfit
  obtain ⟨q2, q3, qm⟩ := ldr_const_r2_spec (t.FaultInfo_addr + ofs_state_context) v
  have a2 : (t.FaultInfo_addr + ofs_state_context) % 2^32 = t.FaultInfo_addr + 12 := by
    simp only [ofs_state_context, ofs_type, sizeof_FaultInfoType]
    omega
  rw [a2] at q2
  rw [hv] at q3
  obtain ⟨W, -, -, -, -, -, val⟩ := FaultRecord.copy2_iter 4
    (ldr_const .r2 (t.FaultInfo_addr + ofs_state_context) v) (t.FaultInfo_addr + 12) p q2 q3
    (by omega)
  constructor
  · refine Writes.trans (Writes.of_silent _ ?_ ?_) W
    · simp [ldr_const, Cpu.set]
    · simp [ldr_const, Cpu.set]
  · intro j hj
    rw [show t.FaultInfo_addr + (12 + 4 * j) = t.FaultInfo_addr + 12 + 4 * j by omega,
      val (by omega) (by omega) j (by omega), qm]

/-- Five `ldm`/`stm` pairs after `ldr r2, =FaultInfo_additonal_ctx_addr` copy ten
words from the place `r3` points to into `FaultInfo.additonal_state_context`
and advance `r3` by 40. -/
theorem FaultRecord.copy_additional (t : Target) (v : Cpu) (hfit : Fits t) (p : Nat)
    (h8 : FR_ARCH_ARMV8x_M t.build = true)
    (hv : v.get .r3 = p) (hp : p + 40 < 2^32)
    (hsep : p + 40 ≤ t.FaultInfo_addr ∨ t.FaultInfo_addr + sizeof_FaultInfo t.build ≤ p) :
    Writes (inField (t.FaultInfo_addr + ofs_additonal_state_context t.build) 40) v
      (FaultRecord.copy2^[5]
        (ldr_const .r2 (t.FaultInfo_addr + ofs_additonal_state_context t.build) v))
    ∧ (FaultRecord.copy2^[5]
        (ldr_const .r2 (t.FaultInfo_addr + ofs_additonal_state_context t.build) v)).get .r3
          = p + 40
    ∧ ∀ j, j < 10 →
      read32 (FaultRecord.copy2^[5]
        (ldr_const .r2 (t.FaultInfo_addr + ofs_additonal_state_context t.build) v)).mem
          (t.FaultInfo_addr + (ofs_additonal_state_context t.build + 4 * j))
        = read32 v.mem (p + 4 * j) := by
  obtain ⟨l1, l2, l3, l4, l5, l6, l7, l8, l9⟩ := layout_cases t.build
  unfold Fits at hfit
  rw [h8] at l4
  simp only [if_true] at l4
  have hadd : 60 ≤ ofs_additonal_state_context t.build
      ∧ ofs_additonal_state_context t.build ≤ 84 := by rw [l1]; split <;> omega
  have hsz : ofs_additonal_state_context t.build + 48 ≤ sizeof_FaultInfo t.build := by
    split at l4 <;> omega
  clear l1 l2 l3 l4 l5 l6 l7 l8 l9
  obtain ⟨q2, q3, qm⟩ := ldr_const_r2_spec
    (t.FaultInfo_addr + ofs_additonal_state_context t.build) v
  rw [Nat.mod_eq_of_lt (by omega)] at q2
  rw [hv] at q3
  obtain ⟨W, -, i3, -, -, -, val⟩ := FaultRecord.copy2_iter 5
    (ldr_const .r2 (t.FaultInfo_addr + ofs_additonal_state_context t.build) v)
    (t.FaultInfo_addr + ofs_additonal_state_context t.build) p q2 q3 (by omega)
  refine ⟨?_, ?_, ?_⟩
  · refine Writes.trans (Writes.of_silent _ ?_ ?_) W
    · simp [ldr_const, Cpu.set]
    · simp [ldr_const, Cpu.set]
  · rw [i3]; omega
  · intro j hj
    rw [show t.FaultInfo_addr + (ofs_additonal_state_context t.build + 4 * j)
        = t.FaultInfo_addr + ofs_additonal_state_context t.build + 4 * j by omega,
      val (by omega) (by omega) j (by omega), qm]

/-- With bit 1 of `r4` clear, section "State Context" copies from the place `r3`
points to: on an Armv8-M build with bit 5 (DCRS) of EXC_RETURN clear, ten words
into `FaultInfo.additonal_state_context` and the next eight into
`FaultInfo.state_context`. -/
theorem FaultRecord.state_context_both (t : Target) (u : Cpu) (hfit : Fits t) (p : Nat)
    (h4 : u.get .r4 / 2 % 2 = 0) (h3 : u.get .r3 = p)
    (h8 : FR_ARCH_ARMV8x_M t.build = true) (hd : u.get .lr / 2^5 % 2 = 0)
    (hp : p + 72 ≤ 2^32)
    (hsep : p + 72 ≤ t.FaultInfo_addr ∨ t.FaultInfo_addr + sizeof_FaultInfo t.build ≤ p) :
    (∀ j, j < 10 → read32 (FaultRecord.state_context t u).mem
        (t.FaultInfo_addr + (ofs_additonal_state_context t.build + 4 * j))
          = read32 u.mem (p + 4 * j))
    ∧ (∀ j, j < 8 → read32 (FaultRecord.state_context t u).mem
        (t.FaultInfo_addr + (12 + 4 * j)) = read32 u.mem (p + 4 * (10 + j))) := by
  obtain ⟨l1, l2, l3, l4, l5, l6, l7, l8, l9⟩ := layout_cases t.build
  have hfit' := hfit
  unfold Fits at hfit'
  rw [h8] at l4
  simp only [if_true] at l4
  have hadd : 60 ≤ ofs_additonal_state_context t.build
      ∧ ofs_additonal_state_context t.build ≤ 84 := by rw [l1]; split <;> omega
  have hsz : ofs_additonal_state_context t.build + 48 ≤ sizeof_FaultInfo t.build := by
    split at l4 <;> omega
  clear l1 l2 l3 l4 l5 l6 l7 l8 l9
  have hc1 : (lsrs .r0 .r4 2 u).c = false := by
    simp [lsrs, Cpu.set, Cpu.setNZ, h4]
  have hd' := hd
  simp only [Cpu.get, Nat.reducePow] at hd'
  have hc2 : (lsrs .r0 .r0 6 (mov .r0 .lr (lsrs .r0 .r4 2 u))).c = false := by
    simp [lsrs, mov, Cpu.get, Cpu.set, Cpu.setNZ, hd']
  have e : FaultRecord.state_context t u
      = FaultRecord.copy2^[4] (ldr_const .r2 (t.FaultInfo_addr + ofs_state_context)
          (FaultRecord.copy2^[5]
            (ldr_const .r2 (t.FaultInfo_addr + ofs_additonal_state_context t.build)
              (lsrs .r0 .r0 6 (mov .r0 .lr (lsrs .r0 .r4 2 u)))))) := by
    unfold FaultRecord.state_context
    simp only [hc1, hc2, h8, Bool.false_eq_true, if_false, if_true]
    rfl
  have hu3 : (lsrs .r0 .r0 6 (mov .r0 .lr (lsrs .r0 .r4 2 u))).get .r3 = p := by
    rw [← h3]
    simp [lsrs, mov, Cpu.get, Cpu.set, Cpu.setNZ]
  have hum : (lsrs .r0 .r0 6 (mov .r0 .lr (lsrs .r0 .r4 2 u))).mem = u.mem := by
    simp [lsrs, mov, Cpu.set, Cpu.setNZ]
  rw [e, ← hum]
  clear e hc1 hc2 hd hd' h4 h3
  generalize lsrs .r0 .r0 6 (mov .r0 .lr (lsrs .r0 .r4 2 u)) = v at hu3 hum ⊢
  obtain ⟨W1, i3, val1⟩ := FaultRecord.copy_additional t v hfit p h8 hu3 (by omega) (by omega)
  obtain ⟨W2, val2⟩ := FaultRecord.copy_basic t
    (FaultRecord.copy2^[5]
      (ldr_const .r2 (t.FaultInfo_addr + ofs_additonal_state_context t.build) v))
    hfit (p + 40) i3 (by omega) (by omega)
  constructor
  · intro j hj
    rw [W2.read32_of_sep (t.FaultInfo_addr + (ofs_additonal_state_context t.build + 4 * j))
        (by omega) (by
          intro a ha
          unfold inField at ha
          omega),
      val1 j hj]
  · intro j hj
    rw [val2 j hj,
      W1.read32_of_sep (p + 40 + 4 * j) (by omega) (by
          intro a ha
          unfold inField at ha
          omega)]
    congr 1
    omega

/-- With bit 1 of `r4` clear, section "State Context" copies eight words from
the place `r3` points to into `FaultInfo.state_context` and nothing else, unless
the build is Armv8-M and bit 5 (DCRS) of EXC_RETURN is clear. -/
theorem FaultRecord.state_context_basic_words (t : Target) (u : Cpu) (hfit : Fits t) (p : Nat)
    (h4 : u.get .r4 / 2 % 2 = 0) (h3 : u.get .r3 = p)
    (hd : FR_ARCH_ARMV8x_M t.build = true → u.get .lr / 2^5 % 2 = 1)
    (hp : p + 32 ≤ 2^32)
    (hsep : p + 32 ≤ t.FaultInfo_addr ∨ t.FaultInfo_addr + sizeof_FaultInfo t.build ≤ p) :
    ∀ j, j < 8 → read32 (FaultRecord.state_context t u).mem
        (t.FaultInfo_addr + (12 + 4 * j)) = read32 u.mem (p + 4 * j) := by
  have hc1 : (lsrs .r0 .r4 2 u).c = false := by
    simp [lsrs, Cpu.set, Cpu.setNZ, h4]
  have e : FaultRecord.state_context t u
      = FaultRecord.copy2^[4] (ldr_const .r2 (t.FaultInfo_addr + ofs_state_context)
          (if FR_ARCH_ARMV8x_M t.build = true then
            lsrs .r0 .r0 6 (mov .r0 .lr (lsrs .r0 .r4 2 u))
           else lsrs .r0 .r4 2 u)) := by
    unfold FaultRecord.state_context
    simp only [hc1, Bool.false_eq_true, if_false]
    split
    · rename_i h8
      have hd' := hd h8
      simp only [Cpu.get, Nat.reducePow] at hd'
      have hc2 : (lsrs .r0 .r0 6 (mov .r0 .lr (lsrs .r0 .r4 2 u))).c = true := by
        simp [lsrs, mov, Cpu.get, Cpu.set, Cpu.setNZ, hd']
      rw [if_pos hc2]
      rfl
    · rfl
  have hu3 : (if FR_ARCH_ARMV8x_M t.build = true then
            lsrs .r0 .r0 6 (mov .r0 .lr (lsrs .r0 .r4 2 u))
           else lsrs .r0 .r4 2 u).get .r3 = p := by
    rw [← h3]
    split <;> simp [lsrs, mov, Cpu.get, Cpu.set, Cpu.setNZ]
  have hum : (if FR_ARCH_ARMV8x_M t.build = true then
            lsrs .r0 .r0 6 (mov .r0 .lr (lsrs .r0 .r4 2 u))
           else lsrs .r0 .r4 2 u).mem = u.mem := by
    split <;> simp [lsrs, mov, Cpu.set, Cpu.setNZ]
  rw [e, ← hum]
  exact (FaultRecord.copy_basic t _ hfit p hu3 hp hsep).2

theorem FaultRecord.fault_registers_absent (t : Target) (u : Cpu)
    (hf : FR_FAULT_REGS_EXIST t.build = false) : FaultRecord.fault_registers t u = u := by
  unfold FaultRecord.fault_registers
  rw [hf]
  rfl

/-- A word of `FaultInfo.state_context` or `FaultInfo.additonal_state_context`
is at the exit hook what section "State Context" left there. -/
theorem FaultRecord.final_context_words (t : Target) (s : Cpu) (hfit : Fits t) (k : Nat)
    (hk : (12 ≤ k ∧ k + 4 ≤ 44)
      ∨ (FR_ARCH_ARMV8x_M t.build = true ∧ ofs_additonal_state_context t.build ≤ k
          ∧ k + 4 ≤ ofs_additonal_state_context t.build + 40)) :
    read32 (FaultRecord t s).mem (t.FaultInfo_addr + k)
      = read32 (FaultRecord.upto_common_registers t s).mem (t.FaultInfo_addr + k) := by
  obtain ⟨l1, l2, l3, l4, l5, l6, l7, l8, l9⟩ := layout_cases t.build
  have hs := sizeof_FaultInfo_ge t.build
  have hfit' := hfit
  unfold Fits at hfit'
  have hadd : 60 ≤ ofs_additonal_state_context t.build
      ∧ ofs_additonal_state_context t.build ≤ 84 := by rw [l1]; split <;> omega
  have hsz : FR_ARCH_ARMV8x_M t.build = true →
      ofs_additonal_state_context t.build + 48 ≤ sizeof_FaultInfo t.build := by
    intro h8
    rw [h8] at l4
    simp only [if_true] at l4
    split at l4 <;> omega
  have hk8 : 8 ≤ k ∧ k + 4 ≤ sizeof_FaultInfo t.build := by
    rcases hk with hk | ⟨h8, hk⟩
    · omega
    · have := hsz h8
      omega
  have e1 : read32 (FaultRecord.fault_registers t (FaultRecord.upto_fault_registers t s)).mem
        (t.FaultInfo_addr + k)
      = read32 (FaultRecord.upto_fault_registers t s).mem (t.FaultInfo_addr + k) := by
    cases hf : FR_FAULT_REGS_EXIST t.build
    · rw [FaultRecord.fault_registers_absent t _ hf]
    · rw [hf] at l1
      simp only [if_true] at l1
      exact FaultRecord.kept_fault_registers t _ hfit _ (by omega)
        (by simp only [ofs_fault_registers, ofs_common_registers, ofs_state_context, ofs_type,
              sizeof_FaultInfoType, sizeof_StateContext, sizeof_CommonRegisters]
            omega)
        (by intro _; rw [l3]; omega)
  rw [FaultRecord.kept_final t s hfit k hk8.1 hk8.2, e1]
  unfold FaultRecord.upto_fault_registers
  rw [FaultRecord.kept_armv8_m_registers t _ hfit _ (by omega) (by intro _; rw [l2]; omega)]
  unfold FaultRecord.upto_armv8_m_registers
  rw [FaultRecord.kept_common_registers t _ hfit _ (by omega)
      (by simp only [ofs_common_registers, ofs_state_context, ofs_type, sizeof_FaultInfoType,
            sizeof_StateContext]; omega)]

/-- The body of the record after the type word is zero at the entry of section
"State Context". -/
theorem FaultRecord.upto_state_context_zero (t : Target) (s : Cpu) (hfit : Fits t) (k : Nat)
    (hk : 12 ≤ k) (hk' : k + 4 ≤ sizeof_FaultInfo t.build) :
    read32 (FaultRecord.upto_state_context t s).mem (t.FaultInfo_addr + k) = 0 := by
  have hfit' := hfit
  unfold Fits at hfit'
  rw [FaultRecord.upto_state_context_mem t s hfit _ (by omega) (by simp only [ofs_type]; omega)]
  exact read32_memset_inside _ _ _ _ hk'

/-- C25: with the record inside the address space and the frame, at the
selected stack pointer, inside the address space and outside the record: when
the stack check did not fail (which is always so on a build without fault
status registers), on an Armv8-M build with bit 5 (DCRS) of EXC_RETURN clear the
record holds at the exit hook frame words 0 to 9 in
`FaultInfo.additonal_state_context` and frame words 10 to 17 in
`FaultInfo.state_context`, in this order; otherwise it holds frame words 0 to 7
in `FaultInfo.state_context` and zero in `FaultInfo.additonal_state_context`.
When the stack check failed, both fields hold zero. -/
theorem FaultRecord_frame_copy (t : Target) (s : Cpu) (hfit : Fits t)
    (hp : selectedStackPointer t s + 4 * frameWords t s ≤ 2^32)
    (hsep : selectedStackPointer t s + 4 * frameWords t s ≤ t.FaultInfo_addr
      ∨ t.FaultInfo_addr + sizeof_FaultInfo t.build ≤ selectedStackPointer t s) :
    (FR_FAULT_REGS_EXIST t.build = false → stackTestFailed t s = false)
    ∧ (stackTestFailed t s = false →
        (FR_ARCH_ARMV8x_M t.build = true → s.get .lr / 2^5 % 2 = 0 →
          (∀ j, j < 10 → FaultInfo.additonal_state_context t (FaultRecord t s).mem j
              = read32 s.mem (selectedStackPointer t s + 4 * j))
          ∧ (∀ j, j < 8 → FaultInfo.state_context t (FaultRecord t s).mem j
              = read32 s.mem (selectedStackPointer t s + 4 * (10 + j))))
        ∧ (¬ (FR_ARCH_ARMV8x_M t.build = true ∧ s.get .lr / 2^5 % 2 = 0) →
          (∀ j, j < 8 → FaultInfo.state_context t (FaultRecord t s).mem j
              = read32 s.mem (selectedStackPointer t s + 4 * j))
          ∧ (FR_ARCH_ARMV8x_M t.build = true → ∀ j, j < 10 →
              FaultInfo.additonal_state_context t (FaultRecord t s).mem j = 0)))
    ∧ (stackTestFailed t s = true →
        (∀ j, j < 8 → FaultInfo.state_context t (FaultRecord t s).mem j = 0)
        ∧ (FR_ARCH_ARMV8x_M t.build = true → ∀ j, j < 10 →
            FaultInfo.additonal_state_context t (FaultRecord t s).mem j = 0)) := by
  obtain ⟨l1, l2, l3, l4, l5, l6, l7, l8, l9⟩ := layout_cases t.build
  have hs := sizeof_FaultInfo_ge t.build
  have hfit' := hfit
  unfold Fits at hfit'
  have hadd : 60 ≤ ofs_additonal_state_context t.build
      ∧ ofs_additonal_state_context t.build ≤ 84 := by rw [l1]; split <;> omega
  have hsz : FR_ARCH_ARMV8x_M t.build = true →
      ofs_additonal_state_context t.build + 48 ≤ sizeof_FaultInfo t.build := by
    intro h8
    rw [h8] at l4
    simp only [if_true] at l4
    split at l4 <;> omega
  clear l1 l2 l3 l4 l5 l6 l7 l8 l9
  obtain ⟨r3, r4, rlr, -, -⟩ := FaultRecord.upto_state_context_spec t s
  -- the words of the two fields at the exit hook are those section "State Context" left
  have hst : ∀ j, j < 8 → FaultInfo.state_context t (FaultRecord t s).mem j
      = read32 (FaultRecord.state_context t (FaultRecord.upto_state_context t s)).mem
          (t.FaultInfo_addr + (12 + 4 * j)) := by
    intro j hj
    rw [(FaultInfo.word_addr t _ j).1,
      FaultRecord.final_context_words t s hfit _ (Or.inl ⟨by omega, by omega⟩)]
    rfl
  have hax : FR_ARCH_ARMV8x_M t.build = true → ∀ j, j < 10 →
      FaultInfo.additonal_state_context t (FaultRecord t s).mem j
        = read32 (FaultRecord.state_context t (FaultRecord.upto_state_context t s)).mem
            (t.FaultInfo_addr + (ofs_additonal_state_context t.build + 4 * j)) := by
    intro h8 j hj
    rw [(FaultInfo.word_addr t _ j).2.2.2.1,
      FaultRecord.final_context_words t s hfit _ (Or.inr ⟨h8, by omega, by omega⟩)]
    rfl
  refine ⟨?_, ?_, ?_⟩
  · intro hf
    unfold stackTestFailed
    rw [hf]
    rfl
  · intro hok
    have h4 : (FaultRecord.upto_state_context t s).get .r4 / 2 % 2 = 0 := by
      rw [r4, (bit_mod_two _ _).2, hok]
      rfl
    constructor
    · intro h8 hd
      have hn : frameWords t s = 18 := by
        unfold frameWords
        rw [h8, decide_eq_true hd]
        rfl
      rw [hn] at hp hsep
      obtain ⟨b1, b2⟩ := FaultRecord.state_context_both t _ hfit _ h4 r3 h8
        (by rw [rlr]; exact hd) (by omega) (by omega)
      constructor
      · intro j hj
        rw [hax h8 j hj, b1 j hj]
        exact (FaultRecord.outside_upto t s hfit _ (by omega) (by omega)).1
      · intro j hj
        rw [hst j hj, b2 j hj]
        exact (FaultRecord.outside_upto t s hfit _ (by omega) (by omega)).1
    · intro hnot
      have hn : frameWords t s = 8 := by
        unfold frameWords
        by_cases h8 : FR_ARCH_ARMV8x_M t.build = true
        · have hd : ¬ s.get .lr / 2^5 % 2 = 0 := fun hd => hnot ⟨h8, hd⟩
          rw [h8, decide_eq_false hd]
          rfl
        · simp [h8]
      rw [hn] at hp hsep
      have hd : FR_ARCH_ARMV8x_M t.build = true →
          (FaultRecord.upto_state_context t s).get .lr / 2^5 % 2 = 1 := by
        intro h8
        rw [rlr]
        have hd : ¬ s.get .lr / 2^5 % 2 = 0 := fun hd => hnot ⟨h8, hd⟩
        omega
      constructor
      · intro j hj
        rw [hst j hj, FaultRecord.state_context_basic_words t _ hfit _ h4 r3 hd
          (by omega) (by omega) j hj]
        exact (FaultRecord.outside_upto t s hfit _ (by omega) (by omega)).1
      · intro h8 j hj
        have := hsz h8
        rw [hax h8 j hj, (Writes.state_context_basic t _ hfit hd).read32_of_sep _ (by omega)
          (by
            intro a ha
            unfold inField at ha
            simp only [ofs_state_context, ofs_type, sizeof_FaultInfoType] at ha
            omega)]
        exact FaultRecord.upto_state_context_zero t s hfit _ (by omega) (by omega)
  · intro hbad
    have h4 : (FaultRecord.upto_state_context t s).get .r4 / 2 % 2 = 1 := by
      rw [r4, (bit_mod_two _ _).2, hbad]
      rfl
    have hm := FaultRecord.state_context_mem_skipped t _ h4
    constructor
    · intro j hj
      rw [hst j hj, hm]
      exact FaultRecord.upto_state_context_zero t s hfit _ (by omega) (by omega)
    · intro h8 j hj
      have := hsz h8
      rw [hax h8 j hj, hm]
      exact FaultRecord.upto_state_context_zero t s hfit _ (by omega) (by omega)

/-! ## The check value of the checksum -/

theorem crcSpec_checkBytes : crcSpec 0xFFFFFFFF 0x04C11DB7 checkBytes = 0x0376E6E7 := by
  decide!

/-- C33: with the initial value `FR_CRC32_INIT_VAL = 0xFFFFFFFF` and the
polynomial `FR_CRC32_POLYNOM = 0x04C11DB7`, over nine bytes that are the ASCII
text "123456789", wherever they lie in memory, `CalcCRC32` returns `0x0376E6E7`,
the check value of CRC-32/MPEG-2: as a C call, and as the routine run from any
state whose `r0` to `r3` hold these arguments. The result is the plain
bit-serial value `crcSpec` (most significant bit first, no final XOR) of the
nine bytes. -/
theorem CalcCRC32_check_value (m : Mem) (data_ptr : Nat)
    (h : bytesAt m data_ptr 9 = checkBytes) :
    FR_CRC32_INIT_VAL = 0xFFFFFFFF ∧ FR_CRC32_POLYNOM = 0x04C11DB7
    ∧ CalcCRC32.call m FR_CRC32_INIT_VAL data_ptr 9 FR_CRC32_POLYNOM = 0x0376E6E7
    ∧ CalcCRC32.call m FR_CRC32_INIT_VAL data_ptr 9 FR_CRC32_POLYNOM
        = crcSpec 0xFFFFFFFF 0x04C11DB7 [0x31, 0x32, 0x33, 0x34, 0x35, 0x36, 0x37, 0x38, 0x39]
    ∧ (∀ s : Cpu, s.mem = m → s.get .r0 = FR_CRC32_INIT_VAL → s.get .r1 = data_ptr % 2^32 →
        s.get .r2 = 9 → s.get .r3 = FR_CRC32_POLYNOM → (CalcCRC32 s).get .r0 = 0x0376E6E7) := by
  have hb : bytesAt m (data_ptr % 2^32) 9 = checkBytes := by
    rw [← h]
    exact bytesAt_mod m data_ptr 9
  have hcall : CalcCRC32.call m FR_CRC32_INIT_VAL data_ptr 9 FR_CRC32_POLYNOM
      = crcSpec 0xFFFFFFFF 0x04C11DB7 checkBytes := by
    rw [CalcCRC32.call_eq]
    simp only [FR_CRC32_INIT_VAL, FR_CRC32_POLYNOM, Nat.reducePow, Nat.reduceMod] at hb ⊢
    rw [hb]
  refine ⟨rfl, rfl, ?_, ?_, ?_⟩
  · rw [hcall]
    exact crcSpec_checkBytes
  · rw [hcall]
    rfl
  · intro s hm h0 h1 h2 h3
    rw [(CalcCRC32_spec s).1, h0, h1, h2, h3, hm, hb]
    exact crcSpec_checkBytes

theorem CalcCRC32_check_value_witness :
    bytesAt checkMem 0x20000100 9 = checkBytes
    ∧ CalcCRC32.call checkMem 0xFFFFFFFF 0x20000100 9 0x04C11DB7 = 0x0376E6E7
    ∧ (CalcCRC32 checkCallCpu).get .r0 = 0x0376E6E7 :=
  ⟨by decide, (CalcCRC32_check_value checkMem 0x20000100 (by decide)).2.2.1,
    (CalcCRC32_check_value checkMem 0x20000100 (by decide)).2.2.2.2 checkCallCpu
      rfl rfl rfl rfl rfl⟩

/-! ## The register `r4` at the exit hook -/

/-- The routine `CalcCRC32` returns with its own entry value of `r4` in `r4`
and in `r12`. -/
theorem CalcCRC32_r4_r12 (u : Cpu) :
    (CalcCRC32 u).get .r4 = u.get .r4 ∧ (CalcCRC32 u).get .r12 = u.get .r4 := by
  obtain ⟨-, h12, -, -, -⟩ := CalcCRC32.check_spec ((mov .r12 .r4 u).get .r2) (mov .r12 .r4 u) rfl
  have e : (mov .r12 .r4 u).r12 = u.get .r4 := by
    simp [mov, Cpu.get, Cpu.set]
  unfold CalcCRC32
  simp only [mov, Cpu.get, Cpu.set] at h12 e ⊢
  rw [h12, e]
  simp

/-- What the sections of `FaultRecord` do to `r12`: the first one copies `r4`
into it, the later ones leave it alone. -/
theorem FaultRecord.sections_r12 (t : Target) (u : Cpu) :
    (FaultRecord.r3_points_to_stack t u).get .r12 = u.get .r4
    ∧ (FaultRecord.stack_check t u).get .r12 = u.get .r12
    ∧ (FaultRecord.type_information t u).get .r12 = u.get .r12
    ∧ (FaultRecord.state_context t u).get .r12 = u.get .r12
    ∧ (FaultRecord.common_registers t u).get .r12 = u.get .r12
    ∧ (FaultRecord.armv8_m_registers t u).get .r12 = u.get .r12
    ∧ (FaultRecord.fault_registers t u).get .r12 = u.get .r12
    ∧ (FaultRecord.fault_registers t u).get .r4 = u.get .r4 := by
  refine ⟨?_, ?_, ?_, ?_, ?_, ?_, ?_, ?_⟩
  · unfold FaultRecord.r3_points_to_stack
    simp only []
    repeat' split
    all_goals simp [mov, movs, lsrs, mrs, Cpu.get, Cpu.set, Cpu.setNZ]
  · unfold FaultRecord.stack_check
    simp only []
    repeat' split
    all_goals simp [ldr_const, ldr, ands, adds, lsrs, Cpu.get, Cpu.set, Cpu.setNZ]
  · simp [FaultRecord.type_information, ldr_const, str, Cpu.get, Cpu.set]
  · unfold FaultRecord.state_context
    simp only []
    repeat' split
    all_goals
      simp [FaultRecord.copy2, ldr_const, stm2, ldm2, mov, lsrs, Cpu.get, Cpu.set, Cpu.setNZ]
  · unfold FaultRecord.common_registers
    simp only []
    repeat' split
    all_goals simp [ldr_const, stm2, mrs, mov, lsrs, Cpu.get, Cpu.set, Cpu.setNZ]
  · unfold FaultRecord.armv8_m_registers
    simp only []
    repeat' split
    all_goals simp [ldr_const, stm2, mrs, mov, lsrs, Cpu.get, Cpu.set, Cpu.setNZ]
  · unfold FaultRecord.fault_registers
    simp only []
    repeat' split
    all_goals simp [ldr_const, ldr, stm2, lsrs, Cpu.get, Cpu.set, Cpu.setNZ]
  · unfold FaultRecord.fault_registers
    simp only []
    repeat' split
    all_goals simp [ldr_const, ldr, stm2, lsrs, Cpu.get, Cpu.set, Cpu.setNZ]

/-- At the end of the capture of the fields, before the call of `CalcCRC32`,
`r12` holds the `r4` of the entry and `r4` holds the two flags. -/
theorem FaultRecord.fields_r4_r12 (t : Target) (s : Cpu) :
    (FaultRecord.fields t (FaultRecord.clear t s)).get .r12 = s.get .r4
    ∧ (FaultRecord.fields t (FaultRecord.clear t s)).get .r4
        = bit (usesNonSecureAlias t s) + 2 * bit (stackTestFailed t s) := by
  obtain ⟨-, -, -, c4, -, -⟩ := FaultRecord.clear_spec t s
  obtain ⟨-, -, r4, -, -⟩ := FaultRecord.upto_regs t s
  obtain ⟨a1, -⟩ := FaultRecord.sections_r12 t (FaultRecord.clear t s)
  obtain ⟨-, a2, -⟩ := FaultRecord.sections_r12 t
    (FaultRecord.r3_points_to_stack t (FaultRecord.clear t s))
  obtain ⟨-, -, a3, -⟩ := FaultRecord.sections_r12 t (FaultRecord.stack_check t
    (FaultRecord.r3_points_to_stack t (FaultRecord.clear t s)))
  obtain ⟨-, -, -, a4, -⟩ := FaultRecord.sections_r12 t (FaultRecord.upto_state_context t s)
  obtain ⟨-, -, -, -, a5, -⟩ := FaultRecord.sections_r12 t (FaultRecord.upto_common_registers t s)
  obtain ⟨-, -, -, -, -, a6, -⟩ := FaultRecord.sections_r12 t
    (FaultRecord.upto_armv8_m_registers t s)
  obtain ⟨-, -, -, -, -, -, a7, a8⟩ := FaultRecord.sections_r12 t
    (FaultRecord.upto_fault_registers t s)
  have e4 : (FaultRecord.clear t s).get .r4 = s.get .r4 := by
    simp only [Cpu.get, c4]
  rw [FaultRecord.fields_eq]
  constructor
  · rw [a7]
    unfold FaultRecord.upto_fault_registers
    rw [a6]
    unfold FaultRecord.upto_armv8_m_registers
    rw [a5]
    unfold FaultRecord.upto_common_registers
    rw [a4]
    unfold FaultRecord.upto_state_context
    rw [a3, a2, a1, e4]
  · rw [a8, r4]

/-- From the end of the capture of the fields to the exit hook: `r4` is at the
call of `FaultRecordOnExit` what it was at the call of `CalcCRC32`. -/
theorem FaultRecord.exit_r4 (t : Target) (s : Cpu) :
    (FaultRecord t s).get .r4 = (FaultRecord.fields t (FaultRecord.clear t s)).get .r4
    ∧ (FaultRecord t s).get .r12 = (FaultRecord.fields t (FaultRecord.clear t s)).get .r4 := by
  have e : FaultRecord t s
      = bl t.ret_FaultRecordOnExit (mov .r4 .r12 (FaultRecord.magic_number t
          (FaultRecord.crc32 t (FaultRecord.fields t (FaultRecord.clear t s))))) := rfl
  rw [e]
  generalize FaultRecord.fields t (FaultRecord.clear t s) = u
  obtain ⟨-, h12⟩ := CalcCRC32_r4_r12 (bl t.ret_CalcCRC32 (ldr_const .r3 FR_CRC32_POLYNOM
    (ldr_const .r2 (FR_CRC32_DATA_LEN t.build) (ldr_const .r1 (t.FaultInfo_addr + ofs_type)
      (ldr_const .r0 FR_CRC32_INIT_VAL u)))))
  have hu : (bl t.ret_CalcCRC32 (ldr_const .r3 FR_CRC32_POLYNOM
      (ldr_const .r2 (FR_CRC32_DATA_LEN t.build) (ldr_const .r1 (t.FaultInfo_addr + ofs_type)
        (ldr_const .r0 FR_CRC32_INIT_VAL u))))).get .r4 = u.get .r4 := by
    simp [bl, ldr_const, Cpu.get, Cpu.set]
  rw [hu] at h12
  have hx : ∀ v : Cpu,
      (bl t.ret_FaultRecordOnExit (mov .r4 .r12 (FaultRecord.magic_number t
        (str .r0 .r2 (ldr_const .r2 (t.FaultInfo_addr + ofs_crc32) v))))).get .r4 = v.get .r12
      ∧ (bl t.ret_FaultRecordOnExit (mov .r4 .r12 (FaultRecord.magic_number t
        (str .r0 .r2 (ldr_const .r2 (t.FaultInfo_addr + ofs_crc32) v))))).get .r12
          = v.get .r12 := by
    intro v
    simp [bl, mov, FaultRecord.magic_number, str, ldr_const, Cpu.get, Cpu.set]
  unfold FaultRecord.crc32
  simp only []
  rw [(hx _).1, (hx _).2, h12]
  exact ⟨rfl, rfl⟩

theorem stackTestFailed_r4Cpu : stackTestFailed cortexM4 r4Cpu = false := by
  obtain ⟨-, cm, -⟩ := FaultRecord.clear_spec cortexM4 r4Cpu
  have e : read32 (FaultRecord.clear cortexM4 r4Cpu).mem (stackTestAddr cortexM4 r4Cpu) = 0 := by
    rw [cm, show stackTestAddr cortexM4 r4Cpu = cfsr_addr cortexM4 from rfl,
      read32_memset_outside _ _ _ _ (by decide) (by decide) (by decide)]
    exact read32_stkerrMem_tested
  unfold stackTestFailed
  rw [e]
  rfl

/-- C32: at the end of the capture of the fields `r12` still holds the value
`r4` had when `FaultRecord` was entered, and `r4` holds the two flags of the
routine; `CalcCRC32` returns with its own entry `r4`, the flags, in `r12` (its
first instruction is `mov r12, r4`); so `mov r4, r12` before the exit hook
loads the flags: for every input the `r4` at the call of `FaultRecordOnExit` is
the alias flag plus twice the outcome of the stack check, a value below 4, and
differs from every entry `r4` that is 4 or more. On `cortexM4` with `r4 =
0x12345678` at the entry, `r4` is 0 at the exit hook. -/
theorem FaultRecord_r4_not_restored :
    (∀ (t : Target) (s : Cpu),
      (FaultRecord.fields t (FaultRecord.clear t s)).get .r12 = s.get .r4
      ∧ (∀ u : Cpu, (CalcCRC32 u).get .r12 = u.get .r4)
      ∧ (FaultRecord t s).get .r4
          = bit (usesNonSecureAlias t s) + 2 * bit (stackTestFailed t s)
      ∧ (FaultRecord t s).get .r4 < 4
      ∧ (4 ≤ s.get .r4 → (FaultRecord t s).get .r4 ≠ s.get .r4))
    ∧ r4Cpu.get .r4 = 0x12345678
    ∧ (FaultRecord cortexM4 r4Cpu).get .r4 = 0 := by
  have key : ∀ (t : Target) (s : Cpu), (FaultRecord t s).get .r4
      = bit (usesNonSecureAlias t s) + 2 * bit (stackTestFailed t s) := by
    intro t s
    rw [(FaultRecord.exit_r4 t s).1, (FaultRecord.fields_r4_r12 t s).2]
  have hlt : ∀ a b : Bool, bit a + 2 * bit b < 4 := by
    intro a b
    cases a <;> cases b <;> decide
  refine ⟨?_, rfl, ?_⟩
  · intro t s
    refine ⟨(FaultRecord.fields_r4_r12 t s).1, fun u => (CalcCRC32_r4_r12 u).2, key t s, ?_, ?_⟩
    · rw [key]
      exact hlt _ _
    · intro h4 he
      have := hlt (usesNonSecureAlias t s) (stackTestFailed t s)
      rw [key] at he
      omega
  · rw [key, stackTestFailed_r4Cpu]
    rfl

/-! ## The lines R4 to R11 and the copy of the extended registers -/

/-- When bit 5 (DCRS) of EXC_RETURN is set or the stack check failed, section
"State Context" stores nothing outside `FaultInfo.state_context`. -/
theorem Writes.state_context_not_extended (t : Target) (s : Cpu) (hfit : Fits t)
    (hnot : s.get .lr / 2^5 % 2 = 1 ∨ stackTestFailed t s = true) :
    Writes (inField (t.FaultInfo_addr + ofs_state_context) 32)
      (FaultRecord.upto_state_context t s) (FaultRecord.upto_common_registers t s) := by
  obtain ⟨-, r4, rlr, -, -⟩ := FaultRecord.upto_state_context_spec t s
  unfold FaultRecord.upto_common_registers
  by_cases hbad : stackTestFailed t s = true
  · have h4 : (FaultRecord.upto_state_context t s).get .r4 / 2 % 2 = 1 := by
      rw [r4, (bit_mod_two _ _).2, hbad]
      rfl
    have hm := FaultRecord.state_context_mem_skipped t _ h4
    refine Writes.of_silent _ ?_ hm
    simp only [Cpu.get, Nat.reducePow] at h4
    unfold FaultRecord.state_context
    simp [lsrs, Cpu.get, Cpu.set, Cpu.setNZ, h4]
  · have hd : s.get .lr / 2^5 % 2 = 1 := by
      rcases hnot with h | h
      · exact h
      · exact absurd h hbad
    exact Writes.state_context_basic t _ hfit (fun _ => by rw [rlr]; exact hd)

/-- When bit 5 (DCRS) of EXC_RETURN is set or the stack check failed, the ten
words of `FaultInfo.additonal_state_context` are zero at the exit hook. -/
theorem FaultRecord.final_additional_zero (t : Target) (s : Cpu) (hfit : Fits t)
    (h8 : FR_ARCH_ARMV8x_M t.build = true)
    (hnot : s.get .lr / 2^5 % 2 = 1 ∨ stackTestFailed t s = true) :
    ∀ j, j < 10 → FaultInfo.additonal_state_context t (FaultRecord t s).mem j = 0 := by
  obtain ⟨l1, l2, l3, l4, l5, l6, l7, l8, l9⟩ := layout_cases t.build
  have hfit' := hfit
  unfold Fits at hfit'
  rw [h8] at l4
  simp only [if_true] at l4
  have hadd : 60 ≤ ofs_additonal_state_context t.build
      ∧ ofs_additonal_state_context t.build ≤ 84 := by rw [l1]; split <;> omega
  have hsz : ofs_additonal_state_context t.build + 48 ≤ sizeof_FaultInfo t.build := by
    split at l4 <;> omega
  clear l1 l2 l3 l4 l5 l6 l7 l8 l9
  have hw := Writes.state_context_not_extended t s hfit hnot
  intro j hj
  rw [(FaultInfo.word_addr t _ j).2.2.2.1,
    FaultRecord.final_context_words t s hfit _ (Or.inr ⟨h8, by omega, by omega⟩),
    hw.read32_of_sep _ (by omega) (by
      intro a ha
      unfold inField at ha
      simp only [ofs_state_context, ofs_type, sizeof_FaultInfoType] at ha
      omega)]
  exact FaultRecord.upto_state_context_zero t s hfit _ (by omega) (by omega)

/-- On a trustworthy record a text that starts with one of the labels R4 to R11
comes from the block of the additional state context, which prints only when
the stored integrity signature without its least significant bit is
`FR_ASC_INTEGRITY_SIG`. -/
theorem extended_line_needs_signature (t : Target) (m : Mem) (htr : Trustworthy t m)
    (x : String) (hx : x ∈ textOf (FaultRecordPrint t) m) (l : String)
    (hl : l ∈ extendedRegisterLabels) (hp : StartsWith l x) :
    FaultInfo.additonal_state_context t m 0 &&& 0xFFFFFFFE = FR_ASC_INTEGRITY_SIG := by
  rcases heads_valid t m htr _ (heads_pc_msp_psp t true m) x hx with hh | hh | hh | hh
  · exact absurd hp (hh.not_startsWith l (fun a ha =>
      clash_extended_other _ _ l hl a (List.mem_append_left _ ha)))
  · exact absurd hp ((heads_state_context_r0_r3 t true _ m x hh).not_startsWith l (fun a ha =>
      clash_extended_other true true l hl a (List.mem_append_right _ ha)))
  · rw [textOf_additional_state_context] at hh
    split at hh
    · rename_i hc
      exact hc.2.2.2
    · cases hh
  · exact absurd hp ((heads_state_context_r12_xpsr t true _ m x hh).not_startsWith l
      (fun a ha => clash_extended_other true true l hl a (List.mem_append_right _ ha)))

/-- C31: on an Armv8-M build, for the record a run of `FaultRecord` leaves: when
bit 5 (DCRS) of EXC_RETURN was set or the stack check failed, section "State
Context" stored nothing into `FaultInfo.additonal_state_context`, its ten
words, the integrity signature first, are zero at the exit hook, the signature
is not `0xFEFA125A` and does not pass the test of the printer, and
`FaultRecordPrint` prints no text that starts with a label R4 to R11.
Conversely, if such a line is printed, DCRS was clear and the stack check did
not fail, which is the case in which the routine copies the ten words. -/
theorem FaultRecordPrint_extended_only_if_copied (t : Target) (s : Cpu) (hfit : Fits t)
    (h8 : FR_ARCH_ARMV8x_M t.build = true) :
    ((s.get .lr / 2^5 % 2 = 1 ∨ stackTestFailed t s = true) →
      Writes (inField (t.FaultInfo_addr + ofs_state_context) 32)
        (FaultRecord.upto_state_context t s) (FaultRecord.upto_common_registers t s)
      ∧ (∀ j, j < 10 → FaultInfo.additonal_state_context t (FaultRecord t s).mem j = 0)
      ∧ FaultInfo.additonal_state_context t (FaultRecord t s).mem 0 ≠ 0xFEFA125A
      ∧ FaultInfo.additonal_state_context t (FaultRecord t s).mem 0 &&& 0xFFFFFFFE
          ≠ FR_ASC_INTEGRITY_SIG
      ∧ ∀ x ∈ textOf (FaultRecordPrint t) (FaultRecord t s).mem,
          ∀ l ∈ extendedRegisterLabels, ¬ StartsWith l x)
    ∧ ((∃ x ∈ textOf (FaultRecordPrint t) (FaultRecord t s).mem,
          ∃ l ∈ extendedRegisterLabels, StartsWith l x) →
        s.get .lr / 2^5 % 2 = 0 ∧ stackTestFailed t s = false) := by
  have htr := FaultRecord_trustworthy t s hfit
  have hno : (s.get .lr / 2^5 % 2 = 1 ∨ stackTestFailed t s = true) →
      ∀ x ∈ textOf (FaultRecordPrint t) (FaultRecord t s).mem,
        ∀ l ∈ extendedRegisterLabels, ¬ StartsWith l x := by
    intro hnot x hx l hl hp
    have hsig := extended_line_needs_signature t _ htr x hx l hl hp
    rw [FaultRecord.final_additional_zero t s hfit h8 hnot 0 (by omega)] at hsig
    revert hsig
    decide
  constructor
  · intro hnot
    have hz := FaultRecord.final_additional_zero t s hfit h8 hnot
    refine ⟨Writes.state_context_not_extended t s hfit hnot, hz, ?_, ?_, hno hnot⟩
    · rw [hz 0 (by omega)]
      decide
    · rw [hz 0 (by omega)]
      decide
  · rintro ⟨x, hx, l, hl, hp⟩
    constructor
    · by_contra hd
      exact hno (Or.inl (by omega)) x hx l hl hp
    · cases hf : stackTestFailed t s
      · rfl
      · exact absurd hp (hno (Or.inr hf) x hx l hl)

theorem FaultRecordPrint_extended_only_if_copied_witness :
    Fits cortexM33s ∧ FR_ARCH_ARMV8x_M cortexM33s.build = true
    ∧ dcrsCpu.get .lr / 2^5 % 2 = 1
    ∧ FaultInfo.additonal_state_context cortexM33s (FaultRecord cortexM33s dcrsCpu).mem 0 = 0
    ∧ (∀ x ∈ textOf (FaultRecordPrint cortexM33s) (FaultRecord cortexM33s dcrsCpu).mem,
        ∀ l ∈ extendedRegisterLabels, ¬ StartsWith l x) :=
  ⟨Fits_cortexM33s, rfl, by decide,
    ((FaultRecordPrint_extended_only_if_copied cortexM33s dcrsCpu Fits_cortexM33s rfl).1
      (Or.inl (by decide))).2.1 0 (by decide),
    ((FaultRecordPrint_extended_only_if_copied cortexM33s dcrsCpu Fits_cortexM33s rfl).1
      (Or.inl (by decide))).2.2.2.2⟩

/-! ## The loads of the frame -/

theorem replay_loads (m : Mem) (l : List Access) (h : ∀ e ∈ l, e.isStore = false) :
    replay m l = m := by
  induction l with
  | nil => rfl
  | cons e l ih =>
    cases e with
    | load a sz => exact ih (fun x hx => h x (List.mem_cons_of_mem _ hx))
    | store a sz v => exact absurd (h _ (List.mem_cons_self _ _)) (by simp [Access.isStore])

/-- The checksum of a memory does not depend on the CRC word. -/
theorem calc_crc32_write_crc (t : Target) (m : Mem) (v : Nat) (hfit : Fits t) :
    FaultInfo.calc_crc32 t (write32 m (t.FaultInfo_addr + ofs_crc32) v)
      = FaultInfo.calc_crc32 t m := by
  have hs := sizeof_FaultInfo_ge t.build
  have hfit' := hfit
  unfold Fits at hfit'
  rw [FaultInfo.calc_crc32_eq t _ hfit, FaultInfo.calc_crc32_eq t m hfit]
  congr 1
  simp only [ofs_type, ofs_crc32, FR_CRC32_DATA_LEN] at *
  rw [bytesAt_write32 _ _ _ _ _ (by omega) (by omega) (by omega)]

/-- The accesses of a whole run of `FaultRecord`, with the place of the store of
the checksum: the store of zero into the magic number; accesses whose stores
all go to the body or the CRC word and after which memory is as the capture of
the fields left it; the store into the CRC word of the checksum of that memory;
the store of the sentinel. -/
theorem FaultRecord_events_crc_last (t : Target) (s : Cpu) (hfit : Fits t) :
    ∃ before : List Access,
      (FaultRecord t s).trace = s.trace ++ (Access.store t.FaultInfo_addr 4 0
        :: ((before ++ [Access.store (t.FaultInfo_addr + ofs_crc32) 4
              (FaultInfo.calc_crc32 t (FaultRecord.fields t (FaultRecord.clear t s)).mem)])
            ++ [Access.store t.FaultInfo_addr 4 FR_MAGIC_NUMBER]))
      ∧ (∀ e ∈ before,
          e.storesIn (inField (t.FaultInfo_addr + 4) (sizeof_FaultInfo t.build - 4)))
      ∧ (FaultRecord.fields t (FaultRecord.clear t s)).mem
          = replay (write32 s.mem t.FaultInfo_addr 0) before := by
  have hs := sizeof_FaultInfo_ge t.build
  have hd := sizeof_FaultInfo_div t.build
  have hfit' := hfit
  unfold Fits at hfit'
  obtain ⟨c1, c2, _⟩ := FaultRecord.clear_spec t s
  obtain ⟨n, hn⟩ : ∃ n, sizeof_FaultInfo t.build / 4 = n + 1 := ⟨sizeof_FaultInfo t.build / 4 - 1,
    by omega⟩
  have hbase : t.FaultInfo_addr % 2^32 = t.FaultInfo_addr := by omega
  rw [hn, List.range_succ_eq_map] at c1
  simp only [List.map_cons, List.map_map, Nat.mul_zero, Nat.add_zero, hbase] at c1
  have c2' : (FaultRecord.clear t s).mem = replay s.mem ((List.range (n + 1)).map
      (fun i => Access.store ((t.FaultInfo_addr + 4 * i) % 2^32) 4 0)) := by
    rw [replay_clear, c2, ← hd, hn]
  rw [List.range_succ_eq_map] at c2'
  simp only [List.map_cons, List.map_map, Nat.mul_zero, Nat.add_zero, hbase, replay] at c2'
  obtain ⟨f1, f2, f3⟩ := Writes.fields t (FaultRecord.clear t s) hfit
  obtain ⟨loads, hl, hcrc⟩ := FaultRecord.crc32_trace t
    (FaultRecord.fields t (FaultRecord.clear t s)) hfit
  obtain ⟨m1, _⟩ := FaultRecord.magic_number_spec t (FaultRecord.body t (FaultRecord.clear t s))
  have e : (FaultRecord t s).trace
      = (FaultRecord.magic_number t (FaultRecord.body t (FaultRecord.clear t s))).trace := by
    simp [FaultRecord, bl, mov, Cpu.set]
  refine ⟨List.map ((fun i => Access.store ((t.FaultInfo_addr + 4 * i) % 2^32) 4 0) ∘ Nat.succ)
      (List.range n)
    ++ newEvents (FaultRecord.clear t s) (FaultRecord.fields t (FaultRecord.clear t s))
    ++ loads, ?_, ?_, ?_⟩
  · rw [e, m1, FaultRecord.body_eq, hcrc, f1, c1, hbase]
    simp
  · intro ev hev
    rcases List.mem_append.mp hev with h | h
    · rcases List.mem_append.mp h with h | h
      · obtain ⟨i, hi, rfl⟩ := List.mem_map.mp h
        have hi' := List.mem_range.mp hi
        simp only [Function.comp_apply, Nat.succ_eq_add_one, Access.storesIn, inField, true_and]
        omega
      · exact f3 ev h
    · have := hl ev h
      cases ev with
      | load a sz => trivial
      | store a sz v => exact absurd this (by simp [Access.isStore])
  · rw [replay_append, replay_loads _ loads hl, replay_append, f2, c2']

/-- C10: during `FaultRecord` the magic word is the first word cleared and the
last word written. The accesses of a run are: the store of 0 into
`magic_number`; then accesses whose stores all go to a body field or to the
CRC word, the last of which is the store, into the CRC word, of the checksum
`FaultInfo.calc_crc32` of memory as the accesses before it left it; then the
store of the sentinel, after which nothing is stored. Memory changes by these
stores only; after every proper non-empty prefix of them `magic_number == 0`;
right before the store of the sentinel the stored CRC is the checksum of the
record as it then is, and the store of the sentinel changes the magic word
only, so the sentinel is in place only once the record is complete and
checksummed, and the final record has the sentinel and a matching CRC. -/
theorem FaultRecord_magic_cleared_first_written_last (t : Target) (s : Cpu)
    (hfit : Fits t) :
    ∃ mid : List Access,
      newEvents s (FaultRecord t s)
        = Access.store t.FaultInfo_addr 4 0
          :: (mid ++ [Access.store t.FaultInfo_addr 4 0x52746C46])
      ∧ (∀ e ∈ mid,
          e.storesIn (inField (t.FaultInfo_addr + 4) (sizeof_FaultInfo t.build - 4)))
      ∧ Access.store (t.FaultInfo_addr + ofs_crc32) 4 (FaultInfo.crc32 t (FaultRecord t s).mem)
          ∈ mid
      ∧ (FaultRecord t s).mem = replay s.mem (newEvents s (FaultRecord t s))
      ∧ (∀ k, 1 ≤ k → k ≤ mid.length + 1 →
          FaultInfo.magic_number t (replay s.mem ((newEvents s (FaultRecord t s)).take k)) = 0)
      ∧ FaultInfo.magic_number t (FaultRecord t s).mem = 0x52746C46
      ∧ (∃ before : List Access,
          mid = before ++ [Access.store (t.FaultInfo_addr + ofs_crc32) 4
            (FaultInfo.calc_crc32 t
              (replay s.mem (Access.store t.FaultInfo_addr 4 0 :: before)))])
      ∧ FaultInfo.crc32 t (replay s.mem (Access.store t.FaultInfo_addr 4 0 :: mid))
          = FaultInfo.calc_crc32 t (replay s.mem (Access.store t.FaultInfo_addr 4 0 :: mid))
      ∧ (FaultRecord t s).mem
          = write32 (replay s.mem (Access.store t.FaultInfo_addr 4 0 :: mid))
              t.FaultInfo_addr 0x52746C46
      ∧ FaultInfo.crc32 t (FaultRecord t s).mem
          = FaultInfo.calc_crc32 t (FaultRecord t s).mem := by
  have hs := sizeof_FaultInfo_ge t.build
  have hfit' := hfit
  unfold Fits at hfit'
  obtain ⟨before, h1, h2, h3⟩ := FaultRecord_events_crc_last t s hfit
  have hne := newEvents_of_append _ _ _ h1
  have hmemf := FaultRecord_mem_fields t s hfit
  have htr := FaultRecord_trustworthy t s hfit
  have hcrc : FaultInfo.crc32 t (FaultRecord t s).mem
      = FaultInfo.calc_crc32 t (FaultRecord.fields t (FaultRecord.clear t s)).mem := by
    rw [hmemf]
    exact stamped_crc32 t _ hfit
  -- memory right before the store of the sentinel
  have hmid : replay s.mem (Access.store t.FaultInfo_addr 4 0
        :: (before ++ [Access.store (t.FaultInfo_addr + ofs_crc32) 4
            (FaultInfo.calc_crc32 t (FaultRecord.fields t (FaultRecord.clear t s)).mem)]))
      = write32 (FaultRecord.fields t (FaultRecord.clear t s)).mem
          (t.FaultInfo_addr + ofs_crc32)
          (FaultInfo.calc_crc32 t (FaultRecord.fields t (FaultRecord.clear t s)).mem) := by
    show replay (write32 s.mem t.FaultInfo_addr 0) (before ++ _) = _
    rw [replay_append, ← h3]
    rfl
  have hin : ∀ e ∈ before ++ [Access.store (t.FaultInfo_addr + ofs_crc32) 4
        (FaultInfo.calc_crc32 t (FaultRecord.fields t (FaultRecord.clear t s)).mem)],
      e.storesIn (inField (t.FaultInfo_addr + 4) (sizeof_FaultInfo t.build - 4)) := by
    intro e he
    rcases List.mem_append.mp he with h | h
    · exact h2 e h
    · rw [List.mem_singleton.mp h]
      simp only [Access.storesIn, inField, ofs_crc32, true_and]
      omega
  refine ⟨before ++ [Access.store (t.FaultInfo_addr + ofs_crc32) 4
      (FaultInfo.calc_crc32 t (FaultRecord.fields t (FaultRecord.clear t s)).mem)],
    hne, hin, ?_, ?_, ?_, htr.1, ⟨before, ?_⟩, ?_, ?_, htr.2⟩
  · rw [hcrc]
    exact List.mem_append_right _ (List.mem_singleton_self _)
  · rw [hne, hmemf]
    show _ = replay s.mem (Access.store t.FaultInfo_addr 4 0 :: (_ ++ _))
    rw [← List.cons_append, replay_append, hmid]
    rfl
  · intro k hk1 hk2
    rw [hne]
    obtain ⟨j, rfl⟩ : ∃ j, k = j + 1 := ⟨k - 1, by omega⟩
    rw [List.take_succ_cons, List.take_append_of_le_length (by omega)]
    show FaultInfo.magic_number t (replay (write32 s.mem t.FaultInfo_addr 0) (List.take j _)) = 0
    rw [magic_number_replay t hfit _ _ (fun e he => hin e (List.mem_of_mem_take he))]
    show read32 (write32 s.mem t.FaultInfo_addr 0) (t.FaultInfo_addr + 0) = 0
    rw [Nat.add_zero, read32_write32_same]
    rfl
  · show _ = before ++ [Access.store _ 4
      (FaultInfo.calc_crc32 t (replay (write32 s.mem t.FaultInfo_addr 0) before))]
    rw [← h3]
  · rw [hmid, calc_crc32_write_crc t _ _ hfit]
    show read32 (write32 _ _ _) (t.FaultInfo_addr + ofs_crc32) = _
    rw [read32_write32_same]
    exact Nat.mod_eq_of_lt (calc_crc32_lt t _)
  · rw [hmid, hmemf]
    rfl

theorem FaultRecord_magic_cleared_first_written_last_witness :
    Fits cortexM4
    ∧ ∃ mid : List Access,
      newEvents (Cpu.init zeroMem) (FaultRecord cortexM4 (Cpu.init zeroMem))
        = Access.store cortexM4.FaultInfo_addr 4 0
          :: (mid ++ [Access.store cortexM4.FaultInfo_addr 4 0x52746C46])
      ∧ (∀ e ∈ mid, e.storesIn
          (inField (cortexM4.FaultInfo_addr + 4) (sizeof_FaultInfo cortexM4.build - 4)))
      ∧ Access.store (cortexM4.FaultInfo_addr + ofs_crc32) 4
          (FaultInfo.crc32 cortexM4 (FaultRecord cortexM4 (Cpu.init zeroMem)).mem) ∈ mid
      ∧ (FaultRecord cortexM4 (Cpu.init zeroMem)).mem
          = replay (Cpu.init zeroMem).mem
              (newEvents (Cpu.init zeroMem) (FaultRecord cortexM4 (Cpu.init zeroMem)))
      ∧ (∀ k, 1 ≤ k → k ≤ mid.length + 1 →
          FaultInfo.magic_number cortexM4 (replay (Cpu.init zeroMem).mem
            ((newEvents (Cpu.init zeroMem) (FaultRecord cortexM4 (Cpu.init zeroMem))).take k))
            = 0)
      ∧ FaultInfo.magic_number cortexM4 (FaultRecord cortexM4 (Cpu.init zeroMem)).mem
          = 0x52746C46
      ∧ (∃ before : List Access,
          mid = before ++ [Access.store (cortexM4.FaultInfo_addr + ofs_crc32) 4
            (FaultInfo.calc_crc32 cortexM4
              (replay (Cpu.init zeroMem).mem
                (Access.store cortexM4.FaultInfo_addr 4 0 :: before)))])
      ∧ FaultInfo.crc32 cortexM4
            (replay (Cpu.init zeroMem).mem (Access.store cortexM4.FaultInfo_addr 4 0 :: mid))
          = FaultInfo.calc_crc32 cortexM4
              (replay (Cpu.init zeroMem).mem (Access.store cortexM4.FaultInfo_addr 4 0 :: mid))
      ∧ (FaultRecord cortexM4 (Cpu.init zeroMem)).mem
          = write32 (replay (Cpu.init zeroMem).mem
              (Access.store cortexM4.FaultInfo_addr 4 0 :: mid))
              cortexM4.FaultInfo_addr 0x52746C46
      ∧ FaultInfo.crc32 cortexM4 (FaultRecord cortexM4 (Cpu.init zeroMem)).mem
          = FaultInfo.calc_crc32 cortexM4 (FaultRecord cortexM4 (Cpu.init zeroMem)).mem :=
  ⟨Fits_cortexM4,
    FaultRecord_magic_cleared_first_written_last cortexM4 (Cpu.init zeroMem) Fits_cortexM4⟩

/-! ## A captured frame with the additional state context -/

theorem stackTestFailed_frameCpu : stackTestFailed cortexM33s frameCpu = false := by
  obtain ⟨-, cm, -⟩ := FaultRecord.clear_spec cortexM33s frameCpu
  have e : read32 (FaultRecord.clear cortexM33s frameCpu).mem
      (stackTestAddr cortexM33s frameCpu) = 0 := by
    rw [cm, show stackTestAddr cortexM33s frameCpu = cfsr_addr cortexM33s from rfl,
      read32_memset_outside _ _ _ _ (by decide) (by decide) (by decide)]
    simp [read32, read8, frameCpu, Cpu.init, frameMem, cortexM33s, cortexM4, cfsr_addr]
  unfold stackTestFailed
  rw [e]
  rfl

theorem FaultRecord_frame_copy_witness :
    Fits cortexM33s
    ∧ selectedStackPointer cortexM33s frameCpu + 4 * frameWords cortexM33s frameCpu ≤ 2^32
    ∧ (selectedStackPointer cortexM33s frameCpu + 4 * frameWords cortexM33s frameCpu
          ≤ cortexM33s.FaultInfo_addr
        ∨ cortexM33s.FaultInfo_addr + sizeof_FaultInfo cortexM33s.build
          ≤ selectedStackPointer cortexM33s frameCpu)
    ∧ stackTestFailed cortexM33s frameCpu = false
    ∧ FR_ARCH_ARMV8x_M cortexM33s.build = true ∧ frameCpu.get .lr / 2^5 % 2 = 0
    ∧ selectedStackPointer cortexM33s frameCpu = 0x20001000
    ∧ FaultInfo.additonal_state_context cortexM33s (FaultRecord cortexM33s frameCpu).mem 0
        = 0xFEFA125B
    ∧ FaultInfo.additonal_state_context cortexM33s (FaultRecord cortexM33s frameCpu).mem 2
        = 0x44
    ∧ FaultInfo.state_context cortexM33s (FaultRecord cortexM33s frameCpu).mem 6
        = 0x08001234
    ∧ FaultInfo.state_context cortexM33s (FaultRecord cortexM33s frameCpu).mem 0 = 0 :=
  ⟨Fits_cortexM33s, by decide, Or.inr (by decide), stackTestFailed_frameCpu, rfl, by decide,
    by decide,
    ((((FaultRecord_frame_copy cortexM33s frameCpu Fits_cortexM33s (by decide)
      (Or.inr (by decide))).2.1 stackTestFailed_frameCpu).1 rfl (by decide)).1 0
        (by decide)).trans (by decide),
    ((((FaultRecord_frame_copy cortexM33s frameCpu Fits_cortexM33s (by decide)
      (Or.inr (by decide))).2.1 stackTestFailed_frameCpu).1 rfl (by decide)).1 2
        (by decide)).trans (by decide),
    ((((FaultRecord_frame_copy cortexM33s frameCpu Fits_cortexM33s (by decide)
      (Or.inr (by decide))).2.1 stackTestFailed_frameCpu).1 rfl (by decide)).2 6
        (by decide)).trans (by decide),
    ((((FaultRecord_frame_copy cortexM33s frameCpu Fits_cortexM33s (by decide)
      (Or.inr (by decide))).2.1 stackTestFailed_frameCpu).1 rfl (by decide)).2 0
        (by decide)).trans (by decide)⟩

/-! ## The extended register lines and the stored CFSR -/

/-- The stacked context is taken as valid exactly when the build has no fault
status registers or the stored CFSR has no bit of the stacking error mask. -/
theorem state_context_valid_iff (t : Target) (m : Mem) :
    FaultRecordPrint.state_context_valid t ⟨m, []⟩ = true
      ↔ (FR_FAULT_REGS_EXIST t.build = true →
          FaultInfo.fault_registers t m 0 &&& SCB_CFSR_Stack_Err_Msk t = 0) := by
  unfold FaultRecordPrint.state_context_valid tst
  cases hf : FR_FAULT_REGS_EXIST t.build
  · simp
  · by_cases hc : FaultInfo.fault_registers t m 0 &&& SCB_CFSR_Stack_Err_Msk t = 0
    · simp [hc]
    · simp [hc]

/-- C16: on an Armv8/8.1-M build, for every record the lines R4-R11 are
printed if and only if the record is trustworthy, the stacked context is
valid, the `armv8m` flag of the record is set and the stored integrity
signature without its least significant bit equals `0xFEFA125A`, which holds
for the two signatures `0xFEFA125A` and `0xFEFA125B` only; then all eight
lines are printed. The base register block is printed whenever the record is
trustworthy and the stacked context is valid, whatever the signature. The
stacked context is valid exactly when the build has no fault status registers
or the stored CFSR has no bit of the stacking error mask, so the lines R4-R11
are printed if and only if the record is trustworthy, the stored CFSR (where
it exists) shows no stacking error, the flag is set and the signature is
accepted. -/
theorem FaultRecordPrint_extended_registers (t : Target) (m : Mem)
    (h8 : FR_ARCH_ARMV8x_M t.build = true) :
    ((∃ x ∈ textOf (FaultRecordPrint t) m, ∃ l ∈ extendedRegisterLabels, StartsWith l x)
      ↔ (Trustworthy t m ∧ FaultRecordPrint.state_context_valid t ⟨m, []⟩ = true
          ∧ FaultInfo.type.armv8m t m ≠ 0
          ∧ FaultInfo.additonal_state_context t m 0 &&& 0xFFFFFFFE = 0xFEFA125A))
    ∧ (Trustworthy t m → FaultRecordPrint.state_context_valid t ⟨m, []⟩ = true →
        FaultInfo.type.armv8m t m ≠ 0 →
        FaultInfo.additonal_state_context t m 0 &&& 0xFFFFFFFE = 0xFEFA125A →
        ∃ pre post, textOf (FaultRecordPrint t) m = pre ++ extendedLines t m ++ post)
    ∧ (FaultInfo.additonal_state_context t m 0 &&& 0xFFFFFFFE = 0xFEFA125A
        ↔ FaultInfo.additonal_state_context t m 0 = 0xFEFA125A
          ∨ FaultInfo.additonal_state_context t m 0 = 0xFEFA125B)
    ∧ (Trustworthy t m → FaultRecordPrint.state_context_valid t ⟨m, []⟩ = true →
        ∃ pre mid post, textOf (FaultRecordPrint t) m
          = pre ++ baseLinesR0R3 t m ++ mid ++ baseLinesR12 t m ++ post)
    ∧ (FaultRecordPrint.state_context_valid t ⟨m, []⟩ = true
        ↔ (FR_FAULT_REGS_EXIST t.build = true →
            FaultInfo.fault_registers t m 0 &&& SCB_CFSR_Stack_Err_Msk t = 0))
    ∧ ((∃ x ∈ textOf (FaultRecordPrint t) m, ∃ l ∈ extendedRegisterLabels, StartsWith l x)
      ↔ (Trustworthy t m
          ∧ (FR_FAULT_REGS_EXIST t.build = true →
              FaultInfo.fault_registers t m 0 &&& SCB_CFSR_Stack_Err_Msk t = 0)
          ∧ FaultInfo.type.armv8m t m ≠ 0
          ∧ FaultInfo.additonal_state_context t m 0 &&& 0xFFFFFFFE = 0xFEFA125A)) := by
  have hold :
      ((∃ x ∈ textOf (FaultRecordPrint t) m, ∃ l ∈ extendedRegisterLabels, StartsWith l x)
        ↔ (Trustworthy t m ∧ FaultRecordPrint.state_context_valid t ⟨m, []⟩ = true
            ∧ FaultInfo.type.armv8m t m ≠ 0
            ∧ FaultInfo.additonal_state_context t m 0 &&& 0xFFFFFFFE = 0xFEFA125A))
      ∧ (Trustworthy t m → FaultRecordPrint.state_context_valid t ⟨m, []⟩ = true →
          FaultInfo.type.armv8m t m ≠ 0 →
          FaultInfo.additonal_state_context t m 0 &&& 0xFFFFFFFE = 0xFEFA125A →
          ∃ pre post, textOf (FaultRecordPrint t) m = pre ++ extendedLines t m ++ post)
      ∧ (FaultInfo.additonal_state_context t m 0 &&& 0xFFFFFFFE = 0xFEFA125A
          ↔ FaultInfo.additonal_state_context t m 0 = 0xFEFA125A
            ∨ FaultInfo.additonal_state_context t m 0 = 0xFEFA125B)
      ∧ (Trustworthy t m → FaultRecordPrint.state_context_valid t ⟨m, []⟩ = true →
          ∃ pre mid post, textOf (FaultRecordPrint t) m
            = pre ++ baseLinesR0R3 t m ++ mid ++ baseLinesR12 t m ++ post) := by
    have hasc : ∀ scv, textOf (FaultRecordPrint.additional_state_context t true scv) m
        = if scv = true ∧ FaultInfo.type.armv8m t m ≠ 0
              ∧ FaultInfo.additonal_state_context t m 0 &&& 0xFFFFFFFE = 0xFEFA125A
            then extendedLines t m else [] := by
      intro scv
      rw [textOf_additional_state_context]
      simp [h8, FR_ASC_INTEGRITY_SIG]
    refine ⟨⟨?_, ?_⟩, ?_, ?_, ?_⟩
    · rintro ⟨x, hx, l, hl, hp⟩
      rcases textOf_cases t m with ⟨-, hout | hout⟩ | htr
      · rw [hout] at hx
        simp at hx
      · rw [hout] at hx
        simp only [List.mem_cons, List.mem_singleton, List.not_mem_nil, or_false] at hx
        rcases hx with rfl | rfl
        · exact absurd hp ((heads_header t m).not_startsWith l (fun a ha =>
            clash_extended_other true true l hl a (by simp [headsOther, ha])))
        · exact absurd hp (invalidCrcText_not_startsWith extendedRegisterLabels (by decide) l hl)
      · rcases heads_valid t m htr _ (heads_pc_msp_psp t true m) x hx with hh | hh | hh | hh
        · exact absurd hp (hh.not_startsWith l (fun a ha =>
            clash_extended_other _ _ l hl a (List.mem_append_left _ ha)))
        · exact absurd hp ((heads_state_context_r0_r3 t true _ m x hh).not_startsWith l (fun a ha =>
            clash_extended_other true true l hl a (List.mem_append_right _ ha)))
        · rw [hasc] at hh
          split at hh
          · rename_i hc
            exact ⟨htr, hc⟩
          · simp at hh
        · exact absurd hp ((heads_state_context_r12_xpsr t true _ m x hh).not_startsWith l
            (fun a ha => clash_extended_other true true l hl a (List.mem_append_right _ ha)))
    · rintro ⟨htr, hscv, hflag, hsig⟩
      refine ⟨fmt_line "   - R4:             " (FaultInfo.additonal_state_context t m 2), ?_,
        "   - R4:", by decide, ?_⟩
      · rw [textOf_valid_blocks t m htr, hasc, if_pos ⟨hscv, hflag, hsig⟩]
        simp [extendedLines]
      · exact StartsWith.append (StartsWith.append (StartsWith.append (by
          unfold StartsWith
          decide) _) _) _
    · intro htr hscv hflag hsig
      rw [textOf_valid_blocks t m htr, hasc, if_pos ⟨hscv, hflag, hsig⟩]
      refine ⟨headerText t m :: (textOf (FaultRecordPrint.exception_handler t true) m
          ++ textOf (FaultRecordPrint.state t true) m
          ++ textOf (FaultRecordPrint.mode t true) m
          ++ textOf (FaultRecordPrint.faults t true) m
          ++ textOf (FaultRecordPrint.pc_msp_psp t true) m
          ++ textOf (FaultRecordPrint.state_context_r0_r3 t true
              (FaultRecordPrint.state_context_valid t ⟨m, []⟩)) m),
        textOf (FaultRecordPrint.state_context_r12_xpsr t true
              (FaultRecordPrint.state_context_valid t ⟨m, []⟩)) m
          ++ textOf (FaultRecordPrint.fault_registers t true) m, ?_⟩
      simp only [List.cons_append, List.append_assoc]
    · exact integrity_signature_accepted _ (read32_lt _ _)
    · intro htr hscv
      rw [textOf_valid_blocks t m htr, hscv, textOf_state_context_r0_r3,
        textOf_state_context_r12_xpsr]
      refine ⟨headerText t m :: (textOf (FaultRecordPrint.exception_handler t true) m
          ++ textOf (FaultRecordPrint.state t true) m
          ++ textOf (FaultRecordPrint.mode t true) m
          ++ textOf (FaultRecordPrint.faults t true) m
          ++ textOf (FaultRecordPrint.pc_msp_psp t true) m),
        textOf (FaultRecordPrint.additional_state_context t true true) m,
        textOf (FaultRecordPrint.fault_registers t true) m, ?_⟩
      simp only [if_true, List.cons_append, List.append_assoc]
  have hval := state_context_valid_iff t m
  refine ⟨hold.1, hold.2.1, hold.2.2.1, hold.2.2.2, hval, ?_⟩
  rw [← hval]
  exact hold.1

theorem sigMem_record :
    Trustworthy cortexM33s (stamp cortexM33s sigMem)
    ∧ (FR_FAULT_REGS_EXIST cortexM33s.build = true →
        FaultInfo.fault_registers cortexM33s (stamp cortexM33s sigMem) 0
          &&& SCB_CFSR_Stack_Err_Msk cortexM33s = 0)
    ∧ FaultInfo.type.armv8m cortexM33s (stamp cortexM33s sigMem) ≠ 0
    ∧ FaultInfo.additonal_state_context cortexM33s (stamp cortexM33s sigMem) 0 &&& 0xFFFFFFFE
        = 0xFEFA125A
    ∧ FaultInfo.additonal_state_context cortexM33s (stamp cortexM33s sigMem) 2 = 0x44 := by
  have hfit : cortexM33s.FaultInfo_addr + sizeof_FaultInfo cortexM33s.build ≤ 2^32 :=
    Fits_cortexM33s
  have hsz : sizeof_FaultInfo cortexM33s.build = 140 := by decide
  rw [hsz] at hfit
  have hw := FaultInfo.word_addr cortexM33s (stamp cortexM33s sigMem)
  have hadd : ofs_additonal_state_context cortexM33s.build = 84 := by decide
  refine ⟨stamp_trustworthy cortexM33s sigMem Fits_cortexM33s, ?_, ?_, ?_, ?_⟩
  · intro _
    rw [(hw 0).2.2.1, read32_stamp cortexM33s sigMem _ (by omega) (by omega)]
    have e : read32 sigMem (cortexM33s.FaultInfo_addr + (60 + 4 * 0)) = 0 := by
      simp [read32, read8, sigMem, cortexM33s, cortexM4]
    rw [e]
    exact Nat.zero_and _
  · unfold FaultInfo.type.armv8m read16
    rw [show cortexM33s.FaultInfo_addr + ofs_type + 2 = cortexM33s.FaultInfo_addr + 10 from rfl,
      show cortexM33s.FaultInfo_addr + 10 + 1 = cortexM33s.FaultInfo_addr + 11 from rfl,
      read8_stamp cortexM33s sigMem 10 (by omega) (by omega),
      read8_stamp cortexM33s sigMem 11 (by omega) (by omega)]
    simp [read8, sigMem, cortexM33s, cortexM4]
  · rw [(hw 0).2.2.2.1, hadd, read32_stamp cortexM33s sigMem _ (by omega) (by omega)]
    have e : read32 sigMem (cortexM33s.FaultInfo_addr + (84 + 4 * 0)) = 0xFEFA125A := by
      simp [read32, read8, sigMem, cortexM33s, cortexM4]
    rw [e]
    decide
  · rw [(hw 2).2.2.2.1, hadd, read32_stamp cortexM33s sigMem _ (by omega) (by omega)]
    simp [read32, read8, sigMem, cortexM33s, cortexM4]

theorem FaultRecordPrint_extended_registers_witness :
    FR_ARCH_ARMV8x_M cortexM33s.build = true
    ∧ Trustworthy cortexM33s (stamp cortexM33s sigMem)
    ∧ FaultInfo.additonal_state_context cortexM33s (stamp cortexM33s sigMem) 0 &&& 0xFFFFFFFE
        = 0xFEFA125A
    ∧ FaultInfo.additonal_state_context cortexM33s (stamp cortexM33s sigMem) 2 = 0x44
    ∧ (∃ x ∈ textOf (FaultRecordPrint cortexM33s) (stamp cortexM33s sigMem),
        ∃ l ∈ extendedRegisterLabels, StartsWith l x)
    ∧ (∃ pre post, textOf (FaultRecordPrint cortexM33s) (stamp cortexM33s sigMem)
        = pre ++ extendedLines cortexM33s (stamp cortexM33s sigMem) ++ post)
    ∧ ((∃ x ∈ textOf (FaultRecordPrint cortexM33s) zeroMem,
          ∃ l ∈ extendedRegisterLabels, StartsWith l x)
      ↔ (Trustworthy cortexM33s zeroMem
          ∧ FaultRecordPrint.state_context_valid cortexM33s ⟨zeroMem, []⟩ = true
          ∧ FaultInfo.type.armv8m cortexM33s zeroMem ≠ 0
          ∧ FaultInfo.additonal_state_context cortexM33s zeroMem 0 &&& 0xFFFFFFFE
              = 0xFEFA125A)) :=
  ⟨rfl, sigMem_record.1, sigMem_record.2.2.2.1, sigMem_record.2.2.2.2,
    (FaultRecordPrint_extended_registers cortexM33s (stamp cortexM33s sigMem)
      rfl).2.2.2.2.2.2 ⟨sigMem_record.1, sigMem_record.2.1, sigMem_record.2.2.1,
        sigMem_record.2.2.2.1⟩,
    (FaultRecordPrint_extended_registers cortexM33s (stamp cortexM33s sigMem) rfl).2.1
      sigMem_record.1
      ((FaultRecordPrint_extended_registers cortexM33s (stamp cortexM33s sigMem)
        rfl).2.2.2.2.1.2 sigMem_record.2.1)
      sigMem_record.2.2.1 sigMem_record.2.2.2.1,
    (FaultRecordPrint_extended_registers cortexM33s zeroMem rfl).1⟩

/-! ## The stack limit lines and the builds the source compiles for -/

theorem compilesAsShipped_iff (b : Build) :
    compilesAsShipped b = true ↔ FR_ARCH_ARMV8_M_BASE b = false := by
  rcases b with _ | _ | _ | c | c | c <;> (try cases c) <;> decide

/-- C29: on an Armv8-M build (with `EXC_RETURN_S` bit 6, the bit the capture
routine tests), for the record a run of `FaultRecord` leaves: `FaultRecordPrint`
prints the MSP and the PSP line with the stored stack pointers; the section of
the stack limits stores nothing exactly on the branch `b splims_end` (Secure
Baseline build with the alias flag set), and the two words are then zero, and
it stores otherwise MSPLIM and PSPLIM, or MSPLIM_NS and PSPLIM_NS if the alias
flag is set; every printed text that starts with the MSPLIM or PSPLIM label is
the line of a run in which that branch was not taken, and shows the stored
word, which is the limit register of that run; the alias flag is set exactly
when the record has the `secure` flag and the stored EXC_RETURN has bit S
clear. On the builds the source compiles for as it stands (`compilesAsShipped`,
the Mainline builds) the branch is never taken and both limit lines are printed
with the stored limits; the branch is taken only on an Armv8-M Baseline build,
for which the source compiles only with `FR_ASC_INTEGRITY_SIG` supplied from
outside. -/
theorem FaultRecordPrint_stack_limits (t : Target) (s : Cpu) (hfit : Fits t)
    (h8 : FR_ARCH_ARMV8x_M t.build = true) (hS : t.EXC_RETURN_S = 2^6) :
    (fmt_line "   - MSP:            "
          (if usesNonSecureAlias t s then s.sys .msp_ns else s.sys .msp)
        ∈ textOf (FaultRecordPrint t) (FaultRecord t s).mem
      ∧ fmt_line "   - PSP:            "
          (if usesNonSecureAlias t s then s.sys .psp_ns else s.sys .psp)
        ∈ textOf (FaultRecordPrint t) (FaultRecord t s).mem)
    ∧ (limitsSkipped t s = true →
        (FaultRecord.armv8_m_registers t (FaultRecord.upto_armv8_m_registers t s)).mem
          = (FaultRecord.upto_armv8_m_registers t s).mem
        ∧ FaultInfo.armv8_m_registers t (FaultRecord t s).mem 0 = 0
        ∧ FaultInfo.armv8_m_registers t (FaultRecord t s).mem 1 = 0)
    ∧ (limitsSkipped t s = false →
        FaultInfo.armv8_m_registers t (FaultRecord t s).mem 0
          = (if usesNonSecureAlias t s then s.sys .msplim_ns else s.sys .msplim)
        ∧ FaultInfo.armv8_m_registers t (FaultRecord t s).mem 1
          = (if usesNonSecureAlias t s then s.sys .psplim_ns else s.sys .psplim))
    ∧ (∀ x ∈ textOf (FaultRecordPrint t) (FaultRecord t s).mem,
        (StartsWith "   - MSPLIM:" x →
          limitsSkipped t s = false
          ∧ x = fmt_line "   - MSPLIM:         "
              (if usesNonSecureAlias t s then s.sys .msplim_ns else s.sys .msplim))
        ∧ (StartsWith "   - PSPLIM:" x →
          limitsSkipped t s = false
          ∧ x = fmt_line "   - PSPLIM:         "
              (if usesNonSecureAlias t s then s.sys .psplim_ns else s.sys .psplim)))
    ∧ (usesNonSecureAlias t s = true
        ↔ FaultInfo.type.secure t (FaultRecord t s).mem = 1
          ∧ FaultInfo.common_registers t (FaultRecord t s).mem 1 &&& t.EXC_RETURN_S = 0)
    ∧ (compilesAsShipped t.build = true →
        limitsSkipped t s = false
        ∧ fmt_line "   - MSPLIM:         "
            (if usesNonSecureAlias t s then s.sys .msplim_ns else s.sys .msplim)
          ∈ textOf (FaultRecordPrint t) (FaultRecord t s).mem
        ∧ fmt_line "   - PSPLIM:         "
            (if usesNonSecureAlias t s then s.sys .psplim_ns else s.sys .psplim)
          ∈ textOf (FaultRecordPrint t) (FaultRecord t s).mem)
    ∧ (limitsSkipped t s = true →
        compilesAsShipped t.build = false ∧ FR_ARCH_ARMV8_M_BASE t.build = true) := by
  have hold :
      (fmt_line "   - MSP:            "
            (if usesNonSecureAlias t s then s.sys .msp_ns else s.sys .msp)
          ∈ textOf (FaultRecordPrint t) (FaultRecord t s).mem
        ∧ fmt_line "   - PSP:            "
            (if usesNonSecureAlias t s then s.sys .psp_ns else s.sys .psp)
          ∈ textOf (FaultRecordPrint t) (FaultRecord t s).mem)
      ∧ (limitsSkipped t s = true →
          (FaultRecord.armv8_m_registers t (FaultRecord.upto_armv8_m_registers t s)).mem
            = (FaultRecord.upto_armv8_m_registers t s).mem
          ∧ FaultInfo.armv8_m_registers t (FaultRecord t s).mem 0 = 0
          ∧ FaultInfo.armv8_m_registers t (FaultRecord t s).mem 1 = 0)
      ∧ (limitsSkipped t s = false →
          FaultInfo.armv8_m_registers t (FaultRecord t s).mem 0
            = (if usesNonSecureAlias t s then s.sys .msplim_ns else s.sys .msplim)
          ∧ FaultInfo.armv8_m_registers t (FaultRecord t s).mem 1
            = (if usesNonSecureAlias t s then s.sys .psplim_ns else s.sys .psplim))
      ∧ (∀ x ∈ textOf (FaultRecordPrint t) (FaultRecord t s).mem,
          (StartsWith "   - MSPLIM:" x →
            limitsSkipped t s = false
            ∧ x = fmt_line "   - MSPLIM:         "
                (if usesNonSecureAlias t s then s.sys .msplim_ns else s.sys .msplim))
          ∧ (StartsWith "   - PSPLIM:" x →
            limitsSkipped t s = false
            ∧ x = fmt_line "   - PSPLIM:         "
                (if usesNonSecureAlias t s then s.sys .psplim_ns else s.sys .psplim)))
      ∧ (usesNonSecureAlias t s = true
          ↔ FaultInfo.type.secure t (FaultRecord t s).mem = 1
            ∧ FaultInfo.common_registers t (FaultRecord t s).mem 1 &&& t.EXC_RETURN_S = 0) := by
    have htr := FaultRecord_trustworthy t s hfit
    obtain ⟨-, c1, c2, c3⟩ := FaultRecord.final_common_words t s hfit
    obtain ⟨a0, a1⟩ := FaultRecord.final_armv8_m_words t s hfit h8
    obtain ⟨-, ⟨r4, -, -⟩, -⟩ := FaultRecord.upto_regs t s
    have hbit : FaultInfo.common_registers t (FaultRecord t s).mem 1 &&& t.EXC_RETURN_S = 0
        ↔ s.get .lr / 2^6 % 2 = 0 := by
      rw [c1, hS, and_two_pow_eq_zero_iff]
      omega
    have hskip : FR_ARCH_ARMV8_M_BASE t.build = true →
        FaultInfo.common_registers t (FaultRecord t s).mem 1 &&& t.EXC_RETURN_S ≠ 0 →
        limitsSkipped t s = false := by
      intro _ hne
      have h6 : ¬ s.get .lr / 2^6 % 2 = 0 := fun h => hne (hbit.2 h)
      have hal : usesNonSecureAlias t s = false := by
        unfold usesNonSecureAlias
        rw [decide_eq_false h6, Bool.and_false]
      unfold limitsSkipped
      rw [hal, Bool.and_false]
    have hmain : FR_ARCH_ARMV8_M_BASE t.build = false → limitsSkipped t s = false := by
      intro hb
      unfold limitsSkipped
      simp [hb]
    have hline : ∀ (label : String) (i : Nat) (x : String),
        x ∈ limLine t (FaultRecord t s).mem label i →
        limitsSkipped t s = false
        ∧ x = fmt_line label (FaultInfo.armv8_m_registers t (FaultRecord t s).mem i) := by
      intro label i x hx
      obtain ⟨e, hb⟩ := limLine_cases t _ label i h8 x hx
      refine ⟨?_, e⟩
      cases hbase : FR_ARCH_ARMV8_M_BASE t.build
      · exact hmain hbase
      · exact hskip hbase (hb hbase)
    refine ⟨⟨?_, ?_⟩, ?_, ?_, ?_, ?_⟩
    · rw [textOf_valid_blocks t _ htr, textOf_pc_msp_psp, c2]
      simp
    · rw [textOf_valid_blocks t _ htr, textOf_pc_msp_psp, c3]
      simp
    · intro hsk
      rw [a0, a1, hsk]
      refine ⟨?_, rfl, rfl⟩
      unfold limitsSkipped at hsk
      simp only [Bool.and_eq_true] at hsk
      refine FaultRecord.armv8_m_registers_mem_skipped t _ hsk.1.1 hsk.1.2 ?_
      rw [r4, (bit_mod_two _ _).1, hsk.2]
      rfl
    · intro hsk
      rw [a0, a1, hsk]
      exact ⟨rfl, rfl⟩
    · intro x hx
      obtain ⟨hm, hp⟩ := limit_lines_only t _ htr x hx
      constructor
      · intro hs
        obtain ⟨hsk, e⟩ := hline _ 0 x (hm hs)
        rw [a0, hsk] at e
        exact ⟨hsk, e⟩
      · intro hs
        obtain ⟨hsk, e⟩ := hline _ 1 x (hp hs)
        rw [a1, hsk] at e
        exact ⟨hsk, e⟩
    · rw [hbit, FaultRecord.final_secure_flag t s hfit]
      unfold usesNonSecureAlias
      cases FR_SECURE t.build <;> simp [bit]
  obtain ⟨o1, o2, o3, o4, o5⟩ := hold
  refine ⟨o1, o2, o3, o4, o5, ?_, ?_⟩
  · intro hc
    have hbase := (compilesAsShipped_iff t.build).1 hc
    have hsk : limitsSkipped t s = false := by
      unfold limitsSkipped
      rw [hbase, Bool.and_false, Bool.false_and]
    obtain ⟨a0, a1⟩ := o3 hsk
    have htr := FaultRecord_trustworthy t s hfit
    refine ⟨hsk, ?_, ?_⟩
    · rw [← a0, textOf_valid_blocks t _ htr, textOf_pc_msp_psp]
      simp [limLine, h8, hbase]
    · rw [← a1, textOf_valid_blocks t _ htr, textOf_pc_msp_psp]
      simp [limLine, h8, hbase]
  · intro hsk
    have hbase : FR_ARCH_ARMV8_M_BASE t.build = true := by
      unfold limitsSkipped at hsk
      simp only [Bool.and_eq_true] at hsk
      exact hsk.1.2
    refine ⟨?_, hbase⟩
    cases hc : compilesAsShipped t.build
    · rfl
    · rw [(compilesAsShipped_iff t.build).1 hc] at hbase
      cases hbase

theorem FaultRecordPrint_stack_limits_witness :
    Fits cortexM33s ∧ FR_ARCH_ARMV8x_M cortexM33s.build = true
    ∧ cortexM33s.EXC_RETURN_S = 2^6
    ∧ compilesAsShipped cortexM33s.build = true
    ∧ usesNonSecureAlias cortexM33s limitsCpu = true
    ∧ limitsSkipped cortexM33s limitsCpu = false
    ∧ fmt_line "   - MSPLIM:         " 0x20000400
        ∈ textOf (FaultRecordPrint cortexM33s) (FaultRecord cortexM33s limitsCpu).mem
    ∧ fmt_line "   - PSPLIM:         " 0x20000800
        ∈ textOf (FaultRecordPrint cortexM33s) (FaultRecord cortexM33s limitsCpu).mem
    ∧ (∀ x ∈ textOf (FaultRecordPrint cortexM33s) (FaultRecord cortexM33s limitsCpu).mem,
        StartsWith "   - MSPLIM:" x → x = fmt_line "   - MSPLIM:         " 0x20000400) :=
  ⟨Fits_cortexM33s, rfl, rfl, rfl, by decide, by decide,
    ((FaultRecordPrint_stack_limits cortexM33s limitsCpu Fits_cortexM33s rfl
      rfl).2.2.2.2.2.1 rfl).2.1,
    ((FaultRecordPrint_stack_limits cortexM33s limitsCpu Fits_cortexM33s rfl
      rfl).2.2.2.2.2.1 rfl).2.2,
    fun x hx hs => (((FaultRecordPrint_stack_limits cortexM33s limitsCpu Fits_cortexM33s rfl
      rfl).2.2.2.1 x hx).1 hs).2⟩



/-! ## The frame loads on two entry states -/

end FaultRecorder
